import Mathlib

/-!
# TinyG2 stepper core (`stepper.cpp`)

A shallow embedding of the DDA pulse engine, the loader, the exec interrupt, the prep functions,
the motor power functions and the Trinamic driver protocol of `src/TinyG2/stepper.cpp`,
followed by theorems about them.

Conventions of the embedding:

* machine integers are `Int` values; every C operation that can wrap is written with
  `toU32` / `toI32`;
* the motor arrays `st_run.mot[]`, `st_pre.mot[]`, `Steppers[]` are functions of the index;
  a slot at an index `>= MOTORS` stands for whatever memory lies past the configured array;
* calls into collaborators that are not part of `stepper.cpp` (the `Stepper` objects, the
  encoder macros, the planner, `cm_panic`) are recorded, in order, in `Machine.trace`;
* the two hardware timers are running/stopped flags;
* the messages a driver chip object hands to its SPI device are recorded, in order, in
  `Trinamic2130Base.queued`; the completion of a message is a call of the completion callback
  with the received bytes;
* `float` values are elements of a type `F` with the operations of `FloatOps F`; the instance
  `fracOps` computes in exact fractions and is used on concrete inputs.
-/

namespace TinyG2

/-! ## Machine integers -/

/-- Value of an integer after conversion to `uint32_t`. -/
def toU32 (x : Int) : Int := x % 4294967296

/-- Value of an integer after conversion to `int32_t` (two's complement wrap-around). -/
def toI32 (x : Int) : Int := (x + 2147483648) % 4294967296 - 2147483648

/-! ## Collaborators -/

/-- Status codes returned by the functions of `stepper.cpp`. -/
inductive Stat where
  | STAT_OK
  | STAT_NOOP
  | STAT_INTERNAL_ERROR
  | STAT_PREP_LINE_MOVE_TIME_IS_INFINITE
  | STAT_PREP_LINE_MOVE_TIME_IS_NAN
  | STAT_MINIMUM_TIME_MOVE
  | STAT_INPUT_VALUE_RANGE_ERROR
  | STAT_INPUT_VALUE_UNSUPPORTED
  deriving DecidableEq, Repr

/-- Calls made by `stepper.cpp` on its collaborators, as recorded in the trace. -/
inductive Event where
  | stepStart (motor : Nat)
  | stepEnd (motor : Nat)
  | setDirection (motor : Nat) (direction : Nat)
  | enable (motor : Nat)
  | disable (motor : Nat)
  | motionStopped (motor : Nat)
  | INCREMENT_ENCODER (motor : Nat)
  | SET_ENCODER_STEP_SIGN (motor : Nat) (sign : Int)
  | ACCUMULATE_ENCODER (motor : Nat)
  | mp_runtime_command (bf : Nat)
  | mp_set_steps_to_runtime_position
  | exec_setInterruptPending
  | load_setInterruptPending
  | cm_panic (status : Stat)
  deriving DecidableEq, Repr

/-- Modelled from the spec: single-precision `float` arithmetic, the `math.h` functions and the
`util.h` helpers (`fp_ZERO`, `fp_NOT_ZERO`, `min3`, `max3`) that `stepper.cpp` applies to floats.
None of them is defined in `stepper.cpp`; the code is embedded over any such set of
operations. `ofInt` is the conversion of an integer to `float`, `ofDec m e` the decimal literal
`m * 10^(-e)`, `castI32` and `castU32` the conversions to `int32_t` and `uint32_t`. -/
structure FloatOps (F : Type) where
  ofInt : Int → F
  ofDec : Int → Nat → F
  add : F → F → F
  sub : F → F → F
  mul : F → F → F
  div : F → F → F
  neg : F → F
  fabs : F → F
  round : F → F
  lt : F → F → Bool
  le : F → F → Bool
  isinf : F → Bool
  isnan : F → Bool
  fp_ZERO : F → Bool
  fp_NOT_ZERO : F → Bool
  min3 : F → F → F → F
  max3 : F → F → F → F
  castI32 : F → Int
  castU32 : F → Int

/-- Modelled from the spec: the compile-time constants of `stepper.h`, `hardware.h` and
`util.h` used by `stepper.cpp`. The two frequencies are integer constants, `DDA_SUBSTEPS`,
`EPSILON` and the three correction constants are `float` expressions. `period_DDA` and
`period_DWELL` are the values of `_f_to_period(FREQUENCY_DDA)` and
`_f_to_period(FREQUENCY_DWELL)`. -/
structure Const (F : Type) where
  MOTORS : Nat
  STEP_INITIAL_DIRECTION : Nat
  DIRECTION_CW : Nat
  DIRECTION_CCW : Nat
  FREQUENCY_DDA : Int
  FREQUENCY_DWELL : Int
  DDA_SUBSTEPS : F
  EPSILON : F
  STEP_CORRECTION_THRESHOLD : F
  STEP_CORRECTION_FACTOR : F
  STEP_CORRECTION_MAX : F
  STEP_CORRECTION_HOLDOFF : Int
  period_DDA : Int
  period_DWELL : Int

/-! ## Data model -/

/-- Modelled from the spec: `block_type`, an 8-bit code of which the loader distinguishes
`BLOCK_TYPE_ALINE`, `BLOCK_TYPE_DWELL` and `BLOCK_TYPE_COMMAND`; `other` stands for every
remaining value of the byte. -/
inductive BlockType where
  | BLOCK_TYPE_NULL
  | BLOCK_TYPE_ALINE
  | BLOCK_TYPE_DWELL
  | BLOCK_TYPE_COMMAND
  | other (code : Nat)
  deriving DecidableEq, Repr

/-- Modelled from the spec: `buffer_state`, the single-owner handoff flag of the prep buffer. -/
inductive BufferState where
  | PREP_BUFFER_OWNED_BY_LOADER
  | PREP_BUFFER_OWNED_BY_EXEC
  deriving DecidableEq, Repr

/-- Modelled from the spec: `stRunMotor_t` (declared in `stepper.h`): `substep_increment` is
unsigned 32-bit, `substep_accumulator` signed 32-bit. -/
structure stRunMotor where
  substep_increment : Int
  substep_accumulator : Int
  deriving DecidableEq, Repr

/-- Modelled from the spec: `stRunSingleton_t` (declared in `stepper.h`); both counters are
unsigned 32-bit. -/
structure stRunSingleton where
  dda_ticks_downcount : Int
  dda_ticks_X_substeps : Int
  mot : Nat → stRunMotor

/-- Modelled from the spec: `stPrepMotor_t` (declared in `stepper.h`). -/
structure stPrepMotor (F : Type) where
  substep_increment : Int
  direction : Nat
  prev_direction : Nat
  step_sign : Int
  correction_holdoff : Int
  corrected_steps : F
  prev_segment_time : F
  accumulator_correction : F
  accumulator_correction_flag : Bool

/-- Modelled from the spec: `stPrepSingleton_t` (declared in `stepper.h`). -/
structure stPrepSingleton (F : Type) where
  block_type : BlockType
  buffer_state : BufferState
  bf : Nat
  dda_period : Int
  dda_ticks : Int
  dda_ticks_X_substeps : Int
  mot : Nat → stPrepMotor F

/-- The globals of `stepper.cpp` together with the modelled hardware: `polarity m` is
`st_cfg.mot[m].polarity`, `step_pin` and `dir_pin` are the levels last driven by
`stepStart`/`stepEnd` and `setDirection`. -/
structure Machine (F : Type) where
  st_run : stRunSingleton
  st_pre : stPrepSingleton F
  polarity : Nat → Nat
  dda_timer_running : Bool
  dwell_timer_running : Bool
  step_pin : Nat → Bool
  dir_pin : Nat → Nat
  trace : List Event

/-- Replace the value of a motor-indexed table at one index. -/
def setAt {α : Type} (f : Nat → α) (i : Nat) (v : α) : Nat → α :=
  fun j => if j = i then v else f j

variable {F : Type}

/-- Record one collaborator call. -/
def Machine.emit (s : Machine F) (e : Event) : Machine F :=
  { s with trace := s.trace ++ [e] }

/-- Store into `st_run.mot[m]`. -/
def Machine.setRunMot (s : Machine F) (m : Nat) (v : stRunMotor) : Machine F :=
  { s with st_run := { s.st_run with mot := setAt s.st_run.mot m v } }

/-- Store into `st_pre.mot[m]`. -/
def Machine.setPreMot (s : Machine F) (m : Nat) (v : stPrepMotor F) : Machine F :=
  { s with st_pre := { s.st_pre with mot := setAt s.st_pre.mot m v } }

/-! ## `stepper_reset`, `st_runtime_isbusy` -/

/-- Loop body of `stepper_reset` for one motor. -/
def resetMotor (O : FloatOps F) (K : Const F) (s : Machine F) (motor : Nat) : Machine F :=
  let s1 := s.setPreMot motor
    { s.st_pre.mot motor with prev_direction := K.STEP_INITIAL_DIRECTION }
  let s2 := s1.setPreMot motor
    { s1.st_pre.mot motor with direction := K.STEP_INITIAL_DIRECTION }
  let s3 := s2.setRunMot motor { s2.st_run.mot motor with substep_accumulator := 0 }
  s3.setPreMot motor { s3.st_pre.mot motor with corrected_steps := O.ofInt 0 }

/-- The function `stepper_reset()`: stop both timers, clear the downcount, hand the prep buffer to
exec, reset the per-motor direction and accumulator state. -/
def stepper_reset (O : FloatOps F) (K : Const F) (s : Machine F) : Machine F :=
  let s1 := { s with dda_timer_running := false }
  let s2 := { s1 with dwell_timer_running := false }
  let s3 := { s2 with st_run := { s2.st_run with dda_ticks_downcount := 0 } }
  let s4 := { s3 with st_pre :=
    { s3.st_pre with buffer_state := BufferState.PREP_BUFFER_OWNED_BY_EXEC } }
  let s5 := (List.range K.MOTORS).foldl (resetMotor O K) s4
  s5.emit Event.mp_set_steps_to_runtime_position

/-- The function `st_runtime_isbusy()`: the downcount converted to `bool`. -/
def st_runtime_isbusy (s : Machine F) : Bool :=
  decide (s.st_run.dda_ticks_downcount ≠ 0)

/-! ## Exec and load requests -/

/-- The function `st_request_exec_move()`. -/
def st_request_exec_move (s : Machine F) : Machine F :=
  if s.st_pre.buffer_state = BufferState.PREP_BUFFER_OWNED_BY_EXEC then
    s.emit Event.exec_setInterruptPending
  else s

/-- The function `st_request_load_move()`. -/
def st_request_load_move (s : Machine F) : Machine F :=
  if st_runtime_isbusy s then s
  else if s.st_pre.buffer_state = BufferState.PREP_BUFFER_OWNED_BY_LOADER then
    s.emit Event.load_setInterruptPending
  else s

/-! ## The loader `_load_move` -/

/-- Body of the per-motor loop of the ALINE branch of `_load_move`. -/
def loadMotor (O : FloatOps F) (s : Machine F) (motor : Nat) : Machine F :=
  let s1 := s.setRunMot motor
    { s.st_run.mot motor with substep_increment := (s.st_pre.mot motor).substep_increment }
  let s5 :=
    if (s1.st_run.mot motor).substep_increment ≠ 0 then
      let s2 :=
        if (s1.st_pre.mot motor).accumulator_correction_flag = true then
          let s1a := s1.setPreMot motor
            { s1.st_pre.mot motor with accumulator_correction_flag := false }
          s1a.setRunMot motor
            { s1a.st_run.mot motor with substep_accumulator :=
                (O.castI32 (O.mul (O.ofInt (s1a.st_run.mot motor).substep_accumulator)
                  (s1a.st_pre.mot motor).accumulator_correction)) }
        else s1
      let s3 :=
        if (s2.st_pre.mot motor).direction ≠ (s2.st_pre.mot motor).prev_direction then
          let s2a := s2.setPreMot motor
            { s2.st_pre.mot motor with prev_direction := (s2.st_pre.mot motor).direction }
          let s2b := s2a.setRunMot motor
            { s2a.st_run.mot motor with substep_accumulator :=
                (toI32 (-(s2a.st_run.dda_ticks_X_substeps
                  + (s2a.st_run.mot motor).substep_accumulator))) }
          Machine.emit
            { s2b with dir_pin := setAt s2b.dir_pin motor (s2b.st_pre.mot motor).direction }
            (Event.setDirection motor (s2b.st_pre.mot motor).direction)
        else s2
      (s3.emit (Event.enable motor)).emit
        (Event.SET_ENCODER_STEP_SIGN motor (s3.st_pre.mot motor).step_sign)
    else s1.emit (Event.motionStopped motor)
  s5.emit (Event.ACCUMULATE_ENCODER motor)

/-- The ALINE branch of `_load_move`, up to and including `dda_timer.start()`. -/
def loadAline (O : FloatOps F) (K : Const F) (s : Machine F) : Machine F :=
  let s1 := { s with st_run := { s.st_run with dda_ticks_downcount := s.st_pre.dda_ticks } }
  let s2 := { s1 with st_run :=
    { s1.st_run with dda_ticks_X_substeps := s1.st_pre.dda_ticks_X_substeps } }
  let s3 := (List.range K.MOTORS).foldl (loadMotor O) s2
  { s3 with dda_timer_running := true }

/-- The function `_load_move()`. -/
def _load_move (O : FloatOps F) (K : Const F) (s : Machine F) : Machine F :=
  if st_runtime_isbusy s then s
  else if s.st_pre.buffer_state ≠ BufferState.PREP_BUFFER_OWNED_BY_LOADER then
    (List.range K.MOTORS).foldl (fun t motor => t.emit (Event.motionStopped motor)) s
  else
    let s1 :=
      if s.st_pre.block_type = BlockType.BLOCK_TYPE_ALINE then loadAline O K s
      else if s.st_pre.block_type = BlockType.BLOCK_TYPE_DWELL then
        { s with st_run := { s.st_run with dda_ticks_downcount := s.st_pre.dda_ticks },
                 dwell_timer_running := true }
      else if s.st_pre.block_type = BlockType.BLOCK_TYPE_COMMAND then
        s.emit (Event.mp_runtime_command s.st_pre.bf)
      else s
    let s2 := { s1 with st_pre := { s1.st_pre with block_type := BlockType.BLOCK_TYPE_NULL } }
    let s3 := { s2 with st_pre :=
      { s2.st_pre with buffer_state := BufferState.PREP_BUFFER_OWNED_BY_EXEC } }
    st_request_exec_move s3

/-- The load software interrupt `load_timer_type::interrupt()`. -/
def load_timer_interrupt (O : FloatOps F) (K : Const F) (s : Machine F) : Machine F :=
  _load_move O K s

/-! ## The DDA and dwell interrupts -/

/-- One `if ((acc += inc) > 0) { stepStart(); acc -= dda_ticks_X_substeps; INCREMENT_ENCODER }`
clause of the DDA interrupt, for motor slot `motor`. The compound assignments are evaluated in
`uint32_t` and stored back into the `int32_t` accumulator. -/
def ddaMotor (s : Machine F) (motor : Nat) : Machine F :=
  let s1 := s.setRunMot motor
    { s.st_run.mot motor with substep_accumulator :=
        (toI32 ((s.st_run.mot motor).substep_accumulator
          + (s.st_run.mot motor).substep_increment)) }
  if (s1.st_run.mot motor).substep_accumulator > 0 then
    let s2 := Machine.emit { s1 with step_pin := setAt s1.step_pin motor true }
      (Event.stepStart motor)
    let s3 := s2.setRunMot motor
      { s2.st_run.mot motor with substep_accumulator :=
          (toI32 ((s2.st_run.mot motor).substep_accumulator - s2.st_run.dda_ticks_X_substeps)) }
    s3.emit (Event.INCREMENT_ENCODER motor)
  else s1

/-- The motor slots processed by the unrolled clauses of the DDA interrupt: `MOTOR_1` to
`MOTOR_4` unconditionally, `MOTOR_5` under `#if MOTORS > 4`, `MOTOR_6` under `#if MOTORS > 5`. -/
def ddaMotors (K : Const F) : List Nat :=
  [0, 1, 2, 3] ++ (if K.MOTORS > 4 then [4] else []) ++ (if K.MOTORS > 5 then [5] else [])

/-- The loop `for (motor=0; motor<MOTORS; motor++) Steppers[motor]->stepEnd();`. -/
def stepEndAll (K : Const F) (s : Machine F) : Machine F :=
  (List.range K.MOTORS).foldl
    (fun t motor =>
      Machine.emit { t with step_pin := setAt t.step_pin motor false } (Event.stepEnd motor)) s

/-- The DDA interrupt from the per-motor clauses down to the decrement of the downcount, that
is everything between the early return and the test that calls the loader. -/
def ddaTick (K : Const F) (s : Machine F) : Machine F :=
  let s1 := (ddaMotors K).foldl ddaMotor s
  { s1 with st_run :=
    { s1.st_run with dda_ticks_downcount := toU32 (s1.st_run.dda_ticks_downcount - 1) } }

/-- The interrupt handler `dda_timer_type::interrupt()`. -/
def dda_timer_interrupt (O : FloatOps F) (K : Const F) (s : Machine F) : Machine F :=
  let s1 := stepEndAll K s
  if s1.st_run.dda_ticks_downcount = 0 then
    { s1 with dda_timer_running := false }
  else
    let s2 := ddaTick K s1
    if s2.st_run.dda_ticks_downcount = 0 then _load_move O K s2 else s2

/-- The interrupt handler `dwell_timer_type::interrupt()`. -/
def dwell_timer_interrupt (O : FloatOps F) (K : Const F) (s : Machine F) : Machine F :=
  let s1 := { s with st_run :=
    { s.st_run with dda_ticks_downcount := toU32 (s.st_run.dda_ticks_downcount - 1) } }
  if s1.st_run.dda_ticks_downcount = 0 then
    _load_move O K { s1 with dwell_timer_running := false }
  else s1

/-! ## Prep functions -/

/-- Body of the per-motor loop of `st_prep_line`; the state is the machine together with the
caller's `travel_steps[]` array, which the nudge correction writes. -/
def prepLineMotor (O : FloatOps F) (K : Const F) (following_error : Nat → F) (segment_time : F)
    (st : Machine F × (Nat → F)) (motor : Nat) : Machine F × (Nat → F) :=
  let s := st.1
  let travel_steps := st.2
  if O.fp_ZERO (travel_steps motor) then
    (s.setPreMot motor { s.st_pre.mot motor with substep_increment := 0 }, travel_steps)
  else
    let p0 : stPrepMotor F := s.st_pre.mot motor
    let p1 : stPrepMotor F :=
      if O.le (O.ofInt 0) (travel_steps motor) then
        { p0 with direction := K.DIRECTION_CW ^^^ s.polarity motor, step_sign := 1 }
      else
        { p0 with direction := K.DIRECTION_CCW ^^^ s.polarity motor, step_sign := -1 }
    let p2 : stPrepMotor F :=
      if O.lt (O.ofDec 1 7) (O.fabs (O.sub segment_time p1.prev_segment_time)) then
        let p1a : stPrepMotor F :=
          if O.fp_NOT_ZERO p1.prev_segment_time then
            { p1 with accumulator_correction_flag := true,
                      accumulator_correction := O.div segment_time p1.prev_segment_time }
          else p1
        { p1a with prev_segment_time := segment_time }
      else p1
    let p3 : stPrepMotor F := { p2 with correction_holdoff := toI32 (p2.correction_holdoff - 1) }
    let r : stPrepMotor F × (Nat → F) :=
      if p3.correction_holdoff < 0
          ∧ O.lt K.STEP_CORRECTION_THRESHOLD (O.fabs (following_error motor)) = true then
        let c0 := O.mul (following_error motor) K.STEP_CORRECTION_FACTOR
        let correction_steps :=
          if O.lt (O.ofInt 0) c0 then
            O.min3 c0 (O.fabs (travel_steps motor)) K.STEP_CORRECTION_MAX
          else
            O.max3 c0 (O.neg (O.fabs (travel_steps motor))) (O.neg K.STEP_CORRECTION_MAX)
        ({ p3 with correction_holdoff := K.STEP_CORRECTION_HOLDOFF,
                   corrected_steps := O.add p3.corrected_steps correction_steps },
         setAt travel_steps motor (O.sub (travel_steps motor) correction_steps))
      else (p3, travel_steps)
    let p5 : stPrepMotor F := { r.1 with substep_increment :=
      (O.castU32 (O.round (O.fabs (O.mul (r.2 motor) K.DDA_SUBSTEPS)))) }
    (s.setPreMot motor p5, r.2)

/-- The function `st_prep_line(travel_steps, following_error, segment_time)`; returns the
status, the new machine state and the (possibly corrected) `travel_steps[]` array. -/
def st_prep_line (O : FloatOps F) (K : Const F) (s : Machine F)
    (travel_steps following_error : Nat → F) (segment_time : F) :
    Stat × Machine F × (Nat → F) :=
  if s.st_pre.buffer_state ≠ BufferState.PREP_BUFFER_OWNED_BY_EXEC then
    (Stat.STAT_INTERNAL_ERROR, s.emit (Event.cm_panic Stat.STAT_INTERNAL_ERROR), travel_steps)
  else if O.isinf segment_time then
    (Stat.STAT_PREP_LINE_MOVE_TIME_IS_INFINITE,
      s.emit (Event.cm_panic Stat.STAT_PREP_LINE_MOVE_TIME_IS_INFINITE), travel_steps)
  else if O.isnan segment_time then
    (Stat.STAT_PREP_LINE_MOVE_TIME_IS_NAN,
      s.emit (Event.cm_panic Stat.STAT_PREP_LINE_MOVE_TIME_IS_NAN), travel_steps)
  else if O.lt segment_time K.EPSILON then
    (Stat.STAT_MINIMUM_TIME_MOVE, s, travel_steps)
  else
    let s1 := { s with st_pre := { s.st_pre with dda_period := K.period_DDA } }
    let s2 := { s1 with st_pre := { s1.st_pre with dda_ticks :=
      (toU32 (O.castI32
        (O.mul (O.mul segment_time (O.ofInt 60)) (O.ofInt K.FREQUENCY_DDA)))) } }
    let s3 := { s2 with st_pre := { s2.st_pre with dda_ticks_X_substeps :=
      (O.castU32 (O.mul (O.ofInt s2.st_pre.dda_ticks) K.DDA_SUBSTEPS)) } }
    let r := (List.range K.MOTORS).foldl (prepLineMotor O K following_error segment_time)
      (s3, travel_steps)
    let s4 := { r.1 with st_pre :=
      { r.1.st_pre with block_type := BlockType.BLOCK_TYPE_ALINE } }
    let s5 := { s4 with st_pre :=
      { s4.st_pre with buffer_state := BufferState.PREP_BUFFER_OWNED_BY_LOADER } }
    (Stat.STAT_OK, s5, r.2)

/-- The function `st_prep_null()`. -/
def st_prep_null (s : Machine F) : Machine F :=
  let s1 := { s with st_pre := { s.st_pre with block_type := BlockType.BLOCK_TYPE_NULL } }
  { s1 with st_pre := { s1.st_pre with buffer_state := BufferState.PREP_BUFFER_OWNED_BY_EXEC } }

/-- The function `st_prep_command(bf)`. -/
def st_prep_command (s : Machine F) (bf : Nat) : Machine F :=
  let s1 := { s with st_pre := { s.st_pre with block_type := BlockType.BLOCK_TYPE_COMMAND } }
  let s2 := { s1 with st_pre := { s1.st_pre with bf := bf } }
  { s2 with st_pre :=
    { s2.st_pre with buffer_state := BufferState.PREP_BUFFER_OWNED_BY_LOADER } }

/-- The function `st_prep_dwell(microseconds)`. -/
def st_prep_dwell (O : FloatOps F) (K : Const F) (s : Machine F) (microseconds : F) :
    Machine F :=
  let s1 := { s with st_pre := { s.st_pre with block_type := BlockType.BLOCK_TYPE_DWELL } }
  let s2 := { s1 with st_pre := { s1.st_pre with dda_period := K.period_DWELL } }
  let s3 := { s2 with st_pre := { s2.st_pre with dda_ticks :=
    (O.castU32 (O.mul (O.div microseconds (O.ofInt 1000000)) (O.ofInt K.FREQUENCY_DWELL))) } }
  { s3 with st_pre :=
    { s3.st_pre with buffer_state := BufferState.PREP_BUFFER_OWNED_BY_LOADER } }

/-- The part of `exec_timer_type::interrupt()` that follows a call of `mp_exec_move()` which
did not return `STAT_NOOP`: the prep buffer is handed to the loader and a load is requested.
(The planner's `mp_exec_move` is not in `stepper.cpp`; it stages the segment through the
`st_prep_*` functions above.) -/
def execFlip (s : Machine F) : Machine F :=
  if s.st_pre.buffer_state = BufferState.PREP_BUFFER_OWNED_BY_EXEC then
    st_request_load_move { s with st_pre :=
      { s.st_pre with buffer_state := BufferState.PREP_BUFFER_OWNED_BY_LOADER } }
  else s

/-! ## One motor of the DDA, as a function of its slot -/

/-- The accumulator and increment of one slot after one DDA clause with range `X`. -/
def ddaStep (X : Int) (r : stRunMotor) : stRunMotor :=
  if toI32 (r.substep_accumulator + r.substep_increment) > 0 then
    { r with substep_accumulator :=
        (toI32 (toI32 (r.substep_accumulator + r.substep_increment) - X)) }
  else
    { r with substep_accumulator := (toI32 (r.substep_accumulator + r.substep_increment)) }

/-- Whether a DDA clause raises the step line of its slot. -/
def ddaFires (r : stRunMotor) : Bool :=
  decide (toI32 (r.substep_accumulator + r.substep_increment) > 0)

/-- Number of step pulses produced by `n` consecutive DDA clauses on one slot. -/
def ddaCount (X : Int) : Nat → stRunMotor → Nat
  | 0, _ => 0
  | n + 1, r => (if ddaFires r then 1 else 0) + ddaCount X n (ddaStep X r)

/-- Number of `stepStart` calls on motor `m` recorded in a trace. -/
def stepsRaised (m : Nat) (tr : List Event) : Nat :=
  tr.count (Event.stepStart m)

/-! ## One motor of the loader, as a function of its slots -/

/-- The run accumulator of a slot after the time-base correction step of the loader: multiplied
by `accumulator_correction` when the flag is set, untouched otherwise. -/
def correctedAcc (O : FloatOps F) (p : stPrepMotor F) (r : stRunMotor) : Int :=
  if p.accumulator_correction_flag = true then
    O.castI32 (O.mul (O.ofInt r.substep_accumulator) p.accumulator_correction)
  else r.substep_accumulator

/-- The run slot of a motor after `loadMotor`, from its prep slot, its run slot and the newly
loaded `dda_ticks_X_substeps`. -/
def loadRun (O : FloatOps F) (X : Int) (p : stPrepMotor F) (r : stRunMotor) : stRunMotor :=
  if p.substep_increment ≠ 0 then
    { substep_increment := p.substep_increment,
      substep_accumulator :=
        (if p.direction ≠ p.prev_direction then toI32 (-(X + correctedAcc O p r))
         else correctedAcc O p r) }
  else { r with substep_increment := p.substep_increment }

/-- The prep slot of a motor after `loadMotor`. -/
def loadPre (p : stPrepMotor F) : stPrepMotor F :=
  if p.substep_increment ≠ 0 then
    { p with accumulator_correction_flag := false, prev_direction := p.direction }
  else p

/-- The direction output of a motor after `loadMotor`. -/
def loadDir (p : stPrepMotor F) (d : Nat) : Nat :=
  if p.substep_increment ≠ 0 ∧ p.direction ≠ p.prev_direction then p.direction else d

/-- The collaborator calls made by `loadMotor` for motor `m`. -/
def loadEvents (m : Nat) (p : stPrepMotor F) : List Event :=
  (if p.substep_increment ≠ 0 then
    (if p.direction ≠ p.prev_direction then [Event.setDirection m p.direction] else [])
      ++ [Event.enable m, Event.SET_ENCODER_STEP_SIGN m p.step_sign]
   else [Event.motionStopped m]) ++ [Event.ACCUMULATE_ENCODER m]

/-- The motor an event is addressed to, if any. -/
def Event.motor? : Event → Option Nat
  | .stepStart m => some m
  | .stepEnd m => some m
  | .setDirection m _ => some m
  | .enable m => some m
  | .disable m => some m
  | .motionStopped m => some m
  | .INCREMENT_ENCODER m => some m
  | .SET_ENCODER_STEP_SIGN m _ => some m
  | .ACCUMULATE_ENCODER m => some m
  | _ => none

/-- The collaborator calls made by the per-motor loop of the loader over the motors `l`, given
the prep slots at loop entry. -/
def loadEventsAll (pre : Nat → stPrepMotor F) : List Nat → List Event
  | [] => []
  | m :: l => loadEvents m (pre m) ++ loadEventsAll pre l

/-- Whether an event is a `stepStart` call. -/
def Event.isStepStart : Event → Bool
  | .stepStart _ => true
  | _ => false

/-! ## `stepper_init` and concrete instances -/

/-- A zeroed `stPrepMotor_t`. -/
def zeroPrepMotor (O : FloatOps F) : stPrepMotor F :=
  { substep_increment := 0, direction := 0, prev_direction := 0, step_sign := 0,
    correction_holdoff := 0, corrected_steps := O.ofInt 0, prev_segment_time := O.ofInt 0,
    accumulator_correction := O.ofInt 0, accumulator_correction_flag := false }

/-- The function `stepper_init()` as far as the run and prep structures are concerned: both are
zeroed by `memset`, the prep buffer is handed to exec, and `stepper_reset()` runs last. The
timer set-up, the motor power levels and the board and SPI driver initialisation are outside
this model. -/
def stepper_init (O : FloatOps F) (K : Const F) (s : Machine F) : Machine F :=
  let s1 := { s with st_run :=
    { dda_ticks_downcount := 0, dda_ticks_X_substeps := 0,
      mot := fun _ => { substep_increment := 0, substep_accumulator := 0 } } }
  let s2 := { s1 with st_pre :=
    { block_type := BlockType.BLOCK_TYPE_NULL,
      buffer_state := BufferState.PREP_BUFFER_OWNED_BY_LOADER,
      bf := 0, dda_period := 0, dda_ticks := 0, dda_ticks_X_substeps := 0,
      mot := fun _ => zeroPrepMotor O } }
  let s3 := { s2 with st_pre :=
    { s2.st_pre with buffer_state := BufferState.PREP_BUFFER_OWNED_BY_EXEC } }
  stepper_reset O K s3

/-- The machine at power-on: memory cleared, timers stopped, step lines low, direction outputs
at `STEP_INITIAL_DIRECTION`, normal polarity on every motor, nothing recorded yet. -/
def powerOn (O : FloatOps F) (K : Const F) : Machine F :=
  { st_run := { dda_ticks_downcount := 0, dda_ticks_X_substeps := 0,
                mot := fun _ => { substep_increment := 0, substep_accumulator := 0 } },
    st_pre := { block_type := BlockType.BLOCK_TYPE_NULL,
                buffer_state := BufferState.PREP_BUFFER_OWNED_BY_LOADER,
                bf := 0, dda_period := 0, dda_ticks := 0, dda_ticks_X_substeps := 0,
                mot := fun _ => zeroPrepMotor O },
    polarity := fun _ => 0,
    dda_timer_running := false,
    dwell_timer_running := false,
    step_pin := fun _ => false,
    dir_pin := fun _ => K.STEP_INITIAL_DIRECTION,
    trace := [] }

/-- An exact fraction `num / den`. A zero denominator encodes the non-finite values: an
infinity with the sign of `num` when `num` is not zero, a NaN when it is. -/
structure Frac where
  num : Int
  den : Nat
  deriving DecidableEq, Repr

/-- Whether a fraction encodes a NaN. -/
def Frac.isnan (a : Frac) : Bool := decide (a.den = 0 ∧ a.num = 0)

/-- Whether a fraction encodes an infinity. -/
def Frac.isinf (a : Frac) : Bool := decide (a.den = 0 ∧ a.num ≠ 0)

/-- Strict order of fractions; every comparison with a NaN is false. -/
def Frac.lt (a b : Frac) : Bool :=
  if a.isnan || b.isnan then false
  else if a.isinf && decide (0 < a.num) then false
  else if b.isinf && decide (b.num < 0) then false
  else if a.isinf || b.isinf then true
  else decide (a.num * b.den < b.num * a.den)

/-- Order of fractions; every comparison with a NaN is false. -/
def Frac.le (a b : Frac) : Bool :=
  if a.isnan || b.isnan then false else !(Frac.lt b a)

/-- Truncation of a fraction toward zero, as in a C conversion to an integer type. -/
def Frac.trunc (a : Frac) : Int :=
  if a.den = 0 then 0
  else if 0 ≤ a.num then a.num / a.den else -((-a.num) / a.den)

/-- Exact arithmetic on fractions as an instance of the float operations: no operation rounds,
`fp_ZERO` is the comparison with zero of the spec, `round` rounds halves away from zero and the
integer casts truncate toward zero before wrapping. It serves to run the embedding on concrete
inputs. It is not the `float` arithmetic of the target, which rounds every result to 24
significant bits: the two agree on a run in which every intermediate value is representable in
`float` and every value tested by `fp_ZERO` or `fp_NOT_ZERO` is either 0 or larger than
`EPSILON` in magnitude. What holds of the code for every input is stated for arbitrary float
operations `O`. -/
def fracOps : FloatOps Frac where
  ofInt := fun n => { num := n, den := 1 }
  ofDec := fun m e => { num := m, den := 10 ^ e }
  add := fun a b => { num := a.num * b.den + b.num * a.den, den := a.den * b.den }
  sub := fun a b => { num := a.num * b.den - b.num * a.den, den := a.den * b.den }
  mul := fun a b => { num := a.num * b.num, den := a.den * b.den }
  div := fun a b =>
    if 0 ≤ b.num then { num := a.num * b.den, den := a.den * b.num.toNat }
    else { num := -(a.num * b.den), den := a.den * (-b.num).toNat }
  neg := fun a => { num := -a.num, den := a.den }
  fabs := fun a => { num := a.num.natAbs, den := a.den }
  round := fun a =>
    if 0 ≤ a.num then { num := Frac.trunc { num := 2 * a.num + a.den, den := 2 * a.den }, den := 1 }
    else { num := Frac.trunc { num := 2 * a.num - a.den, den := 2 * a.den }, den := 1 }
  lt := Frac.lt
  le := Frac.le
  isinf := Frac.isinf
  isnan := Frac.isnan
  fp_ZERO := fun a => decide (a.num = 0 ∧ a.den ≠ 0)
  fp_NOT_ZERO := fun a => decide (a.num ≠ 0)
  min3 := fun a b c =>
    let m := if Frac.lt b a then b else a
    if Frac.lt c m then c else m
  max3 := fun a b c =>
    let m := if Frac.lt a b then b else a
    if Frac.lt m c then c else m
  castI32 := fun a => toI32 a.trunc
  castU32 := fun a => toU32 a.trunc

/-- A configuration with the constants of the spec's scenarios: a 200 kHz DDA clock, a 1 kHz
dwell clock, 100000 substeps, correction factor 0.25 and correction maximum 10. -/
def exampleConst (motors : Nat) : Const Frac :=
  { MOTORS := motors,
    STEP_INITIAL_DIRECTION := 0,
    DIRECTION_CW := 0,
    DIRECTION_CCW := 1,
    FREQUENCY_DDA := 200000,
    FREQUENCY_DWELL := 1000,
    DDA_SUBSTEPS := { num := 100000, den := 1 },
    EPSILON := { num := 1, den := 100000 },
    STEP_CORRECTION_THRESHOLD := { num := 2, den := 1 },
    STEP_CORRECTION_FACTOR := { num := 1, den := 4 },
    STEP_CORRECTION_MAX := { num := 10, den := 1 },
    STEP_CORRECTION_HOLDOFF := 5,
    period_DDA := 420,
    period_DWELL := 18464 }

/-- A run state in the middle of a segment: `down` ticks left, accumulator range `X`, every
motor slot with increment `inc` and accumulator `acc`; the DDA timer runs and the prep buffer
(empty) is owned by exec. -/
def ddaState (motors : Nat) (down X inc acc : Int) : Machine Frac :=
  { powerOn fracOps (exampleConst motors) with
    st_run := { dda_ticks_downcount := down, dda_ticks_X_substeps := X,
                mot := fun _ => { substep_increment := inc, substep_accumulator := acc } },
    st_pre := { (powerOn fracOps (exampleConst motors)).st_pre with
                buffer_state := BufferState.PREP_BUFFER_OWNED_BY_EXEC },
    dda_timer_running := true }

/-- A run state on the last tick of a segment (range 10, motor slots idle at accumulator 0)
while the loader owns a staged ALINE block of range 100 in which every motor moves 5 substeps
per tick in direction 1, the previous direction being 0. -/
def boundaryState (motors : Nat) : Machine Frac :=
  { ddaState motors 1 10 0 0 with
    st_pre := { block_type := BlockType.BLOCK_TYPE_ALINE,
                buffer_state := BufferState.PREP_BUFFER_OWNED_BY_LOADER,
                bf := 0, dda_period := 420, dda_ticks := 1, dda_ticks_X_substeps := 100,
                mot := fun _ => { zeroPrepMotor fracOps with
                  substep_increment := 5, direction := 1, prev_direction := 0,
                  step_sign := -1 } } }

/-- An idle runtime whose loader-owned prep buffer holds a block of type `bt` with 4 ticks of
range 20; every motor is staged with `inc` substeps per tick in direction `dir`, the previous
direction being 0 and no time-base correction pending. The run accumulators are at `-7`. -/
def stagedState (motors : Nat) (bt : BlockType) (inc : Int) (dir : Nat) : Machine Frac :=
  { ddaState motors 0 12 3 (-7) with
    st_pre := { block_type := bt,
                buffer_state := BufferState.PREP_BUFFER_OWNED_BY_LOADER,
                bf := 0, dda_period := 420, dda_ticks := 4, dda_ticks_X_substeps := 20,
                mot := fun _ => { zeroPrepMotor fracOps with
                  substep_increment := inc, direction := dir, prev_direction := 0,
                  step_sign := 1 } },
    dda_timer_running := false }

/-! ## Reachable states -/

/-- States reachable from the result of `stepper_reset` (called in any state) through the prep
functions, the exec flip, the loader and the two timer interrupts, a timer interrupt firing
only while its timer runs. -/
inductive Reachable (O : FloatOps F) (K : Const F) : Machine F → Prop
  | reset (s : Machine F) : Reachable O K (stepper_reset O K s)
  | prep_line (s : Machine F) (travel_steps following_error : Nat → F) (segment_time : F) :
      Reachable O K s →
      Reachable O K (st_prep_line O K s travel_steps following_error segment_time).2.1
  | prep_dwell (s : Machine F) (microseconds : F) :
      Reachable O K s → Reachable O K (st_prep_dwell O K s microseconds)
  | prep_null (s : Machine F) : Reachable O K s → Reachable O K (st_prep_null s)
  | prep_command (s : Machine F) (bf : Nat) :
      Reachable O K s → Reachable O K (st_prep_command s bf)
  | exec_flip (s : Machine F) : Reachable O K s → Reachable O K (execFlip s)
  | load (s : Machine F) : Reachable O K s → Reachable O K (_load_move O K s)
  | dda (s : Machine F) : Reachable O K s → s.dda_timer_running = true →
      Reachable O K (dda_timer_interrupt O K s)
  | dwell (s : Machine F) : Reachable O K s → s.dwell_timer_running = true →
      Reachable O K (dwell_timer_interrupt O K s)

/-- States reachable from `stepper_init` (run with the direction outputs at
`STEP_INITIAL_DIRECTION`) through `st_prep_line`, the loader and DDA interrupts, without any
further `stepper_reset`. -/
inductive ReachableWithoutReset (O : FloatOps F) (K : Const F) : Machine F → Prop
  | init (s : Machine F) : (∀ m, s.dir_pin m = K.STEP_INITIAL_DIRECTION) →
      ReachableWithoutReset O K (stepper_init O K s)
  | prep_line (s : Machine F) (travel_steps following_error : Nat → F) (segment_time : F) :
      ReachableWithoutReset O K s →
      ReachableWithoutReset O K
        (st_prep_line O K s travel_steps following_error segment_time).2.1
  | load (s : Machine F) : ReachableWithoutReset O K s →
      ReachableWithoutReset O K (_load_move O K s)
  | dda (s : Machine F) : ReachableWithoutReset O K s →
      ReachableWithoutReset O K (dda_timer_interrupt O K s)

/-- Travel vector moving motor 0 by `x` steps and no other motor. -/
def travelMotor0 (x : Frac) : Nat → Frac :=
  fun m => if m = 0 then x else { num := 0, den := 1 }

/-- Following-error vector without any error. -/
def noError : Nat → Frac := fun _ => { num := 0, den := 1 }

/-- The example machine after `stepper_init`, with `motors` motors. -/
def initState (motors : Nat) : Machine Frac :=
  stepper_init fracOps (exampleConst motors) (powerOn fracOps (exampleConst motors))

/-- After `stepper_init`: a segment of `1/100000` minute (120 DDA ticks) moving motor 0 by `x`
steps has been prepared from state `s` and loaded. -/
def segmentLoaded (motors : Nat) (s : Machine Frac) (x : Frac) : Machine Frac :=
  _load_move fracOps (exampleConst motors)
    (st_prep_line fracOps (exampleConst motors) s (travelMotor0 x) noError
      { num := 1, den := 100000 }).2.1

/-- The state right after the last of the 120 DDA ticks of a first segment moving motor 0 one
step in the positive direction. -/
def segmentDone (motors : Nat) : Machine Frac :=
  (dda_timer_interrupt fracOps (exampleConst motors))^[120]
    (segmentLoaded motors (initState motors) { num := 1, den := 1 })

/-- After `stepper_init`, a segment moving motor 0 one step in the negative direction is
prepared and loaded, then `stepper_reset` is called. -/
def reversedThenReset (motors : Nat) : Machine Frac :=
  stepper_reset fracOps (exampleConst motors)
    (segmentLoaded motors (initState motors) { num := -1, den := 1 })

/-- A busy runtime has one of its timers running. -/
def TimerInv (s : Machine F) : Prop :=
  s.st_run.dda_ticks_downcount ≠ 0 →
    s.dda_timer_running = true ∨ s.dwell_timer_running = true

/-- Every motor's direction output carries its `prev_direction`. -/
def DirInv (K : Const F) (s : Machine F) : Prop :=
  ∀ m, m < K.MOTORS → s.dir_pin m = (s.st_pre.mot m).prev_direction

/-! ## One motor of `st_prep_line`, as a function of its slot -/

/-- The prep slot and the `travel_steps[]` entry of one motor after the loop body of
`st_prep_line`, from the motor's following error, its polarity, its prep slot and its travel
entry. -/
def prepSlot (O : FloatOps F) (K : Const F) (following_error : F) (segment_time : F)
    (polarity : Nat) (p0 : stPrepMotor F) (x : F) : stPrepMotor F × F :=
  if O.fp_ZERO x then ({ p0 with substep_increment := 0 }, x)
  else
    let p1 : stPrepMotor F :=
      if O.le (O.ofInt 0) x then
        { p0 with direction := K.DIRECTION_CW ^^^ polarity, step_sign := 1 }
      else
        { p0 with direction := K.DIRECTION_CCW ^^^ polarity, step_sign := -1 }
    let p2 : stPrepMotor F :=
      if O.lt (O.ofDec 1 7) (O.fabs (O.sub segment_time p1.prev_segment_time)) then
        let p1a : stPrepMotor F :=
          if O.fp_NOT_ZERO p1.prev_segment_time then
            { p1 with accumulator_correction_flag := true,
                      accumulator_correction := O.div segment_time p1.prev_segment_time }
          else p1
        { p1a with prev_segment_time := segment_time }
      else p1
    let p3 : stPrepMotor F := { p2 with correction_holdoff := toI32 (p2.correction_holdoff - 1) }
    let r : stPrepMotor F × F :=
      if p3.correction_holdoff < 0
          ∧ O.lt K.STEP_CORRECTION_THRESHOLD (O.fabs following_error) = true then
        let c0 := O.mul following_error K.STEP_CORRECTION_FACTOR
        let correction_steps :=
          if O.lt (O.ofInt 0) c0 then O.min3 c0 (O.fabs x) K.STEP_CORRECTION_MAX
          else O.max3 c0 (O.neg (O.fabs x)) (O.neg K.STEP_CORRECTION_MAX)
        ({ p3 with correction_holdoff := K.STEP_CORRECTION_HOLDOFF,
                   corrected_steps := O.add p3.corrected_steps correction_steps },
         O.sub x correction_steps)
      else (p3, x)
    ({ r.1 with substep_increment :=
        (O.castU32 (O.round (O.fabs (O.mul r.2 K.DDA_SUBSTEPS)))) }, r.2)

/-- After `stepper_init`, a first segment of `1/1000` minute moving motor 0 by one step has
been prepared and loaded; the prep buffer is back with exec and motor 0 remembers
`prev_segment_time = 1/1000`. -/
def firstSegmentLoaded (motors : Nat) : Machine Frac :=
  _load_move fracOps (exampleConst motors)
    (st_prep_line fracOps (exampleConst motors) (initState motors)
      (travelMotor0 { num := 1, den := 1 }) noError { num := 1, den := 1000 }).2.1

/-- The spec's reading of `dda_ticks`: the fraction `num / den` rounded to the nearest integer
(halves upward). -/
def roundNearest (num : Int) (den : Nat) : Int := (2 * num + den) / (2 * den)

/-- The rational number a finite fraction stands for. -/
def Frac.val (a : Frac) : ℚ := (a.num : ℚ) / (a.den : ℚ)

/-- The nudge correction `correction_steps` that `st_prep_line` computes from a following
error `e` and a travel `x`. -/
def nudgeCorrection (O : FloatOps F) (K : Const F) (e x : F) : F :=
  if O.lt (O.ofInt 0) (O.mul e K.STEP_CORRECTION_FACTOR) then
    O.min3 (O.mul e K.STEP_CORRECTION_FACTOR) (O.fabs x) K.STEP_CORRECTION_MAX
  else
    O.max3 (O.mul e K.STEP_CORRECTION_FACTOR) (O.neg (O.fabs x)) (O.neg K.STEP_CORRECTION_MAX)

/-! ## Motor power level (`st_set_pl`) -/

/-- Value of an integer after conversion to `uint8_t`. -/
def toU8 (x : Int) : Int := x % 256

/-- Modelled from the spec: the configuration object `nvObj_t` as far as the motor setters read
it: the index of the parameter in `cfgArray` and the value to set. -/
structure nvObj (F : Type) where
  index : Nat
  value : F

/-- Calls made by the power setters on their collaborators: `set_flt(nv)`, which stores the
value into the configuration variable of the parameter, `Steppers[motor]->setPowerLevel` and
`Steppers[motor]->setPowerMode` (recorded with the value before its conversion to
`stPowerMode`). -/
inductive PowerCall (F : Type) where
  | set_flt (index : Nat) (value : F)
  | setPowerLevel (motor : Nat) (level : F)
  | setPowerMode (motor : Nat) (mode : F)
  deriving DecidableEq

/-- The state `st_set_pl` works on: `st_cfg.mot[m].power_level_scaled`,
`st_run.mot[m].power_level_dynamic` and the calls recorded so far. -/
structure PowerState (F : Type) where
  power_level_scaled : Nat → F
  power_level_dynamic : Nat → F
  calls : List (PowerCall F)

/-- The function `_get_motor(index)`: the position in `"123456"` of the first character of the
group string of `cfgArray[index]`, or `-1` when `strchr` does not find it. `group` is the
(absent) `cfgArray[].group` column; an empty group string makes `strchr` look for the
terminating NUL, which it finds at position 6. -/
def _get_motor (group : Nat → List Char) (index : Nat) : Int :=
  let c := (group index).headD (Char.ofNat 0)
  if c = Char.ofNat 0 then 6
  else if c ∈ "123456".toList then (("123456".toList.indexOf c : Nat) : Int)
  else -1

/-- The function `st_set_pl(nv)`; `scale` is the constant `POWER_LEVEL_SCALE_FACTOR`. -/
def st_set_pl (O : FloatOps F) (scale : F) (group : Nat → List Char) (p : PowerState F)
    (nv : nvObj F) : Stat × PowerState F :=
  if O.lt nv.value (O.ofInt 0) = true ∨ O.lt (O.ofInt 1) nv.value = true then
    (Stat.STAT_INPUT_VALUE_RANGE_ERROR, p)
  else
    let p1 := { p with calls := p.calls ++ [PowerCall.set_flt nv.index nv.value] }
    let motor := (toU8 (_get_motor group nv.index)).toNat
    let p2 := { p1 with
      power_level_scaled := setAt p1.power_level_scaled motor (O.mul nv.value scale) }
    let p3 := { p2 with
      power_level_dynamic := setAt p2.power_level_dynamic motor (p2.power_level_scaled motor) }
    let p4 := { p3 with
      calls := p3.calls ++ [PowerCall.setPowerLevel motor (p3.power_level_scaled motor)] }
    (Stat.STAT_OK, p4)

/-- The `cfgArray[].group` column of a table whose entry `i` belongs to group `"1"` for
`i = 0`, `"2"` for `i = 1`, and to the system group `"sys"` otherwise. -/
def exampleGroup (index : Nat) : List Char :=
  if index = 0 then "1".toList else if index = 1 then "2".toList else "sys".toList

/-- A power state with every level at zero and no call recorded. -/
def zeroPower : PowerState Frac :=
  { power_level_scaled := fun _ => { num := 0, den := 1 },
    power_level_dynamic := fun _ => { num := 0, den := 1 },
    calls := [] }

/-! ## Segment times in exact arithmetic -/

/-- The fraction `T / 12000000`: in exact arithmetic, the segment time, in minutes, of `T` ticks
of the 200 kHz DDA clock of `exampleConst`. No `float` has this value for `T <= 21474`, and the
`float` nearest to it can stage `T - 1` ticks; it is an input for `fracOps` only. -/
def ticksTime (T : Nat) : Frac := { num := T, den := 12000000 }

/-! ## Motor power mode (`st_set_pm`) -/

/-- The function `st_set_pm(nv)`. `MOTORS` and `MOTOR_POWER_MODE_MAX_VALUE` are the constants
of those names (the second is the last enumerator of `stPowerMode`, declared in `stepper.h`);
the comparison of the float value with the enumerator is made in `float`. -/
def st_set_pm (O : FloatOps F) (MOTORS : Nat) (MOTOR_POWER_MODE_MAX_VALUE : Int)
    (group : Nat → List Char) (p : PowerState F) (nv : nvObj F) : Stat × PowerState F :=
  if O.le (O.ofInt MOTOR_POWER_MODE_MAX_VALUE) nv.value = true then
    (Stat.STAT_INPUT_VALUE_UNSUPPORTED, p)
  else
    let motor := (toU8 (_get_motor group nv.index)).toNat
    if motor > MOTORS then (Stat.STAT_INPUT_VALUE_UNSUPPORTED, p)
    else
      (Stat.STAT_OK, { p with calls := p.calls ++ [PowerCall.setPowerMode motor nv.value] })

/-- The `cfgArray[].group` column of a table whose entries 0 to 5 belong to the motor groups
`"1"` to `"6"` and whose other entries have the empty group string. -/
def sixMotorGroups (index : Nat) : List Char :=
  if index < 6 then [Char.ofNat (49 + index)] else []

/-! ## Motor power management -/

/-- The function `_deenergize_motor(motor)`. -/
def _deenergize_motor (K : Const F) (s : Machine F) (motor : Nat) : Machine F :=
  if motor < K.MOTORS then s.emit (Event.disable motor) else s

/-- The function `_energize_motor(motor, timeout_seconds)`. `isDisabled m` is the answer of
`Steppers[m]->isDisabled()` at the call; the `Stepper` objects are not part of `stepper.cpp`. -/
def _energize_motor (K : Const F) (isDisabled : Nat → Bool) (s : Machine F) (motor : Nat)
    (_timeout_seconds : F) : Machine F :=
  if motor ≥ K.MOTORS then s
  else if isDisabled motor = true then s.emit (Event.disable motor)
  else s.emit (Event.enable motor)

/-- The function `st_energize_motors(timeout_seconds)`. -/
def st_energize_motors (K : Const F) (isDisabled : Nat → Bool) (s : Machine F)
    (timeout_seconds : F) : Machine F :=
  (List.range K.MOTORS).foldl
    (fun t motor => _energize_motor K isDisabled t motor timeout_seconds) s

/-- The function `st_deenergize_motors()`. -/
def st_deenergize_motors (K : Const F) (s : Machine F) : Machine F :=
  (List.range K.MOTORS).foldl (fun t motor => _deenergize_motor K t motor) s

/-! ## A dwell that follows a line -/

/-- After `stepper_init`, a line segment moving motor 0 by 60 steps over 120 DDA ticks is
prepared and loaded; while it runs, a dwell of 5000 microseconds (5 ticks of the 1 kHz dwell
clock) is staged by `st_prep_dwell`; then the 120 DDA interrupts of the segment are served. The
last of them brings the downcount to 0 and calls the loader, which loads the dwell. -/
def dwellAfterLine : Machine Frac :=
  (dda_timer_interrupt fracOps (exampleConst 4))^[120]
    (st_prep_dwell fracOps (exampleConst 4)
      (_load_move fracOps (exampleConst 4)
        (st_prep_line fracOps (exampleConst 4) (initState 4)
          (travelMotor0 { num := 60, den := 1 }) noError (ticksTime 120)).2.1)
      { num := 5000, den := 1 })

/-! ## The Trinamic 2130 driver: a register queue over SPI -/

/-- Byte swap of a 32-bit word. -/
def bswap32 (x : Int) : Int :=
  (x % 256) * 16777216 + (x / 256 % 256) * 65536 + (x / 65536 % 256) * 256
    + x / 16777216 % 256

/-- Modelled from the spec: `toBigEndian` of `MotateUtilities.h` for a 32-bit word on the
little-endian host, a byte swap. -/
def toBigEndian (x : Int) : Int := bswap32 x

/-- Modelled from the spec: `fromBigEndian` of `MotateUtilities.h` for a 32-bit word on the
little-endian host, a byte swap. -/
def fromBigEndian (x : Int) : Int := bswap32 x

/-- The four bytes of a 32-bit word at increasing addresses on the little-endian host. For the
`value` member of a message buffer this is the order of the bytes on the wire, after the
address byte. -/
def memoryBytes (x : Int) : List Int :=
  [x % 256, x / 256 % 256, x / 65536 % 256, x / 16777216 % 256]

/-- The bytes of a 32-bit value, most significant first. -/
def bytesMsbFirst (v : Int) : List Int :=
  [v / 16777216 % 256, v / 65536 % 256, v / 256 % 256, v % 256]

/-- Whether bit 7 is set: `(x & 0x80) != 0`, for `0 <= x < 2^15`. -/
def bit7 (x : Int) : Bool := decide (x / 128 % 2 = 1)

/-- Clear bit 7: `x & ~0x80`, for `0 <= x < 2^15`. -/
def clearBit7 (x : Int) : Int := x - 128 * (x / 128 % 2)

/-- Set bit 7: `x | 0x80`, for `0 <= x < 2^15`. -/
def setBit7 (x : Int) : Int := if bit7 x then x else x + 128

/-- The registers of the chip that `Trinamic2130Base` caches, named as its members. -/
inductive Register where
  | GCONF | GSTAT | IOIN | IHOLD_IRUN | TPOWERDOWN | TSTEP | TPWMTHRS | TCOOLTHRS | THIGH
  | XDIRECT | VDCMIN | MSCNT | CHOPCONF | COOLCONF | DRV_STATUS | PWMCONF
  deriving DecidableEq, Repr

/-- The register numbers `GCONF_reg`, ..., `PWMCONF_reg` of the anonymous enumeration. -/
def Register.reg : Register → Int
  | .GCONF => 0x00
  | .GSTAT => 0x01
  | .IOIN => 0x04
  | .IHOLD_IRUN => 0x10
  | .TPOWERDOWN => 0x11
  | .TSTEP => 0x12
  | .TPWMTHRS => 0x13
  | .TCOOLTHRS => 0x14
  | .THIGH => 0x15
  | .XDIRECT => 0x2D
  | .VDCMIN => 0x33
  | .MSCNT => 0x6A
  | .CHOPCONF => 0x6C
  | .COOLCONF => 0x6D
  | .DRV_STATUS => 0x6F
  | .PWMCONF => 0x70

/-- The packed 5-byte message buffer `trinamic_buffer_t`: the byte shared by `addr` and
`status`, and the 32-bit `value` as it lies in memory. -/
structure trinamic_buffer_t where
  addr : Int
  value : Int
  deriving DecidableEq, Repr

/-- The members of `Trinamic2130Base`. `value r` is the member `r.value` of register `r`
(an unsigned 32-bit word, of which the bit-fields are views); `_registers_to_access` holds the
tokens of the ring buffer, oldest first; `check_timer` lists the delays passed to
`check_timer.set`; `queued` lists the messages handed to `_device->queueMessage`, each as the
contents of `out_buffer` at that call; `immediate_ends_transaction` is that member of `msg_0`
as far as `_doneReadingCallback` writes it. -/
structure Trinamic2130Base where
  out_buffer : trinamic_buffer_t
  in_buffer : trinamic_buffer_t
  transmitting : Bool
  _register_thats_reading : Int
  _reading_only : Bool
  _registers_to_access : List Int
  status : Int
  value : Register → Int
  immediate_ends_transaction : Bool
  check_timer : List Int
  queued : List trinamic_buffer_t

/-- Modelled from the spec: `Motate::Buffer<32>::write` (`MotateBuffer.h`), a bounded ring of
capacity 32. What a write to a full ring does is not in `stepper.cpp`; here the token is
dropped. -/
def ringWrite (q : List Int) (x : Int) : List Int :=
  if q.length < 32 then q ++ [x] else q

/-- Assignment to the member `r.value`. -/
def Trinamic2130Base.assign (c : Trinamic2130Base) (r : Register) (v : Int) :
    Trinamic2130Base :=
  { c with value := fun r2 => if r2 = r then v else c.value r2 }

/-- The word `v` after an assignment of `x` to its bit-field of `width` bits starting at bit
`lo`. -/
def setField (v : Int) (lo width : Nat) (x : Int) : Int :=
  v - (v / 2 ^ lo % 2 ^ width) * 2 ^ lo + (x % 2 ^ width) * 2 ^ lo

/-- Assignment to a bit-field of register `r`. -/
def Trinamic2130Base.assignField (c : Trinamic2130Base) (r : Register) (lo width : Nat)
    (x : Int) : Trinamic2130Base :=
  c.assign r (setField (c.value r) lo width x)

/-- The functions `_prepWriteGConf`, `_prepWriteIHoldIRun`, ..., `_prepWritePWMConf`:
`out_buffer.value = toBigEndian(r.value)`. -/
def _prepWrite (c : Trinamic2130Base) (r : Register) : Trinamic2130Base :=
  { c with out_buffer := { c.out_buffer with value := toBigEndian (c.value r) } }

/-- The functions `_postReadGConf`, `_postReadGStat`, ..., `_postReadDriverStatus`:
`r.value = fromBigEndian(in_buffer.value)`. -/
def _postRead (c : Trinamic2130Base) (r : Register) : Trinamic2130Base :=
  c.assign r (fromBigEndian c.in_buffer.value)

/-- The case labels of the `switch (next_reg & ~0x80)` of `_startNextRead`: the registers
that can be written, by register number. -/
def writeCase (code : Int) : Option Register :=
  if code = 0x00 then some Register.GCONF
  else if code = 0x10 then some Register.IHOLD_IRUN
  else if code = 0x11 then some Register.TPOWERDOWN
  else if code = 0x13 then some Register.TPWMTHRS
  else if code = 0x14 then some Register.TCOOLTHRS
  else if code = 0x15 then some Register.THIGH
  else if code = 0x2D then some Register.XDIRECT
  else if code = 0x33 then some Register.VDCMIN
  else if code = 0x6C then some Register.CHOPCONF
  else if code = 0x70 then some Register.PWMCONF
  else none

/-- The `switch (next_reg & ~0x80)` of `_startNextRead`: the `_prepWrite...` function of the
case, nothing in the default case. -/
def prepWriteSwitch (c : Trinamic2130Base) (code : Int) : Trinamic2130Base :=
  match writeCase code with
  | some r => _prepWrite c r
  | none => c

/-- The case labels of the `switch (_register_thats_reading)` of `_doneReadingCallback`: the
registers that can be read, by register number. -/
def readCase (code : Int) : Option Register :=
  if code = 0x00 then some Register.GCONF
  else if code = 0x01 then some Register.GSTAT
  else if code = 0x04 then some Register.IOIN
  else if code = 0x12 then some Register.TSTEP
  else if code = 0x2D then some Register.XDIRECT
  else if code = 0x6A then some Register.MSCNT
  else if code = 0x6C then some Register.CHOPCONF
  else if code = 0x6D then some Register.COOLCONF
  else if code = 0x6F then some Register.DRV_STATUS
  else none

/-- The `switch (_register_thats_reading)` of `_doneReadingCallback`: the `_postRead...`
function of the case, nothing in the default case. -/
def postReadSwitch (c : Trinamic2130Base) (code : Int) : Trinamic2130Base :=
  match readCase code with
  | some r => _postRead c r
  | none => c

/-- The last two statements of `_startNextRead`: `out_buffer.addr = (uint8_t) next_reg` and
the hand-over of the 5-byte message (`out_buffer` out, `in_buffer` in) to the SPI device. -/
def sendFrame (c : Trinamic2130Base) (next_reg : Int) : Trinamic2130Base :=
  let c1 := { c with out_buffer := { c.out_buffer with addr := toU8 next_reg } }
  { c1 with queued := c1.queued ++ [c1.out_buffer] }

/-- The function `_startNextRead()`. -/
def _startNextRead (c : Trinamic2130Base) : Trinamic2130Base :=
  if c.transmitting = true
      ∨ (c._registers_to_access = [] ∧ c._register_thats_reading = -1) then c
  else
    let c1 := { c with transmitting := true }
    match c1._registers_to_access with
    | next_reg :: rest =>
      let c2 := { c1 with _registers_to_access := rest }
      let c3 := if bit7 next_reg = true then prepWriteSwitch c2 (clearBit7 next_reg) else c2
      sendFrame c3 next_reg
    | [] =>
      let c2 := { c1 with _reading_only := true }
      sendFrame c2 c1._register_thats_reading

/-- The function `_doneReadingCallback()`. -/
def _doneReadingCallback (c : Trinamic2130Base) : Trinamic2130Base :=
  let c1 := { c with status := c.in_buffer.addr }
  let c2 :=
    if c1._register_thats_reading ≠ -1 then
      { postReadSwitch c1 c1._register_thats_reading with _register_thats_reading := -1 }
    else c1
  let c3 :=
    if c2._reading_only = false ∧ bit7 c2.out_buffer.addr = false then
      { c2 with _register_thats_reading := c2.out_buffer.addr }
    else { c2 with immediate_ends_transaction := true }
  let c4 := { c3 with _reading_only := false }
  let c5 := { c4 with transmitting := false }
  _startNextRead c5

/-- Completion of the frame in flight: the SPI device has stored the five received bytes
`resp` in `in_buffer` and calls `msg_0.message_done_callback`, which `init` binds to
`_doneReadingCallback`. -/
def frameDone (c : Trinamic2130Base) (resp : trinamic_buffer_t) : Trinamic2130Base :=
  _doneReadingCallback { c with in_buffer := resp }

/-- The function `readRegister(reg)`; `reg` is a `uint8_t`. -/
def readRegister (c : Trinamic2130Base) (reg : Int) : Trinamic2130Base :=
  _startNextRead { c with _registers_to_access := ringWrite c._registers_to_access (toU8 reg) }

/-- The function `writeRegister(reg)`; `reg` is a `uint8_t`. -/
def writeRegister (c : Trinamic2130Base) (reg : Int) : Trinamic2130Base :=
  _startNextRead
    { c with _registers_to_access := ringWrite c._registers_to_access (setBit7 (toU8 reg)) }

/-- The function `init()`. -/
def init (c : Trinamic2130Base) : Trinamic2130Base :=
  let c := c.assignField Register.IHOLD_IRUN 0 5 7
  let c := c.assignField Register.IHOLD_IRUN 8 5 30
  let c := c.assignField Register.IHOLD_IRUN 16 4 7
  let c := writeRegister c 0x10
  let c := c.assign Register.TPOWERDOWN 256
  let c := writeRegister c 0x11
  let c := c.assign Register.XDIRECT 0
  let c := writeRegister c 0x2D
  let c := c.assign Register.VDCMIN 0
  let c := writeRegister c 0x33
  let c := c.assignField Register.GCONF 2 1 1
  let c := writeRegister c 0x00
  let c := c.assign Register.CHOPCONF 0x030100C5
  let c := c.assignField Register.CHOPCONF 0 4 0x5
  let c := c.assignField Register.CHOPCONF 4 3 0x4
  let c := c.assignField Register.CHOPCONF 7 4 0x1
  let c := c.assignField Register.CHOPCONF 11 1 0x0
  let c := c.assignField Register.CHOPCONF 12 1 0x0
  let c := c.assignField Register.CHOPCONF 13 1 0x0
  let c := c.assignField Register.CHOPCONF 14 1 0x0
  let c := c.assignField Register.CHOPCONF 15 2 0x2
  let c := c.assignField Register.CHOPCONF 17 1 0x1
  let c := c.assignField Register.CHOPCONF 18 1 0x0
  let c := c.assignField Register.CHOPCONF 19 1 0x0
  let c := c.assignField Register.CHOPCONF 20 4 0x0
  let c := c.assignField Register.CHOPCONF 24 4 0x3
  let c := c.assignField Register.CHOPCONF 28 1 0x0
  let c := c.assignField Register.CHOPCONF 29 1 0x0
  let c := c.assignField Register.CHOPCONF 30 1 0x0
  let c := writeRegister c 0x6C
  let c := c.assignField Register.PWMCONF 0 8 200
  let c := c.assignField Register.PWMCONF 8 8 1
  let c := c.assignField Register.PWMCONF 16 2 0
  let c := c.assignField Register.PWMCONF 18 1 1
  let c := c.assignField Register.PWMCONF 19 1 0
  let c := c.assignField Register.PWMCONF 20 2 0
  let c := writeRegister c 0x70
  let c := readRegister c 0x04
  let c := readRegister c 0x6A
  { c with check_timer := c.check_timer ++ [100] }

/-- The function `check()`; `isPast` is the answer of `check_timer.isPast()`. -/
def check (c : Trinamic2130Base) (isPast : Bool) : Trinamic2130Base :=
  if isPast = true then
    let c := { c with check_timer := c.check_timer ++ [100] }
    let c := readRegister c 0x04
    let c := readRegister c 0x6A
    readRegister c 0x6F
  else c

/-- A freshly constructed chip object: the members have their initialisers
(`transmitting = false`, `_register_thats_reading = -1`, `_reading_only = false`,
`status = 0`), everything else is zero and nothing has been sent. -/
def freshChip : Trinamic2130Base :=
  { out_buffer := { addr := 0, value := 0 },
    in_buffer := { addr := 0, value := 0 },
    transmitting := false,
    _register_thats_reading := -1,
    _reading_only := false,
    _registers_to_access := [],
    status := 0,
    value := fun _ => 0,
    immediate_ends_transaction := false,
    check_timer := [],
    queued := [] }

/-- Chip states reachable from the freshly constructed object through `init`, assignments to
the cached registers, `readRegister`, `writeRegister`, `check` and the completion callback of a
frame in flight. -/
inductive ChipReachable : Trinamic2130Base → Prop
  | fresh : ChipReachable freshChip
  | init (c : Trinamic2130Base) : ChipReachable c → ChipReachable (init c)
  | assign (c : Trinamic2130Base) (r : Register) (v : Int) :
      ChipReachable c → ChipReachable (c.assign r v)
  | read (c : Trinamic2130Base) (reg : Int) :
      ChipReachable c → ChipReachable (readRegister c reg)
  | write (c : Trinamic2130Base) (reg : Int) :
      ChipReachable c → ChipReachable (writeRegister c reg)
  | check (c : Trinamic2130Base) (isPast : Bool) :
      ChipReachable c → ChipReachable (check c isPast)
  | done (c : Trinamic2130Base) (resp : trinamic_buffer_t) :
      ChipReachable c → c.transmitting = true → ChipReachable (frameDone c resp)

/-- The chip is idle: nothing queued, nothing in flight, no read latched. -/
def Idle (c : Trinamic2130Base) : Prop :=
  c._registers_to_access = [] ∧ c.transmitting = false ∧ c._register_thats_reading = -1

/-- The chip `c` after the completion of `n` frames, the `k`-th with response `resp k`. -/
def completions (c : Trinamic2130Base) (resp : Nat → trinamic_buffer_t) :
    Nat → Trinamic2130Base
  | 0 => c
  | n + 1 => frameDone (completions c resp n) (resp n)

/-- The chip after `init()` on a fresh object and the completion of `n` frames, the `k`-th
with response `resp k`. -/
def afterInit (resp : Nat → trinamic_buffer_t) (n : Nat) : Trinamic2130Base :=
  completions (init freshChip) resp n

/-- The invariant of the driver: a chip that is not transmitting has an empty queue, no read
latched and `_reading_only` cleared. -/
def ChipInv (c : Trinamic2130Base) : Prop :=
  c.transmitting = false →
    c._registers_to_access = [] ∧ c._register_thats_reading = -1 ∧ c._reading_only = false

/-- The registers that `_doneReadingCallback` can decode. -/
def Register.readable : Register → Bool
  | .GCONF | .GSTAT | .IOIN | .TSTEP | .XDIRECT | .MSCNT | .CHOPCONF | .COOLCONF
  | .DRV_STATUS => true
  | _ => false

/-- The registers that `_startNextRead` can marshal for a write. -/
def Register.writable : Register → Bool
  | .GCONF | .IHOLD_IRUN | .TPOWERDOWN | .TPWMTHRS | .TCOOLTHRS | .THIGH | .XDIRECT | .VDCMIN
  | .CHOPCONF | .PWMCONF => true
  | _ => false

/-- The chip after `writeRegister(CHOPCONF)`, `readRegister(CHOPCONF)` and the completion of
three frames with the responses `respA`, `respB` and `respC`. -/
def chopconfRoundTrip (c : Trinamic2130Base) (respA respB respC : trinamic_buffer_t) :
    Trinamic2130Base :=
  frameDone (frameDone (frameDone (readRegister (writeRegister c 0x6C) 0x6C) respA) respB)
    respC

/-- A write request that waits in the queue: on a fresh chip `writeRegister(GCONF)` puts a
frame in flight; CHOPCONF is set to 1 and `writeRegister(CHOPCONF)` is called, which queues the
token. This is the chip right after that call. -/
def writeQueued : Trinamic2130Base :=
  writeRegister ((writeRegister freshChip 0x00).assign Register.CHOPCONF 1) 0x6C

/-- From `writeQueued`: CHOPCONF is set to 2 while the token waits, then the frame in flight
completes and the pump sends the CHOPCONF frame. -/
def writeQueuedThenAssigned : Trinamic2130Base :=
  frameDone (writeQueued.assign Register.CHOPCONF 2) { addr := 0, value := 0 }

/-! ## The exec interrupt -/

/-- The interrupt handler `exec_timer_type::interrupt()`. The planner's `mp_exec_move()` is not
part of `stepper.cpp`: `mp_exec_move s` is the status it returns and the state it leaves when it
is called in state `s` (it stages a segment through the `st_prep_*` functions). -/
def exec_timer_interrupt (mp_exec_move : Machine F → Stat × Machine F) (s : Machine F) :
    Machine F :=
  if s.st_pre.buffer_state = BufferState.PREP_BUFFER_OWNED_BY_EXEC then
    let r := mp_exec_move s
    if r.1 ≠ Stat.STAT_NOOP then
      st_request_load_move { r.2 with st_pre :=
        { r.2.st_pre with buffer_state := BufferState.PREP_BUFFER_OWNED_BY_LOADER } }
    else r.2
  else s

/-- A planner stub whose `mp_exec_move` stages nothing and returns `status`. -/
def plannerReturning (status : Stat) (s : Machine Frac) : Stat × Machine Frac := (status, s)

/-! ## A dwell shorter than one dwell tick -/

/-- After `stepper_init`, a dwell of 500 microseconds (half a tick of the 1 kHz dwell clock) is
staged by `st_prep_dwell` and loaded by `_load_move`. -/
def shortDwell : Machine Frac :=
  _load_move fracOps (exampleConst 4)
    (st_prep_dwell fracOps (exampleConst 4) (initState 4) { num := 500, den := 1 })

/-! ## Histories between two nudge corrections -/

/-- The test under which `st_prep_line` applies a nudge correction to motor `m` in state `s`:
the travel does not pass the zero test, the holdoff is below zero after its decrement and the
following error is above the threshold. -/
def appliesCorrection (O : FloatOps F) (K : Const F) (s : Machine F)
    (travel_steps following_error : Nat → F) (m : Nat) : Prop :=
  O.fp_ZERO (travel_steps m) = false
  ∧ toI32 ((s.st_pre.mot m).correction_holdoff - 1) < 0
  ∧ O.lt K.STEP_CORRECTION_THRESHOLD (O.fabs (following_error m)) = true

instance appliesCorrection.decidable (O : FloatOps F) (K : Const F) (s : Machine F)
    (travel_steps following_error : Nat → F) (m : Nat) :
    Decidable (appliesCorrection O K s travel_steps following_error m) := by
  unfold appliesCorrection
  infer_instance

/-- `SinceCorrection O K m s n`: the machine is in state `s` after a history in which the last
call of `st_prep_line` that applied a nudge correction to motor `m` has been followed by
exactly `n` successful calls of `st_prep_line` with non-zero travel for `m` and no correction
of `m`, and otherwise only by successful calls with zero travel for `m`, the other prep
functions, the exec flip, loader calls, timer interrupts and `stepper_reset`. -/
inductive SinceCorrection (O : FloatOps F) (K : Const F) (m : Nat) : Machine F → Nat → Prop
  | corrected (s : Machine F) (travel_steps following_error : Nat → F) (segment_time : F) :
      (st_prep_line O K s travel_steps following_error segment_time).1 = Stat.STAT_OK →
      appliesCorrection O K s travel_steps following_error m →
      SinceCorrection O K m
        (st_prep_line O K s travel_steps following_error segment_time).2.1 0
  | moved (s : Machine F) (n : Nat) (travel_steps following_error : Nat → F)
      (segment_time : F) :
      SinceCorrection O K m s n →
      (st_prep_line O K s travel_steps following_error segment_time).1 = Stat.STAT_OK →
      O.fp_ZERO (travel_steps m) = false →
      ¬ appliesCorrection O K s travel_steps following_error m →
      SinceCorrection O K m
        (st_prep_line O K s travel_steps following_error segment_time).2.1 (n + 1)
  | rested (s : Machine F) (n : Nat) (travel_steps following_error : Nat → F)
      (segment_time : F) :
      SinceCorrection O K m s n →
      (st_prep_line O K s travel_steps following_error segment_time).1 = Stat.STAT_OK →
      O.fp_ZERO (travel_steps m) = true →
      SinceCorrection O K m
        (st_prep_line O K s travel_steps following_error segment_time).2.1 n
  | prep_dwell (s : Machine F) (n : Nat) (microseconds : F) :
      SinceCorrection O K m s n → SinceCorrection O K m (st_prep_dwell O K s microseconds) n
  | prep_null (s : Machine F) (n : Nat) :
      SinceCorrection O K m s n → SinceCorrection O K m (st_prep_null s) n
  | prep_command (s : Machine F) (n : Nat) (bf : Nat) :
      SinceCorrection O K m s n → SinceCorrection O K m (st_prep_command s bf) n
  | exec_flip (s : Machine F) (n : Nat) :
      SinceCorrection O K m s n → SinceCorrection O K m (execFlip s) n
  | load (s : Machine F) (n : Nat) :
      SinceCorrection O K m s n → SinceCorrection O K m (_load_move O K s) n
  | dda (s : Machine F) (n : Nat) :
      SinceCorrection O K m s n → SinceCorrection O K m (dda_timer_interrupt O K s) n
  | dwell (s : Machine F) (n : Nat) :
      SinceCorrection O K m s n → SinceCorrection O K m (dwell_timer_interrupt O K s) n
  | reset (s : Machine F) (n : Nat) :
      SinceCorrection O K m s n → SinceCorrection O K m (stepper_reset O K s) n

/-! ## The pump of the driver queue -/

/-- Number of frame completions until the pump stops, when a frame with address byte `a` (a
request, not a collect frame) is in flight and the tokens `rest` are queued: one per token,
and one more for the collect frame when the last token is a read. -/
def framesLeft (a : Int) : List Int → Nat
  | [] => if bit7 a = true then 1 else 2
  | t :: rest => 1 + framesLeft t rest

/-- Address bytes of the frames the pump still sends in that situation. -/
def framesSent (a : Int) : List Int → List Int
  | [] => if bit7 a = true then [] else [a]
  | t :: rest => t :: framesSent t rest

/-- A chip that is not transmitting and has a write of GCONF, a read of IOIN and a read of
MSCNT queued, no read latched. -/
def threeQueued : Trinamic2130Base :=
  { freshChip with _registers_to_access := [0x80, 0x04, 0x6A] }

/-! ## Direction calls -/

/-- Whether an event is a `setDirection` call on motor `m`. -/
def Event.isSetDirection (m : Nat) : Event → Bool
  | .setDirection j _ => decide (j = m)
  | _ => false

/-- Number of `setDirection` calls on motor `m` recorded in a trace. -/
def directionCalls (m : Nat) (tr : List Event) : Nat :=
  tr.countP (Event.isSetDirection m)

/-- The example machine after `stepper_init`, with the polarity of motor 0 reversed. -/
def initStateReversed : Machine Frac :=
  stepper_init fracOps (exampleConst 4)
    { powerOn fracOps (exampleConst 4) with polarity := fun m => if m = 0 then 1 else 0 }

/-! ## A segment of one DDA tick -/

/-- The constants of `exampleConst 4` with a 1 kHz DDA clock, whose period, `1/60000` minute,
is not below `EPSILON`. -/
def slowClockConst : Const Frac := { exampleConst 4 with FREQUENCY_DDA := 1000 }

/-- From the state left by `stepper_reset` called in state `s0`: a segment of one period of the
1 kHz DDA clock moving motor 0 by one step has been prepared by `st_prep_line` (no following
error) and loaded by `_load_move`. -/
def oneStepLoaded (s0 : Machine Frac) : Machine Frac :=
  _load_move fracOps slowClockConst
    (st_prep_line fracOps slowClockConst (stepper_reset fracOps slowClockConst s0)
      (travelMotor0 { num := 1, den := 1 }) noError { num := 1, den := 60000 }).2.1

/-- The power-on state with the polarity of motor 0 reversed. -/
def powerOnReversed : Machine Frac :=
  { powerOn fracOps (exampleConst 4) with polarity := fun m => if m = 0 then 1 else 0 }

/-- From state `s`: a line segment has been prepared by `st_prep_line` and loaded by
`_load_move`. -/
def loadLine (O : FloatOps F) (K : Const F) (s : Machine F) (travel_steps fe : Nat → F)
    (time : F) : Machine F :=
  _load_move O K (st_prep_line O K s travel_steps fe time).2.1

/-- From state `s`: a line segment is prepared by `st_prep_line`, loaded by `_load_move` and
run by as many DDA interrupts as the `dda_ticks` that `st_prep_line` staged for it. -/
def runLine (O : FloatOps F) (K : Const F) (s : Machine F) (travel_steps fe : Nat → F)
    (time : F) : Machine F :=
  (dda_timer_interrupt O K)^[
      ((st_prep_line O K s travel_steps fe time).2.1.st_pre.dda_ticks).toNat]
    (loadLine O K s travel_steps fe time)

/-- After `stepper_init`, a segment of `2^-16` minute (183 ticks of the 200 kHz clock) moving
motor 0 by half a step has been prepared, loaded and run to its last tick. Every value of this
run is representable in `float`, so the exact arithmetic of `fracOps` computes what the float
code computes. -/
def halfStepDone : Machine Frac :=
  runLine fracOps (exampleConst 4) (initState 4) (travelMotor0 { num := 1, den := 2 }) noError
    { num := 1, den := 65536 }

/-- After `stepper_init`, a line segment moving motor 0 by 60 steps over `2^-16` minute (183
DDA ticks; every value of the segment is representable in `float`) is prepared and loaded;
while it runs, a dwell of 5000 microseconds (5 ticks of the 1 kHz dwell clock) is staged by
`st_prep_dwell`; then the 183 DDA interrupts of the segment are served. The last of them brings
the downcount to 0 and calls the loader, which loads the dwell. -/
def dwellLoadedByDda : Machine Frac :=
  (dda_timer_interrupt fracOps (exampleConst 4))^[183]
    (st_prep_dwell fracOps (exampleConst 4)
      (loadLine fracOps (exampleConst 4) (initState 4)
        (travelMotor0 { num := 60, den := 1 }) noError { num := 1, den := 65536 })
      { num := 5000, den := 1 })

/-! # Theorems -/

set_option maxRecDepth 100000

theorem toI32_eq_self {x : Int} (h1 : -2147483648 ≤ x) (h2 : x < 2147483648) : toI32 x = x := by
  unfold toI32; omega

theorem toI32_range (x : Int) : -2147483648 ≤ toI32 x ∧ toI32 x < 2147483648 := by
  unfold toI32; omega

theorem toU32_range (x : Int) : 0 ≤ toU32 x ∧ toU32 x < 4294967296 := by
  unfold toU32; omega

theorem ddaStep_increment (X : Int) (r : stRunMotor) :
    (ddaStep X r).substep_increment = r.substep_increment := by
  unfold ddaStep; split <;> rfl

theorem iterate_ddaStep_increment (X : Int) (n : Nat) (r : stRunMotor) :
    ((ddaStep X)^[n] r).substep_increment = r.substep_increment := by
  induction n generalizing r with
  | zero => rfl
  | succ n ih => rw [Function.iterate_succ_apply, ih, ddaStep_increment]

/-- Bresenham bookkeeping: while the accumulator starts in `(-X, 0]` and the increment is at most
`X < 2^31`, the accumulator after `n` clauses is the start plus `n` increments minus `X` per
pulse, and it is again in `(-X, 0]`. -/
theorem ddaCount_balance (X : Int) (hX : X < 2147483648) (n : Nat) :
    ∀ r : stRunMotor, 0 ≤ r.substep_increment → r.substep_increment ≤ X →
      -X < r.substep_accumulator → r.substep_accumulator ≤ 0 →
      ((ddaStep X)^[n] r).substep_accumulator
          = r.substep_accumulator + n * r.substep_increment - (ddaCount X n r : Int) * X
        ∧ -X < ((ddaStep X)^[n] r).substep_accumulator
        ∧ ((ddaStep X)^[n] r).substep_accumulator ≤ 0 := by
  induction n with
  | zero => intro r _ _ h3 h4; simp [ddaCount, h3, h4]
  | succ n ih =>
    intro r h1 h2 h3 h4
    have hs : toI32 (r.substep_accumulator + r.substep_increment)
        = r.substep_accumulator + r.substep_increment :=
      toI32_eq_self (by omega) (by omega)
    rw [Function.iterate_succ_apply]
    by_cases hf : r.substep_accumulator + r.substep_increment > 0
    · have hst : ddaStep X r = { r with substep_accumulator :=
          r.substep_accumulator + r.substep_increment - X } := by
        unfold ddaStep; rw [hs, if_pos hf, toI32_eq_self (by omega) (by omega)]
      have hfi : ddaFires r = true := by unfold ddaFires; rw [hs]; exact decide_eq_true hf
      obtain ⟨e1, e2, e3⟩ := ih (ddaStep X r) (by rw [hst]; exact h1) (by rw [hst]; exact h2)
        (by rw [hst]; show -X < r.substep_accumulator + r.substep_increment - X; omega)
        (by rw [hst]; show r.substep_accumulator + r.substep_increment - X ≤ 0; omega)
      refine ⟨?_, e2, e3⟩
      rw [e1, ddaCount, hfi, hst]
      simp only [if_true]
      push_cast
      ring
    · have hst : ddaStep X r = { r with substep_accumulator :=
          r.substep_accumulator + r.substep_increment } := by
        unfold ddaStep; rw [hs, if_neg hf]
      have hfi : ddaFires r = false := by unfold ddaFires; rw [hs]; exact decide_eq_false hf
      obtain ⟨e1, e2, e3⟩ := ih (ddaStep X r) (by rw [hst]; exact h1) (by rw [hst]; exact h2)
        (by rw [hst]; show -X < r.substep_accumulator + r.substep_increment; omega)
        (by rw [hst]; show r.substep_accumulator + r.substep_increment ≤ 0; omega)
      refine ⟨?_, e2, e3⟩
      rw [e1, ddaCount, hfi, hst]
      simp only [Bool.false_eq_true, if_false]
      push_cast
      ring

/-- Round trip of the substep arithmetic: `T` clauses with increment `D * S` and range
`T * S < 2^31` produce exactly `D` pulses when the accumulator starts in `(-T*S, 0]`. -/
theorem ddaCount_exact (T S D : Nat) (hS : 1 ≤ S) (hDT : D ≤ T)
    (hX : (T : Int) * S < 2147483648) (r : stRunMotor)
    (hinc : r.substep_increment = (D : Int) * S)
    (ha1 : -((T : Int) * S) < r.substep_accumulator) (ha2 : r.substep_accumulator ≤ 0) :
    ddaCount ((T : Int) * S) T r = D := by
  have hSi : (1 : Int) ≤ S := by exact_mod_cast hS
  have hDTi : (D : Int) ≤ T := by exact_mod_cast hDT
  have hD0 : (0 : Int) ≤ D := Int.natCast_nonneg D
  have hle : (D : Int) * S ≤ (T : Int) * S := Int.mul_le_mul_of_nonneg_right hDTi (by omega)
  obtain ⟨e1, e2, e3⟩ := ddaCount_balance ((T : Int) * S) hX T r
    (by rw [hinc]; positivity) (by rw [hinc]; exact hle) ha1 ha2
  rw [hinc] at e1
  set n : Int := (ddaCount ((T : Int) * S) T r : Int) with hn
  set a := r.substep_accumulator
  set b := ((ddaStep ((T : Int) * S))^[T] r).substep_accumulator
  have hXpos : (0 : Int) < (T : Int) * S := by omega
  have key : b - a = ((T : Int) * S) * ((D : Int) - n) := by rw [e1]; ring
  have h1 : ((T : Int) * S) * ((D : Int) - n) < ((T : Int) * S) * 1 := by omega
  have h2 : ((T : Int) * S) * (-1) < ((T : Int) * S) * ((D : Int) - n) := by omega
  have h3 := lt_of_mul_lt_mul_left h1 hXpos.le
  have h4 := lt_of_mul_lt_mul_left h2 hXpos.le
  have hfin : n = D := by omega
  exact Int.ofNat_inj.mp hfin

/-! ## Frame lemmas for the DDA clauses -/

@[simp] theorem setAt_same {α : Type} (f : Nat → α) (i : Nat) (v : α) : setAt f i v i = v := by
  simp [setAt]

theorem setAt_ne {α : Type} (f : Nat → α) {i j : Nat} (v : α) (h : j ≠ i) :
    setAt f i v j = f j := by
  simp [setAt, h]

theorem ddaMotor_X (s : Machine F) (m : Nat) :
    (ddaMotor s m).st_run.dda_ticks_X_substeps = s.st_run.dda_ticks_X_substeps := by
  unfold ddaMotor; simp only [Machine.setRunMot, Machine.emit]; split <;> rfl

theorem ddaMotor_downcount (s : Machine F) (m : Nat) :
    (ddaMotor s m).st_run.dda_ticks_downcount = s.st_run.dda_ticks_downcount := by
  unfold ddaMotor; simp only [Machine.setRunMot, Machine.emit]; split <;> rfl

theorem ddaMotor_st_pre (s : Machine F) (m : Nat) : (ddaMotor s m).st_pre = s.st_pre := by
  unfold ddaMotor; simp only [Machine.setRunMot, Machine.emit]; split <;> rfl

theorem ddaMotor_mot (s : Machine F) (m j : Nat) :
    (ddaMotor s m).st_run.mot j
      = if j = m then ddaStep s.st_run.dda_ticks_X_substeps (s.st_run.mot m)
        else s.st_run.mot j := by
  unfold ddaMotor ddaStep
  simp only [Machine.setRunMot, Machine.emit, setAt_same]
  by_cases hf : toI32 ((s.st_run.mot m).substep_accumulator
      + (s.st_run.mot m).substep_increment) > 0
  · simp only [if_pos hf]
    by_cases hj : j = m
    · subst hj; simp
    · simp [setAt, hj]
  · simp only [if_neg hf]
    by_cases hj : j = m
    · subst hj; simp
    · simp [setAt, hj]

theorem ddaMotor_trace (s : Machine F) (m : Nat) :
    (ddaMotor s m).trace
      = s.trace ++ (if ddaFires (s.st_run.mot m) then
          [Event.stepStart m, Event.INCREMENT_ENCODER m] else []) := by
  unfold ddaMotor ddaFires
  simp only [Machine.setRunMot, Machine.emit, setAt_same]
  by_cases hf : toI32 ((s.st_run.mot m).substep_accumulator
      + (s.st_run.mot m).substep_increment) > 0
  · simp [hf]
  · simp [hf]

theorem foldl_ddaMotor_X (l : List Nat) (s : Machine F) :
    (l.foldl ddaMotor s).st_run.dda_ticks_X_substeps = s.st_run.dda_ticks_X_substeps := by
  induction l generalizing s with
  | nil => rfl
  | cons a l ih => rw [List.foldl_cons, ih, ddaMotor_X]

theorem foldl_ddaMotor_downcount (l : List Nat) (s : Machine F) :
    (l.foldl ddaMotor s).st_run.dda_ticks_downcount = s.st_run.dda_ticks_downcount := by
  induction l generalizing s with
  | nil => rfl
  | cons a l ih => rw [List.foldl_cons, ih, ddaMotor_downcount]

theorem foldl_ddaMotor_st_pre (l : List Nat) (s : Machine F) :
    (l.foldl ddaMotor s).st_pre = s.st_pre := by
  induction l generalizing s with
  | nil => rfl
  | cons a l ih => rw [List.foldl_cons, ih, ddaMotor_st_pre]

/-- Each slot named by a duplicate-free list of clauses is advanced once, all others are left
alone. -/
theorem foldl_ddaMotor_mot (l : List Nat) (hl : l.Nodup) (s : Machine F) (j : Nat) :
    (l.foldl ddaMotor s).st_run.mot j
      = if j ∈ l then ddaStep s.st_run.dda_ticks_X_substeps (s.st_run.mot j)
        else s.st_run.mot j := by
  induction l generalizing s with
  | nil => simp
  | cons a l ih =>
    rw [List.nodup_cons] at hl
    rw [List.foldl_cons, ih hl.2, ddaMotor_X, ddaMotor_mot]
    by_cases hja : j = a
    · subst hja; simp [hl.1]
    · simp [hja]

theorem foldl_ddaMotor_steps (l : List Nat) (hl : l.Nodup) (s : Machine F) (j : Nat) :
    stepsRaised j (l.foldl ddaMotor s).trace
      = stepsRaised j s.trace + (if j ∈ l ∧ ddaFires (s.st_run.mot j) = true then 1 else 0) := by
  induction l generalizing s with
  | nil => simp
  | cons a l ih =>
    rw [List.nodup_cons] at hl
    rw [List.foldl_cons, ih hl.2, ddaMotor_trace, ddaMotor_mot]
    unfold stepsRaised
    by_cases hja : j = a
    · subst hja
      by_cases hf : ddaFires (s.st_run.mot j) = true
      · simp [hl.1, hf, List.count_append]
      · simp [hl.1, hf]
    · by_cases hf : ddaFires (s.st_run.mot a) = true
      · simp [hja, hf, List.count_append, List.count_cons, Ne.symm hja]
      · simp [hja, hf]

theorem ddaMotors_nodup (K : Const F) : (ddaMotors K).Nodup := by
  unfold ddaMotors; split <;> split <;> decide

theorem mem_ddaMotors (K : Const F) (hK : K.MOTORS ≤ 6) {m : Nat} (hm : m < K.MOTORS) :
    m ∈ ddaMotors K := by
  unfold ddaMotors
  by_cases h4 : K.MOTORS > 4 <;> by_cases h5 : K.MOTORS > 5 <;> simp [h4, h5] <;> omega

/-! ## The `stepEnd` loop -/

theorem foldl_stepEnd_st_run (l : List Nat) (s : Machine F) :
    (l.foldl (fun t motor =>
      Machine.emit { t with step_pin := setAt t.step_pin motor false } (Event.stepEnd motor))
      s).st_run = s.st_run := by
  induction l generalizing s with
  | nil => rfl
  | cons a l ih => rw [List.foldl_cons, ih]; rfl

theorem foldl_stepEnd_st_pre (l : List Nat) (s : Machine F) :
    (l.foldl (fun t motor =>
      Machine.emit { t with step_pin := setAt t.step_pin motor false } (Event.stepEnd motor))
      s).st_pre = s.st_pre := by
  induction l generalizing s with
  | nil => rfl
  | cons a l ih => rw [List.foldl_cons, ih]; rfl

theorem foldl_stepEnd_flags (l : List Nat) (s : Machine F) :
    (l.foldl (fun t motor =>
      Machine.emit { t with step_pin := setAt t.step_pin motor false } (Event.stepEnd motor))
      s).dda_timer_running = s.dda_timer_running
    ∧ (l.foldl (fun t motor =>
      Machine.emit { t with step_pin := setAt t.step_pin motor false } (Event.stepEnd motor))
      s).dwell_timer_running = s.dwell_timer_running
    ∧ (l.foldl (fun t motor =>
      Machine.emit { t with step_pin := setAt t.step_pin motor false } (Event.stepEnd motor))
      s).dir_pin = s.dir_pin
    ∧ (l.foldl (fun t motor =>
      Machine.emit { t with step_pin := setAt t.step_pin motor false } (Event.stepEnd motor))
      s).polarity = s.polarity := by
  induction l generalizing s with
  | nil => exact ⟨rfl, rfl, rfl, rfl⟩
  | cons a l ih => rw [List.foldl_cons]; exact ih _

theorem foldl_stepEnd_trace (l : List Nat) (s : Machine F) :
    (l.foldl (fun t motor =>
      Machine.emit { t with step_pin := setAt t.step_pin motor false } (Event.stepEnd motor))
      s).trace = s.trace ++ l.map Event.stepEnd := by
  induction l generalizing s with
  | nil => simp
  | cons a l ih => rw [List.foldl_cons, ih]; simp [Machine.emit]

theorem foldl_stepEnd_step_pin (l : List Nat) (s : Machine F) (j : Nat) :
    (l.foldl (fun t motor =>
      Machine.emit { t with step_pin := setAt t.step_pin motor false } (Event.stepEnd motor))
      s).step_pin j = if j ∈ l then false else s.step_pin j := by
  induction l generalizing s with
  | nil => simp
  | cons a l ih =>
    rw [List.foldl_cons, ih]
    by_cases hj : j ∈ l
    · simp [hj]
    · by_cases hja : j = a
      · subst hja; simp [hj, Machine.emit]
      · simp [hj, hja, Machine.emit, setAt]

theorem stepEndAll_st_run (K : Const F) (s : Machine F) : (stepEndAll K s).st_run = s.st_run :=
  foldl_stepEnd_st_run _ s

theorem stepEndAll_st_pre (K : Const F) (s : Machine F) : (stepEndAll K s).st_pre = s.st_pre :=
  foldl_stepEnd_st_pre _ s

theorem stepEndAll_trace (K : Const F) (s : Machine F) :
    (stepEndAll K s).trace = s.trace ++ (List.range K.MOTORS).map Event.stepEnd :=
  foldl_stepEnd_trace _ s

theorem stepEndAll_step_pin (K : Const F) (s : Machine F) (j : Nat) :
    (stepEndAll K s).step_pin j = if j < K.MOTORS then false else s.step_pin j := by
  unfold stepEndAll; rw [foldl_stepEnd_step_pin]; simp

theorem stepsRaised_append (m : Nat) (a b : List Event) :
    stepsRaised m (a ++ b) = stepsRaised m a + stepsRaised m b := by
  unfold stepsRaised; exact List.count_append _ _ _

theorem stepsRaised_map_stepEnd (m : Nat) (l : List Nat) :
    stepsRaised m (l.map Event.stepEnd) = 0 := by
  unfold stepsRaised
  rw [List.count_eq_zero]
  intro h
  obtain ⟨_, _, h2⟩ := List.mem_map.mp h
  cases h2

theorem stepEndAll_steps (K : Const F) (s : Machine F) (m : Nat) :
    stepsRaised m (stepEndAll K s).trace = stepsRaised m s.trace := by
  rw [stepEndAll_trace, stepsRaised_append, stepsRaised_map_stepEnd, Nat.add_zero]

/-! ## Frame lemmas for the loader -/

theorem loadMotor_run_header (O : FloatOps F) (s : Machine F) (m : Nat) :
    (loadMotor O s m).st_run.dda_ticks_downcount = s.st_run.dda_ticks_downcount
    ∧ (loadMotor O s m).st_run.dda_ticks_X_substeps = s.st_run.dda_ticks_X_substeps := by
  unfold loadMotor
  simp only [Machine.setRunMot, Machine.setPreMot, Machine.emit]
  split_ifs <;> exact ⟨rfl, rfl⟩

theorem loadMotor_pre_header (O : FloatOps F) (s : Machine F) (m : Nat) :
    (loadMotor O s m).st_pre.block_type = s.st_pre.block_type
    ∧ (loadMotor O s m).st_pre.buffer_state = s.st_pre.buffer_state
    ∧ (loadMotor O s m).st_pre.bf = s.st_pre.bf
    ∧ (loadMotor O s m).st_pre.dda_period = s.st_pre.dda_period
    ∧ (loadMotor O s m).st_pre.dda_ticks = s.st_pre.dda_ticks
    ∧ (loadMotor O s m).st_pre.dda_ticks_X_substeps = s.st_pre.dda_ticks_X_substeps := by
  unfold loadMotor
  simp only [Machine.setRunMot, Machine.setPreMot, Machine.emit]
  split_ifs <;> exact ⟨rfl, rfl, rfl, rfl, rfl, rfl⟩

theorem loadMotor_flags (O : FloatOps F) (s : Machine F) (m : Nat) :
    (loadMotor O s m).dda_timer_running = s.dda_timer_running
    ∧ (loadMotor O s m).dwell_timer_running = s.dwell_timer_running
    ∧ (loadMotor O s m).step_pin = s.step_pin
    ∧ (loadMotor O s m).polarity = s.polarity := by
  unfold loadMotor
  simp only [Machine.setRunMot, Machine.setPreMot, Machine.emit]
  split_ifs <;> exact ⟨rfl, rfl, rfl, rfl⟩

theorem loadMotor_run_mot (O : FloatOps F) (s : Machine F) (m j : Nat) :
    (loadMotor O s m).st_run.mot j
      = if j = m then
          loadRun O s.st_run.dda_ticks_X_substeps (s.st_pre.mot m) (s.st_run.mot m)
        else s.st_run.mot j := by
  unfold loadMotor loadRun correctedAcc
  simp only [Machine.setRunMot, Machine.setPreMot, Machine.emit, setAt_same]
  by_cases hj : j = m
  · subst hj
    split_ifs <;> simp_all
  · split_ifs <;> simp_all [setAt]

theorem loadMotor_pre_mot (O : FloatOps F) (s : Machine F) (m j : Nat) :
    (loadMotor O s m).st_pre.mot j
      = if j = m then loadPre (s.st_pre.mot m) else s.st_pre.mot j := by
  unfold loadMotor loadPre
  simp only [Machine.setRunMot, Machine.setPreMot, Machine.emit, setAt_same]
  by_cases hj : j = m
  · subst hj
    split_ifs <;> (cases hp : s.st_pre.mot j) <;> simp_all
  · split_ifs <;> simp_all [setAt]

theorem loadMotor_dir_pin (O : FloatOps F) (s : Machine F) (m j : Nat) :
    (loadMotor O s m).dir_pin j
      = if j = m then loadDir (s.st_pre.mot m) (s.dir_pin m) else s.dir_pin j := by
  unfold loadMotor loadDir
  simp only [Machine.setRunMot, Machine.setPreMot, Machine.emit, setAt_same]
  by_cases hj : j = m
  · subst hj
    split_ifs <;> simp_all
  · split_ifs <;> simp_all [setAt]

theorem loadMotor_trace (O : FloatOps F) (s : Machine F) (m : Nat) :
    (loadMotor O s m).trace = s.trace ++ loadEvents m (s.st_pre.mot m) := by
  unfold loadMotor loadEvents
  simp only [Machine.setRunMot, Machine.setPreMot, Machine.emit, setAt_same]
  split_ifs <;> simp_all

theorem foldl_loadMotor_run_header (O : FloatOps F) (l : List Nat) (s : Machine F) :
    (l.foldl (loadMotor O) s).st_run.dda_ticks_downcount = s.st_run.dda_ticks_downcount
    ∧ (l.foldl (loadMotor O) s).st_run.dda_ticks_X_substeps
        = s.st_run.dda_ticks_X_substeps := by
  induction l generalizing s with
  | nil => exact ⟨rfl, rfl⟩
  | cons a l ih =>
    rw [List.foldl_cons]
    obtain ⟨h1, h2⟩ := ih (loadMotor O s a)
    obtain ⟨g1, g2⟩ := loadMotor_run_header O s a
    exact ⟨h1.trans g1, h2.trans g2⟩

theorem foldl_loadMotor_pre_header (O : FloatOps F) (l : List Nat) (s : Machine F) :
    (l.foldl (loadMotor O) s).st_pre.block_type = s.st_pre.block_type
    ∧ (l.foldl (loadMotor O) s).st_pre.buffer_state = s.st_pre.buffer_state
    ∧ (l.foldl (loadMotor O) s).st_pre.bf = s.st_pre.bf
    ∧ (l.foldl (loadMotor O) s).st_pre.dda_period = s.st_pre.dda_period
    ∧ (l.foldl (loadMotor O) s).st_pre.dda_ticks = s.st_pre.dda_ticks
    ∧ (l.foldl (loadMotor O) s).st_pre.dda_ticks_X_substeps
        = s.st_pre.dda_ticks_X_substeps := by
  induction l generalizing s with
  | nil => exact ⟨rfl, rfl, rfl, rfl, rfl, rfl⟩
  | cons a l ih =>
    rw [List.foldl_cons]
    obtain ⟨h1, h2, h3, h4, h5, h6⟩ := ih (loadMotor O s a)
    obtain ⟨g1, g2, g3, g4, g5, g6⟩ := loadMotor_pre_header O s a
    exact ⟨h1.trans g1, h2.trans g2, h3.trans g3, h4.trans g4, h5.trans g5, h6.trans g6⟩

theorem foldl_loadMotor_flags (O : FloatOps F) (l : List Nat) (s : Machine F) :
    (l.foldl (loadMotor O) s).dda_timer_running = s.dda_timer_running
    ∧ (l.foldl (loadMotor O) s).dwell_timer_running = s.dwell_timer_running
    ∧ (l.foldl (loadMotor O) s).step_pin = s.step_pin
    ∧ (l.foldl (loadMotor O) s).polarity = s.polarity := by
  induction l generalizing s with
  | nil => exact ⟨rfl, rfl, rfl, rfl⟩
  | cons a l ih =>
    rw [List.foldl_cons]
    obtain ⟨h1, h2, h3, h4⟩ := ih (loadMotor O s a)
    obtain ⟨g1, g2, g3, g4⟩ := loadMotor_flags O s a
    exact ⟨h1.trans g1, h2.trans g2, h3.trans g3, h4.trans g4⟩

/-- The per-motor loop of the loader treats every listed motor from its own slots only. -/
theorem foldl_loadMotor_slots (O : FloatOps F) (l : List Nat) (hl : l.Nodup) (s : Machine F)
    (j : Nat) :
    (l.foldl (loadMotor O) s).st_run.mot j
        = (if j ∈ l then
            loadRun O s.st_run.dda_ticks_X_substeps (s.st_pre.mot j) (s.st_run.mot j)
          else s.st_run.mot j)
    ∧ (l.foldl (loadMotor O) s).st_pre.mot j
        = (if j ∈ l then loadPre (s.st_pre.mot j) else s.st_pre.mot j)
    ∧ (l.foldl (loadMotor O) s).dir_pin j
        = (if j ∈ l then loadDir (s.st_pre.mot j) (s.dir_pin j) else s.dir_pin j) := by
  induction l generalizing s with
  | nil => simp
  | cons a l ih =>
    rw [List.nodup_cons] at hl
    rw [List.foldl_cons]
    obtain ⟨h1, h2, h3⟩ := ih hl.2 (loadMotor O s a)
    rw [h1, h2, h3, (loadMotor_run_header O s a).2, loadMotor_run_mot, loadMotor_pre_mot,
      loadMotor_dir_pin]
    by_cases hja : j = a
    · subst hja; simp [hl.1]
    · simp [hja]

theorem foldl_loadMotor_trace (O : FloatOps F) (l : List Nat) (hl : l.Nodup) (s : Machine F) :
    (l.foldl (loadMotor O) s).trace = s.trace ++ loadEventsAll s.st_pre.mot l := by
  induction l generalizing s with
  | nil => simp [loadEventsAll]
  | cons a l ih =>
    rw [List.nodup_cons] at hl
    rw [List.foldl_cons, ih hl.2, loadMotor_trace, loadEventsAll, List.append_assoc]
    congr 2
    clear ih
    induction l with
    | nil => rfl
    | cons b l ih2 =>
      have hb : b ≠ a := fun h => hl.1 (by simp [h])
      have ha : a ∉ l := fun h => hl.1 (by simp [h])
      rw [List.nodup_cons] at hl
      simp only [loadEventsAll]
      rw [loadMotor_pre_mot, if_neg hb, ih2 ⟨ha, hl.2.2⟩]

theorem loadEvents_motor (m : Nat) (p : stPrepMotor F) (e : Event) (he : e ∈ loadEvents m p) :
    e.motor? = some m := by
  unfold loadEvents at he
  split_ifs at he
  · simp at he; rcases he with h | h | h | h <;> subst h <;> rfl
  · simp at he; rcases he with h | h | h <;> subst h <;> rfl
  · simp at he; rcases he with h | h <;> subst h <;> rfl

theorem mem_loadEventsAll (pre : Nat → stPrepMotor F) (l : List Nat) (e : Event)
    (he : e ∈ loadEventsAll pre l) : ∃ j ∈ l, e ∈ loadEvents j (pre j) := by
  induction l with
  | nil => simp [loadEventsAll] at he
  | cons a l ih =>
    simp only [loadEventsAll, List.mem_append] at he
    rcases he with h | h
    · exact ⟨a, by simp, h⟩
    · obtain ⟨j, hj, hje⟩ := ih h
      exact ⟨j, by simp [hj], hje⟩

theorem loadEventsAll_mem (pre : Nat → stPrepMotor F) (l : List Nat) (j : Nat) (hj : j ∈ l)
    (e : Event) (he : e ∈ loadEvents j (pre j)) : e ∈ loadEventsAll pre l := by
  induction l with
  | nil => simp at hj
  | cons a l ih =>
    simp only [loadEventsAll, List.mem_append]
    rcases List.mem_cons.mp hj with h | h
    · subst h; exact Or.inl he
    · exact Or.inr (ih h)

theorem loadEvents_not_stepStart (m : Nat) (p : stPrepMotor F) (e : Event)
    (he : e ∈ loadEvents m p) : e.isStepStart = false := by
  unfold loadEvents at he
  split_ifs at he
  · simp at he; rcases he with h | h | h | h <;> subst h <;> rfl
  · simp at he; rcases he with h | h | h <;> subst h <;> rfl
  · simp at he; rcases he with h | h <;> subst h <;> rfl

theorem stepsRaised_eq_zero (m : Nat) (l : List Event)
    (h : ∀ e ∈ l, e.isStepStart = false) : stepsRaised m l = 0 := by
  unfold stepsRaised
  rw [List.count_eq_zero]
  intro hm
  have := h _ hm
  simp [Event.isStepStart] at this

theorem foldl_motionStopped (l : List Nat) (s : Machine F) :
    l.foldl (fun t motor => t.emit (Event.motionStopped motor)) s
      = { s with trace := s.trace ++ l.map Event.motionStopped } := by
  induction l generalizing s with
  | nil => simp
  | cons a l ih => rw [List.foldl_cons, ih]; simp [Machine.emit]

/-- A busy runtime makes `_load_move` return at once. -/
theorem load_move_busy (O : FloatOps F) (K : Const F) (s : Machine F)
    (h : s.st_run.dda_ticks_downcount ≠ 0) : _load_move O K s = s := by
  unfold _load_move st_runtime_isbusy
  simp [h]

/-- An idle runtime whose prep buffer is not owned by the loader only signals
`motionStopped()` on every motor. -/
theorem load_move_not_owned (O : FloatOps F) (K : Const F) (s : Machine F)
    (h : s.st_run.dda_ticks_downcount = 0)
    (hb : s.st_pre.buffer_state ≠ BufferState.PREP_BUFFER_OWNED_BY_LOADER) :
    _load_move O K s
      = { s with trace := s.trace ++ (List.range K.MOTORS).map Event.motionStopped } := by
  unfold _load_move st_runtime_isbusy
  simp only [h, ne_eq, not_true_eq_false, decide_False, Bool.false_eq_true, if_false]
  rw [if_pos hb, foldl_motionStopped]

/-- The loader on an idle runtime with a loader-owned ALINE block. -/
theorem load_move_aline (O : FloatOps F) (K : Const F) (s : Machine F)
    (h : s.st_run.dda_ticks_downcount = 0)
    (hb : s.st_pre.buffer_state = BufferState.PREP_BUFFER_OWNED_BY_LOADER)
    (ht : s.st_pre.block_type = BlockType.BLOCK_TYPE_ALINE) :
    _load_move O K s
      = Machine.emit
          { loadAline O K s with
            st_pre := { (loadAline O K s).st_pre with
              block_type := BlockType.BLOCK_TYPE_NULL,
              buffer_state := BufferState.PREP_BUFFER_OWNED_BY_EXEC } }
          Event.exec_setInterruptPending := by
  unfold _load_move st_runtime_isbusy st_request_exec_move
  simp [h, hb, ht]

/-- The loader on an idle runtime with a loader-owned block that is not an ALINE. -/
theorem load_move_other (O : FloatOps F) (K : Const F) (s : Machine F)
    (h : s.st_run.dda_ticks_downcount = 0)
    (hb : s.st_pre.buffer_state = BufferState.PREP_BUFFER_OWNED_BY_LOADER)
    (ht : s.st_pre.block_type ≠ BlockType.BLOCK_TYPE_ALINE) :
    (_load_move O K s).st_run.mot = s.st_run.mot
    ∧ (_load_move O K s).st_run.dda_ticks_X_substeps = s.st_run.dda_ticks_X_substeps
    ∧ (_load_move O K s).st_pre.mot = s.st_pre.mot
    ∧ (_load_move O K s).dir_pin = s.dir_pin
    ∧ (_load_move O K s).dda_timer_running = s.dda_timer_running
    ∧ (_load_move O K s).trace
        = s.trace ++ (if s.st_pre.block_type = BlockType.BLOCK_TYPE_COMMAND then
            [Event.mp_runtime_command s.st_pre.bf] else [])
          ++ [Event.exec_setInterruptPending] := by
  unfold _load_move st_runtime_isbusy st_request_exec_move
  simp only [h, ne_eq, not_true_eq_false, decide_False, Bool.false_eq_true, if_false, hb,
    if_neg ht, if_true]
  split_ifs <;> simp_all [Machine.emit]

theorem loadAline_fields (O : FloatOps F) (K : Const F) (s : Machine F) :
    (loadAline O K s).st_run.dda_ticks_downcount = s.st_pre.dda_ticks
    ∧ (loadAline O K s).st_run.dda_ticks_X_substeps = s.st_pre.dda_ticks_X_substeps
    ∧ (loadAline O K s).dda_timer_running = true
    ∧ (loadAline O K s).dwell_timer_running = s.dwell_timer_running
    ∧ (loadAline O K s).step_pin = s.step_pin
    ∧ (loadAline O K s).polarity = s.polarity
    ∧ (loadAline O K s).trace = s.trace ++ loadEventsAll s.st_pre.mot (List.range K.MOTORS) := by
  unfold loadAline
  refine ⟨?_, ?_, rfl, ?_, ?_, ?_, ?_⟩
  · exact (foldl_loadMotor_run_header O _ _).1
  · exact (foldl_loadMotor_run_header O _ _).2
  · exact (foldl_loadMotor_flags O _ _).2.1
  · exact (foldl_loadMotor_flags O _ _).2.2.1
  · exact (foldl_loadMotor_flags O _ _).2.2.2
  · exact foldl_loadMotor_trace O _ (List.nodup_range _) _

theorem loadAline_pre_header (O : FloatOps F) (K : Const F) (s : Machine F) :
    (loadAline O K s).st_pre.block_type = s.st_pre.block_type
    ∧ (loadAline O K s).st_pre.buffer_state = s.st_pre.buffer_state
    ∧ (loadAline O K s).st_pre.bf = s.st_pre.bf
    ∧ (loadAline O K s).st_pre.dda_period = s.st_pre.dda_period
    ∧ (loadAline O K s).st_pre.dda_ticks = s.st_pre.dda_ticks
    ∧ (loadAline O K s).st_pre.dda_ticks_X_substeps = s.st_pre.dda_ticks_X_substeps := by
  unfold loadAline
  exact foldl_loadMotor_pre_header O _ _

theorem loadAline_slots (O : FloatOps F) (K : Const F) (s : Machine F) (j : Nat) :
    (loadAline O K s).st_run.mot j
        = (if j < K.MOTORS then
            loadRun O s.st_pre.dda_ticks_X_substeps (s.st_pre.mot j) (s.st_run.mot j)
          else s.st_run.mot j)
    ∧ (loadAline O K s).st_pre.mot j
        = (if j < K.MOTORS then loadPre (s.st_pre.mot j) else s.st_pre.mot j)
    ∧ (loadAline O K s).dir_pin j
        = (if j < K.MOTORS then loadDir (s.st_pre.mot j) (s.dir_pin j) else s.dir_pin j) := by
  unfold loadAline
  have h := foldl_loadMotor_slots O (List.range K.MOTORS) (List.nodup_range _)
    { s with st_run := { dda_ticks_downcount := s.st_pre.dda_ticks,
                         dda_ticks_X_substeps := s.st_pre.dda_ticks_X_substeps,
                         mot := s.st_run.mot } } j
  simp only [List.mem_range] at h
  exact h

/-- The loader never calls `stepStart`. -/
theorem load_move_steps (O : FloatOps F) (K : Const F) (s : Machine F) (m : Nat) :
    stepsRaised m (_load_move O K s).trace = stepsRaised m s.trace := by
  have hexec : stepsRaised m [Event.exec_setInterruptPending] = 0 := rfl
  by_cases h : s.st_run.dda_ticks_downcount = 0
  · by_cases hb : s.st_pre.buffer_state = BufferState.PREP_BUFFER_OWNED_BY_LOADER
    · by_cases ht : s.st_pre.block_type = BlockType.BLOCK_TYPE_ALINE
      · have hall : stepsRaised m (loadEventsAll s.st_pre.mot (List.range K.MOTORS)) = 0 := by
          apply stepsRaised_eq_zero
          intro e he
          obtain ⟨j, _, hje⟩ := mem_loadEventsAll _ _ _ he
          exact loadEvents_not_stepStart _ _ _ hje
        rw [load_move_aline O K s h hb ht]
        simp only [Machine.emit]
        rw [(loadAline_fields O K s).2.2.2.2.2.2, stepsRaised_append, stepsRaised_append,
          hall, hexec]
        rfl
      · have hcmd : stepsRaised m (if s.st_pre.block_type = BlockType.BLOCK_TYPE_COMMAND then
            [Event.mp_runtime_command s.st_pre.bf] else []) = 0 := by
          split_ifs <;> rfl
        rw [(load_move_other O K s h hb ht).2.2.2.2.2, stepsRaised_append, stepsRaised_append,
          hcmd, hexec]
        rfl
    · rw [load_move_not_owned O K s h hb]
      show stepsRaised m (s.trace ++ _) = _
      rw [stepsRaised_append, stepsRaised_eq_zero m (List.map _ _)]
      · rfl
      · intro e he
        obtain ⟨_, _, h2⟩ := List.mem_map.mp he
        subst h2; rfl
  · rw [load_move_busy O K s h]

/-! ## The DDA interrupt -/

theorem ddaTick_downcount (K : Const F) (s : Machine F) :
    (ddaTick K s).st_run.dda_ticks_downcount = toU32 (s.st_run.dda_ticks_downcount - 1) := by
  unfold ddaTick
  simp only [foldl_ddaMotor_downcount]

theorem ddaTick_X (K : Const F) (s : Machine F) :
    (ddaTick K s).st_run.dda_ticks_X_substeps = s.st_run.dda_ticks_X_substeps := by
  unfold ddaTick
  simp only [foldl_ddaMotor_X]

theorem ddaTick_st_pre (K : Const F) (s : Machine F) : (ddaTick K s).st_pre = s.st_pre := by
  unfold ddaTick
  simp only [foldl_ddaMotor_st_pre]

theorem ddaTick_mot (K : Const F) (s : Machine F) (j : Nat) :
    (ddaTick K s).st_run.mot j
      = if j ∈ ddaMotors K then ddaStep s.st_run.dda_ticks_X_substeps (s.st_run.mot j)
        else s.st_run.mot j := by
  unfold ddaTick
  exact foldl_ddaMotor_mot _ (ddaMotors_nodup K) s j

theorem ddaTick_steps (K : Const F) (s : Machine F) (j : Nat) :
    stepsRaised j (ddaTick K s).trace
      = stepsRaised j s.trace
        + (if j ∈ ddaMotors K ∧ ddaFires (s.st_run.mot j) = true then 1 else 0) := by
  unfold ddaTick
  exact foldl_ddaMotor_steps _ (ddaMotors_nodup K) s j

/-- Shape of the DDA interrupt while the runtime is busy: lower the step lines, run the
per-motor clauses and the decrement, then call the loader exactly when the downcount reached
zero. -/
theorem dda_timer_interrupt_busy (O : FloatOps F) (K : Const F) (s : Machine F)
    (h : s.st_run.dda_ticks_downcount ≠ 0) :
    dda_timer_interrupt O K s
      = if (ddaTick K (stepEndAll K s)).st_run.dda_ticks_downcount = 0 then
          _load_move O K (ddaTick K (stepEndAll K s))
        else ddaTick K (stepEndAll K s) := by
  unfold dda_timer_interrupt
  simp only [stepEndAll_st_run, if_neg h]

theorem dda_timer_interrupt_steps (O : FloatOps F) (K : Const F) (s : Machine F) (j : Nat)
    (h : s.st_run.dda_ticks_downcount ≠ 0) :
    stepsRaised j (dda_timer_interrupt O K s).trace
      = stepsRaised j s.trace
        + (if j ∈ ddaMotors K ∧ ddaFires (s.st_run.mot j) = true then 1 else 0) := by
  rw [dda_timer_interrupt_busy O K s h]
  split
  · rw [load_move_steps, ddaTick_steps, stepEndAll_steps, stepEndAll_st_run]
  · rw [ddaTick_steps, stepEndAll_steps, stepEndAll_st_run]

/-- Pulses counted over the first `k` interrupts of a segment with `n >= k` ticks left. -/
theorem iterate_dda_steps (O : FloatOps F) (K : Const F) (j : Nat) (hj : j ∈ ddaMotors K)
    (k : Nat) : ∀ (n : Nat) (s : Machine F), k ≤ n → n < 4294967296 →
      s.st_run.dda_ticks_downcount = (n : Int) →
      stepsRaised j ((dda_timer_interrupt O K)^[k] s).trace
        = stepsRaised j s.trace + ddaCount s.st_run.dda_ticks_X_substeps k (s.st_run.mot j) := by
  induction k with
  | zero => intro n s _ _ _; simp [ddaCount]
  | succ k ih =>
    intro n s hkn hn hs
    have hne : s.st_run.dda_ticks_downcount ≠ 0 := by rw [hs]; omega
    rw [Function.iterate_succ_apply]
    by_cases hk : k = 0
    · subst hk
      simp only [Function.iterate_zero, id_eq, ddaCount, Nat.add_zero]
      rw [dda_timer_interrupt_steps O K s j hne]
      simp [hj]
    · have hd : (ddaTick K (stepEndAll K s)).st_run.dda_ticks_downcount = ((n - 1 : Nat) : Int) := by
        rw [ddaTick_downcount, stepEndAll_st_run, hs]
        unfold toU32; omega
      have hstep : dda_timer_interrupt O K s = ddaTick K (stepEndAll K s) := by
        rw [dda_timer_interrupt_busy O K s hne, if_neg]
        rw [hd]; omega
      rw [hstep, ih (n - 1) _ (by omega) (by omega) hd, ddaTick_steps, ddaTick_X, ddaTick_mot,
        stepEndAll_steps, stepEndAll_st_run, ddaCount]
      simp only [hj, true_and, if_true]
      omega

/-! ## Claims about the DDA interrupt -/

theorem ddaStep_range (X : Int) (r : stRunMotor) (hX : X ≤ 2147483649)
    (h1 : -X ≤ r.substep_accumulator) (h2 : r.substep_accumulator ≤ 0)
    (h3 : 0 ≤ r.substep_increment) (h4 : r.substep_increment ≤ X)
    (hty : -2147483648 ≤ r.substep_accumulator) :
    -X ≤ (ddaStep X r).substep_accumulator ∧ (ddaStep X r).substep_accumulator ≤ 0 := by
  unfold ddaStep toI32
  split_ifs with h <;> simp only [] <;> omega

theorem ddaCount_idle (X : Int) (n : Nat) (r : stRunMotor) (hinc : r.substep_increment = 0)
    (h1 : r.substep_accumulator ≤ 0) (h2 : -2147483648 ≤ r.substep_accumulator) :
    ddaCount X n r = 0 := by
  have hs : toI32 (r.substep_accumulator + r.substep_increment) = r.substep_accumulator := by
    rw [hinc, Int.add_zero]; exact toI32_eq_self h2 (by omega)
  have hstep : ddaStep X r = r := by
    unfold ddaStep; rw [hs, if_neg (by omega)]
  have hfire : ddaFires r = false := by
    unfold ddaFires; rw [hs]; exact decide_eq_false (by omega)
  induction n with
  | zero => rfl
  | succ n ih => rw [ddaCount, hfire, hstep, ih]; rfl

/-- C1 (as amended): for a motor `m < MOTORS <= 6`, every tick count `T`, substep factor
`S >= 1` with `T * S < 2^31`, step count `D <= T` and starting accumulator `a0` with
`-T*S < a0 <= 0`, running the DDA interrupt `T` times on a run state with
`dda_ticks_downcount = T`, `dda_ticks_X_substeps = T*S` and increment `D*S` calls `stepStart` on
that motor exactly `D` times. -/
theorem C1_dda_emits_exactly_D_steps (O : FloatOps F) (K : Const F) (s : Machine F) (m : Nat)
    (T S D : Nat) (hK : K.MOTORS ≤ 6) (hm : m < K.MOTORS) (hS : 1 ≤ S) (hDT : D ≤ T)
    (hX : (T : Int) * S < 2147483648)
    (hdown : s.st_run.dda_ticks_downcount = (T : Int))
    (hXs : s.st_run.dda_ticks_X_substeps = (T : Int) * S)
    (hinc : (s.st_run.mot m).substep_increment = (D : Int) * S)
    (ha1 : -((T : Int) * S) < (s.st_run.mot m).substep_accumulator)
    (ha2 : (s.st_run.mot m).substep_accumulator ≤ 0) :
    stepsRaised m ((dda_timer_interrupt O K)^[T] s).trace = stepsRaised m s.trace + D := by
  have hT : T < 4294967296 := by
    have h1 : (1 : Int) ≤ S := by exact_mod_cast hS
    have h2 : (0 : Int) ≤ T := Int.natCast_nonneg T
    have h3 : (T : Int) * 1 ≤ (T : Int) * S := Int.mul_le_mul_of_nonneg_left h1 h2
    omega
  rw [iterate_dda_steps O K m (mem_ddaMotors K hK hm) T T s (Nat.le_refl T) hT hdown, hXs,
    ddaCount_exact T S D hS hDT hX _ hinc ha1 ha2]

/-- C1, witness: two steps over four ticks with five substeps, from the accumulator `-7`. -/
theorem C1_dda_emits_exactly_D_steps_witness :
    stepsRaised 1 ((dda_timer_interrupt fracOps (exampleConst 4))^[4]
        (ddaState 4 4 20 10 (-7))).trace
      = stepsRaised 1 (ddaState 4 4 20 10 (-7)).trace + 2 :=
  C1_dda_emits_exactly_D_steps fracOps (exampleConst 4) (ddaState 4 4 20 10 (-7)) 1 4 5 2
    (by decide) (by decide) (by decide) (by decide) (by decide) rfl rfl rfl (by decide)
    (by decide)

/-- C1, counterexample: the claim as stated admits `a0 = -X` and any `X`. With
`T = S = D = 1` and `a0 = -1 = -X` the single tick brings the accumulator to `0`, which is not
`> 0`, so no step is raised instead of one. With `T = D = 1`, `S = 2^31` and `a0 = 0` the sum
`2^31` wraps to `-2^31` in the signed accumulator and again no step is raised. -/
theorem C1_counterexample :
    ((ddaState 4 1 1 1 (-1)).st_run.dda_ticks_downcount = 1
      ∧ (ddaState 4 1 1 1 (-1)).st_run.dda_ticks_X_substeps = 1 * 1
      ∧ ((ddaState 4 1 1 1 (-1)).st_run.mot 0).substep_increment = 1 * 1
      ∧ -(1 * 1) ≤ ((ddaState 4 1 1 1 (-1)).st_run.mot 0).substep_accumulator
      ∧ ((ddaState 4 1 1 1 (-1)).st_run.mot 0).substep_accumulator ≤ 0
      ∧ stepsRaised 0 ((dda_timer_interrupt fracOps (exampleConst 4))^[1]
            (ddaState 4 1 1 1 (-1))).trace
          ≠ stepsRaised 0 (ddaState 4 1 1 1 (-1)).trace + 1)
    ∧ ((ddaState 4 1 2147483648 2147483648 0).st_run.dda_ticks_downcount = 1
      ∧ (ddaState 4 1 2147483648 2147483648 0).st_run.dda_ticks_X_substeps = 1 * 2147483648
      ∧ ((ddaState 4 1 2147483648 2147483648 0).st_run.mot 0).substep_increment
          = 1 * 2147483648
      ∧ -(1 * 2147483648)
          ≤ ((ddaState 4 1 2147483648 2147483648 0).st_run.mot 0).substep_accumulator
      ∧ ((ddaState 4 1 2147483648 2147483648 0).st_run.mot 0).substep_accumulator ≤ 0
      ∧ stepsRaised 0 ((dda_timer_interrupt fracOps (exampleConst 4))^[1]
            (ddaState 4 1 2147483648 2147483648 0)).trace
          ≠ stepsRaised 0 (ddaState 4 1 2147483648 2147483648 0).trace + 1) := by
  decide

/-- C2 (as amended): for a motor `m < MOTORS <= 6` and a run state with
`X = dda_ticks_X_substeps <= 2^31 + 1`, `dda_ticks_downcount != 0`, a (32-bit signed)
accumulator with `-X <= acc <= 0` and `0 <= substep_increment <= X`, the accumulator is again in
`[-X, 0]` after the per-motor clauses of one DDA interrupt, and therefore after the whole
interrupt unless that interrupt ends the segment and its loader call loads a new ALINE block. -/
theorem C2_accumulator_stays_in_range (O : FloatOps F) (K : Const F) (s : Machine F) (m : Nat)
    (hK : K.MOTORS ≤ 6) (hm : m < K.MOTORS)
    (hd : s.st_run.dda_ticks_downcount ≠ 0)
    (hX : s.st_run.dda_ticks_X_substeps ≤ 2147483649)
    (h1 : -s.st_run.dda_ticks_X_substeps ≤ (s.st_run.mot m).substep_accumulator)
    (h2 : (s.st_run.mot m).substep_accumulator ≤ 0)
    (h3 : 0 ≤ (s.st_run.mot m).substep_increment)
    (h4 : (s.st_run.mot m).substep_increment ≤ s.st_run.dda_ticks_X_substeps)
    (hty : -2147483648 ≤ (s.st_run.mot m).substep_accumulator) :
    (-s.st_run.dda_ticks_X_substeps
        ≤ ((ddaTick K (stepEndAll K s)).st_run.mot m).substep_accumulator
      ∧ ((ddaTick K (stepEndAll K s)).st_run.mot m).substep_accumulator ≤ 0)
    ∧ (¬ (toU32 (s.st_run.dda_ticks_downcount - 1) = 0
          ∧ s.st_pre.buffer_state = BufferState.PREP_BUFFER_OWNED_BY_LOADER
          ∧ s.st_pre.block_type = BlockType.BLOCK_TYPE_ALINE) →
        -s.st_run.dda_ticks_X_substeps
          ≤ ((dda_timer_interrupt O K s).st_run.mot m).substep_accumulator
        ∧ ((dda_timer_interrupt O K s).st_run.mot m).substep_accumulator ≤ 0) := by
  have hmot : (ddaTick K (stepEndAll K s)).st_run.mot m
      = ddaStep s.st_run.dda_ticks_X_substeps (s.st_run.mot m) := by
    rw [ddaTick_mot, stepEndAll_st_run, if_pos (mem_ddaMotors K hK hm)]
  have hr := ddaStep_range _ _ hX h1 h2 h3 h4 hty
  refine ⟨by rw [hmot]; exact hr, ?_⟩
  intro hload
  rw [dda_timer_interrupt_busy O K s hd]
  have hdc : (ddaTick K (stepEndAll K s)).st_run.dda_ticks_downcount
      = toU32 (s.st_run.dda_ticks_downcount - 1) := by
    rw [ddaTick_downcount, stepEndAll_st_run]
  have hpre : (ddaTick K (stepEndAll K s)).st_pre = s.st_pre := by
    rw [ddaTick_st_pre, stepEndAll_st_pre]
  split
  · rename_i h0
    by_cases hb : s.st_pre.buffer_state = BufferState.PREP_BUFFER_OWNED_BY_LOADER
    · have ht : (ddaTick K (stepEndAll K s)).st_pre.block_type
          ≠ BlockType.BLOCK_TYPE_ALINE := by
        rw [hpre]; intro ht; exact hload ⟨by rw [← hdc]; exact h0, hb, ht⟩
      rw [(load_move_other O K _ h0 (by rw [hpre]; exact hb) ht).1, hmot]
      exact hr
    · rw [load_move_not_owned O K _ h0 (by rw [hpre]; exact hb)]
      show -s.st_run.dda_ticks_X_substeps
          ≤ ((ddaTick K (stepEndAll K s)).st_run.mot m).substep_accumulator
        ∧ ((ddaTick K (stepEndAll K s)).st_run.mot m).substep_accumulator ≤ 0
      rw [hmot]; exact hr
  · rw [hmot]; exact hr

/-- C2, witness: a mid-segment tick with range 20, accumulator `-7` and increment 10. -/
theorem C2_accumulator_stays_in_range_witness :
    -(20 : Int) ≤ ((dda_timer_interrupt fracOps (exampleConst 4)
        (ddaState 4 4 20 10 (-7))).st_run.mot 1).substep_accumulator
    ∧ ((dda_timer_interrupt fracOps (exampleConst 4)
        (ddaState 4 4 20 10 (-7))).st_run.mot 1).substep_accumulator ≤ 0 :=
  (C2_accumulator_stays_in_range fracOps (exampleConst 4) (ddaState 4 4 20 10 (-7)) 1
    (by decide) (by decide) (by decide) (by decide) (by decide) (by decide) (by decide)
    (by decide) (by decide)).2 (by decide)

/-- C2, counterexample: the claim as stated bounds neither `X` nor what the interrupt does at
the end of a segment. With `X = 2^32 - 1`, accumulator 0 and increment 1 the subtraction wraps
and leaves the accumulator at `2 > 0`. With `X = 10`, accumulator 0 and increment 0 on the last
tick of a segment, the loader called by the interrupt loads the staged block of range 100 with
a direction change and leaves the accumulator at `-100 < -X`. -/
theorem C2_counterexample :
    ((ddaState 4 2 4294967295 1 0).st_run.dda_ticks_downcount ≠ 0
      ∧ -(ddaState 4 2 4294967295 1 0).st_run.dda_ticks_X_substeps
          ≤ ((ddaState 4 2 4294967295 1 0).st_run.mot 0).substep_accumulator
      ∧ ((ddaState 4 2 4294967295 1 0).st_run.mot 0).substep_accumulator ≤ 0
      ∧ 0 ≤ ((ddaState 4 2 4294967295 1 0).st_run.mot 0).substep_increment
      ∧ ((ddaState 4 2 4294967295 1 0).st_run.mot 0).substep_increment
          ≤ (ddaState 4 2 4294967295 1 0).st_run.dda_ticks_X_substeps
      ∧ ((dda_timer_interrupt fracOps (exampleConst 4)
          (ddaState 4 2 4294967295 1 0)).st_run.mot 0).substep_accumulator = 2)
    ∧ ((boundaryState 4).st_run.dda_ticks_downcount ≠ 0
      ∧ -(boundaryState 4).st_run.dda_ticks_X_substeps
          ≤ ((boundaryState 4).st_run.mot 0).substep_accumulator
      ∧ ((boundaryState 4).st_run.mot 0).substep_accumulator ≤ 0
      ∧ 0 ≤ ((boundaryState 4).st_run.mot 0).substep_increment
      ∧ ((boundaryState 4).st_run.mot 0).substep_increment
          ≤ (boundaryState 4).st_run.dda_ticks_X_substeps
      ∧ (boundaryState 4).st_run.dda_ticks_X_substeps = 10
      ∧ ((dda_timer_interrupt fracOps (exampleConst 4)
          (boundaryState 4)).st_run.mot 0).substep_accumulator = -100) := by
  decide

/-- C3, the behaviour the claim describes, for `4 <= MOTORS <= 6`: with a non-zero downcount
the interrupt lowers the step lines, advances each motor `m < MOTORS` by one DDA clause (in
32-bit arithmetic), leaves every slot `>= MOTORS` alone, decrements the downcount and calls the
loader exactly when the new downcount is zero. -/
theorem dda_timer_interrupt_spec (O : FloatOps F) (K : Const F) (s : Machine F)
    (hK4 : 4 ≤ K.MOTORS) (hK6 : K.MOTORS ≤ 6) (hd : s.st_run.dda_ticks_downcount ≠ 0) :
    (∀ m, m < K.MOTORS →
      (ddaTick K (stepEndAll K s)).st_run.mot m
          = ddaStep s.st_run.dda_ticks_X_substeps (s.st_run.mot m)
        ∧ stepsRaised m (ddaTick K (stepEndAll K s)).trace
          = stepsRaised m s.trace
            + (if toI32 ((s.st_run.mot m).substep_accumulator
                + (s.st_run.mot m).substep_increment) > 0 then 1 else 0))
    ∧ (∀ m, K.MOTORS ≤ m →
      (ddaTick K (stepEndAll K s)).st_run.mot m = s.st_run.mot m
        ∧ stepsRaised m (ddaTick K (stepEndAll K s)).trace = stepsRaised m s.trace)
    ∧ (ddaTick K (stepEndAll K s)).st_run.dda_ticks_downcount
        = toU32 (s.st_run.dda_ticks_downcount - 1)
    ∧ dda_timer_interrupt O K s
        = (if (ddaTick K (stepEndAll K s)).st_run.dda_ticks_downcount = 0 then
            _load_move O K (ddaTick K (stepEndAll K s))
          else ddaTick K (stepEndAll K s)) := by
  refine ⟨?_, ?_, ?_, dda_timer_interrupt_busy O K s hd⟩
  · intro m hm
    have hmem := mem_ddaMotors K hK6 hm
    rw [ddaTick_mot, ddaTick_steps, stepEndAll_steps, stepEndAll_st_run, if_pos hmem]
    refine ⟨rfl, ?_⟩
    simp [hmem, ddaFires]
  · intro m hm
    have hmem : m ∉ ddaMotors K := by
      unfold ddaMotors
      by_cases h4 : K.MOTORS > 4 <;> by_cases h5 : K.MOTORS > 5 <;> simp [h4, h5] <;> omega
    rw [ddaTick_mot, ddaTick_steps, stepEndAll_steps, stepEndAll_st_run, if_neg hmem]
    simp [hmem]
  · rw [ddaTick_downcount, stepEndAll_st_run]

/-- C3, the failing configuration: with `MOTORS = 2` the unrolled clause of `MOTOR_3` still
runs. On a state whose slot 2 holds increment 4 and accumulator 0 (range 10) the interrupt
calls `stepStart` on motor 2, raises its step line and rewrites its accumulator to `-6`. -/
theorem C3_dda_touches_slot_beyond_MOTORS :
    (exampleConst 2).MOTORS = 2
    ∧ ((ddaState 2 3 10 4 0).st_run.mot 2).substep_accumulator = 0
    ∧ ((dda_timer_interrupt fracOps (exampleConst 2)
        (ddaState 2 3 10 4 0)).st_run.mot 2).substep_accumulator = -6
    ∧ (dda_timer_interrupt fracOps (exampleConst 2) (ddaState 2 3 10 4 0)).step_pin 2 = true
    ∧ stepsRaised 2 (dda_timer_interrupt fracOps (exampleConst 2) (ddaState 2 3 10 4 0)).trace
        = 1 := by
  decide

/-- C4: with `dda_ticks_downcount == 0` the DDA interrupt lowers the step line of every motor,
stops the DDA timer and returns: the run structure, the prep structure, the dwell timer and the
direction outputs are unchanged, the only calls made are the `stepEnd` calls, so no step line
is raised and the loader is not called. -/
theorem C4_dda_interrupt_when_idle (O : FloatOps F) (K : Const F) (s : Machine F)
    (h : s.st_run.dda_ticks_downcount = 0) :
    (dda_timer_interrupt O K s).st_run = s.st_run
    ∧ (dda_timer_interrupt O K s).st_pre = s.st_pre
    ∧ (dda_timer_interrupt O K s).dda_timer_running = false
    ∧ (dda_timer_interrupt O K s).dwell_timer_running = s.dwell_timer_running
    ∧ (dda_timer_interrupt O K s).dir_pin = s.dir_pin
    ∧ (∀ m, (dda_timer_interrupt O K s).step_pin m
        = if m < K.MOTORS then false else s.step_pin m)
    ∧ (dda_timer_interrupt O K s).trace = s.trace ++ (List.range K.MOTORS).map Event.stepEnd
    ∧ (∀ m, stepsRaised m (dda_timer_interrupt O K s).trace = stepsRaised m s.trace) := by
  have hr : dda_timer_interrupt O K s = { stepEndAll K s with dda_timer_running := false } := by
    unfold dda_timer_interrupt
    simp only [stepEndAll_st_run, h, if_true]
  rw [hr]
  refine ⟨stepEndAll_st_run K s, stepEndAll_st_pre K s, rfl, ?_, ?_, ?_, stepEndAll_trace K s,
    fun m => stepEndAll_steps K s m⟩
  · exact (foldl_stepEnd_flags _ s).2.1
  · exact (foldl_stepEnd_flags _ s).2.2.1
  · intro m; exact stepEndAll_step_pin K s m

/-- C4, witness: the tick after the end of a segment, with the DDA timer still running. -/
theorem C4_dda_interrupt_when_idle_witness :
    (dda_timer_interrupt fracOps (exampleConst 4) (ddaState 4 0 20 10 (-7))).dda_timer_running
      = false :=
  (C4_dda_interrupt_when_idle fracOps (exampleConst 4) (ddaState 4 0 20 10 (-7)) rfl).2.2.1

/-! ## Claims about the loader -/

/-- C7: on an idle runtime (`dda_ticks_downcount == 0`) with `buffer_state ==
OWNED_BY_LOADER`, whatever the block type, `_load_move` leaves `block_type = NULL` and
`buffer_state = OWNED_BY_EXEC`. -/
theorem C7_load_move_releases_buffer (O : FloatOps F) (K : Const F) (s : Machine F)
    (h : s.st_run.dda_ticks_downcount = 0)
    (hb : s.st_pre.buffer_state = BufferState.PREP_BUFFER_OWNED_BY_LOADER) :
    (_load_move O K s).st_pre.block_type = BlockType.BLOCK_TYPE_NULL
    ∧ (_load_move O K s).st_pre.buffer_state = BufferState.PREP_BUFFER_OWNED_BY_EXEC := by
  unfold _load_move st_runtime_isbusy st_request_exec_move
  simp [h, hb, Machine.emit]

/-- C7, witness: a staged block of a type outside the three the loader knows. -/
theorem C7_load_move_releases_buffer_witness :
    (_load_move fracOps (exampleConst 4)
        (stagedState 4 (BlockType.other 9) 5 1)).st_pre.block_type = BlockType.BLOCK_TYPE_NULL
    ∧ (_load_move fracOps (exampleConst 4)
        (stagedState 4 (BlockType.other 9) 5 1)).st_pre.buffer_state
        = BufferState.PREP_BUFFER_OWNED_BY_EXEC :=
  C7_load_move_releases_buffer fracOps (exampleConst 4) (stagedState 4 (BlockType.other 9) 5 1)
    rfl rfl

/-- C8: when the runtime is busy or the prep buffer is not owned by the loader, `_load_move`
changes neither the run nor the prep structure, no timer flag, no step or direction output; a
busy runtime makes it return without any call, and an idle runtime whose buffer the loader does
not own makes it call `motionStopped()` once on every motor and nothing else. -/
theorem C8_load_move_without_load (O : FloatOps F) (K : Const F) (s : Machine F)
    (h : s.st_run.dda_ticks_downcount ≠ 0
      ∨ s.st_pre.buffer_state ≠ BufferState.PREP_BUFFER_OWNED_BY_LOADER) :
    (_load_move O K s).st_run = s.st_run
    ∧ (_load_move O K s).st_pre = s.st_pre
    ∧ (_load_move O K s).dda_timer_running = s.dda_timer_running
    ∧ (_load_move O K s).dwell_timer_running = s.dwell_timer_running
    ∧ (_load_move O K s).step_pin = s.step_pin
    ∧ (_load_move O K s).dir_pin = s.dir_pin
    ∧ (s.st_run.dda_ticks_downcount ≠ 0 → (_load_move O K s).trace = s.trace)
    ∧ (s.st_run.dda_ticks_downcount = 0 →
        (_load_move O K s).trace
          = s.trace ++ (List.range K.MOTORS).map Event.motionStopped) := by
  by_cases h0 : s.st_run.dda_ticks_downcount = 0
  · have hb : s.st_pre.buffer_state ≠ BufferState.PREP_BUFFER_OWNED_BY_LOADER := by
      rcases h with h | h
      · exact absurd h0 h
      · exact h
    rw [load_move_not_owned O K s h0 hb]
    exact ⟨rfl, rfl, rfl, rfl, rfl, rfl, fun hne => absurd h0 hne, fun _ => rfl⟩
  · rw [load_move_busy O K s h0]
    exact ⟨rfl, rfl, rfl, rfl, rfl, rfl, fun _ => rfl, fun h1 => absurd h1 h0⟩

/-- C8, witness: a load requested in the middle of a segment. -/
theorem C8_load_move_without_load_witness :
    (_load_move fracOps (exampleConst 4) (ddaState 4 4 20 10 (-7))).trace
      = (ddaState 4 4 20 10 (-7)).trace :=
  (C8_load_move_without_load fracOps (exampleConst 4) (ddaState 4 4 20 10 (-7))
    (Or.inl (by decide))).2.2.2.2.2.2.1 (by decide)

/-- C9: when `_load_move` loads an ALINE block, for every motor `m < MOTORS` with a non-zero
prep `substep_increment`, writing `X` for the newly loaded `dda_ticks_X_substeps` and `a` for
the run accumulator after the time-base correction (if flagged): if the prep direction differs
from `prev_direction`, the run accumulator becomes `-(X + a)` (as a signed 32-bit value, hence
exactly `-(X + a)` whenever that is representable), `prev_direction` becomes the direction, the
direction output is driven to it and `setDirection(direction)` is called; if they are equal the
accumulator is `a`, the direction output is as before and no `setDirection` call is made on
that motor. -/
theorem C9_load_move_direction_change (O : FloatOps F) (K : Const F) (s : Machine F) (m : Nat)
    (h : s.st_run.dda_ticks_downcount = 0)
    (hb : s.st_pre.buffer_state = BufferState.PREP_BUFFER_OWNED_BY_LOADER)
    (ht : s.st_pre.block_type = BlockType.BLOCK_TYPE_ALINE)
    (hm : m < K.MOTORS) (hinc : (s.st_pre.mot m).substep_increment ≠ 0) :
    (_load_move O K s).st_run.dda_ticks_X_substeps = s.st_pre.dda_ticks_X_substeps
    ∧ ((s.st_pre.mot m).direction ≠ (s.st_pre.mot m).prev_direction →
        ((_load_move O K s).st_run.mot m).substep_accumulator
            = toI32 (-(s.st_pre.dda_ticks_X_substeps
                + correctedAcc O (s.st_pre.mot m) (s.st_run.mot m)))
        ∧ (-2147483648 ≤ -(s.st_pre.dda_ticks_X_substeps
                + correctedAcc O (s.st_pre.mot m) (s.st_run.mot m))
            ∧ -(s.st_pre.dda_ticks_X_substeps
                + correctedAcc O (s.st_pre.mot m) (s.st_run.mot m)) < 2147483648 →
          ((_load_move O K s).st_run.mot m).substep_accumulator
            = -(s.st_pre.dda_ticks_X_substeps
                + correctedAcc O (s.st_pre.mot m) (s.st_run.mot m)))
        ∧ ((_load_move O K s).st_pre.mot m).prev_direction = (s.st_pre.mot m).direction
        ∧ (_load_move O K s).dir_pin m = (s.st_pre.mot m).direction
        ∧ ∃ ext, (_load_move O K s).trace = s.trace ++ ext
            ∧ Event.setDirection m (s.st_pre.mot m).direction ∈ ext)
    ∧ ((s.st_pre.mot m).direction = (s.st_pre.mot m).prev_direction →
        ((_load_move O K s).st_run.mot m).substep_accumulator
            = correctedAcc O (s.st_pre.mot m) (s.st_run.mot m)
        ∧ ((_load_move O K s).st_pre.mot m).prev_direction = (s.st_pre.mot m).prev_direction
        ∧ (_load_move O K s).dir_pin m = s.dir_pin m
        ∧ ∃ ext, (_load_move O K s).trace = s.trace ++ ext
            ∧ ∀ d, Event.setDirection m d ∉ ext) := by
  obtain ⟨hrun, hpre, hdir⟩ := loadAline_slots O K s m
  rw [if_pos hm] at hrun hpre hdir
  have htr := (loadAline_fields O K s).2.2.2.2.2.2
  have hX := (loadAline_fields O K s).2.1
  rw [load_move_aline O K s h hb ht]
  simp only [Machine.emit]
  rw [hrun, hpre, hdir, htr, hX]
  refine ⟨rfl, ?_, ?_⟩
  · intro hne
    have hacc : (loadRun O s.st_pre.dda_ticks_X_substeps (s.st_pre.mot m)
        (s.st_run.mot m)).substep_accumulator
        = toI32 (-(s.st_pre.dda_ticks_X_substeps
            + correctedAcc O (s.st_pre.mot m) (s.st_run.mot m))) := by
      unfold loadRun; rw [if_pos hinc]; simp only []; rw [if_pos hne]
    refine ⟨hacc, ?_, ?_, ?_, ?_⟩
    · intro hr; rw [hacc]; exact toI32_eq_self hr.1 hr.2
    · unfold loadPre; rw [if_pos hinc]
    · unfold loadDir; rw [if_pos ⟨hinc, hne⟩]
    · refine ⟨loadEventsAll s.st_pre.mot (List.range K.MOTORS)
        ++ [Event.exec_setInterruptPending], by rw [List.append_assoc], ?_⟩
      apply List.mem_append_left
      apply loadEventsAll_mem _ _ m (List.mem_range.mpr hm)
      unfold loadEvents
      rw [if_pos hinc, if_pos hne]
      simp
  · intro heq
    refine ⟨?_, ?_, ?_, ?_⟩
    · unfold loadRun; rw [if_pos hinc]; simp only []; rw [if_neg (not_not.mpr heq)]
    · unfold loadPre; rw [if_pos hinc]; exact heq
    · unfold loadDir; rw [if_neg (fun hc => hc.2 heq)]
    · refine ⟨loadEventsAll s.st_pre.mot (List.range K.MOTORS)
        ++ [Event.exec_setInterruptPending], by rw [List.append_assoc], ?_⟩
      intro d hd
      rcases List.mem_append.mp hd with hd | hd
      · obtain ⟨j, _, hje⟩ := mem_loadEventsAll _ _ _ hd
        have hjm : j = m := by
          have := loadEvents_motor _ _ _ hje
          simpa [Event.motor?] using this.symm
        subst hjm
        unfold loadEvents at hje
        rw [if_pos hinc, if_neg (not_not.mpr heq)] at hje
        simp at hje
      · simp at hd

/-- C9, witness: a staged ALINE block that reverses motor 1 (direction 1 after 0) on a run
accumulator of `-7` with new range 20: the accumulator becomes `-(20 + (-7)) = -13`. -/
theorem C9_load_move_direction_change_witness :
    ((_load_move fracOps (exampleConst 4)
        (stagedState 4 BlockType.BLOCK_TYPE_ALINE 5 1)).st_run.mot 1).substep_accumulator
      = -(20 + (-7)) :=
  ((C9_load_move_direction_change fracOps (exampleConst 4)
    (stagedState 4 BlockType.BLOCK_TYPE_ALINE 5 1) 1 rfl rfl rfl (by decide) (by decide)).2.1
    (by decide)).2.1 (by decide)

/-- C10: when `_load_move` loads an ALINE block, for every motor `m < MOTORS` whose prep
`substep_increment` is 0: the run `substep_increment` becomes 0; the run accumulator, the whole
prep slot (direction, `prev_direction`, correction flag included) and the direction output are
unchanged; `motionStopped()` is called on it and neither `setDirection` nor `enable` is; and,
the accumulator being a signed 32-bit value `<= 0`, none of the DDA ticks of the loaded segment
calls `stepStart` on it. -/
theorem C10_load_move_idle_motor (O : FloatOps F) (K : Const F) (s : Machine F) (m : Nat)
    (h : s.st_run.dda_ticks_downcount = 0)
    (hb : s.st_pre.buffer_state = BufferState.PREP_BUFFER_OWNED_BY_LOADER)
    (ht : s.st_pre.block_type = BlockType.BLOCK_TYPE_ALINE)
    (hm : m < K.MOTORS) (hinc : (s.st_pre.mot m).substep_increment = 0) :
    ((_load_move O K s).st_run.mot m).substep_increment = 0
    ∧ ((_load_move O K s).st_run.mot m).substep_accumulator
        = (s.st_run.mot m).substep_accumulator
    ∧ (_load_move O K s).st_pre.mot m = s.st_pre.mot m
    ∧ (_load_move O K s).dir_pin m = s.dir_pin m
    ∧ (∃ ext, (_load_move O K s).trace = s.trace ++ ext
        ∧ Event.motionStopped m ∈ ext
        ∧ (∀ d, Event.setDirection m d ∉ ext)
        ∧ Event.enable m ∉ ext)
    ∧ (∀ T k : Nat, K.MOTORS ≤ 6 → s.st_pre.dda_ticks = (T : Int) → T < 4294967296 → k ≤ T →
        (s.st_run.mot m).substep_accumulator ≤ 0 →
        -2147483648 ≤ (s.st_run.mot m).substep_accumulator →
        stepsRaised m ((dda_timer_interrupt O K)^[k] (_load_move O K s)).trace
          = stepsRaised m (_load_move O K s).trace) := by
  obtain ⟨hrun, hpre, hdir⟩ := loadAline_slots O K s m
  rw [if_pos hm] at hrun hpre hdir
  have htr := (loadAline_fields O K s).2.2.2.2.2.2
  have hrunm : (_load_move O K s).st_run.mot m
      = { s.st_run.mot m with substep_increment := 0 } := by
    rw [load_move_aline O K s h hb ht]
    simp only [Machine.emit]
    rw [hrun]; unfold loadRun; rw [if_neg (not_not.mpr hinc), hinc]
  have hevents : loadEvents m (s.st_pre.mot m)
      = [Event.motionStopped m, Event.ACCUMULATE_ENCODER m] := by
    unfold loadEvents; rw [if_neg (not_not.mpr hinc)]; rfl
  refine ⟨by rw [hrunm], by rw [hrunm], ?_, ?_, ?_, ?_⟩
  · rw [load_move_aline O K s h hb ht]
    simp only [Machine.emit]
    rw [hpre]; unfold loadPre; rw [if_neg (not_not.mpr hinc)]
  · rw [load_move_aline O K s h hb ht]
    simp only [Machine.emit]
    rw [hdir]; unfold loadDir; rw [if_neg (fun hc => hc.1 hinc)]
  · refine ⟨loadEventsAll s.st_pre.mot (List.range K.MOTORS)
      ++ [Event.exec_setInterruptPending], ?_, ?_, ?_, ?_⟩
    · rw [load_move_aline O K s h hb ht]
      simp only [Machine.emit]
      rw [htr, List.append_assoc]
    · apply List.mem_append_left
      apply loadEventsAll_mem _ _ m (List.mem_range.mpr hm)
      rw [hevents]; simp
    · intro d hd
      rcases List.mem_append.mp hd with hd | hd
      · obtain ⟨j, _, hje⟩ := mem_loadEventsAll _ _ _ hd
        have hjm : j = m := by
          have := loadEvents_motor _ _ _ hje
          simpa [Event.motor?] using this.symm
        subst hjm
        rw [hevents] at hje
        simp at hje
      · simp at hd
    · intro hd
      rcases List.mem_append.mp hd with hd | hd
      · obtain ⟨j, _, hje⟩ := mem_loadEventsAll _ _ _ hd
        have hjm : j = m := by
          have := loadEvents_motor _ _ _ hje
          simpa [Event.motor?] using this.symm
        subst hjm
        rw [hevents] at hje
        simp at hje
      · simp at hd
  · intro T k hK hT hT32 hk ha1 ha2
    have hdown : (_load_move O K s).st_run.dda_ticks_downcount = (T : Int) := by
      rw [load_move_aline O K s h hb ht]
      simp only [Machine.emit]
      rw [(loadAline_fields O K s).1, hT]
    rw [iterate_dda_steps O K m (mem_ddaMotors K hK hm) k T _ hk hT32 hdown, hrunm,
      ddaCount_idle _ k { s.st_run.mot m with substep_increment := 0 } rfl ha1 ha2]
    rfl

/-- C10, witness: a staged ALINE block of 4 ticks in which motor 1 has no steps; its run
accumulator is `-7`, and the 4 ticks of the segment raise no step on it. -/
theorem C10_load_move_idle_motor_witness :
    stepsRaised 1 ((dda_timer_interrupt fracOps (exampleConst 4))^[4]
        (_load_move fracOps (exampleConst 4)
          (stagedState 4 BlockType.BLOCK_TYPE_ALINE 0 1))).trace
      = stepsRaised 1 (_load_move fracOps (exampleConst 4)
          (stagedState 4 BlockType.BLOCK_TYPE_ALINE 0 1)).trace :=
  (C10_load_move_idle_motor fracOps (exampleConst 4)
    (stagedState 4 BlockType.BLOCK_TYPE_ALINE 0 1) 1 rfl rfl rfl (by decide) rfl).2.2.2.2.2
    4 4 (by decide) rfl (by decide) (by decide) (by decide) (by decide)

/-! ## Frame lemmas for the prep functions and `stepper_reset` -/

theorem prepLineMotor_setPreMot (O : FloatOps F) (K : Const F) (fe : Nat → F) (time : F)
    (st : Machine F × (Nat → F)) (m : Nat) :
    ∃ p : stPrepMotor F, (prepLineMotor O K fe time st m).1 = st.1.setPreMot m p
      ∧ p.prev_direction = (st.1.st_pre.mot m).prev_direction := by
  unfold prepLineMotor
  simp only []
  split
  · exact ⟨_, rfl, rfl⟩
  · refine ⟨_, rfl, ?_⟩
    split_ifs <;> rfl

theorem foldl_prepLineMotor_frame (O : FloatOps F) (K : Const F) (fe : Nat → F) (time : F)
    (l : List Nat) (st : Machine F × (Nat → F)) :
    (l.foldl (prepLineMotor O K fe time) st).1.st_run = st.1.st_run
    ∧ (l.foldl (prepLineMotor O K fe time) st).1.dda_timer_running = st.1.dda_timer_running
    ∧ (l.foldl (prepLineMotor O K fe time) st).1.dwell_timer_running
        = st.1.dwell_timer_running
    ∧ (l.foldl (prepLineMotor O K fe time) st).1.dir_pin = st.1.dir_pin
    ∧ (∀ j, ((l.foldl (prepLineMotor O K fe time) st).1.st_pre.mot j).prev_direction
        = (st.1.st_pre.mot j).prev_direction) := by
  induction l generalizing st with
  | nil => exact ⟨rfl, rfl, rfl, rfl, fun _ => rfl⟩
  | cons a l ih =>
    rw [List.foldl_cons]
    obtain ⟨h1, h2, h3, h4, h5⟩ := ih (prepLineMotor O K fe time st a)
    obtain ⟨p, hp, hpd⟩ := prepLineMotor_setPreMot O K fe time st a
    rw [h1, h2, h3, h4, hp]
    refine ⟨rfl, rfl, rfl, rfl, ?_⟩
    intro j
    rw [h5 j, hp]
    simp only [Machine.setPreMot, setAt]
    split_ifs with hj
    · rw [hpd, hj]
    · rfl

theorem st_prep_line_frame (O : FloatOps F) (K : Const F) (s : Machine F)
    (travel_steps fe : Nat → F) (time : F) :
    (st_prep_line O K s travel_steps fe time).2.1.st_run = s.st_run
    ∧ (st_prep_line O K s travel_steps fe time).2.1.dda_timer_running = s.dda_timer_running
    ∧ (st_prep_line O K s travel_steps fe time).2.1.dwell_timer_running
        = s.dwell_timer_running
    ∧ (st_prep_line O K s travel_steps fe time).2.1.dir_pin = s.dir_pin
    ∧ (∀ j, ((st_prep_line O K s travel_steps fe time).2.1.st_pre.mot j).prev_direction
        = (s.st_pre.mot j).prev_direction) := by
  unfold st_prep_line
  split_ifs
  · exact ⟨rfl, rfl, rfl, rfl, fun _ => rfl⟩
  · exact ⟨rfl, rfl, rfl, rfl, fun _ => rfl⟩
  · exact ⟨rfl, rfl, rfl, rfl, fun _ => rfl⟩
  · exact ⟨rfl, rfl, rfl, rfl, fun _ => rfl⟩
  · simp only []
    exact foldl_prepLineMotor_frame O K fe time _ _

theorem foldl_resetMotor_frame (O : FloatOps F) (K : Const F) (l : List Nat) (s : Machine F) :
    (l.foldl (resetMotor O K) s).st_run.dda_ticks_downcount = s.st_run.dda_ticks_downcount
    ∧ (l.foldl (resetMotor O K) s).dda_timer_running = s.dda_timer_running
    ∧ (l.foldl (resetMotor O K) s).dwell_timer_running = s.dwell_timer_running
    ∧ (l.foldl (resetMotor O K) s).dir_pin = s.dir_pin
    ∧ (l.foldl (resetMotor O K) s).st_pre.buffer_state = s.st_pre.buffer_state := by
  induction l generalizing s with
  | nil => exact ⟨rfl, rfl, rfl, rfl, rfl⟩
  | cons a l ih =>
    rw [List.foldl_cons]
    obtain ⟨h1, h2, h3, h4, h5⟩ := ih (resetMotor O K s a)
    rw [h1, h2, h3, h4, h5]
    exact ⟨rfl, rfl, rfl, rfl, rfl⟩

theorem foldl_resetMotor_slots (O : FloatOps F) (K : Const F) (l : List Nat) (s : Machine F)
    (j : Nat) (hj : j ∈ l) :
    ((l.foldl (resetMotor O K) s).st_pre.mot j).prev_direction = K.STEP_INITIAL_DIRECTION
    ∧ ((l.foldl (resetMotor O K) s).st_pre.mot j).direction = K.STEP_INITIAL_DIRECTION
    ∧ ((l.foldl (resetMotor O K) s).st_run.mot j).substep_accumulator = 0 := by
  induction l using List.reverseRecOn with
  | nil => simp at hj
  | append_singleton l a ih =>
    rw [List.foldl_append, List.foldl_cons, List.foldl_nil]
    by_cases hja : j = a
    · subst hja
      simp [resetMotor, Machine.setPreMot, Machine.setRunMot]
    · have hjl : j ∈ l := by
        rcases List.mem_append.mp hj with h | h
        · exact h
        · simp at h; exact absurd h hja
      obtain ⟨h1, h2, h3⟩ := ih hjl
      simp [resetMotor, Machine.setPreMot, Machine.setRunMot, setAt, hja, h1, h2, h3]

theorem stepper_reset_fields (O : FloatOps F) (K : Const F) (s : Machine F) :
    (stepper_reset O K s).st_run.dda_ticks_downcount = 0
    ∧ (stepper_reset O K s).dda_timer_running = false
    ∧ (stepper_reset O K s).dwell_timer_running = false
    ∧ (stepper_reset O K s).dir_pin = s.dir_pin
    ∧ (stepper_reset O K s).st_pre.buffer_state = BufferState.PREP_BUFFER_OWNED_BY_EXEC
    ∧ (∀ j, j < K.MOTORS →
        ((stepper_reset O K s).st_pre.mot j).prev_direction = K.STEP_INITIAL_DIRECTION
        ∧ ((stepper_reset O K s).st_pre.mot j).direction = K.STEP_INITIAL_DIRECTION
        ∧ ((stepper_reset O K s).st_run.mot j).substep_accumulator = 0) := by
  unfold stepper_reset
  simp only [Machine.emit]
  refine ⟨?_, ?_, ?_, ?_, ?_, ?_⟩
  · exact (foldl_resetMotor_frame O K _ _).1
  · exact (foldl_resetMotor_frame O K _ _).2.1
  · exact (foldl_resetMotor_frame O K _ _).2.2.1
  · exact (foldl_resetMotor_frame O K _ _).2.2.2.1
  · exact (foldl_resetMotor_frame O K _ _).2.2.2.2
  · intro j hj
    exact foldl_resetMotor_slots O K _ _ j (List.mem_range.mpr hj)

/-! ## Busy flag and timers -/

theorem load_move_timerInv (O : FloatOps F) (K : Const F) (s : Machine F) (h : TimerInv s) :
    TimerInv (_load_move O K s) := by
  by_cases h0 : s.st_run.dda_ticks_downcount = 0
  · by_cases hb : s.st_pre.buffer_state = BufferState.PREP_BUFFER_OWNED_BY_LOADER
    · by_cases ht : s.st_pre.block_type = BlockType.BLOCK_TYPE_ALINE
      · rw [load_move_aline O K s h0 hb ht]
        intro _
        exact Or.inl (loadAline_fields O K s).2.2.1
      · unfold _load_move st_runtime_isbusy st_request_exec_move TimerInv
        simp only [h0, ne_eq, not_true_eq_false, decide_False, Bool.false_eq_true, if_false, hb,
          if_neg ht, if_true, Machine.emit]
        split_ifs <;> simp_all
    · rw [load_move_not_owned O K s h0 hb]
      intro hne
      exact absurd h0 hne
  · rw [load_move_busy O K s h0]; exact h

theorem ddaTick_flags (K : Const F) (s : Machine F) :
    (ddaTick K s).dda_timer_running = s.dda_timer_running
    ∧ (ddaTick K s).dwell_timer_running = s.dwell_timer_running
    ∧ (ddaTick K s).dir_pin = s.dir_pin := by
  unfold ddaTick
  simp only []
  generalize ddaMotors K = l
  induction l generalizing s with
  | nil => exact ⟨rfl, rfl, rfl⟩
  | cons a l ih =>
    rw [List.foldl_cons]
    obtain ⟨h1, h2, h3⟩ := ih (ddaMotor s a)
    rw [h1, h2, h3]
    unfold ddaMotor
    simp only [Machine.setRunMot, Machine.emit]
    split_ifs <;> exact ⟨rfl, rfl, rfl⟩

theorem dda_timer_interrupt_timerInv (O : FloatOps F) (K : Const F) (s : Machine F)
    (h : TimerInv s) : TimerInv (dda_timer_interrupt O K s) := by
  by_cases h0 : s.st_run.dda_ticks_downcount = 0
  · intro hne
    unfold dda_timer_interrupt at hne
    simp only [stepEndAll_st_run, h0, if_true] at hne
    exact absurd rfl hne
  · rw [dda_timer_interrupt_busy O K s h0]
    have hT : TimerInv (ddaTick K (stepEndAll K s)) := by
      intro _
      rw [(ddaTick_flags K _).1, (ddaTick_flags K _).2.1]
      unfold stepEndAll
      rw [(foldl_stepEnd_flags _ s).1, (foldl_stepEnd_flags _ s).2.1]
      exact h h0
    split
    · exact load_move_timerInv O K _ hT
    · exact hT

theorem dwell_timer_interrupt_timerInv (O : FloatOps F) (K : Const F) (s : Machine F)
    (hrun : s.dwell_timer_running = true) : TimerInv (dwell_timer_interrupt O K s) := by
  unfold dwell_timer_interrupt
  simp only []
  split
  · rename_i h0
    apply load_move_timerInv
    intro hne
    exact absurd h0 hne
  · intro _
    exact Or.inr hrun

/-- A busy runtime always has a timer running, in every reachable state. -/
theorem reachable_timerInv (O : FloatOps F) (K : Const F) (s : Machine F)
    (h : Reachable O K s) : TimerInv s := by
  induction h with
  | reset s =>
    intro hne
    exact absurd (stepper_reset_fields O K s).1 hne
  | prep_line s tr fe time _ ih =>
    obtain ⟨h1, h2, h3, _, _⟩ := st_prep_line_frame O K s tr fe time
    unfold TimerInv
    rw [h1, h2, h3]; exact ih
  | prep_dwell s us _ ih => exact ih
  | prep_null s _ ih => exact ih
  | prep_command s bf _ ih => exact ih
  | exec_flip s _ ih =>
    unfold execFlip st_request_load_move
    split_ifs <;> exact ih
  | load s _ ih => exact load_move_timerInv O K s ih
  | dda s _ _ ih => exact dda_timer_interrupt_timerInv O K s ih
  | dwell s _ hrun _ => exact dwell_timer_interrupt_timerInv O K s hrun

/-- C5 (as amended): in every state reachable from `stepper_reset` through the prep functions,
the exec flip, `_load_move`, DDA interrupts and dwell interrupts, if both the DDA timer and the
dwell timer are stopped then `st_runtime_isbusy()` returns false. (The converse is not
claimed.) -/
theorem C5_timers_stopped_implies_not_busy (O : FloatOps F) (K : Const F) (s : Machine F)
    (h : Reachable O K s)
    (hstop : s.dda_timer_running = false ∧ s.dwell_timer_running = false) :
    st_runtime_isbusy s = false := by
  unfold st_runtime_isbusy
  by_contra hb
  have hne : s.st_run.dda_ticks_downcount ≠ 0 := by
    simpa using hb
  rcases reachable_timerInv O K s h hne with h1 | h1
  · rw [hstop.1] at h1; exact Bool.noConfusion h1
  · rw [hstop.2] at h1; exact Bool.noConfusion h1

/-- C5, witness: the state left by `stepper_reset`. -/
theorem C5_timers_stopped_implies_not_busy_witness :
    st_runtime_isbusy (stepper_reset fracOps (exampleConst 4) (ddaState 4 4 20 10 (-7)))
      = false :=
  C5_timers_stopped_implies_not_busy fracOps (exampleConst 4)
    (stepper_reset fracOps (exampleConst 4) (ddaState 4 4 20 10 (-7)))
    (Reachable.reset _) (by decide)

theorem reachable_iterate_dda (O : FloatOps F) (K : Const F) (k : Nat) :
    ∀ (n : Nat) (s : Machine F), Reachable O K s → s.dda_timer_running = true →
      s.st_run.dda_ticks_downcount = (n : Int) → n < 4294967296 → k ≤ n →
      Reachable O K ((dda_timer_interrupt O K)^[k] s) := by
  induction k with
  | zero => intro n s hR _ _ _ _; exact hR
  | succ k ih =>
    intro n s hR hrun hd hn hk
    rw [Function.iterate_succ_apply]
    have hR1 := Reachable.dda s hR hrun
    by_cases hk0 : k = 0
    · subst hk0; exact hR1
    · have hne : s.st_run.dda_ticks_downcount ≠ 0 := by rw [hd]; omega
      have hdc : (ddaTick K (stepEndAll K s)).st_run.dda_ticks_downcount
          = ((n - 1 : Nat) : Int) := by
        rw [ddaTick_downcount, stepEndAll_st_run, hd]
        unfold toU32; omega
      have hstep : dda_timer_interrupt O K s = ddaTick K (stepEndAll K s) := by
        rw [dda_timer_interrupt_busy O K s hne, if_neg]
        rw [hdc]; omega
      rw [hstep] at hR1 ⊢
      refine ih (n - 1) _ hR1 ?_ hdc (by omega) (by omega)
      rw [(ddaTick_flags K _).1]
      unfold stepEndAll
      rw [(foldl_stepEnd_flags _ s).1]
      exact hrun

/-- C5, counterexample: after `stepper_init`, one segment of 120 DDA ticks is prepared, loaded
and run. Right after its last tick the state is reachable, `st_runtime_isbusy()` is false, and
the DDA timer is still running: it is stopped only by the next DDA interrupt. -/
theorem C5_counterexample :
    Reachable fracOps (exampleConst 4) (segmentDone 4)
    ∧ st_runtime_isbusy (segmentDone 4) = false
    ∧ (segmentDone 4).dda_timer_running = true
    ∧ ¬ (st_runtime_isbusy (segmentDone 4) = false
          ↔ ((segmentDone 4).dda_timer_running = false
              ∧ (segmentDone 4).dwell_timer_running = false)) := by
  refine ⟨?_, by decide, by decide, by decide⟩
  unfold segmentDone
  refine reachable_iterate_dda fracOps (exampleConst 4) 120 120 _ ?_ (by decide) (by decide)
    (by decide) (by decide)
  unfold segmentLoaded initState stepper_init
  exact Reachable.load _ (Reachable.prep_line _ _ _ _ (Reachable.reset _))

/-! ## Direction outputs -/

theorem load_move_dirInv (O : FloatOps F) (K : Const F) (s : Machine F) (h : DirInv K s) :
    DirInv K (_load_move O K s) := by
  by_cases h0 : s.st_run.dda_ticks_downcount = 0
  · by_cases hb : s.st_pre.buffer_state = BufferState.PREP_BUFFER_OWNED_BY_LOADER
    · by_cases ht : s.st_pre.block_type = BlockType.BLOCK_TYPE_ALINE
      · rw [load_move_aline O K s h0 hb ht]
        intro m hm
        simp only [Machine.emit]
        obtain ⟨_, hpre, hdir⟩ := loadAline_slots O K s m
        rw [hpre, hdir, if_pos hm, if_pos hm]
        unfold loadPre loadDir
        have hm0 := h m hm
        split_ifs <;> simp_all
      · obtain ⟨_, _, hpre, hdir, _, _⟩ := load_move_other O K s h0 hb ht
        intro m hm
        rw [hpre, hdir]; exact h m hm
    · rw [load_move_not_owned O K s h0 hb]; exact h
  · rw [load_move_busy O K s h0]; exact h

theorem dda_timer_interrupt_dirInv (O : FloatOps F) (K : Const F) (s : Machine F)
    (h : DirInv K s) : DirInv K (dda_timer_interrupt O K s) := by
  have hT : DirInv K (ddaTick K (stepEndAll K s)) := by
    intro m hm
    rw [(ddaTick_flags K _).2.2, ddaTick_st_pre, stepEndAll_st_pre]
    unfold stepEndAll
    rw [(foldl_stepEnd_flags _ s).2.2.1]
    exact h m hm
  by_cases h0 : s.st_run.dda_ticks_downcount = 0
  · unfold dda_timer_interrupt
    simp only [stepEndAll_st_run, h0, if_true]
    intro m hm
    show (stepEndAll K s).dir_pin m = ((stepEndAll K s).st_pre.mot m).prev_direction
    rw [stepEndAll_st_pre]
    unfold stepEndAll
    rw [(foldl_stepEnd_flags _ s).2.2.1]
    exact h m hm
  · rw [dda_timer_interrupt_busy O K s h0]
    split
    · exact load_move_dirInv O K _ hT
    · exact hT

/-- Without a later `stepper_reset`, every motor's direction output carries its
`prev_direction` in every state reachable from `stepper_init`. -/
theorem direction_tracks_prev_direction_without_reset (O : FloatOps F) (K : Const F)
    (s : Machine F) (h : ReachableWithoutReset O K s) : DirInv K s := by
  induction h with
  | init s hs =>
    intro m hm
    unfold stepper_init
    simp only []
    rw [((stepper_reset_fields O K _).2.2.2.2.2 m hm).1, (stepper_reset_fields O K _).2.2.2.1]
    exact hs m
  | prep_line s tr fe time _ ih =>
    obtain ⟨_, _, _, h4, h5⟩ := st_prep_line_frame O K s tr fe time
    intro m hm
    rw [h4, h5 m]; exact ih m hm
  | load s _ ih => exact load_move_dirInv O K s ih
  | dda s _ ih => exact dda_timer_interrupt_dirInv O K s ih

/-- C6, the failing sequence: `stepper_init`; a segment moving motor 0 in the negative
direction is prepared and loaded, which drives its direction output to 1 (CCW);
`stepper_reset` then rewrites `prev_direction` to `STEP_INITIAL_DIRECTION = 0` without calling
`setDirection`, so the output (1) and `prev_direction` (0) differ. A following segment in the
positive direction is then loaded without any `setDirection` call: the motor is stepped with
its direction output still at 1 while the staged direction is 0. -/
theorem C6_reset_desynchronises_direction :
    (exampleConst 4).STEP_INITIAL_DIRECTION = 0
    ∧ (∀ m, (powerOn fracOps (exampleConst 4)).dir_pin m
        = (exampleConst 4).STEP_INITIAL_DIRECTION)
    ∧ (segmentLoaded 4 (initState 4) { num := -1, den := 1 }).dir_pin 0 = 1
    ∧ (reversedThenReset 4).dir_pin 0 = 1
    ∧ ((reversedThenReset 4).st_pre.mot 0).prev_direction = 0
    ∧ ((segmentLoaded 4 (reversedThenReset 4) { num := 1, den := 1 }).st_pre.mot 0).direction
        = 0
    ∧ ((segmentLoaded 4 (reversedThenReset 4) { num := 1, den := 1 }).st_run.mot 0
        ).substep_increment = 100000
    ∧ (segmentLoaded 4 (reversedThenReset 4) { num := 1, den := 1 }).dir_pin 0 = 1
    ∧ (∀ d, d < 2 → Event.setDirection 0 d
        ∉ ((segmentLoaded 4 (reversedThenReset 4) { num := 1, den := 1 }).trace.drop
            (reversedThenReset 4).trace.length)) := by
  refine ⟨rfl, fun _ => rfl, ?_, ?_, ?_, ?_, ?_, ?_, ?_⟩ <;> decide

/-! ## The per-motor loop of `st_prep_line` -/

theorem setAt_self {α : Type} (f : Nat → α) (i : Nat) : setAt f i (f i) = f := by
  funext j
  unfold setAt
  split_ifs with h
  · rw [h]
  · rfl

/-- The loop body of `st_prep_line` rewrites the prep slot and the travel entry of its motor
from that motor's own data only. -/
theorem prepLineMotor_eq (O : FloatOps F) (K : Const F) (fe : Nat → F) (time : F)
    (st : Machine F × (Nat → F)) (m : Nat) :
    prepLineMotor O K fe time st m
      = (st.1.setPreMot m
          (prepSlot O K (fe m) time (st.1.polarity m) (st.1.st_pre.mot m) (st.2 m)).1,
         setAt st.2 m
          (prepSlot O K (fe m) time (st.1.polarity m) (st.1.st_pre.mot m) (st.2 m)).2) := by
  unfold prepLineMotor prepSlot
  simp only []
  split_ifs <;> simp [setAt_self]

theorem foldl_prepLineMotor_slots (O : FloatOps F) (K : Const F) (fe : Nat → F) (time : F)
    (l : List Nat) (hl : l.Nodup) (st : Machine F × (Nat → F)) (j : Nat) :
    (l.foldl (prepLineMotor O K fe time) st).1.st_pre.mot j
        = (if j ∈ l then
            (prepSlot O K (fe j) time (st.1.polarity j) (st.1.st_pre.mot j) (st.2 j)).1
          else st.1.st_pre.mot j)
    ∧ (l.foldl (prepLineMotor O K fe time) st).2 j
        = (if j ∈ l then
            (prepSlot O K (fe j) time (st.1.polarity j) (st.1.st_pre.mot j) (st.2 j)).2
          else st.2 j) := by
  induction l generalizing st with
  | nil => simp
  | cons a l ih =>
    rw [List.nodup_cons] at hl
    rw [List.foldl_cons]
    obtain ⟨h1, h2⟩ := ih hl.2 (prepLineMotor O K fe time st a)
    rw [h1, h2, prepLineMotor_eq]
    by_cases hja : j = a
    · subst hja
      simp [hl.1, Machine.setPreMot]
    · have haj : a ≠ j := fun h => hja h.symm
      simp [hja, Machine.setPreMot, setAt]

theorem foldl_prepLineMotor_header (O : FloatOps F) (K : Const F) (fe : Nat → F) (time : F)
    (l : List Nat) (st : Machine F × (Nat → F)) :
    (l.foldl (prepLineMotor O K fe time) st).1.st_pre.block_type = st.1.st_pre.block_type
    ∧ (l.foldl (prepLineMotor O K fe time) st).1.st_pre.buffer_state
        = st.1.st_pre.buffer_state
    ∧ (l.foldl (prepLineMotor O K fe time) st).1.st_pre.bf = st.1.st_pre.bf
    ∧ (l.foldl (prepLineMotor O K fe time) st).1.st_pre.dda_period = st.1.st_pre.dda_period
    ∧ (l.foldl (prepLineMotor O K fe time) st).1.st_pre.dda_ticks = st.1.st_pre.dda_ticks
    ∧ (l.foldl (prepLineMotor O K fe time) st).1.st_pre.dda_ticks_X_substeps
        = st.1.st_pre.dda_ticks_X_substeps
    ∧ (l.foldl (prepLineMotor O K fe time) st).1.polarity = st.1.polarity
    ∧ (l.foldl (prepLineMotor O K fe time) st).1.step_pin = st.1.step_pin
    ∧ (l.foldl (prepLineMotor O K fe time) st).1.trace = st.1.trace := by
  induction l generalizing st with
  | nil => exact ⟨rfl, rfl, rfl, rfl, rfl, rfl, rfl, rfl, rfl⟩
  | cons a l ih =>
    rw [List.foldl_cons]
    obtain ⟨h1, h2, h3, h4, h5, h6, h7, h8, h9⟩ := ih (prepLineMotor O K fe time st a)
    rw [h1, h2, h3, h4, h5, h6, h7, h8, h9, prepLineMotor_eq]
    exact ⟨rfl, rfl, rfl, rfl, rfl, rfl, rfl, rfl, rfl⟩

/-- The value of `st_prep_line` on the path that passes the four rejection tests. -/
theorem st_prep_line_accepted (O : FloatOps F) (K : Const F) (s : Machine F)
    (travel_steps fe : Nat → F) (time : F)
    (hb : s.st_pre.buffer_state = BufferState.PREP_BUFFER_OWNED_BY_EXEC)
    (hinf : O.isinf time = false) (hnan : O.isnan time = false)
    (heps : O.lt time K.EPSILON = false) :
    (st_prep_line O K s travel_steps fe time).1 = Stat.STAT_OK
    ∧ (st_prep_line O K s travel_steps fe time).2.1.st_pre.block_type
        = BlockType.BLOCK_TYPE_ALINE
    ∧ (st_prep_line O K s travel_steps fe time).2.1.st_pre.buffer_state
        = BufferState.PREP_BUFFER_OWNED_BY_LOADER
    ∧ (st_prep_line O K s travel_steps fe time).2.1.st_pre.dda_ticks
        = toU32 (O.castI32 (O.mul (O.mul time (O.ofInt 60)) (O.ofInt K.FREQUENCY_DDA)))
    ∧ (st_prep_line O K s travel_steps fe time).2.1.st_pre.dda_ticks_X_substeps
        = O.castU32 (O.mul (O.ofInt (toU32 (O.castI32
            (O.mul (O.mul time (O.ofInt 60)) (O.ofInt K.FREQUENCY_DDA))))) K.DDA_SUBSTEPS)
    ∧ (∀ j, (st_prep_line O K s travel_steps fe time).2.1.st_pre.mot j
        = (if j < K.MOTORS then
            (prepSlot O K (fe j) time (s.polarity j) (s.st_pre.mot j) (travel_steps j)).1
          else s.st_pre.mot j))
    ∧ (∀ j, (st_prep_line O K s travel_steps fe time).2.2 j
        = (if j < K.MOTORS then
            (prepSlot O K (fe j) time (s.polarity j) (s.st_pre.mot j) (travel_steps j)).2
          else travel_steps j))
    ∧ (st_prep_line O K s travel_steps fe time).2.1.trace = s.trace
    ∧ (st_prep_line O K s travel_steps fe time).2.1.polarity = s.polarity
    ∧ (st_prep_line O K s travel_steps fe time).2.1.st_pre.bf = s.st_pre.bf
    ∧ (st_prep_line O K s travel_steps fe time).2.1.st_pre.dda_period = K.period_DDA := by
  have hslots := foldl_prepLineMotor_slots O K fe time (List.range K.MOTORS)
    (List.nodup_range _)
    ({ s with st_pre := { s.st_pre with
        dda_period := K.period_DDA,
        dda_ticks := (toU32 (O.castI32
          (O.mul (O.mul time (O.ofInt 60)) (O.ofInt K.FREQUENCY_DDA)))),
        dda_ticks_X_substeps := (O.castU32 (O.mul (O.ofInt (toU32 (O.castI32
          (O.mul (O.mul time (O.ofInt 60)) (O.ofInt K.FREQUENCY_DDA))))) K.DDA_SUBSTEPS)) } },
      travel_steps)
  have hhead := foldl_prepLineMotor_header O K fe time (List.range K.MOTORS)
    ({ s with st_pre := { s.st_pre with
        dda_period := K.period_DDA,
        dda_ticks := (toU32 (O.castI32
          (O.mul (O.mul time (O.ofInt 60)) (O.ofInt K.FREQUENCY_DDA)))),
        dda_ticks_X_substeps := (O.castU32 (O.mul (O.ofInt (toU32 (O.castI32
          (O.mul (O.mul time (O.ofInt 60)) (O.ofInt K.FREQUENCY_DDA))))) K.DDA_SUBSTEPS)) } },
      travel_steps)
  simp only [List.mem_range] at hslots
  unfold st_prep_line
  rw [if_neg (not_not.mpr hb), if_neg (by rw [hinf]; exact Bool.false_ne_true),
    if_neg (by rw [hnan]; exact Bool.false_ne_true),
    if_neg (by rw [heps]; exact Bool.false_ne_true)]
  refine ⟨rfl, rfl, rfl, ?_, ?_, ?_, ?_, ?_, ?_, ?_, ?_⟩
  · exact hhead.2.2.2.2.1
  · exact hhead.2.2.2.2.2.1
  · intro j; exact (hslots j).1
  · intro j; exact (hslots j).2
  · exact hhead.2.2.2.2.2.2.2.2
  · exact hhead.2.2.2.2.2.2.1
  · exact hhead.2.2.1
  · exact hhead.2.2.2.1

/-! ## Claims about `st_prep_line` -/

theorem st_prep_line_rejected_sync (O : FloatOps F) (K : Const F) (s : Machine F)
    (travel_steps fe : Nat → F) (time : F)
    (hb : s.st_pre.buffer_state ≠ BufferState.PREP_BUFFER_OWNED_BY_EXEC) :
    st_prep_line O K s travel_steps fe time
      = (Stat.STAT_INTERNAL_ERROR, s.emit (Event.cm_panic Stat.STAT_INTERNAL_ERROR),
          travel_steps) := by
  unfold st_prep_line
  rw [if_pos hb]

theorem st_prep_line_rejected_inf (O : FloatOps F) (K : Const F) (s : Machine F)
    (travel_steps fe : Nat → F) (time : F)
    (hb : s.st_pre.buffer_state = BufferState.PREP_BUFFER_OWNED_BY_EXEC)
    (hinf : O.isinf time = true) :
    st_prep_line O K s travel_steps fe time
      = (Stat.STAT_PREP_LINE_MOVE_TIME_IS_INFINITE,
          s.emit (Event.cm_panic Stat.STAT_PREP_LINE_MOVE_TIME_IS_INFINITE), travel_steps) := by
  unfold st_prep_line
  rw [if_neg (not_not.mpr hb), if_pos hinf]

theorem st_prep_line_rejected_nan (O : FloatOps F) (K : Const F) (s : Machine F)
    (travel_steps fe : Nat → F) (time : F)
    (hb : s.st_pre.buffer_state = BufferState.PREP_BUFFER_OWNED_BY_EXEC)
    (hinf : O.isinf time = false) (hnan : O.isnan time = true) :
    st_prep_line O K s travel_steps fe time
      = (Stat.STAT_PREP_LINE_MOVE_TIME_IS_NAN,
          s.emit (Event.cm_panic Stat.STAT_PREP_LINE_MOVE_TIME_IS_NAN), travel_steps) := by
  unfold st_prep_line
  rw [if_neg (not_not.mpr hb), if_neg (by rw [hinf]; exact Bool.false_ne_true), if_pos hnan]

theorem st_prep_line_rejected_short (O : FloatOps F) (K : Const F) (s : Machine F)
    (travel_steps fe : Nat → F) (time : F)
    (hb : s.st_pre.buffer_state = BufferState.PREP_BUFFER_OWNED_BY_EXEC)
    (hinf : O.isinf time = false) (hnan : O.isnan time = false)
    (heps : O.lt time K.EPSILON = true) :
    st_prep_line O K s travel_steps fe time = (Stat.STAT_MINIMUM_TIME_MOVE, s, travel_steps) := by
  unfold st_prep_line
  rw [if_neg (not_not.mpr hb), if_neg (by rw [hinf]; exact Bool.false_ne_true),
    if_neg (by rw [hnan]; exact Bool.false_ne_true), if_pos heps]

/-- The five outcomes of `st_prep_line`, each with the test that selects it. -/
theorem st_prep_line_cases (O : FloatOps F) (K : Const F) (s : Machine F)
    (travel_steps fe : Nat → F) (time : F) :
    (s.st_pre.buffer_state ≠ BufferState.PREP_BUFFER_OWNED_BY_EXEC
      ∧ st_prep_line O K s travel_steps fe time
          = (Stat.STAT_INTERNAL_ERROR, s.emit (Event.cm_panic Stat.STAT_INTERNAL_ERROR),
              travel_steps))
    ∨ (s.st_pre.buffer_state = BufferState.PREP_BUFFER_OWNED_BY_EXEC ∧ O.isinf time = true
      ∧ st_prep_line O K s travel_steps fe time
          = (Stat.STAT_PREP_LINE_MOVE_TIME_IS_INFINITE,
              s.emit (Event.cm_panic Stat.STAT_PREP_LINE_MOVE_TIME_IS_INFINITE), travel_steps))
    ∨ (s.st_pre.buffer_state = BufferState.PREP_BUFFER_OWNED_BY_EXEC ∧ O.isinf time = false
      ∧ O.isnan time = true
      ∧ st_prep_line O K s travel_steps fe time
          = (Stat.STAT_PREP_LINE_MOVE_TIME_IS_NAN,
              s.emit (Event.cm_panic Stat.STAT_PREP_LINE_MOVE_TIME_IS_NAN), travel_steps))
    ∨ (s.st_pre.buffer_state = BufferState.PREP_BUFFER_OWNED_BY_EXEC ∧ O.isinf time = false
      ∧ O.isnan time = false ∧ O.lt time K.EPSILON = true
      ∧ st_prep_line O K s travel_steps fe time
          = (Stat.STAT_MINIMUM_TIME_MOVE, s, travel_steps))
    ∨ (s.st_pre.buffer_state = BufferState.PREP_BUFFER_OWNED_BY_EXEC ∧ O.isinf time = false
      ∧ O.isnan time = false ∧ O.lt time K.EPSILON = false
      ∧ (st_prep_line O K s travel_steps fe time).1 = Stat.STAT_OK) := by
  by_cases hb : s.st_pre.buffer_state = BufferState.PREP_BUFFER_OWNED_BY_EXEC
  · cases hinf : O.isinf time
    · cases hnan : O.isnan time
      · cases heps : O.lt time K.EPSILON
        · exact Or.inr (Or.inr (Or.inr (Or.inr ⟨hb, rfl, rfl, rfl,
            (st_prep_line_accepted O K s travel_steps fe time hb hinf hnan heps).1⟩)))
        · exact Or.inr (Or.inr (Or.inr (Or.inl ⟨hb, rfl, rfl, rfl,
            st_prep_line_rejected_short O K s travel_steps fe time hb hinf hnan heps⟩)))
      · exact Or.inr (Or.inr (Or.inl ⟨hb, rfl, rfl,
          st_prep_line_rejected_nan O K s travel_steps fe time hb hinf hnan⟩))
    · exact Or.inr (Or.inl ⟨hb, rfl, st_prep_line_rejected_inf O K s travel_steps fe time hb hinf⟩)
  · exact Or.inl ⟨hb, st_prep_line_rejected_sync O K s travel_steps fe time hb⟩

/-- C11: `st_prep_line` decides its result in this order, for every input: it returns the
prep-sync panic status (`STAT_INTERNAL_ERROR`, through `cm_panic`) iff the prep buffer is not
owned by exec; otherwise the time-is-infinite panic status iff `isinf(segment_time)`; otherwise
the time-is-NaN panic status iff `isnan(segment_time)`; otherwise `STAT_MINIMUM_TIME_MOVE`,
without any `cm_panic` call and without any change, iff `segment_time < EPSILON`; otherwise
`STAT_OK`, with `block_type = ALINE` and `buffer_state = OWNED_BY_LOADER`. -/
theorem C11_st_prep_line_decision_order (O : FloatOps F) (K : Const F) (s : Machine F)
    (travel_steps fe : Nat → F) (time : F) :
    ((st_prep_line O K s travel_steps fe time).1 = Stat.STAT_INTERNAL_ERROR
        ↔ s.st_pre.buffer_state ≠ BufferState.PREP_BUFFER_OWNED_BY_EXEC)
    ∧ ((st_prep_line O K s travel_steps fe time).1 = Stat.STAT_PREP_LINE_MOVE_TIME_IS_INFINITE
        ↔ s.st_pre.buffer_state = BufferState.PREP_BUFFER_OWNED_BY_EXEC
          ∧ O.isinf time = true)
    ∧ ((st_prep_line O K s travel_steps fe time).1 = Stat.STAT_PREP_LINE_MOVE_TIME_IS_NAN
        ↔ s.st_pre.buffer_state = BufferState.PREP_BUFFER_OWNED_BY_EXEC
          ∧ O.isinf time = false ∧ O.isnan time = true)
    ∧ ((st_prep_line O K s travel_steps fe time).1 = Stat.STAT_MINIMUM_TIME_MOVE
        ↔ s.st_pre.buffer_state = BufferState.PREP_BUFFER_OWNED_BY_EXEC
          ∧ O.isinf time = false ∧ O.isnan time = false ∧ O.lt time K.EPSILON = true)
    ∧ ((st_prep_line O K s travel_steps fe time).1 = Stat.STAT_OK
        ↔ s.st_pre.buffer_state = BufferState.PREP_BUFFER_OWNED_BY_EXEC
          ∧ O.isinf time = false ∧ O.isnan time = false ∧ O.lt time K.EPSILON = false)
    ∧ ((st_prep_line O K s travel_steps fe time).1 = Stat.STAT_INTERNAL_ERROR
        ∨ (st_prep_line O K s travel_steps fe time).1
            = Stat.STAT_PREP_LINE_MOVE_TIME_IS_INFINITE
        ∨ (st_prep_line O K s travel_steps fe time).1 = Stat.STAT_PREP_LINE_MOVE_TIME_IS_NAN →
        (st_prep_line O K s travel_steps fe time).2.1.trace
          = s.trace ++ [Event.cm_panic (st_prep_line O K s travel_steps fe time).1])
    ∧ ((st_prep_line O K s travel_steps fe time).1 = Stat.STAT_MINIMUM_TIME_MOVE →
        (st_prep_line O K s travel_steps fe time).2.1 = s)
    ∧ ((st_prep_line O K s travel_steps fe time).1 = Stat.STAT_OK →
        (st_prep_line O K s travel_steps fe time).2.1.st_pre.block_type
            = BlockType.BLOCK_TYPE_ALINE
        ∧ (st_prep_line O K s travel_steps fe time).2.1.st_pre.buffer_state
            = BufferState.PREP_BUFFER_OWNED_BY_LOADER
        ∧ (st_prep_line O K s travel_steps fe time).2.1.trace = s.trace) := by
  rcases st_prep_line_cases O K s travel_steps fe time with
    ⟨hb, h⟩ | ⟨hb, hi, h⟩ | ⟨hb, hi, hn, h⟩ | ⟨hb, hi, hn, he, h⟩ | ⟨hb, hi, hn, he, h⟩
  · rw [h]; simp [hb, Machine.emit]
  · rw [h]; simp [hb, hi, Machine.emit]
  · rw [h]; simp [hb, hi, hn, Machine.emit]
  · rw [h]; simp [hb, hi, hn, he]
  · have hacc := st_prep_line_accepted O K s travel_steps fe time hb hi hn he
    rw [h]
    simp [hb, hi, hn, he, hacc.2.1, hacc.2.2.1, hacc.2.2.2.2.2.2.2.1]

/-- C12: whenever `st_prep_line` returns a status other than `STAT_OK`, the prep structure (and
the run structure, the timers and the outputs) and the caller's `travel_steps[]` array are
unchanged. -/
theorem C12_st_prep_line_rejection_changes_nothing (O : FloatOps F) (K : Const F)
    (s : Machine F) (travel_steps fe : Nat → F) (time : F)
    (h : (st_prep_line O K s travel_steps fe time).1 ≠ Stat.STAT_OK) :
    (st_prep_line O K s travel_steps fe time).2.1.st_pre = s.st_pre
    ∧ (st_prep_line O K s travel_steps fe time).2.2 = travel_steps
    ∧ (st_prep_line O K s travel_steps fe time).2.1.st_run = s.st_run
    ∧ (st_prep_line O K s travel_steps fe time).2.1.dda_timer_running = s.dda_timer_running
    ∧ (st_prep_line O K s travel_steps fe time).2.1.dwell_timer_running
        = s.dwell_timer_running
    ∧ (st_prep_line O K s travel_steps fe time).2.1.step_pin = s.step_pin
    ∧ (st_prep_line O K s travel_steps fe time).2.1.dir_pin = s.dir_pin := by
  rcases st_prep_line_cases O K s travel_steps fe time with
    ⟨_, h1⟩ | ⟨_, _, h1⟩ | ⟨_, _, _, h1⟩ | ⟨_, _, _, _, h1⟩ | ⟨_, _, _, _, h1⟩
  · rw [h1]; exact ⟨rfl, rfl, rfl, rfl, rfl, rfl, rfl⟩
  · rw [h1]; exact ⟨rfl, rfl, rfl, rfl, rfl, rfl, rfl⟩
  · rw [h1]; exact ⟨rfl, rfl, rfl, rfl, rfl, rfl, rfl⟩
  · rw [h1]; exact ⟨rfl, rfl, rfl, rfl, rfl, rfl, rfl⟩
  · exact absurd h1 h

/-- C12, witness: a segment time below `EPSILON` offered to the freshly initialised machine. -/
theorem C12_st_prep_line_rejection_changes_nothing_witness :
    (st_prep_line fracOps (exampleConst 4) (initState 4)
        (travelMotor0 { num := 1, den := 1 }) noError { num := 1, den := 1000000 }).2.1.st_pre
      = (initState 4).st_pre :=
  (C12_st_prep_line_rejection_changes_nothing fracOps (exampleConst 4) (initState 4)
    (travelMotor0 { num := 1, den := 1 }) noError { num := 1, den := 1000000 }
    (by decide)).1

theorem st_prep_line_ok_conditions (O : FloatOps F) (K : Const F) (s : Machine F)
    (travel_steps fe : Nat → F) (time : F)
    (hok : (st_prep_line O K s travel_steps fe time).1 = Stat.STAT_OK) :
    s.st_pre.buffer_state = BufferState.PREP_BUFFER_OWNED_BY_EXEC
    ∧ O.isinf time = false ∧ O.isnan time = false ∧ O.lt time K.EPSILON = false := by
  rcases st_prep_line_cases O K s travel_steps fe time with
    ⟨_, h1⟩ | ⟨_, _, h1⟩ | ⟨_, _, _, h1⟩ | ⟨_, _, _, _, h1⟩ | ⟨hb, hi, hn, he, _⟩
  · rw [h1] at hok; exact Stat.noConfusion hok
  · rw [h1] at hok; exact Stat.noConfusion hok
  · rw [h1] at hok; exact Stat.noConfusion hok
  · rw [h1] at hok; exact Stat.noConfusion hok
  · exact ⟨hb, hi, hn, he⟩

/-- C14: in every successful `st_prep_line` call, for every motor `m < MOTORS` whose
`travel_steps[m]` passes the zero test `fp_ZERO`, the prep slot of `m` changes in
`substep_increment` only, which becomes 0: direction, `prev_direction`, `step_sign`,
`prev_segment_time`, `accumulator_correction`, its flag, `correction_holdoff` and
`corrected_steps` keep their values, and `travel_steps[m]` is unchanged. -/
theorem C14_zero_travel_touches_only_increment (O : FloatOps F) (K : Const F) (s : Machine F)
    (travel_steps fe : Nat → F) (time : F) (m : Nat)
    (hok : (st_prep_line O K s travel_steps fe time).1 = Stat.STAT_OK)
    (hm : m < K.MOTORS) (hz : O.fp_ZERO (travel_steps m) = true) :
    (st_prep_line O K s travel_steps fe time).2.1.st_pre.mot m
        = { s.st_pre.mot m with substep_increment := 0 }
    ∧ ((st_prep_line O K s travel_steps fe time).2.1.st_pre.mot m).substep_increment = 0
    ∧ ((st_prep_line O K s travel_steps fe time).2.1.st_pre.mot m).direction
        = (s.st_pre.mot m).direction
    ∧ ((st_prep_line O K s travel_steps fe time).2.1.st_pre.mot m).prev_direction
        = (s.st_pre.mot m).prev_direction
    ∧ ((st_prep_line O K s travel_steps fe time).2.1.st_pre.mot m).step_sign
        = (s.st_pre.mot m).step_sign
    ∧ ((st_prep_line O K s travel_steps fe time).2.1.st_pre.mot m).prev_segment_time
        = (s.st_pre.mot m).prev_segment_time
    ∧ ((st_prep_line O K s travel_steps fe time).2.1.st_pre.mot m).accumulator_correction
        = (s.st_pre.mot m).accumulator_correction
    ∧ ((st_prep_line O K s travel_steps fe time).2.1.st_pre.mot m).accumulator_correction_flag
        = (s.st_pre.mot m).accumulator_correction_flag
    ∧ ((st_prep_line O K s travel_steps fe time).2.1.st_pre.mot m).correction_holdoff
        = (s.st_pre.mot m).correction_holdoff
    ∧ ((st_prep_line O K s travel_steps fe time).2.1.st_pre.mot m).corrected_steps
        = (s.st_pre.mot m).corrected_steps
    ∧ (st_prep_line O K s travel_steps fe time).2.2 m = travel_steps m := by
  obtain ⟨hb, hi, hn, he⟩ := st_prep_line_ok_conditions O K s travel_steps fe time hok
  have hacc := st_prep_line_accepted O K s travel_steps fe time hb hi hn he
  have hslot : prepSlot O K (fe m) time (s.polarity m) (s.st_pre.mot m) (travel_steps m)
      = ({ s.st_pre.mot m with substep_increment := 0 }, travel_steps m) := by
    unfold prepSlot; rw [if_pos hz]
  have h1 := hacc.2.2.2.2.2.1 m
  have h2 := hacc.2.2.2.2.2.2.1 m
  rw [if_pos hm, hslot] at h1 h2
  rw [h1, h2]
  exact ⟨rfl, rfl, rfl, rfl, rfl, rfl, rfl, rfl, rfl, rfl, rfl⟩

/-- C14, witness: a first segment that moves motor 0 only; motor 1 has zero travel. -/
theorem C14_zero_travel_touches_only_increment_witness :
    (st_prep_line fracOps (exampleConst 4) (firstSegmentLoaded 4)
        (travelMotor0 { num := 1, den := 1 }) noError
        { num := 1, den := 100000 }).2.1.st_pre.mot 1
      = { (firstSegmentLoaded 4).st_pre.mot 1 with substep_increment := 0 } :=
  (C14_zero_travel_touches_only_increment fracOps (exampleConst 4) (firstSegmentLoaded 4)
    (travelMotor0 { num := 1, den := 1 }) noError { num := 1, den := 100000 } 1
    (by decide) (by decide) (by decide)).1

theorem prepSlot_direction (O : FloatOps F) (K : Const F) (e time : F) (pol : Nat)
    (p0 : stPrepMotor F) (x : F) (hnz : O.fp_ZERO x = false) :
    (prepSlot O K e time pol p0 x).1.step_sign = (if O.le (O.ofInt 0) x then 1 else -1)
    ∧ (prepSlot O K e time pol p0 x).1.direction
        = (if O.le (O.ofInt 0) x then K.DIRECTION_CW else K.DIRECTION_CCW) ^^^ pol
    ∧ (prepSlot O K e time pol p0 x).1.prev_direction = p0.prev_direction := by
  unfold prepSlot
  rw [if_neg (by rw [hnz]; exact Bool.false_ne_true)]
  simp only []
  split_ifs <;> exact ⟨rfl, rfl, rfl⟩

/-- The polarity of a motor enters its prepared slot through the direction only. -/
theorem prepSlot_polarity (O : FloatOps F) (K : Const F) (e time : F) (pol pol2 : Nat)
    (p0 : stPrepMotor F) (x : F) :
    (prepSlot O K e time pol2 p0 x).2 = (prepSlot O K e time pol p0 x).2
    ∧ { (prepSlot O K e time pol2 p0 x).1 with
          direction := (prepSlot O K e time pol p0 x).1.direction }
        = (prepSlot O K e time pol p0 x).1 := by
  unfold prepSlot
  simp only []
  split_ifs <;> exact ⟨rfl, rfl⟩

/-- C15: in every successful `st_prep_line` call, for every motor `m < MOTORS` whose travel
does not pass the zero test: `step_sign` is `+1` if `travel_steps[m] >= 0` and `-1` otherwise,
whatever the polarity; the direction is (CW if `travel_steps[m] >= 0`, else CCW) XOR polarity;
and the same call on a machine that differs only by the toggled polarity bit of `m` returns
the same status and the same `travel_steps[]`, and a prep structure that differs only in the
direction of `m`, which is toggled. -/
theorem C15_direction_is_sign_xor_polarity (O : FloatOps F) (K : Const F) (s : Machine F)
    (travel_steps fe : Nat → F) (time : F) (m : Nat)
    (hok : (st_prep_line O K s travel_steps fe time).1 = Stat.STAT_OK)
    (hm : m < K.MOTORS) (hnz : O.fp_ZERO (travel_steps m) = false) :
    ((st_prep_line O K s travel_steps fe time).2.1.st_pre.mot m).step_sign
        = (if O.le (O.ofInt 0) (travel_steps m) then 1 else -1)
    ∧ ((st_prep_line O K s travel_steps fe time).2.1.st_pre.mot m).direction
        = (if O.le (O.ofInt 0) (travel_steps m) then K.DIRECTION_CW else K.DIRECTION_CCW)
            ^^^ s.polarity m
    ∧ (st_prep_line O K { s with polarity := setAt s.polarity m (s.polarity m ^^^ 1) }
          travel_steps fe time).1 = Stat.STAT_OK
    ∧ (st_prep_line O K { s with polarity := setAt s.polarity m (s.polarity m ^^^ 1) }
          travel_steps fe time).2.2 = (st_prep_line O K s travel_steps fe time).2.2
    ∧ ((st_prep_line O K { s with polarity := setAt s.polarity m (s.polarity m ^^^ 1) }
          travel_steps fe time).2.1.st_pre.mot m).direction
        = ((st_prep_line O K s travel_steps fe time).2.1.st_pre.mot m).direction ^^^ 1
    ∧ { (st_prep_line O K { s with polarity := setAt s.polarity m (s.polarity m ^^^ 1) }
          travel_steps fe time).2.1.st_pre.mot m with
          direction := ((st_prep_line O K s travel_steps fe time).2.1.st_pre.mot m).direction }
        = (st_prep_line O K s travel_steps fe time).2.1.st_pre.mot m
    ∧ (∀ j, j ≠ m →
        (st_prep_line O K { s with polarity := setAt s.polarity m (s.polarity m ^^^ 1) }
          travel_steps fe time).2.1.st_pre.mot j
        = (st_prep_line O K s travel_steps fe time).2.1.st_pre.mot j)
    ∧ (st_prep_line O K { s with polarity := setAt s.polarity m (s.polarity m ^^^ 1) }
          travel_steps fe time).2.1.st_pre.dda_ticks
        = (st_prep_line O K s travel_steps fe time).2.1.st_pre.dda_ticks
    ∧ (st_prep_line O K { s with polarity := setAt s.polarity m (s.polarity m ^^^ 1) }
          travel_steps fe time).2.1.st_pre.dda_ticks_X_substeps
        = (st_prep_line O K s travel_steps fe time).2.1.st_pre.dda_ticks_X_substeps := by
  obtain ⟨hb, hi, hn, he⟩ := st_prep_line_ok_conditions O K s travel_steps fe time hok
  have hacc := st_prep_line_accepted O K s travel_steps fe time hb hi hn he
  have hacc2 := st_prep_line_accepted O K
    { s with polarity := setAt s.polarity m (s.polarity m ^^^ 1) } travel_steps fe time
    hb hi hn he
  have hd := prepSlot_direction O K (fe m) time (s.polarity m) (s.st_pre.mot m)
    (travel_steps m) hnz
  have hd2 := prepSlot_direction O K (fe m) time (s.polarity m ^^^ 1) (s.st_pre.mot m)
    (travel_steps m) hnz
  have hp := prepSlot_polarity O K (fe m) time (s.polarity m) (s.polarity m ^^^ 1)
    (s.st_pre.mot m) (travel_steps m)
  have h1 := hacc.2.2.2.2.2.1 m
  have h2 := hacc2.2.2.2.2.2.1 m
  rw [if_pos hm] at h1 h2
  simp only [setAt_same] at h2
  refine ⟨by rw [h1]; exact hd.1, by rw [h1]; exact hd.2.1, hacc2.1, ?_, ?_, ?_, ?_, ?_, ?_⟩
  · funext j
    rw [hacc.2.2.2.2.2.2.1 j, hacc2.2.2.2.2.2.2.1 j]
    by_cases hj : j = m
    · subst hj
      simp only [setAt_same]
      rw [if_pos hm, if_pos hm]
      exact hp.1
    · simp only [setAt, if_neg hj]
  · rw [h1, h2, hd.2.1, hd2.2.1, Nat.xor_assoc]
  · rw [h1, h2]; exact hp.2
  · intro j hj
    rw [hacc.2.2.2.2.2.1 j, hacc2.2.2.2.2.2.1 j]
    simp only [setAt, if_neg hj]
  · rw [hacc.2.2.2.1, hacc2.2.2.2.1]
  · rw [hacc.2.2.2.2.1, hacc2.2.2.2.2.1]

/-- C15, witness: motor 0 moved in the negative direction with normal polarity. -/
theorem C15_direction_is_sign_xor_polarity_witness :
    ((st_prep_line fracOps (exampleConst 4) (initState 4)
        (travelMotor0 { num := -1, den := 1 }) noError
        { num := 1, den := 100000 }).2.1.st_pre.mot 0).step_sign = -1
    ∧ ((st_prep_line fracOps (exampleConst 4) (initState 4)
        (travelMotor0 { num := -1, den := 1 }) noError
        { num := 1, den := 100000 }).2.1.st_pre.mot 0).direction = 1 :=
  ⟨(C15_direction_is_sign_xor_polarity fracOps (exampleConst 4) (initState 4)
      (travelMotor0 { num := -1, den := 1 }) noError { num := 1, den := 100000 } 0
      (by decide) (by decide) (by decide)).1,
   (C15_direction_is_sign_xor_polarity fracOps (exampleConst 4) (initState 4)
      (travelMotor0 { num := -1, den := 1 }) noError { num := 1, den := 100000 } 0
      (by decide) (by decide) (by decide)).2.1⟩

theorem prepSlot_prev_segment_time (O : FloatOps F) (K : Const F) (e time : F) (pol : Nat)
    (p0 : stPrepMotor F) (x : F) (hnz : O.fp_ZERO x = false) :
    (prepSlot O K e time pol p0 x).1.prev_segment_time
      = (if O.lt (O.ofDec 1 7) (O.fabs (O.sub time p0.prev_segment_time)) then time
         else p0.prev_segment_time) := by
  unfold prepSlot
  rw [if_neg (by rw [hnz]; exact Bool.false_ne_true)]
  simp only []
  split_ifs <;> rfl

/-- C17 (as amended): after every successful `st_prep_line` call, for every motor
`m < MOTORS` whose travel does not pass the zero test, `prev_segment_time` equals
`segment_time` when `fabs(segment_time - prev_segment_time) > 0.0000001` held at the call, and
keeps its previous value otherwise; so it equals `segment_time` or is within `0.0000001` of it
in the sense of that test. -/
theorem C17_prev_segment_time_follows_beyond_tolerance (O : FloatOps F) (K : Const F)
    (s : Machine F) (travel_steps fe : Nat → F) (time : F) (m : Nat)
    (hok : (st_prep_line O K s travel_steps fe time).1 = Stat.STAT_OK)
    (hm : m < K.MOTORS) (hnz : O.fp_ZERO (travel_steps m) = false) :
    (O.lt (O.ofDec 1 7) (O.fabs (O.sub time (s.st_pre.mot m).prev_segment_time)) = true →
      ((st_prep_line O K s travel_steps fe time).2.1.st_pre.mot m).prev_segment_time = time)
    ∧ (O.lt (O.ofDec 1 7) (O.fabs (O.sub time (s.st_pre.mot m).prev_segment_time)) = false →
      ((st_prep_line O K s travel_steps fe time).2.1.st_pre.mot m).prev_segment_time
        = (s.st_pre.mot m).prev_segment_time) := by
  obtain ⟨hb, hi, hn, he⟩ := st_prep_line_ok_conditions O K s travel_steps fe time hok
  have hacc := st_prep_line_accepted O K s travel_steps fe time hb hi hn he
  have h1 := hacc.2.2.2.2.2.1 m
  rw [if_pos hm] at h1
  rw [h1, prepSlot_prev_segment_time O K _ _ _ _ _ hnz]
  constructor
  · intro h; rw [if_pos h]
  · intro h; rw [if_neg (by rw [h]; exact Bool.false_ne_true)]

/-- C17, witness: the first segment after `stepper_init`, whose time differs from the stored
`prev_segment_time = 0` by more than the tolerance. -/
theorem C17_prev_segment_time_follows_beyond_tolerance_witness :
    ((st_prep_line fracOps (exampleConst 4) (initState 4)
        (travelMotor0 { num := 1, den := 1 }) noError
        { num := 1, den := 1000 }).2.1.st_pre.mot 0).prev_segment_time
      = { num := 1, den := 1000 } :=
  (C17_prev_segment_time_follows_beyond_tolerance fracOps (exampleConst 4) (initState 4)
    (travelMotor0 { num := 1, den := 1 }) noError { num := 1, den := 1000 } 0
    (by decide) (by decide) (by decide)).1 (by decide)

/-- C17, counterexample: a first segment of `0.001` minute has been prepared and loaded, so
motor 0 holds `prev_segment_time = 0.001`. A successful call with non-zero travel for motor 0
and `segment_time = 0.00100005` (a difference of `0.00000005`, below the tolerance) leaves
`prev_segment_time` at `0.001`, which is less than, hence not equal to, `segment_time`. -/
theorem C17_counterexample :
    (st_prep_line fracOps (exampleConst 4) (firstSegmentLoaded 4)
        (travelMotor0 { num := 1, den := 1 }) noError
        { num := 100005, den := 100000000 }).1 = Stat.STAT_OK
    ∧ fracOps.fp_ZERO (travelMotor0 { num := 1, den := 1 } 0) = false
    ∧ ((st_prep_line fracOps (exampleConst 4) (firstSegmentLoaded 4)
        (travelMotor0 { num := 1, den := 1 }) noError
        { num := 100005, den := 100000000 }).2.1.st_pre.mot 0).prev_segment_time
        = { num := 1, den := 1000 }
    ∧ Frac.lt { num := 1, den := 1000 } { num := 100005, den := 100000000 } = true
    ∧ ((st_prep_line fracOps (exampleConst 4) (firstSegmentLoaded 4)
        (travelMotor0 { num := 1, den := 1 }) noError
        { num := 100005, den := 100000000 }).2.1.st_pre.mot 0).prev_segment_time
        ≠ { num := 100005, den := 100000000 } := by
  decide

theorem foldl_resetMotor_corrected (O : FloatOps F) (K : Const F) (l : List Nat)
    (s : Machine F) (j : Nat) (hj : j ∈ l) :
    ((l.foldl (resetMotor O K) s).st_pre.mot j).corrected_steps = O.ofInt 0 := by
  induction l using List.reverseRecOn with
  | nil => simp at hj
  | append_singleton l a ih =>
    rw [List.foldl_append, List.foldl_cons, List.foldl_nil]
    by_cases hja : j = a
    · subst hja
      simp [resetMotor, Machine.setPreMot, Machine.setRunMot]
    · have hjl : j ∈ l := by
        rcases List.mem_append.mp hj with h | h
        · exact h
        · simp at h; exact absurd h hja
      simp [resetMotor, Machine.setPreMot, Machine.setRunMot, setAt, hja, ih hjl]

/-- C19: from any state, `stepper_reset` leaves both timers stopped, `dda_ticks_downcount = 0`
(so `st_runtime_isbusy()` is false), `buffer_state = OWNED_BY_EXEC` (so no later
`st_prep_line` call made in that state is rejected for sync, and one with an accepted time
returns `STAT_OK`), and for every motor `m < MOTORS`
`prev_direction = direction = STEP_INITIAL_DIRECTION`, run `substep_accumulator = 0` and
`corrected_steps = 0`; it also asks the planner to set the steps to the runtime position. -/
theorem C19_stepper_reset_postcondition (O : FloatOps F) (K : Const F) (s : Machine F) :
    (stepper_reset O K s).dda_timer_running = false
    ∧ (stepper_reset O K s).dwell_timer_running = false
    ∧ (stepper_reset O K s).st_run.dda_ticks_downcount = 0
    ∧ st_runtime_isbusy (stepper_reset O K s) = false
    ∧ (stepper_reset O K s).st_pre.buffer_state = BufferState.PREP_BUFFER_OWNED_BY_EXEC
    ∧ (∀ travel_steps fe time,
        (st_prep_line O K (stepper_reset O K s) travel_steps fe time).1
          ≠ Stat.STAT_INTERNAL_ERROR)
    ∧ (∀ travel_steps fe time, O.isinf time = false → O.isnan time = false →
        O.lt time K.EPSILON = false →
        (st_prep_line O K (stepper_reset O K s) travel_steps fe time).1 = Stat.STAT_OK)
    ∧ (∀ m, m < K.MOTORS →
        ((stepper_reset O K s).st_pre.mot m).prev_direction = K.STEP_INITIAL_DIRECTION
        ∧ ((stepper_reset O K s).st_pre.mot m).direction = K.STEP_INITIAL_DIRECTION
        ∧ ((stepper_reset O K s).st_run.mot m).substep_accumulator = 0
        ∧ ((stepper_reset O K s).st_pre.mot m).corrected_steps = O.ofInt 0)
    ∧ (stepper_reset O K s).trace = s.trace ++ [Event.mp_set_steps_to_runtime_position] := by
  obtain ⟨h1, h2, h3, _, h5, h6⟩ := stepper_reset_fields O K s
  refine ⟨h2, h3, h1, ?_, h5, ?_, ?_, ?_, ?_⟩
  · unfold st_runtime_isbusy; rw [h1]; rfl
  · intro tr fe time hc
    rcases st_prep_line_cases O K (stepper_reset O K s) tr fe time with
      ⟨hb, _⟩ | ⟨_, _, h⟩ | ⟨_, _, _, h⟩ | ⟨_, _, _, _, h⟩ | ⟨_, _, _, _, h⟩
    · exact hb h5
    · rw [h] at hc; exact Stat.noConfusion hc
    · rw [h] at hc; exact Stat.noConfusion hc
    · rw [h] at hc; exact Stat.noConfusion hc
    · rw [h] at hc; exact Stat.noConfusion hc
  · intro tr fe time hi hn he
    exact (st_prep_line_accepted O K _ tr fe time h5 hi hn he).1
  · intro m hm
    obtain ⟨g1, g2, g3⟩ := h6 m hm
    refine ⟨g1, g2, g3, ?_⟩
    unfold stepper_reset
    simp only [Machine.emit]
    exact foldl_resetMotor_corrected O K _ _ m (List.mem_range.mpr hm)
  · unfold stepper_reset
    simp only [Machine.emit]
    have : ∀ (l : List Nat) (t : Machine F), (l.foldl (resetMotor O K) t).trace = t.trace := by
      intro l
      induction l with
      | nil => intro t; rfl
      | cons a l ih => intro t; rw [List.foldl_cons, ih]; rfl
    rw [this]

/-! ## Exact fractions -/

theorem Frac.lt_iff_of_finite (a b : Frac) (ha : a.den ≠ 0) (hb : b.den ≠ 0) :
    Frac.lt a b = true ↔ a.num * b.den < b.num * a.den := by
  simp [Frac.lt, Frac.isnan, Frac.isinf, ha, hb]

theorem Frac.lt_iff_val (a b : Frac) (ha : a.den ≠ 0) (hb : b.den ≠ 0) :
    Frac.lt a b = true ↔ a.val < b.val := by
  rw [Frac.lt_iff_of_finite a b ha hb]
  unfold Frac.val
  have ha0 : (0 : ℚ) < a.den := by exact_mod_cast Nat.pos_of_ne_zero ha
  have hb0 : (0 : ℚ) < b.den := by exact_mod_cast Nat.pos_of_ne_zero hb
  rw [div_lt_div_iff₀ ha0 hb0]
  constructor
  · intro h; exact_mod_cast h
  · intro h; exact_mod_cast h

theorem fracOps_ticks_X (n S : Int) (h0 : 0 ≤ n * S) (h1 : n * S < 4294967296) :
    fracOps.castU32 (fracOps.mul (fracOps.ofInt n) { num := S, den := 1 }) = n * S := by
  simp only [fracOps, Frac.trunc, Nat.mul_one, one_ne_zero, if_false, h0, if_true,
    Nat.cast_one, Int.ediv_one]
  unfold toU32
  omega

/-- C13, counterexample: the accepted time `1207/120000000` minute makes the product
`segment_time * 60 * FREQUENCY_DDA` equal to `120.7`; the nearest integer is 121, and
`st_prep_line` stores `dda_ticks = 120`. -/
theorem C13_counterexample :
    (st_prep_line fracOps (exampleConst 4) (initState 4)
        (travelMotor0 { num := 1, den := 1 }) noError
        { num := 1207, den := 120000000 }).1 = Stat.STAT_OK
    ∧ roundNearest (1207 * 60 * (exampleConst 4).FREQUENCY_DDA) 120000000 = 121
    ∧ (st_prep_line fracOps (exampleConst 4) (initState 4)
        (travelMotor0 { num := 1, den := 1 }) noError
        { num := 1207, den := 120000000 }).2.1.st_pre.dda_ticks = 120
    ∧ (st_prep_line fracOps (exampleConst 4) (initState 4)
        (travelMotor0 { num := 1, den := 1 }) noError
        { num := 1207, den := 120000000 }).2.1.st_pre.dda_ticks
        ≠ roundNearest (1207 * 60 * (exampleConst 4).FREQUENCY_DDA) 120000000 := by
  decide

theorem Frac.val_mul (a b : Frac) : (fracOps.mul a b).val = a.val * b.val := by
  simp only [fracOps, Frac.val]
  push_cast
  rw [mul_div_mul_comm]

theorem Frac.val_neg (a : Frac) : (fracOps.neg a).val = -a.val := by
  simp only [fracOps, Frac.val]
  push_cast
  rw [neg_div]

theorem Frac.val_fabs (a : Frac) : (fracOps.fabs a).val = |a.val| := by
  simp only [fracOps, Frac.val]
  rw [abs_div, Nat.abs_cast, Int.cast_natCast, Nat.cast_natAbs, Int.cast_abs]

theorem Frac.val_add (a b : Frac) (ha : a.den ≠ 0) (hb : b.den ≠ 0) :
    (fracOps.add a b).val = a.val + b.val := by
  have ha0 : (a.den : ℚ) ≠ 0 := by exact_mod_cast ha
  have hb0 : (b.den : ℚ) ≠ 0 := by exact_mod_cast hb
  simp only [fracOps, Frac.val]
  push_cast
  rw [div_add_div _ _ ha0 hb0]
  ring

theorem Frac.val_sub (a b : Frac) (ha : a.den ≠ 0) (hb : b.den ≠ 0) :
    (fracOps.sub a b).val = a.val - b.val := by
  have ha0 : (a.den : ℚ) ≠ 0 := by exact_mod_cast ha
  have hb0 : (b.den : ℚ) ≠ 0 := by exact_mod_cast hb
  simp only [fracOps, Frac.val]
  push_cast
  rw [div_sub_div _ _ ha0 hb0]
  ring

theorem Frac.den_mul (a b : Frac) (ha : a.den ≠ 0) (hb : b.den ≠ 0) :
    (fracOps.mul a b).den ≠ 0 := by
  simp only [fracOps]
  exact Nat.mul_ne_zero ha hb

theorem Frac.min3_val (a b c : Frac) (ha : a.den ≠ 0) (hb : b.den ≠ 0) (hc : c.den ≠ 0) :
    (fracOps.min3 a b c).den ≠ 0
    ∧ (fracOps.min3 a b c).val = min (min a.val b.val) c.val := by
  simp only [fracOps]
  by_cases h1 : Frac.lt b a = true
  · have h1v := (Frac.lt_iff_val b a hb ha).mp h1
    rw [if_pos h1]
    by_cases h2 : Frac.lt c b = true
    · have h2v := (Frac.lt_iff_val c b hc hb).mp h2
      rw [if_pos h2]
      exact ⟨hc, by rw [min_eq_right h1v.le, min_eq_right h2v.le]⟩
    · have h2v : ¬ c.val < b.val := fun h => h2 ((Frac.lt_iff_val c b hc hb).mpr h)
      rw [if_neg h2]
      exact ⟨hb, by rw [min_eq_right h1v.le, min_eq_left (not_lt.mp h2v)]⟩
  · have h1v : ¬ b.val < a.val := fun h => h1 ((Frac.lt_iff_val b a hb ha).mpr h)
    rw [if_neg h1]
    by_cases h2 : Frac.lt c a = true
    · have h2v := (Frac.lt_iff_val c a hc ha).mp h2
      rw [if_pos h2]
      exact ⟨hc, by rw [min_eq_left (not_lt.mp h1v), min_eq_right h2v.le]⟩
    · have h2v : ¬ c.val < a.val := fun h => h2 ((Frac.lt_iff_val c a hc ha).mpr h)
      rw [if_neg h2]
      exact ⟨ha, by rw [min_eq_left (not_lt.mp h1v), min_eq_left (not_lt.mp h2v)]⟩

theorem Frac.max3_val (a b c : Frac) (ha : a.den ≠ 0) (hb : b.den ≠ 0) (hc : c.den ≠ 0) :
    (fracOps.max3 a b c).den ≠ 0
    ∧ (fracOps.max3 a b c).val = max (max a.val b.val) c.val := by
  simp only [fracOps]
  by_cases h1 : Frac.lt a b = true
  · have h1v := (Frac.lt_iff_val a b ha hb).mp h1
    rw [if_pos h1]
    by_cases h2 : Frac.lt b c = true
    · have h2v := (Frac.lt_iff_val b c hb hc).mp h2
      rw [if_pos h2]
      exact ⟨hc, by rw [max_eq_right h1v.le, max_eq_right h2v.le]⟩
    · have h2v : ¬ b.val < c.val := fun h => h2 ((Frac.lt_iff_val b c hb hc).mpr h)
      rw [if_neg h2]
      exact ⟨hb, by rw [max_eq_right h1v.le, max_eq_left (not_lt.mp h2v)]⟩
  · have h1v : ¬ a.val < b.val := fun h => h1 ((Frac.lt_iff_val a b ha hb).mpr h)
    rw [if_neg h1]
    by_cases h2 : Frac.lt a c = true
    · have h2v := (Frac.lt_iff_val a c ha hc).mp h2
      rw [if_pos h2]
      exact ⟨hc, by rw [max_eq_left (not_lt.mp h1v), max_eq_right h2v.le]⟩
    · have h2v : ¬ a.val < c.val := fun h => h2 ((Frac.lt_iff_val a c ha hc).mpr h)
      rw [if_neg h2]
      exact ⟨ha, by rw [max_eq_left (not_lt.mp h1v), max_eq_left (not_lt.mp h2v)]⟩

theorem Frac.val_pos_of_num_pos (a : Frac) (h : 0 < a.num) (hd : a.den ≠ 0) : 0 < a.val := by
  unfold Frac.val
  have h1 : (0 : ℚ) < a.num := by exact_mod_cast h
  have h2 : (0 : ℚ) < a.den := by exact_mod_cast Nat.pos_of_ne_zero hd
  exact div_pos h1 h2

theorem Frac.val_ne_zero_of_num_ne_zero (a : Frac) (h : a.num ≠ 0) (hd : a.den ≠ 0) :
    a.val ≠ 0 := by
  unfold Frac.val
  have h1 : (a.num : ℚ) ≠ 0 := by exact_mod_cast h
  have h2 : (a.den : ℚ) ≠ 0 := by exact_mod_cast hd
  exact div_ne_zero h1 h2

/-- In exact arithmetic, with a positive factor and a positive maximum, the nudge correction
has the sign of the following error and the smallest of the three magnitudes. -/
theorem nudgeCorrection_val (K : Const Frac) (e x : Frac) (he : e.den ≠ 0) (hx : x.den ≠ 0)
    (hxn : x.num ≠ 0)
    (hF : 0 < K.STEP_CORRECTION_FACTOR.num ∧ K.STEP_CORRECTION_FACTOR.den ≠ 0)
    (hM : 0 < K.STEP_CORRECTION_MAX.num ∧ K.STEP_CORRECTION_MAX.den ≠ 0) :
    (nudgeCorrection fracOps K e x).den ≠ 0
    ∧ (0 < e.val → 0 < (nudgeCorrection fracOps K e x).val)
    ∧ (e.val < 0 → (nudgeCorrection fracOps K e x).val < 0)
    ∧ (e.val = 0 → (nudgeCorrection fracOps K e x).val = 0)
    ∧ |(nudgeCorrection fracOps K e x).val|
        = min (|e.val| * K.STEP_CORRECTION_FACTOR.val)
            (min |x.val| K.STEP_CORRECTION_MAX.val) := by
  have hFv := Frac.val_pos_of_num_pos _ hF.1 hF.2
  have hMv := Frac.val_pos_of_num_pos _ hM.1 hM.2
  have hxv : 0 < |x.val| := abs_pos.mpr (Frac.val_ne_zero_of_num_ne_zero x hxn hx)
  have hc0d := Frac.den_mul e K.STEP_CORRECTION_FACTOR he hF.2
  have hc0v := Frac.val_mul e K.STEP_CORRECTION_FACTOR
  have hfxd : (fracOps.fabs x).den ≠ 0 := hx
  have hz : (fracOps.ofInt 0).den ≠ 0 := by simp [fracOps]
  have hzv : (fracOps.ofInt 0).val = 0 := by simp [fracOps, Frac.val]
  unfold nudgeCorrection
  by_cases hpos : fracOps.lt (fracOps.ofInt 0) (fracOps.mul e K.STEP_CORRECTION_FACTOR) = true
  · rw [if_pos hpos]
    have hposv : 0 < e.val * K.STEP_CORRECTION_FACTOR.val := by
      have := (Frac.lt_iff_val _ _ hz hc0d).mp hpos
      rwa [hzv, hc0v] at this
    have hev : 0 < e.val := by
      by_contra hc
      have := mul_nonpos_of_nonpos_of_nonneg (not_lt.mp hc) hFv.le
      linarith
    obtain ⟨hd, hv⟩ := Frac.min3_val _ _ _ hc0d hfxd hM.2
    rw [hv, hc0v, Frac.val_fabs]
    have hmin : 0 < min (min (e.val * K.STEP_CORRECTION_FACTOR.val) |x.val|)
        K.STEP_CORRECTION_MAX.val := lt_min (lt_min hposv hxv) hMv
    refine ⟨hd, fun _ => hmin, fun h => absurd hev (not_lt.mpr h.le),
      fun h => absurd hev (by rw [h]; exact lt_irrefl 0), ?_⟩
    rw [abs_of_pos hmin, abs_of_pos hev, min_assoc]
  · rw [if_neg hpos]
    have hposv : e.val * K.STEP_CORRECTION_FACTOR.val ≤ 0 := by
      have : ¬ (fracOps.ofInt 0).val < (fracOps.mul e K.STEP_CORRECTION_FACTOR).val :=
        fun h => hpos ((Frac.lt_iff_val _ _ hz hc0d).mpr h)
      rw [hzv, hc0v] at this
      exact not_lt.mp this
    have hev : e.val ≤ 0 := by
      by_contra hc
      have := mul_pos (not_le.mp hc) hFv
      linarith
    have hnd : (fracOps.neg (fracOps.fabs x)).den ≠ 0 := hx
    have hmd : (fracOps.neg K.STEP_CORRECTION_MAX).den ≠ 0 := hM.2
    obtain ⟨hd, hv⟩ := Frac.max3_val _ _ _ hc0d hnd hmd
    rw [hv, hc0v, Frac.val_neg, Frac.val_neg, Frac.val_fabs]
    have hmax : max (max (e.val * K.STEP_CORRECTION_FACTOR.val) (-|x.val|))
        (-K.STEP_CORRECTION_MAX.val) ≤ 0 :=
      max_le (max_le hposv (by linarith)) (by linarith)
    refine ⟨hd, fun h => absurd h (not_lt.mpr hev), ?_, ?_, ?_⟩
    · intro hneg
      have h1 : e.val * K.STEP_CORRECTION_FACTOR.val < 0 := mul_neg_of_neg_of_pos hneg hFv
      exact max_lt (max_lt h1 (by linarith)) (by linarith)
    · intro h0
      apply le_antisymm hmax
      rw [h0, zero_mul]
      exact le_max_of_le_left (le_max_left _ _)
    · rw [abs_of_nonpos hmax, abs_of_nonpos hev, neg_mul]
      rcases le_total (e.val * K.STEP_CORRECTION_FACTOR.val) (-|x.val|) with h1 | h1 <;>
      rcases le_total (-|x.val|) (-K.STEP_CORRECTION_MAX.val) with h2 | h2 <;>
      rcases le_total (e.val * K.STEP_CORRECTION_FACTOR.val) (-K.STEP_CORRECTION_MAX.val)
        with h3 | h3 <;>
      simp only [max_def, min_def] <;> split_ifs <;> linarith

theorem prepSlot_correction (O : FloatOps F) (K : Const F) (e time : F) (pol : Nat)
    (p0 : stPrepMotor F) (x : F) (hnz : O.fp_ZERO x = false)
    (hhold : toI32 (p0.correction_holdoff - 1) < 0)
    (hthr : O.lt K.STEP_CORRECTION_THRESHOLD (O.fabs e) = true) :
    (prepSlot O K e time pol p0 x).1.correction_holdoff = K.STEP_CORRECTION_HOLDOFF
    ∧ (prepSlot O K e time pol p0 x).1.corrected_steps
        = O.add p0.corrected_steps (nudgeCorrection O K e x)
    ∧ (prepSlot O K e time pol p0 x).2 = O.sub x (nudgeCorrection O K e x) := by
  unfold prepSlot nudgeCorrection
  rw [if_neg (by rw [hnz]; exact Bool.false_ne_true)]
  simp only []
  split_ifs <;> first | exact ⟨rfl, rfl, rfl⟩ | (simp_all)

/-- C16, in exact arithmetic with a positive `STEP_CORRECTION_FACTOR` and a positive
`STEP_CORRECTION_MAX`: whenever a successful `st_prep_line` call applies a nudge correction to
a motor `m < MOTORS` (non-zero finite travel, holdoff expired, finite following error with
`|following_error| > STEP_CORRECTION_THRESHOLD`), the applied correction `c` has the sign of
the following error, `|c|` is the smallest of `|following_error| * STEP_CORRECTION_FACTOR`,
`|travel_steps|` and `STEP_CORRECTION_MAX`, `c` is added to `corrected_steps` and subtracted
from `travel_steps[m]`, and `correction_holdoff` becomes `STEP_CORRECTION_HOLDOFF`. -/
theorem C16_nudge_correction_is_clamped (K : Const Frac) (s : Machine Frac)
    (travel_steps fe : Nat → Frac) (time : Frac) (m : Nat)
    (hok : (st_prep_line fracOps K s travel_steps fe time).1 = Stat.STAT_OK)
    (hm : m < K.MOTORS) (hnz : fracOps.fp_ZERO (travel_steps m) = false)
    (hhold : toI32 ((s.st_pre.mot m).correction_holdoff - 1) < 0)
    (hthr : fracOps.lt K.STEP_CORRECTION_THRESHOLD (fracOps.fabs (fe m)) = true)
    (hfe : (fe m).den ≠ 0) (htr : (travel_steps m).den ≠ 0)
    (hF : 0 < K.STEP_CORRECTION_FACTOR.num ∧ K.STEP_CORRECTION_FACTOR.den ≠ 0)
    (hM : 0 < K.STEP_CORRECTION_MAX.num ∧ K.STEP_CORRECTION_MAX.den ≠ 0) :
    (0 < (fe m).val → 0 < (nudgeCorrection fracOps K (fe m) (travel_steps m)).val)
    ∧ ((fe m).val < 0 → (nudgeCorrection fracOps K (fe m) (travel_steps m)).val < 0)
    ∧ |(nudgeCorrection fracOps K (fe m) (travel_steps m)).val|
        = min (|(fe m).val| * K.STEP_CORRECTION_FACTOR.val)
            (min |(travel_steps m).val| K.STEP_CORRECTION_MAX.val)
    ∧ ((st_prep_line fracOps K s travel_steps fe time).2.1.st_pre.mot m).corrected_steps
        = fracOps.add (s.st_pre.mot m).corrected_steps
            (nudgeCorrection fracOps K (fe m) (travel_steps m))
    ∧ ((s.st_pre.mot m).corrected_steps.den ≠ 0 →
        ((st_prep_line fracOps K s travel_steps fe time).2.1.st_pre.mot m).corrected_steps.val
          = (s.st_pre.mot m).corrected_steps.val
            + (nudgeCorrection fracOps K (fe m) (travel_steps m)).val)
    ∧ (st_prep_line fracOps K s travel_steps fe time).2.2 m
        = fracOps.sub (travel_steps m) (nudgeCorrection fracOps K (fe m) (travel_steps m))
    ∧ ((st_prep_line fracOps K s travel_steps fe time).2.2 m).val
        = (travel_steps m).val - (nudgeCorrection fracOps K (fe m) (travel_steps m)).val
    ∧ ((st_prep_line fracOps K s travel_steps fe time).2.1.st_pre.mot m).correction_holdoff
        = K.STEP_CORRECTION_HOLDOFF := by
  obtain ⟨hb, hi, hn, he⟩ := st_prep_line_ok_conditions fracOps K s travel_steps fe time hok
  have hacc := st_prep_line_accepted fracOps K s travel_steps fe time hb hi hn he
  have h1 := hacc.2.2.2.2.2.1 m
  have h2 := hacc.2.2.2.2.2.2.1 m
  rw [if_pos hm] at h1 h2
  obtain ⟨c1, c2, c3⟩ := prepSlot_correction fracOps K (fe m) time (s.polarity m)
    (s.st_pre.mot m) (travel_steps m) hnz hhold hthr
  have hxn : (travel_steps m).num ≠ 0 := by
    intro hc
    have : fracOps.fp_ZERO (travel_steps m) = true := by
      simp only [fracOps, hc, true_and]
      exact decide_eq_true htr
    rw [this] at hnz
    exact Bool.noConfusion hnz
  obtain ⟨vd, v1, v2, _, v4⟩ := nudgeCorrection_val K (fe m) (travel_steps m) hfe htr hxn hF hM
  refine ⟨v1, v2, v4, ?_, ?_, ?_, ?_, ?_⟩
  · rw [h1, c2]
  · intro hcd; rw [h1, c2, Frac.val_add _ _ hcd vd]
  · rw [h2, c3]
  · rw [h2, c3, Frac.val_sub _ _ htr vd]
  · rw [h1, c1]

/-- C16, witness, the spec's example: following error `-5`, factor `0.25`, maximum `10`,
holdoff expired and travel `-20` give the correction `-5/4 = -1.25` and the corrected travel
`-75/4 = -18.75`. -/
theorem C16_nudge_correction_is_clamped_witness :
    nudgeCorrection fracOps (exampleConst 4) { num := -5, den := 1 } { num := -20, den := 1 }
        = { num := -5, den := 4 }
    ∧ (st_prep_line fracOps (exampleConst 4) (initState 4)
        (travelMotor0 { num := -20, den := 1 }) (fun _ => { num := -5, den := 1 })
        { num := 1, den := 100000 }).2.2 0 = { num := -75, den := 4 }
    ∧ ((st_prep_line fracOps (exampleConst 4) (initState 4)
        (travelMotor0 { num := -20, den := 1 }) (fun _ => { num := -5, den := 1 })
        { num := 1, den := 100000 }).2.1.st_pre.mot 0).correction_holdoff = 5 :=
  ⟨by decide,
   (C16_nudge_correction_is_clamped (exampleConst 4) (initState 4)
      (travelMotor0 { num := -20, den := 1 }) (fun _ => { num := -5, den := 1 })
      { num := 1, den := 100000 } 0 (by decide) (by decide) (by decide) (by decide)
      (by decide) (by decide) (by decide) (by decide) (by decide)).2.2.2.2.2.1,
   (C16_nudge_correction_is_clamped (exampleConst 4) (initState 4)
      (travelMotor0 { num := -20, den := 1 }) (fun _ => { num := -5, den := 1 })
      { num := 1, den := 100000 } 0 (by decide) (by decide) (by decide) (by decide)
      (by decide) (by decide) (by decide) (by decide) (by decide)).2.2.2.2.2.2.2⟩

/-! ## Claims about the motor power level -/

/-- C20: `st_set_pl` returns the input-range error if and only if the requested value is
`< 0.0` or `> 1.0`, and then changes no state and makes no call (in particular no
`setPowerLevel`); otherwise it returns `STAT_OK`, having stored the value through `set_flt`,
set `power_level_scaled = value * POWER_LEVEL_SCALE_FACTOR` and
`power_level_dynamic = power_level_scaled` for the motor that `_get_motor` names, left every
other motor's levels alone and passed the scaled level to that motor's `setPowerLevel`. -/
theorem C20_st_set_pl_range_check (O : FloatOps F) (scale : F) (group : Nat → List Char)
    (p : PowerState F) (nv : nvObj F) :
    ((st_set_pl O scale group p nv).1 = Stat.STAT_INPUT_VALUE_RANGE_ERROR
        ↔ (O.lt nv.value (O.ofInt 0) = true ∨ O.lt (O.ofInt 1) nv.value = true))
    ∧ ((st_set_pl O scale group p nv).1 = Stat.STAT_INPUT_VALUE_RANGE_ERROR →
        (st_set_pl O scale group p nv).2 = p)
    ∧ ((st_set_pl O scale group p nv).1 ≠ Stat.STAT_INPUT_VALUE_RANGE_ERROR →
        (st_set_pl O scale group p nv).1 = Stat.STAT_OK
        ∧ (st_set_pl O scale group p nv).2.power_level_scaled
              (toU8 (_get_motor group nv.index)).toNat = O.mul nv.value scale
        ∧ (st_set_pl O scale group p nv).2.power_level_dynamic
              (toU8 (_get_motor group nv.index)).toNat
            = (st_set_pl O scale group p nv).2.power_level_scaled
                (toU8 (_get_motor group nv.index)).toNat
        ∧ (∀ j, j ≠ (toU8 (_get_motor group nv.index)).toNat →
            (st_set_pl O scale group p nv).2.power_level_scaled j = p.power_level_scaled j
            ∧ (st_set_pl O scale group p nv).2.power_level_dynamic j
                = p.power_level_dynamic j)
        ∧ (st_set_pl O scale group p nv).2.calls
            = p.calls ++ [PowerCall.set_flt nv.index nv.value,
                PowerCall.setPowerLevel (toU8 (_get_motor group nv.index)).toNat
                  (O.mul nv.value scale)]) := by
  unfold st_set_pl
  by_cases h : O.lt nv.value (O.ofInt 0) = true ∨ O.lt (O.ofInt 1) nv.value = true
  · rw [if_pos h]
    exact ⟨⟨fun _ => h, fun _ => rfl⟩, fun _ => rfl, fun hc => absurd rfl hc⟩
  · rw [if_neg h]
    refine ⟨⟨fun hc => Stat.noConfusion hc, fun hc => absurd hc h⟩,
      fun hc => Stat.noConfusion hc, fun _ => ⟨rfl, ?_, ?_, ?_, ?_⟩⟩
    · simp
    · simp
    · intro j hj
      simp [setAt, hj]
    · simp

/-! ## Two consecutive segments -/

theorem prepSlot_no_correction (O : FloatOps F) (K : Const F) (e time : F) (pol : Nat)
    (p0 : stPrepMotor F) (x : F) (hnz : O.fp_ZERO x = false)
    (hthr : O.lt K.STEP_CORRECTION_THRESHOLD (O.fabs e) = false) :
    (prepSlot O K e time pol p0 x).1.substep_increment
        = O.castU32 (O.round (O.fabs (O.mul x K.DDA_SUBSTEPS)))
    ∧ (prepSlot O K e time pol p0 x).2 = x := by
  unfold prepSlot
  rw [if_neg (by rw [hnz]; exact Bool.false_ne_true)]
  simp [hthr]

theorem fracOps_increment (D : Nat) (hD : (D : Int) * 100000 < 4294967296) :
    fracOps.castU32 (fracOps.round (fracOps.fabs
        (fracOps.mul { num := (D : Int), den := 1 } { num := 100000, den := 1 })))
      = (D : Int) * 100000 := by
  have h0 : (0 : Int) ≤ (D : Int) * 100000 := by positivity
  have hab : ((((D : Int) * 100000).natAbs : Nat) : Int) = (D : Int) * 100000 :=
    Int.natAbs_of_nonneg h0
  simp only [fracOps, Frac.trunc, Nat.mul_one, hab, h0, if_true, one_ne_zero, if_false,
    Nat.cast_one, Int.ediv_one]
  unfold toU32
  push_cast
  split_ifs <;> omega

theorem ddaTick_polarity (K : Const F) (s : Machine F) :
    (ddaTick K s).polarity = s.polarity := by
  unfold ddaTick
  simp only []
  generalize ddaMotors K = l
  induction l generalizing s with
  | nil => rfl
  | cons a l ih =>
    rw [List.foldl_cons, ih (ddaMotor s a)]
    unfold ddaMotor
    simp only [Machine.setRunMot, Machine.emit]
    split_ifs <;> rfl

theorem stepEndAll_polarity (K : Const F) (s : Machine F) :
    (stepEndAll K s).polarity = s.polarity := by
  unfold stepEndAll
  exact (foldl_stepEnd_flags _ s).2.2.2

/-- The state after the `n` interrupts of a segment with `n` ticks left, when no prepared
buffer waits for the loader: the downcount is 0, every motor served by the interrupt has taken
`n` DDA steps, and the prep structure and the polarities are as before. -/
theorem iterate_dda_state (O : FloatOps F) (K : Const F) (n : Nat) :
    ∀ s : Machine F, n < 4294967296 → s.st_run.dda_ticks_downcount = (n : Int) →
      s.st_pre.buffer_state ≠ BufferState.PREP_BUFFER_OWNED_BY_LOADER →
      ((dda_timer_interrupt O K)^[n] s).st_run.dda_ticks_downcount = 0
      ∧ (∀ j, j ∈ ddaMotors K →
          ((dda_timer_interrupt O K)^[n] s).st_run.mot j
            = (ddaStep s.st_run.dda_ticks_X_substeps)^[n] (s.st_run.mot j))
      ∧ ((dda_timer_interrupt O K)^[n] s).st_pre = s.st_pre
      ∧ ((dda_timer_interrupt O K)^[n] s).polarity = s.polarity := by
  induction n with
  | zero =>
    intro s _ hs _
    exact ⟨by simpa using hs, fun j _ => rfl, rfl, rfl⟩
  | succ n ih =>
    intro s hn hs hb
    have hne : s.st_run.dda_ticks_downcount ≠ 0 := by rw [hs]; push_cast; omega
    have hd : (ddaTick K (stepEndAll K s)).st_run.dda_ticks_downcount = (n : Int) := by
      rw [ddaTick_downcount, stepEndAll_st_run, hs]
      unfold toU32; push_cast; omega
    have hpre : (ddaTick K (stepEndAll K s)).st_pre = s.st_pre := by
      rw [ddaTick_st_pre, stepEndAll_st_pre]
    have hpol : (ddaTick K (stepEndAll K s)).polarity = s.polarity := by
      rw [ddaTick_polarity, stepEndAll_polarity]
    have hX : (ddaTick K (stepEndAll K s)).st_run.dda_ticks_X_substeps
        = s.st_run.dda_ticks_X_substeps := by
      rw [ddaTick_X, stepEndAll_st_run]
    have hmot : ∀ j, j ∈ ddaMotors K → (ddaTick K (stepEndAll K s)).st_run.mot j
        = ddaStep s.st_run.dda_ticks_X_substeps (s.st_run.mot j) := by
      intro j hj
      rw [ddaTick_mot, if_pos hj, stepEndAll_st_run]
    rw [Function.iterate_succ_apply]
    by_cases hk : n = 0
    · subst hk
      have hd0 : (ddaTick K (stepEndAll K s)).st_run.dda_ticks_downcount = 0 := by
        simpa using hd
      have hstep : dda_timer_interrupt O K s
          = { ddaTick K (stepEndAll K s) with
              trace := (ddaTick K (stepEndAll K s)).trace
                ++ (List.range K.MOTORS).map Event.motionStopped } := by
        rw [dda_timer_interrupt_busy O K s hne, if_pos hd0,
          load_move_not_owned O K _ hd0 (by rw [hpre]; exact hb)]
      rw [hstep]
      simp only [Function.iterate_zero, id_eq, Function.iterate_one]
      exact ⟨hd0, hmot, hpre, hpol⟩
    · have hstep : dda_timer_interrupt O K s = ddaTick K (stepEndAll K s) := by
        rw [dda_timer_interrupt_busy O K s hne, if_neg]
        rw [hd]; omega
      rw [hstep]
      obtain ⟨h1, h2, h3, h4⟩ := ih (ddaTick K (stepEndAll K s)) (by omega) hd
        (by rw [hpre]; exact hb)
      refine ⟨h1, ?_, by rw [h3, hpre], by rw [h4, hpol]⟩
      intro j hj
      rw [h2 j hj, hX, hmot j hj, Function.iterate_succ_apply]

theorem correctedAcc_zero (p : stPrepMotor Frac) (r : stRunMotor)
    (h : r.substep_accumulator = 0) : correctedAcc fracOps p r = 0 := by
  unfold correctedAcc
  rw [h]
  split_ifs
  · simp [fracOps, Frac.trunc, toI32]
  · rfl

/-- Motor 0 through preparation and load of a segment of `D` steps in the initial direction,
from accumulator 0: the loaded slot has increment `D * 100000`, accumulator 0, and
`prev_direction` stays CW. -/
theorem segment_slot_forward (p0 : stPrepMotor Frac) (r0 : stRunMotor) (time : Frac)
    (X : Int) (D : Nat) (hprev : p0.prev_direction = 0) (hacc : r0.substep_accumulator = 0)
    (hD : (D : Int) * 100000 < 4294967296) :
    (loadRun fracOps X (prepSlot fracOps (exampleConst 4) { num := 0, den := 1 } time 0 p0
        { num := (D : Int), den := 1 }).1 r0).substep_increment = (D : Int) * 100000
    ∧ (loadRun fracOps X (prepSlot fracOps (exampleConst 4) { num := 0, den := 1 } time 0 p0
        { num := (D : Int), den := 1 }).1 r0).substep_accumulator = 0
    ∧ (loadPre (prepSlot fracOps (exampleConst 4) { num := 0, den := 1 } time 0 p0
        { num := (D : Int), den := 1 }).1).prev_direction = 0 := by
  by_cases hD0 : D = 0
  · subst hD0
    have hps : (prepSlot fracOps (exampleConst 4) { num := 0, den := 1 } time 0 p0
        { num := ((0 : Nat) : Int), den := 1 }).1 = { p0 with substep_increment := 0 } := by
      unfold prepSlot
      rw [if_pos (by decide)]
    rw [hps]
    unfold loadRun loadPre
    simp only [ne_eq, not_true_eq_false, if_false]
    exact ⟨by simp, hacc, hprev⟩
  · have hnz : fracOps.fp_ZERO ({ num := (D : Int), den := 1 } : Frac) = false := by
      show decide ((D : Int) = 0 ∧ (1 : Nat) ≠ 0) = false
      simp [hD0]
    have hle : fracOps.le (fracOps.ofInt 0) ({ num := (D : Int), den := 1 } : Frac) = true := by
      show Frac.le { num := 0, den := 1 } { num := (D : Int), den := 1 } = true
      unfold Frac.le Frac.lt Frac.isnan Frac.isinf
      simp
    obtain ⟨hinc, -⟩ := prepSlot_no_correction fracOps (exampleConst 4) { num := 0, den := 1 }
      time 0 p0 { num := (D : Int), den := 1 } hnz (by decide)
    obtain ⟨-, hdir, hpd⟩ := prepSlot_direction fracOps (exampleConst 4) { num := 0, den := 1 }
      time 0 p0 { num := (D : Int), den := 1 } hnz
    rw [if_pos hle] at hdir
    rw [hpd] at hpd
    have hinc2 : (prepSlot fracOps (exampleConst 4) { num := 0, den := 1 } time 0 p0
        { num := (D : Int), den := 1 }).1.substep_increment = (D : Int) * 100000 := by
      rw [hinc]
      exact fracOps_increment D hD
    have hdir0 : (prepSlot fracOps (exampleConst 4) { num := 0, den := 1 } time 0 p0
        { num := (D : Int), den := 1 }).1.direction = 0 := by
      rw [hdir]; rfl
    have hpd0 : (prepSlot fracOps (exampleConst 4) { num := 0, den := 1 } time 0 p0
        { num := (D : Int), den := 1 }).1.prev_direction = 0 := by
      rw [(prepSlot_direction fracOps (exampleConst 4) { num := 0, den := 1 }
        time 0 p0 { num := (D : Int), den := 1 } hnz).2.2, hprev]
    have hne : (prepSlot fracOps (exampleConst 4) { num := 0, den := 1 } time 0 p0
        { num := (D : Int), den := 1 }).1.substep_increment ≠ 0 := by
      rw [hinc2]
      have : (0 : Int) < D := by omega
      positivity
    generalize (prepSlot fracOps (exampleConst 4) { num := 0, den := 1 } time 0 p0
        { num := (D : Int), den := 1 }).1 = ps at hinc2 hdir0 hpd0 hne
    unfold loadRun loadPre
    rw [if_pos hne, if_pos hne]
    refine ⟨hinc2, ?_, hdir0⟩
    show (if ps.direction ≠ ps.prev_direction then _ else _) = (0 : Int)
    rw [if_neg (by rw [hdir0, hpd0]; exact fun h => h rfl)]
    exact correctedAcc_zero ps r0 hacc

/-- When the segment time differs from the stored one by more than the tolerance and the
stored one is not zero, `st_prep_line` requests the rescale of the accumulator by
`segment_time / prev_segment_time`. -/
theorem prepSlot_rescale (O : FloatOps F) (K : Const F) (e time : F) (pol : Nat)
    (p0 : stPrepMotor F) (x : F) (hnz : O.fp_ZERO x = false)
    (hdiff : O.lt (O.ofDec 1 7) (O.fabs (O.sub time p0.prev_segment_time)) = true)
    (hprev : O.fp_NOT_ZERO p0.prev_segment_time = true) :
    (prepSlot O K e time pol p0 x).1.accumulator_correction_flag = true
    ∧ (prepSlot O K e time pol p0 x).1.accumulator_correction
        = O.div time p0.prev_segment_time := by
  unfold prepSlot
  rw [if_neg (by rw [hnz]; exact Bool.false_ne_true)]
  simp only []
  split_ifs <;> simp_all

/-! ## Power mode and motor power -/

/-- What `st_set_pm` does, for every input: it returns the input-unsupported status, leaving
the state alone, exactly when the value is `>= MOTOR_POWER_MODE_MAX_VALUE` or the motor slot
`uint8_t(_get_motor(index))` is `> MOTORS`; otherwise it returns `STAT_OK` after one
`setPowerMode` call on a slot `<= MOTORS`. -/
theorem st_set_pm_spec (O : FloatOps F) (MOTORS : Nat) (maxv : Int) (group : Nat → List Char)
    (p : PowerState F) (nv : nvObj F) :
    ((st_set_pm O MOTORS maxv group p nv).1 = Stat.STAT_INPUT_VALUE_UNSUPPORTED
        ↔ (O.le (O.ofInt maxv) nv.value = true
            ∨ (toU8 (_get_motor group nv.index)).toNat > MOTORS))
    ∧ ((st_set_pm O MOTORS maxv group p nv).1 = Stat.STAT_INPUT_VALUE_UNSUPPORTED →
        (st_set_pm O MOTORS maxv group p nv).2 = p)
    ∧ ((st_set_pm O MOTORS maxv group p nv).1 ≠ Stat.STAT_INPUT_VALUE_UNSUPPORTED →
        (st_set_pm O MOTORS maxv group p nv).1 = Stat.STAT_OK
        ∧ (toU8 (_get_motor group nv.index)).toNat ≤ MOTORS
        ∧ (st_set_pm O MOTORS maxv group p nv).2
            = { p with calls := p.calls ++
                [PowerCall.setPowerMode (toU8 (_get_motor group nv.index)).toNat nv.value] }) := by
  unfold st_set_pm
  by_cases h1 : O.le (O.ofInt maxv) nv.value = true
  · simp [h1]
  · by_cases h2 : (toU8 (_get_motor group nv.index)).toNat > MOTORS
    · simp [h1, h2]
    · simp only [h1, h2, if_false, false_or]
      refine ⟨by simp, by simp, fun _ => ⟨rfl, by omega, rfl⟩⟩

/-- C21 (divergence): with `MOTORS = 4` and `MOTOR_POWER_MODE_MAX_VALUE = 4`, `st_set_pm` on
the parameter of motor 1 with the value `-1`, which is not an enumerator, returns `STAT_OK`
and calls `setPowerMode` on motor slot 0 with that value; and with `MOTORS = 6`, on a parameter
whose group string is empty (for which `_get_motor` returns 6), with the value 1, it returns
`STAT_OK` and calls `setPowerMode` on slot 6, which is not below `MOTORS`. -/
theorem C21_set_pm_accepts_out_of_range :
    (st_set_pm fracOps 4 4 sixMotorGroups zeroPower
        { index := 0, value := { num := -1, den := 1 } }).1 = Stat.STAT_OK
    ∧ (st_set_pm fracOps 4 4 sixMotorGroups zeroPower
        { index := 0, value := { num := -1, den := 1 } }).2.calls
        = [PowerCall.setPowerMode 0 { num := -1, den := 1 }]
    ∧ _get_motor sixMotorGroups 6 = 6
    ∧ (st_set_pm fracOps 6 4 sixMotorGroups zeroPower
        { index := 6, value := { num := 1, den := 1 } }).1 = Stat.STAT_OK
    ∧ (st_set_pm fracOps 6 4 sixMotorGroups zeroPower
        { index := 6, value := { num := 1, den := 1 } }).2.calls
        = [PowerCall.setPowerMode 6 { num := 1, den := 1 }]
    ∧ ¬ (6 < 6) := by
  decide

theorem energize_motor_trace (K : Const F) (d : Nat → Bool) (t : F) (s : Machine F)
    (m : Nat) (hm : m < K.MOTORS) :
    _energize_motor K d s m t
      = s.emit (if d m = true then Event.disable m else Event.enable m) := by
  unfold _energize_motor
  rw [if_neg (by omega)]
  split_ifs <;> rfl

theorem foldl_energize_trace (K : Const F) (d : Nat → Bool) (t : F) (l : List Nat) :
    ∀ s : Machine F, (∀ m ∈ l, m < K.MOTORS) →
      (l.foldl (fun u motor => _energize_motor K d u motor t) s).trace
        = s.trace ++ l.map (fun m => if d m = true then Event.disable m else Event.enable m) := by
  induction l with
  | nil => intro s _; simp
  | cons a l ih =>
    intro s h
    rw [List.foldl_cons, ih _ (fun m hm => h m (List.mem_cons_of_mem _ hm)),
      energize_motor_trace K d t s a (h a (List.mem_cons_self _ _))]
    simp [Machine.emit]

/-- The calls made by `st_energize_motors`: for each motor below `MOTORS`, in order, `disable()`
when the motor answers `isDisabled()`, `enable()` otherwise. -/
theorem st_energize_motors_trace (K : Const F) (d : Nat → Bool) (t : F) (s : Machine F) :
    (st_energize_motors K d s t).trace
      = s.trace ++ (List.range K.MOTORS).map
          (fun m => if d m = true then Event.disable m else Event.enable m) := by
  unfold st_energize_motors
  exact foldl_energize_trace K d t _ s (fun m hm => List.mem_range.mp hm)

/-- C22 (as amended): `st_energize_motors(timeout)` calls, for every motor `m < MOTORS`,
`enable()` when `Steppers[m]->isDisabled()` answers false, and `disable()`, not `enable()`,
when it answers true; it makes no other call. -/
theorem C22_energize_enables_motors_not_disabled (K : Const F) (d : Nat → Bool) (t : F)
    (s : Machine F) (m : Nat) (hm : m < K.MOTORS) :
    (st_energize_motors K d s t).trace
        = s.trace ++ (List.range K.MOTORS).map
            (fun j => if d j = true then Event.disable j else Event.enable j)
    ∧ (d m = false →
        Event.enable m ∈ (st_energize_motors K d s t).trace.drop s.trace.length
        ∧ Event.disable m ∉ (st_energize_motors K d s t).trace.drop s.trace.length)
    ∧ (d m = true →
        Event.disable m ∈ (st_energize_motors K d s t).trace.drop s.trace.length
        ∧ Event.enable m ∉ (st_energize_motors K d s t).trace.drop s.trace.length) := by
  have h := st_energize_motors_trace K d t s
  refine ⟨h, ?_, ?_⟩
  · intro hd
    rw [h, List.drop_left]
    constructor
    · exact List.mem_map.mpr ⟨m, List.mem_range.mpr hm, by simp [hd]⟩
    · intro hmem
      obtain ⟨j, -, hj⟩ := List.mem_map.mp hmem
      by_cases hdj : d j = true
      · rw [if_pos hdj] at hj
        injection hj with hj
        subst hj
        rw [hd] at hdj
        exact Bool.false_ne_true hdj
      · rw [if_neg hdj] at hj
        exact Event.noConfusion hj
  · intro hd
    rw [h, List.drop_left]
    constructor
    · exact List.mem_map.mpr ⟨m, List.mem_range.mpr hm, by simp [hd]⟩
    · intro hmem
      obtain ⟨j, -, hj⟩ := List.mem_map.mp hmem
      by_cases hdj : d j = true
      · rw [if_pos hdj] at hj
        exact Event.noConfusion hj
      · rw [if_neg hdj] at hj
        injection hj with hj
        subst hj
        exact hdj hd

/-- C22, witness: four motors of which motor 1 answers `isDisabled()`; motor 0 is enabled. -/
theorem C22_energize_enables_motors_not_disabled_witness :
    Event.enable 0 ∈ (st_energize_motors (exampleConst 4) (fun m => decide (m = 1))
        (initState 4) { num := 0, den := 1 }).trace.drop (initState 4).trace.length :=
  ((C22_energize_enables_motors_not_disabled (exampleConst 4) (fun m => decide (m = 1))
    { num := 0, den := 1 } (initState 4) 0 (by decide)).2.1 (by decide)).1

/-- C22 (counterexample): four motors of which motor 1 answers `isDisabled()`. After
`st_energize_motors`, `enable()` has not been invoked on motor 1; `disable()` has. -/
theorem C22_counterexample :
    1 < (exampleConst 4).MOTORS
    ∧ Event.enable 1 ∉ (st_energize_motors (exampleConst 4) (fun m => decide (m = 1))
        (initState 4) { num := 0, den := 1 }).trace
    ∧ Event.disable 1 ∈ (st_energize_motors (exampleConst 4) (fun m => decide (m = 1))
        (initState 4) { num := 0, den := 1 }).trace := by
  decide

/-! ## The dwell -/

theorem load_move_dwell (O : FloatOps F) (K : Const F) (s : Machine F)
    (h : s.st_run.dda_ticks_downcount = 0)
    (hb : s.st_pre.buffer_state = BufferState.PREP_BUFFER_OWNED_BY_LOADER)
    (ht : s.st_pre.block_type = BlockType.BLOCK_TYPE_DWELL) :
    _load_move O K s
      = Machine.emit
          { s with
            st_run := { s.st_run with dda_ticks_downcount := s.st_pre.dda_ticks },
            dwell_timer_running := true,
            st_pre := { s.st_pre with
              block_type := BlockType.BLOCK_TYPE_NULL,
              buffer_state := BufferState.PREP_BUFFER_OWNED_BY_EXEC } }
          Event.exec_setInterruptPending := by
  unfold _load_move st_runtime_isbusy st_request_exec_move
  simp [h, hb, ht]

/-- The first `k < n` dwell interrupts of a dwell with `n` ticks left only count down. -/
theorem iterate_dwell (O : FloatOps F) (K : Const F) (k : Nat) :
    ∀ (n : Nat) (s : Machine F), k < n → n < 4294967296 →
      s.st_run.dda_ticks_downcount = (n : Int) →
      (dwell_timer_interrupt O K)^[k] s
        = { s with st_run := { s.st_run with dda_ticks_downcount := (n : Int) - k } } := by
  induction k with
  | zero =>
    intro n s _ _ hs
    simp only [Function.iterate_zero, id_eq, Nat.cast_zero, sub_zero]
    rw [← hs]
  | succ k ih =>
    intro n s hk hn hs
    rw [Function.iterate_succ_apply', ih n s (by omega) hn hs]
    unfold dwell_timer_interrupt
    have h1 : toU32 ((n : Int) - (k : Int) - 1) = (n : Int) - ((k + 1 : Nat) : Int) := by
      unfold toU32; push_cast; omega
    simp only [h1]
    rw [if_neg (by push_cast; omega)]

/-- A dwell served by dwell interrupts only, with no DDA interrupt in between: for every dwell
tick count `N >= 1` (a `uint32_t`), after `_load_move` has loaded a DWELL block with
`dda_ticks = N`, the downcount is `N` and the dwell timer runs; after each of the first `N - 1`
dwell interrupts the runtime is still busy (downcount `N - k` after `k` interrupts, dwell timer
running); the `N`-th dwell interrupt brings the downcount to 0, stops the dwell timer and calls
the loader in that state. And `st_prep_dwell(1000)` with `FREQUENCY_DWELL = 1000` stages
`dda_ticks = 1`. -/
theorem dwell_interrupts_alone_count_N (O : FloatOps F) (K : Const F) (s : Machine F) (N : Nat)
    (hN1 : 1 ≤ N) (hN2 : N < 4294967296)
    (h0 : s.st_run.dda_ticks_downcount = 0)
    (hb : s.st_pre.buffer_state = BufferState.PREP_BUFFER_OWNED_BY_LOADER)
    (ht : s.st_pre.block_type = BlockType.BLOCK_TYPE_DWELL)
    (hT : s.st_pre.dda_ticks = (N : Int)) :
    (_load_move O K s).st_run.dda_ticks_downcount = (N : Int)
    ∧ (_load_move O K s).dwell_timer_running = true
    ∧ (∀ k, k < N →
        st_runtime_isbusy ((dwell_timer_interrupt O K)^[k] (_load_move O K s)) = true
        ∧ ((dwell_timer_interrupt O K)^[k] (_load_move O K s)).st_run.dda_ticks_downcount
            = (N : Int) - k
        ∧ ((dwell_timer_interrupt O K)^[k] (_load_move O K s)).dwell_timer_running = true)
    ∧ (dwell_timer_interrupt O K)^[N] (_load_move O K s)
        = _load_move O K
            { (dwell_timer_interrupt O K)^[N - 1] (_load_move O K s) with
              st_run :=
                { ((dwell_timer_interrupt O K)^[N - 1] (_load_move O K s)).st_run with
                  dda_ticks_downcount := 0 },
              dwell_timer_running := false }
    ∧ (∀ s0 : Machine Frac,
        (st_prep_dwell fracOps (exampleConst 4) s0 { num := 1000, den := 1 }).st_pre.dda_ticks
          = 1) := by
  have hd : (_load_move O K s).st_run.dda_ticks_downcount = (N : Int) := by
    rw [load_move_dwell O K s h0 hb ht]
    exact hT
  have hw : (_load_move O K s).dwell_timer_running = true := by
    rw [load_move_dwell O K s h0 hb ht]
    rfl
  refine ⟨hd, hw, ?_, ?_, ?_⟩
  · intro k hk
    rw [iterate_dwell O K k N _ hk hN2 hd]
    refine ⟨?_, rfl, hw⟩
    unfold st_runtime_isbusy
    simp only [ne_eq, decide_eq_true_eq]
    omega
  · have hN : N = (N - 1) + 1 := by omega
    have hiter : (dwell_timer_interrupt O K)^[N] (_load_move O K s)
        = dwell_timer_interrupt O K ((dwell_timer_interrupt O K)^[N - 1] (_load_move O K s)) := by
      conv_lhs => rw [hN]
      exact Function.iterate_succ_apply' _ _ _
    rw [hiter]
    have hp : ((dwell_timer_interrupt O K)^[N - 1] (_load_move O K s)).st_run.dda_ticks_downcount
        = 1 := by
      rw [iterate_dwell O K (N - 1) N _ (by omega) hN2 hd]
      show (N : Int) - ((N - 1 : Nat) : Int) = 1
      omega
    generalize (dwell_timer_interrupt O K)^[N - 1] (_load_move O K s) = sp at hp
    unfold dwell_timer_interrupt
    have h1 : toU32 (sp.st_run.dda_ticks_downcount - 1) = 0 := by rw [hp]; rfl
    simp only [h1, if_true]
  · intro s0
    rfl

/-- C24 (divergence): a reachable state in which a dwell has been loaded by the loader call of
the last DDA tick of a line segment, so the dwell timer runs, 5 dwell ticks are left and the
DDA timer has not been stopped. The next DDA interrupt finds a non-zero downcount and runs the
DDA clauses on the increments of the finished segment: it raises the step line of motor 0
(one more `stepStart`), changes that motor's accumulator from 0 to -6000000 and takes one tick
off the dwell's downcount. -/
theorem C24_dda_steps_during_dwell :
    Reachable fracOps (exampleConst 4) dwellAfterLine
    ∧ dwellAfterLine.st_run.dda_ticks_downcount = 5
    ∧ dwellAfterLine.dwell_timer_running = true
    ∧ dwellAfterLine.dda_timer_running = true
    ∧ dwellAfterLine.step_pin 0 = false
    ∧ (dwellAfterLine.st_run.mot 0).substep_accumulator = 0
    ∧ (dda_timer_interrupt fracOps (exampleConst 4) dwellAfterLine).step_pin 0 = true
    ∧ stepsRaised 0 (dda_timer_interrupt fracOps (exampleConst 4) dwellAfterLine).trace
        = stepsRaised 0 dwellAfterLine.trace + 1
    ∧ ((dda_timer_interrupt fracOps (exampleConst 4) dwellAfterLine).st_run.mot
        0).substep_accumulator = -6000000
    ∧ (dda_timer_interrupt fracOps (exampleConst 4)
        dwellAfterLine).st_run.dda_ticks_downcount = 4 := by
  refine ⟨?_, by decide, by decide, by decide, by decide, by decide, by decide, ?_, by decide,
    by decide⟩
  · unfold dwellAfterLine
    refine reachable_iterate_dda fracOps (exampleConst 4) 120 120 _ ?_ (by decide) (by decide)
      (by decide) (by decide)
    unfold initState stepper_init
    exact Reachable.prep_dwell _ _
      (Reachable.load _ (Reachable.prep_line _ _ _ _ (Reachable.reset _)))
  · rw [dda_timer_interrupt_steps fracOps (exampleConst 4) dwellAfterLine 0 (by decide),
      if_pos (by decide)]

/-! ## The Trinamic driver -/

/-- The write switch changes nothing but `out_buffer.value`. -/
theorem prepWriteSwitch_fields (c : Trinamic2130Base) (code : Int) :
    (prepWriteSwitch c code).out_buffer.addr = c.out_buffer.addr
    ∧ (prepWriteSwitch c code).in_buffer = c.in_buffer
    ∧ (prepWriteSwitch c code).transmitting = c.transmitting
    ∧ (prepWriteSwitch c code)._register_thats_reading = c._register_thats_reading
    ∧ (prepWriteSwitch c code)._reading_only = c._reading_only
    ∧ (prepWriteSwitch c code)._registers_to_access = c._registers_to_access
    ∧ (prepWriteSwitch c code).status = c.status
    ∧ (prepWriteSwitch c code).value = c.value
    ∧ (prepWriteSwitch c code).immediate_ends_transaction = c.immediate_ends_transaction
    ∧ (prepWriteSwitch c code).check_timer = c.check_timer
    ∧ (prepWriteSwitch c code).queued = c.queued := by
  unfold prepWriteSwitch _prepWrite
  cases writeCase code <;> exact ⟨rfl, rfl, rfl, rfl, rfl, rfl, rfl, rfl, rfl, rfl, rfl⟩

theorem prepWriteSwitch_transmitting (c : Trinamic2130Base) (code : Int) :
    (prepWriteSwitch c code).transmitting = c.transmitting :=
  (prepWriteSwitch_fields c code).2.2.1

/-- A call of `_startNextRead` either leaves the chip transmitting, or finds nothing to do and
changes nothing. -/
theorem startNextRead_post (c : Trinamic2130Base) :
    (_startNextRead c).transmitting = true
    ∨ (_startNextRead c = c ∧ c.transmitting = false ∧ c._registers_to_access = []
        ∧ c._register_thats_reading = -1) := by
  unfold _startNextRead
  by_cases h : c.transmitting = true
      ∨ (c._registers_to_access = [] ∧ c._register_thats_reading = -1)
  · rw [if_pos h]
    rcases h with h | h
    · exact Or.inl h
    · by_cases ht : c.transmitting = true
      · exact Or.inl ht
      · exact Or.inr ⟨rfl, by simpa using ht, h.1, h.2⟩
  · rw [if_neg h]
    left
    cases hq : c._registers_to_access with
    | nil => simp only [sendFrame]
    | cons a l =>
      simp only [sendFrame]
      split_ifs
      · rw [prepWriteSwitch_transmitting]
      · rfl

theorem startNextRead_transmitting (c : Trinamic2130Base) (h : c.transmitting = true) :
    _startNextRead c = c := by
  unfold _startNextRead
  rw [if_pos (Or.inl h)]

theorem startNextRead_reading_only (c : Trinamic2130Base)
    (h : (_startNextRead c).transmitting = false) :
    (_startNextRead c)._reading_only = c._reading_only ∧ c.transmitting = false := by
  rcases startNextRead_post c with h1 | ⟨h1, h2, -, -⟩
  · rw [h] at h1; exact absurd h1 Bool.false_ne_true
  · rw [h1]; exact ⟨rfl, h2⟩

theorem chipInv_startNextRead (c : Trinamic2130Base)
    (h : c.transmitting = false → c._reading_only = false) : ChipInv (_startNextRead c) := by
  intro ht
  rcases startNextRead_post c with h1 | ⟨h1, h2, h3, h4⟩
  · rw [ht] at h1; exact absurd h1 Bool.false_ne_true
  · rw [h1]; exact ⟨h3, h4, h h2⟩

theorem chipInv_assign (c : Trinamic2130Base) (r : Register) (v : Int) (h : ChipInv c) :
    ChipInv (c.assign r v) := h

theorem chipInv_assignField (c : Trinamic2130Base) (r : Register) (lo w : Nat) (x : Int)
    (h : ChipInv c) : ChipInv (c.assignField r lo w x) := h

theorem chipInv_readRegister (c : Trinamic2130Base) (reg : Int) (h : ChipInv c) :
    ChipInv (readRegister c reg) :=
  chipInv_startNextRead _ (fun ht => (h ht).2.2)

theorem chipInv_writeRegister (c : Trinamic2130Base) (reg : Int) (h : ChipInv c) :
    ChipInv (writeRegister c reg) :=
  chipInv_startNextRead _ (fun ht => (h ht).2.2)

theorem chipInv_timer (c : Trinamic2130Base) (l : List Int) (h : ChipInv c) :
    ChipInv { c with check_timer := l } := h

theorem chipInv_init (c : Trinamic2130Base) (h : ChipInv c) : ChipInv (init c) := by
  unfold init
  simp only []
  apply chipInv_timer
  apply chipInv_readRegister
  apply chipInv_readRegister
  apply chipInv_writeRegister
  apply chipInv_assignField
  apply chipInv_assignField
  apply chipInv_assignField
  apply chipInv_assignField
  apply chipInv_assignField
  apply chipInv_assignField
  apply chipInv_writeRegister
  apply chipInv_assignField
  apply chipInv_assignField
  apply chipInv_assignField
  apply chipInv_assignField
  apply chipInv_assignField
  apply chipInv_assignField
  apply chipInv_assignField
  apply chipInv_assignField
  apply chipInv_assignField
  apply chipInv_assignField
  apply chipInv_assignField
  apply chipInv_assignField
  apply chipInv_assignField
  apply chipInv_assignField
  apply chipInv_assignField
  apply chipInv_assignField
  apply chipInv_assign
  apply chipInv_writeRegister
  apply chipInv_assignField
  apply chipInv_writeRegister
  apply chipInv_assign
  apply chipInv_writeRegister
  apply chipInv_assign
  apply chipInv_writeRegister
  apply chipInv_assign
  apply chipInv_writeRegister
  apply chipInv_assignField
  apply chipInv_assignField
  apply chipInv_assignField
  exact h

theorem chipInv_check (c : Trinamic2130Base) (p : Bool) (h : ChipInv c) :
    ChipInv (check c p) := by
  unfold check
  split_ifs
  · exact chipInv_readRegister _ _ (chipInv_readRegister _ _ (chipInv_readRegister _ _
      (chipInv_timer c _ h)))
  · exact h

theorem chipInv_frameDone (c : Trinamic2130Base) (resp : trinamic_buffer_t) :
    ChipInv (frameDone c resp) := by
  unfold frameDone _doneReadingCallback
  exact chipInv_startNextRead _ (fun _ => rfl)

/-- In every reachable chip state, a chip that is not transmitting has an empty queue, no read
latched and `_reading_only` cleared. -/
theorem chipReachable_inv (c : Trinamic2130Base) (h : ChipReachable c) : ChipInv c := by
  induction h with
  | fresh => intro _; exact ⟨rfl, rfl, rfl⟩
  | init c _ ih => exact chipInv_init c ih
  | assign c r v _ ih => exact chipInv_assign c r v ih
  | read c reg _ ih => exact chipInv_readRegister c reg ih
  | write c reg _ ih => exact chipInv_writeRegister c reg ih
  | check c p _ ih => exact chipInv_check c p ih
  | done c resp _ _ _ => exact chipInv_frameDone c resp

/-- C29: in every chip state reachable from the freshly constructed object through `init`,
assignments to the cached registers, `readRegister`, `writeRegister`, `check` and frame
completion callbacks, if the chip is not transmitting and the pending queue is empty then
`_register_thats_reading == -1`. (A chip that is not transmitting always has an empty
queue.) -/
theorem C29_idle_chip_has_no_read_latched (c : Trinamic2130Base) (h : ChipReachable c)
    (ht : c.transmitting = false) (_hq : c._registers_to_access = []) :
    c._register_thats_reading = -1
    ∧ (c.transmitting = false → c._registers_to_access = []) :=
  ⟨(chipReachable_inv c h ht).2.1, fun ht2 => (chipReachable_inv c h ht2).1⟩

/-- C29, witness: the freshly constructed chip. -/
theorem C29_idle_chip_has_no_read_latched_witness :
    freshChip._register_thats_reading = -1 :=
  (C29_idle_chip_has_no_read_latched freshChip ChipReachable.fresh rfl rfl).1

/-- C28: while `transmitting == true`, `readRegister`, `writeRegister` and `check` only append
their tokens to the pending queue (`check`, when its timer is past, also rearms the timer):
`out_buffer` and `in_buffer` are unchanged and no frame is submitted. -/
theorem C28_no_buffer_change_while_transmitting (c : Trinamic2130Base) (reg : Int) (p : Bool)
    (h : c.transmitting = true) :
    readRegister c reg
        = { c with _registers_to_access := ringWrite c._registers_to_access (toU8 reg) }
    ∧ writeRegister c reg
        = { c with _registers_to_access :=
              ringWrite c._registers_to_access (setBit7 (toU8 reg)) }
    ∧ check c true
        = { c with
            check_timer := c.check_timer ++ [100],
            _registers_to_access :=
              ringWrite (ringWrite (ringWrite c._registers_to_access 0x04) 0x6A) 0x6F }
    ∧ check c false = c
    ∧ (readRegister c reg).out_buffer = c.out_buffer
    ∧ (readRegister c reg).in_buffer = c.in_buffer
    ∧ (readRegister c reg).queued = c.queued
    ∧ (writeRegister c reg).out_buffer = c.out_buffer
    ∧ (writeRegister c reg).in_buffer = c.in_buffer
    ∧ (writeRegister c reg).queued = c.queued
    ∧ (check c p).out_buffer = c.out_buffer
    ∧ (check c p).in_buffer = c.in_buffer
    ∧ (check c p).queued = c.queued
    ∧ (c._registers_to_access.length < 32 →
        ringWrite c._registers_to_access (toU8 reg) = c._registers_to_access ++ [toU8 reg]) := by
  have hr : ∀ (d : Trinamic2130Base) (x : Int), d.transmitting = true →
      readRegister d x
        = { d with _registers_to_access := ringWrite d._registers_to_access (toU8 x) } := by
    intro d x hd
    unfold readRegister
    exact startNextRead_transmitting _ hd
  have hw : writeRegister c reg
      = { c with _registers_to_access :=
            ringWrite c._registers_to_access (setBit7 (toU8 reg)) } := by
    unfold writeRegister
    exact startNextRead_transmitting _ h
  have hc : check c true
      = { c with
          check_timer := c.check_timer ++ [100],
          _registers_to_access :=
            ringWrite (ringWrite (ringWrite c._registers_to_access 0x04) 0x6A) 0x6F } := by
    unfold check
    simp only [if_true]
    rw [hr _ 0x04, hr _ 0x6A, hr _ 0x6F] <;> first | rfl | exact h
  have hf : check c false = c := by
    unfold check
    simp
  refine ⟨hr c reg h, hw, hc, hf, by rw [hr c reg h], by rw [hr c reg h], by rw [hr c reg h],
    by rw [hw], by rw [hw], by rw [hw], ?_, ?_, ?_, ?_⟩
  · cases p
    · rw [hf]
    · rw [hc]
  · cases p
    · rw [hf]
    · rw [hc]
  · cases p
    · rw [hf]
    · rw [hc]
  · intro hl
    unfold ringWrite
    rw [if_pos hl]

/-- C28, witness: the chip right after `readRegister(IOIN)` on a fresh object, with that frame
in flight; a `writeRegister(CHOPCONF)` then leaves `out_buffer` as it is. -/
theorem C28_no_buffer_change_while_transmitting_witness :
    (writeRegister (readRegister freshChip 0x04) 0x6C).out_buffer
      = (readRegister freshChip 0x04).out_buffer :=
  (C28_no_buffer_change_while_transmitting (readRegister freshChip 0x04) 0x6C true
    (by decide)).2.2.2.2.2.2.2.1

theorem toU8_eq_self {x : Int} (h0 : 0 ≤ x) (h1 : x < 256) : toU8 x = x := by
  unfold toU8; omega

theorem bit7_low {x : Int} (h0 : 0 ≤ x) (h1 : x < 128) : bit7 x = false := by
  unfold bit7
  simp only [decide_eq_false_iff_not]
  omega

theorem Register.reg_range (r : Register) : 0 ≤ r.reg ∧ r.reg < 128 := by
  cases r <;> exact ⟨by decide, by decide⟩

theorem Register.readCase_reg (r : Register) (h : r.readable = true) :
    readCase r.reg = some r := by
  cases r <;> first | rfl | exact absurd h (by decide)

theorem Register.writeCase_reg (r : Register) (h : r.writable = true) :
    writeCase r.reg = some r := by
  cases r <;> first | rfl | exact absurd h (by decide)

/-- A read request on a chip with an empty queue that is not transmitting is sent at once:
the frame carries the register number and the stale contents of `out_buffer.value`. -/
theorem readRegister_idle (c : Trinamic2130Base) (a : Int) (h0 : 0 ≤ a) (h1 : a < 128)
    (hq : c._registers_to_access = []) (ht : c.transmitting = false) :
    readRegister c a
      = { c with
          transmitting := true,
          _registers_to_access := [],
          out_buffer := { c.out_buffer with addr := a },
          queued := c.queued ++ [{ addr := a, value := c.out_buffer.value }] } := by
  have hu : toU8 a = a := toU8_eq_self h0 (by omega)
  have hb : bit7 a = false := bit7_low h0 h1
  unfold readRegister _startNextRead ringWrite sendFrame
  simp [hq, ht, hu, hb]

/-- Completion of a read request frame when nothing else is queued: the register is latched
and the collect frame, with the same address, is sent. -/
theorem frameDone_request (c : Trinamic2130Base) (resp : trinamic_buffer_t)
    (h0 : 0 ≤ c.out_buffer.addr) (h1 : c.out_buffer.addr < 128)
    (hro : c._reading_only = false) (hl : c._register_thats_reading = -1)
    (hq : c._registers_to_access = []) :
    frameDone c resp
      = { c with
          in_buffer := resp,
          status := resp.addr,
          _register_thats_reading := c.out_buffer.addr,
          _reading_only := true,
          transmitting := true,
          queued := c.queued ++ [c.out_buffer] } := by
  have hu : toU8 c.out_buffer.addr = c.out_buffer.addr := toU8_eq_self h0 (by omega)
  have hb : bit7 c.out_buffer.addr = false := bit7_low h0 h1
  have hne : c.out_buffer.addr ≠ -1 := by omega
  unfold frameDone _doneReadingCallback _startNextRead sendFrame
  simp [hro, hl, hq, hu, hb, hne]

/-- Completion of a collect frame when nothing else is queued: the response is decoded into
the latched register and the chip is idle. -/
theorem frameDone_collect (c : Trinamic2130Base) (r : Register) (resp : trinamic_buffer_t)
    (hr : r.readable = true) (hl : c._register_thats_reading = r.reg)
    (hro : c._reading_only = true) (hq : c._registers_to_access = []) :
    frameDone c resp
      = { c with
          in_buffer := resp,
          status := resp.addr,
          value := fun r2 => if r2 = r then fromBigEndian resp.value else c.value r2,
          _register_thats_reading := -1,
          immediate_ends_transaction := true,
          _reading_only := false,
          transmitting := false } := by
  have hne : r.reg ≠ -1 := by have := r.reg_range; omega
  have hc := r.readCase_reg hr
  unfold frameDone _doneReadingCallback _startNextRead postReadSwitch _postRead
    Trinamic2130Base.assign
  simp [hro, hl, hq, hne, hc]

theorem fromBigEndian_memoryBytes (x b0 b1 b2 b3 : Int)
    (h : memoryBytes x = [b0, b1, b2, b3]) :
    fromBigEndian x = b0 * 16777216 + b1 * 65536 + b2 * 256 + b3 := by
  unfold memoryBytes at h
  injection h with h0 h
  injection h with h1 h
  injection h with h2 h
  injection h with h3 h
  unfold fromBigEndian bswap32
  rw [h0, h1, h2, h3]

/-- C25: for every register `r` that the completion callback can decode (GCONF, GSTAT, IOIN,
TSTEP, XDIRECT, MSCNT, CHOPCONF, COOLCONF, DRV_STATUS) and every reachable idle chip (queue
empty, not transmitting, no read latched): `readRegister(r)` sends one frame with address
byte `r` (bit 7 clear); at its completion `_register_thats_reading` becomes `r`, no cached
register changes and a second frame with the same address is sent; at the completion of the
second frame the cached value of `r` becomes the big-endian decoding of the four payload bytes
received in it, no other cached register changes, no further frame is sent and the chip is
idle again. -/
theorem C25_read_register_round_trip (c : Trinamic2130Base) (r : Register)
    (resp1 resp2 : trinamic_buffer_t)
    (hreach : ChipReachable c) (hidle : Idle c) (hr : r.readable = true) :
    bit7 r.reg = false
    ∧ (readRegister c r.reg).queued
        = c.queued ++ [{ addr := r.reg, value := c.out_buffer.value }]
    ∧ (readRegister c r.reg).transmitting = true
    ∧ (frameDone (readRegister c r.reg) resp1)._register_thats_reading = r.reg
    ∧ (frameDone (readRegister c r.reg) resp1).value = c.value
    ∧ (frameDone (readRegister c r.reg) resp1).transmitting = true
    ∧ (frameDone (readRegister c r.reg) resp1).queued
        = c.queued ++ [{ addr := r.reg, value := c.out_buffer.value },
                       { addr := r.reg, value := c.out_buffer.value }]
    ∧ (frameDone (frameDone (readRegister c r.reg) resp1) resp2).queued
        = c.queued ++ [{ addr := r.reg, value := c.out_buffer.value },
                       { addr := r.reg, value := c.out_buffer.value }]
    ∧ (frameDone (frameDone (readRegister c r.reg) resp1) resp2).value r
        = fromBigEndian resp2.value
    ∧ (∀ b0 b1 b2 b3, memoryBytes resp2.value = [b0, b1, b2, b3] →
        (frameDone (frameDone (readRegister c r.reg) resp1) resp2).value r
          = b0 * 16777216 + b1 * 65536 + b2 * 256 + b3)
    ∧ (∀ r2, r2 ≠ r →
        (frameDone (frameDone (readRegister c r.reg) resp1) resp2).value r2 = c.value r2)
    ∧ Idle (frameDone (frameDone (readRegister c r.reg) resp1) resp2) := by
  obtain ⟨hq, ht, hl⟩ := hidle
  have hro : c._reading_only = false := (chipReachable_inv c hreach ht).2.2
  obtain ⟨h0, h1⟩ := r.reg_range
  have e1 := readRegister_idle c r.reg h0 h1 hq ht
  have e2 := frameDone_request (readRegister c r.reg) resp1
    (by rw [e1]; exact h0) (by rw [e1]; exact h1) (by rw [e1]; exact hro)
    (by rw [e1]; exact hl) (by rw [e1])
  have e3 := frameDone_collect (frameDone (readRegister c r.reg) resp1) r resp2 hr
    (by rw [e2, e1]) (by rw [e2]) (by rw [e2, e1])
  have hv : (frameDone (frameDone (readRegister c r.reg) resp1) resp2).value r
      = fromBigEndian resp2.value := by
    rw [e3]
    simp
  refine ⟨bit7_low h0 h1, by rw [e1], by rw [e1], by rw [e2, e1], by rw [e2, e1],
    by rw [e2], ?_, ?_, hv, ?_, ?_, ?_⟩
  · rw [e2, e1]
    simp
  · rw [e3, e2, e1]
    simp
  · intro b0 b1 b2 b3 hb
    rw [hv]
    exact fromBigEndian_memoryBytes _ _ _ _ _ hb
  · intro r2 hne
    rw [e3]
    simp only [if_neg hne]
    rw [e2, e1]
  · rw [e3]
    refine ⟨?_, rfl, rfl⟩
    show (frameDone (readRegister c r.reg) resp1)._registers_to_access = []
    rw [e2, e1]

/-- C25, witness: reading IOIN on the freshly constructed chip; the response `00 00 00 11`
(most significant byte first) is decoded to `0x11`. -/
theorem C25_read_register_round_trip_witness :
    (frameDone (frameDone (readRegister freshChip Register.IOIN.reg)
        { addr := 0, value := 0 }) { addr := 0, value := 0x11000000 }).value Register.IOIN
      = 0x11 :=
  (C25_read_register_round_trip freshChip Register.IOIN { addr := 0, value := 0 }
    { addr := 0, value := 0x11000000 } ChipReachable.fresh ⟨rfl, rfl, rfl⟩ rfl).2.2.2.2.2.2.2.2.1

theorem word_bytes (a b c d : Int) (ha : 0 ≤ a ∧ a < 256) (hb : 0 ≤ b ∧ b < 256)
    (hc : 0 ≤ c ∧ c < 256) (hd : 0 ≤ d ∧ d < 256) :
    (a * 16777216 + b * 65536 + c * 256 + d) % 256 = d
    ∧ (a * 16777216 + b * 65536 + c * 256 + d) / 256 % 256 = c
    ∧ (a * 16777216 + b * 65536 + c * 256 + d) / 65536 % 256 = b
    ∧ (a * 16777216 + b * 65536 + c * 256 + d) / 16777216 % 256 = a := by
  refine ⟨by omega, by omega, by omega, by omega⟩

theorem word_decompose (v : Int) (h0 : 0 ≤ v) (h1 : v < 4294967296) :
    v = (v / 16777216 % 256) * 16777216 + (v / 65536 % 256) * 65536
        + (v / 256 % 256) * 256 + v % 256 := by
  omega

theorem bswap32_bswap32 (v : Int) (h0 : 0 ≤ v) (h1 : v < 4294967296) :
    bswap32 (bswap32 v) = v := by
  have hw := word_bytes (v % 256) (v / 256 % 256) (v / 65536 % 256) (v / 16777216 % 256)
    (by omega) (by omega) (by omega) (by omega)
  obtain ⟨w0, w1, w2, w3⟩ := hw
  have hd := word_decompose v h0 h1
  unfold bswap32
  rw [w0, w1, w2, w3]
  omega

theorem fromBigEndian_toBigEndian (v : Int) (h0 : 0 ≤ v) (h1 : v < 4294967296) :
    fromBigEndian (toBigEndian v) = v :=
  bswap32_bswap32 v h0 h1

theorem memoryBytes_toBigEndian (v : Int) :
    memoryBytes (toBigEndian v) = bytesMsbFirst v := by
  have hw := word_bytes (v % 256) (v / 256 % 256) (v / 65536 % 256) (v / 16777216 % 256)
    (by omega) (by omega) (by omega) (by omega)
  obtain ⟨w0, w1, w2, w3⟩ := hw
  unfold memoryBytes bytesMsbFirst toBigEndian bswap32
  rw [w0, w1, w2, w3]

theorem setBit7_low {x : Int} (h0 : 0 ≤ x) (h1 : x < 128) : setBit7 x = x + 128 := by
  unfold setBit7
  rw [bit7_low h0 h1]
  simp

theorem bit7_high {x : Int} (h0 : 128 ≤ x) (h1 : x < 256) : bit7 x = true := by
  unfold bit7
  simp only [decide_eq_true_eq]
  omega

theorem clearBit7_high {x : Int} (h0 : 128 ≤ x) (h1 : x < 256) : clearBit7 x = x - 128 := by
  unfold clearBit7
  omega

/-- The pump on a chip that is not transmitting, with the write token of a writable register
at the head of the queue: the register's cached value at this moment is marshalled, big-endian,
into `out_buffer` and the frame is sent. -/
theorem startNextRead_write_head (c : Trinamic2130Base) (r : Register) (rest : List Int)
    (hw : r.writable = true) (ht : c.transmitting = false)
    (hq : c._registers_to_access = (r.reg + 128) :: rest) :
    _startNextRead c
      = { c with
          transmitting := true,
          _registers_to_access := rest,
          out_buffer := { addr := r.reg + 128, value := toBigEndian (c.value r) },
          queued := c.queued ++ [{ addr := r.reg + 128, value := toBigEndian (c.value r) }] } := by
  obtain ⟨h0, h1⟩ := r.reg_range
  have hb : bit7 (r.reg + 128) = true := bit7_high (by omega) (by omega)
  have hc : clearBit7 (r.reg + 128) = r.reg := by
    rw [clearBit7_high (by omega) (by omega)]; omega
  have hu : toU8 (r.reg + 128) = r.reg + 128 := toU8_eq_self (by omega) (by omega)
  have hwc := r.writeCase_reg hw
  unfold _startNextRead sendFrame prepWriteSwitch _prepWrite
  simp [ht, hq, hb, hc, hu, hwc]

/-- The pump on a chip that is not transmitting, with a read token at the head of the queue:
the frame is sent with that address and the payload left in `out_buffer`. -/
theorem startNextRead_read_head (c : Trinamic2130Base) (a : Int) (rest : List Int)
    (h0 : 0 ≤ a) (h1 : a < 128) (ht : c.transmitting = false)
    (hq : c._registers_to_access = a :: rest) :
    _startNextRead c
      = { c with
          transmitting := true,
          _registers_to_access := rest,
          out_buffer := { c.out_buffer with addr := a },
          queued := c.queued ++ [{ addr := a, value := c.out_buffer.value }] } := by
  have hu : toU8 a = a := toU8_eq_self h0 (by omega)
  have hb : bit7 a = false := bit7_low h0 h1
  unfold _startNextRead sendFrame
  simp [ht, hq, hu, hb]

/-- A write request for a writable register on a chip with an empty queue that is not
transmitting is sent at once, with the big-endian image of the cached value at the call. -/
theorem writeRegister_idle (c : Trinamic2130Base) (r : Register) (hw : r.writable = true)
    (hq : c._registers_to_access = []) (ht : c.transmitting = false) :
    writeRegister c r.reg
      = { c with
          transmitting := true,
          _registers_to_access := [],
          out_buffer := { addr := r.reg + 128, value := toBigEndian (c.value r) },
          queued := c.queued ++ [{ addr := r.reg + 128, value := toBigEndian (c.value r) }] } := by
  obtain ⟨h0, h1⟩ := r.reg_range
  have hu : toU8 r.reg = r.reg := toU8_eq_self h0 (by omega)
  unfold writeRegister
  have e := startNextRead_write_head
    { c with _registers_to_access := ringWrite c._registers_to_access (setBit7 (toU8 r.reg)) }
    r [] hw ht (by simp [ringWrite, hq, hu, setBit7_low h0 h1])
  rw [e]

/-- Completion of a write frame (bit 7 of the address sent) when no read is latched: the
status byte is kept, the message is marked as ending the transaction and the pump runs. -/
theorem frameDone_write (c : Trinamic2130Base) (resp : trinamic_buffer_t)
    (hb : bit7 c.out_buffer.addr = true) (hl : c._register_thats_reading = -1) :
    frameDone c resp
      = _startNextRead
          { c with
            in_buffer := resp,
            status := resp.addr,
            immediate_ends_transaction := true,
            _reading_only := false,
            transmitting := false } := by
  unfold frameDone _doneReadingCallback
  simp [hb, hl]

theorem readRegister_transmitting (c : Trinamic2130Base) (reg : Int)
    (h : c.transmitting = true) :
    readRegister c reg
      = { c with _registers_to_access := ringWrite c._registers_to_access (toU8 reg) } := by
  unfold readRegister
  exact startNextRead_transmitting _ h

theorem writeRegister_transmitting (c : Trinamic2130Base) (reg : Int)
    (h : c.transmitting = true) :
    writeRegister c reg
      = { c with _registers_to_access :=
            ringWrite c._registers_to_access (setBit7 (toU8 reg)) } := by
  unfold writeRegister
  exact startNextRead_transmitting _ h

/-- The states of the CHOPCONF round trip, stage by stage. -/
theorem chopconfRoundTrip_stages (c : Trinamic2130Base) (respA respB respC : trinamic_buffer_t)
    (hq : c._registers_to_access = []) (ht : c.transmitting = false)
    (hl : c._register_thats_reading = -1) :
    chopconfRoundTrip c respA respB respC
      = { c with
          out_buffer := { addr := 0x6C, value := toBigEndian (c.value Register.CHOPCONF) },
          in_buffer := respC,
          status := respC.addr,
          value := fun r2 =>
            if r2 = Register.CHOPCONF then fromBigEndian respC.value else c.value r2,
          immediate_ends_transaction := true,
          _reading_only := false,
          queued := c.queued ++
            [{ addr := 0xEC, value := toBigEndian (c.value Register.CHOPCONF) },
             { addr := 0x6C, value := toBigEndian (c.value Register.CHOPCONF) },
             { addr := 0x6C, value := toBigEndian (c.value Register.CHOPCONF) }] } := by
  have e1 : writeRegister c 0x6C
      = { c with
          transmitting := true,
          _registers_to_access := [],
          out_buffer := { addr := 0xEC, value := toBigEndian (c.value Register.CHOPCONF) },
          queued := c.queued ++
            [{ addr := 0xEC, value := toBigEndian (c.value Register.CHOPCONF) }] } :=
    writeRegister_idle c Register.CHOPCONF rfl hq ht
  have e2 : readRegister (writeRegister c 0x6C) 0x6C
      = { writeRegister c 0x6C with _registers_to_access := [0x6C] } := by
    rw [readRegister_transmitting _ _ (by rw [e1])]
    rw [e1]
    rfl
  have e3 : frameDone (readRegister (writeRegister c 0x6C) 0x6C) respA
      = { c with
          transmitting := true,
          _registers_to_access := [],
          in_buffer := respA,
          status := respA.addr,
          immediate_ends_transaction := true,
          _reading_only := false,
          out_buffer := { addr := 0x6C, value := toBigEndian (c.value Register.CHOPCONF) },
          queued := c.queued ++
            [{ addr := 0xEC, value := toBigEndian (c.value Register.CHOPCONF) },
             { addr := 0x6C, value := toBigEndian (c.value Register.CHOPCONF) }] } := by
    rw [frameDone_write _ respA (by rw [e2, e1]; show bit7 236 = true; decide) (by rw [e2, e1]; exact hl)]
    rw [startNextRead_read_head _ 0x6C [] (by decide) (by decide) rfl (by rw [e2])]
    rw [e2, e1]
    simp
  have e4 := frameDone_request (frameDone (readRegister (writeRegister c 0x6C) 0x6C) respA)
    respB (by rw [e3]; show (0 : Int) ≤ 108; decide) (by rw [e3]; show (108 : Int) < 128; decide)
    (by rw [e3]) (by rw [e3]; exact hl)
    (by rw [e3])
  have e5 := frameDone_collect
    (frameDone (frameDone (readRegister (writeRegister c 0x6C) 0x6C) respA) respB)
    Register.CHOPCONF respC rfl (by rw [e4, e3]; rfl) (by rw [e4]) (by rw [e4, e3])
  unfold chopconfRoundTrip
  rw [e5, e4, e3]
  simp [ht, hq, hl]

/-- C26: for every 32-bit value `v` held in the CHOPCONF cache of an idle chip:
`writeRegister(CHOPCONF)` then `readRegister(CHOPCONF)`, against a chip that returns in the
collect frame of the read the same four payload bytes it received in the write frame, sends
three frames (the write with address `0xEC`, the read request and the collect frame with
address `0x6C`); the payload bytes of the write frame are the bytes of `v`, most significant
first; after the three completions the CHOPCONF cache equals `v`
(`fromBigEndian(toBigEndian(v)) = v`), no other cached register has changed and the chip is
idle. -/
theorem C26_chopconf_write_read_round_trip (c : Trinamic2130Base) (v : Int)
    (respA respB respC : trinamic_buffer_t)
    (hidle : Idle c) (hv : c.value Register.CHOPCONF = v) (h0 : 0 ≤ v) (h1 : v < 4294967296)
    (hecho : respC.value = (writeRegister c 0x6C).out_buffer.value) :
    (writeRegister c 0x6C).queued = c.queued ++ [{ addr := 0xEC, value := toBigEndian v }]
    ∧ memoryBytes (toBigEndian v) = bytesMsbFirst v
    ∧ (chopconfRoundTrip c respA respB respC).queued
        = c.queued ++ [{ addr := 0xEC, value := toBigEndian v },
                       { addr := 0x6C, value := toBigEndian v },
                       { addr := 0x6C, value := toBigEndian v }]
    ∧ (chopconfRoundTrip c respA respB respC).value Register.CHOPCONF = v
    ∧ fromBigEndian (toBigEndian v) = v
    ∧ (∀ r2, r2 ≠ Register.CHOPCONF →
        (chopconfRoundTrip c respA respB respC).value r2 = c.value r2)
    ∧ Idle (chopconfRoundTrip c respA respB respC) := by
  obtain ⟨hq, ht, hl⟩ := hidle
  have e1 : writeRegister c 0x6C
      = { c with
          transmitting := true,
          _registers_to_access := [],
          out_buffer := { addr := 0xEC, value := toBigEndian (c.value Register.CHOPCONF) },
          queued := c.queued ++
            [{ addr := 0xEC, value := toBigEndian (c.value Register.CHOPCONF) }] } :=
    writeRegister_idle c Register.CHOPCONF rfl hq ht
  have hresp : respC.value = toBigEndian v := by rw [hecho, e1, hv]
  have es := chopconfRoundTrip_stages c respA respB respC hq ht hl
  refine ⟨by rw [e1, hv], memoryBytes_toBigEndian v, by rw [es, hv], ?_,
    fromBigEndian_toBigEndian v h0 h1, ?_, ?_⟩
  · rw [es]
    simp only [if_true]
    rw [hresp]
    exact fromBigEndian_toBigEndian v h0 h1
  · intro r2 hne
    rw [es]
    simp only [if_neg hne]
  · rw [es]
    exact ⟨hq, ht, hl⟩

/-- C26, witness: the CHOPCONF value `0x030300C5` written by `init`, on a fresh chip. -/
theorem C26_chopconf_write_read_round_trip_witness :
    (chopconfRoundTrip (freshChip.assign Register.CHOPCONF 0x030300C5)
        { addr := 0, value := 0 } { addr := 0, value := 0 }
        { addr := 0, value := toBigEndian 0x030300C5 }).value Register.CHOPCONF
      = 0x030300C5 :=
  (C26_chopconf_write_read_round_trip (freshChip.assign Register.CHOPCONF 0x030300C5)
    0x030300C5 { addr := 0, value := 0 } { addr := 0, value := 0 }
    { addr := 0, value := toBigEndian 0x030300C5 }
    ⟨rfl, rfl, rfl⟩ rfl (by decide)
    (by decide) (by decide)).2.2.2.1

/-- Completion of a write frame when the write token of a writable register is next in the
queue: that register is marshalled and its frame sent. -/
theorem frameDone_write_then_write (c : Trinamic2130Base) (resp : trinamic_buffer_t)
    (r : Register) (rest : List Int)
    (hb : bit7 c.out_buffer.addr = true) (hl : c._register_thats_reading = -1)
    (hw : r.writable = true) (hq : c._registers_to_access = (r.reg + 128) :: rest) :
    frameDone c resp
      = { c with
          in_buffer := resp,
          status := resp.addr,
          immediate_ends_transaction := true,
          _reading_only := false,
          transmitting := true,
          _registers_to_access := rest,
          out_buffer := { addr := r.reg + 128, value := toBigEndian (c.value r) },
          queued := c.queued ++ [{ addr := r.reg + 128, value := toBigEndian (c.value r) }] } := by
  rw [frameDone_write c resp hb hl]
  exact startNextRead_write_head
    { c with
      in_buffer := resp,
      status := resp.addr,
      immediate_ends_transaction := true,
      _reading_only := false,
      transmitting := false }
    r rest hw rfl hq

/-- Completion of a write frame when a read token is next in the queue. -/
theorem frameDone_write_then_read (c : Trinamic2130Base) (resp : trinamic_buffer_t)
    (a : Int) (rest : List Int)
    (hb : bit7 c.out_buffer.addr = true) (hl : c._register_thats_reading = -1)
    (h0 : 0 ≤ a) (h1 : a < 128) (hq : c._registers_to_access = a :: rest) :
    frameDone c resp
      = { c with
          in_buffer := resp,
          status := resp.addr,
          immediate_ends_transaction := true,
          _reading_only := false,
          transmitting := true,
          _registers_to_access := rest,
          out_buffer := { c.out_buffer with addr := a },
          queued := c.queued ++ [{ addr := a, value := c.out_buffer.value }] } := by
  rw [frameDone_write c resp hb hl]
  exact startNextRead_read_head
    { c with
      in_buffer := resp,
      status := resp.addr,
      immediate_ends_transaction := true,
      _reading_only := false,
      transmitting := false }
    a rest h0 h1 rfl hq

/-- Completion of a read request frame when another read token is next in the queue: the
register requested is latched and the next request is sent. -/
theorem frameDone_request_then_read (c : Trinamic2130Base) (resp : trinamic_buffer_t)
    (a : Int) (rest : List Int)
    (hb0 : 0 ≤ c.out_buffer.addr) (hb1 : c.out_buffer.addr < 128)
    (hro : c._reading_only = false) (hl : c._register_thats_reading = -1)
    (h0 : 0 ≤ a) (h1 : a < 128) (hq : c._registers_to_access = a :: rest) :
    frameDone c resp
      = { c with
          in_buffer := resp,
          status := resp.addr,
          _register_thats_reading := c.out_buffer.addr,
          _reading_only := false,
          transmitting := true,
          _registers_to_access := rest,
          out_buffer := { c.out_buffer with addr := a },
          queued := c.queued ++ [{ addr := a, value := c.out_buffer.value }] } := by
  have hb : bit7 c.out_buffer.addr = false := bit7_low hb0 hb1
  have e : frameDone c resp
      = _startNextRead
          { c with
            in_buffer := resp,
            status := resp.addr,
            _register_thats_reading := c.out_buffer.addr,
            _reading_only := false,
            transmitting := false } := by
    unfold frameDone _doneReadingCallback
    simp [hro, hl, hb]
  rw [e]
  exact startNextRead_read_head
    { c with
      in_buffer := resp,
      status := resp.addr,
      _register_thats_reading := c.out_buffer.addr,
      _reading_only := false,
      transmitting := false }
    a rest h0 h1 rfl hq

/-- Completion of a read request frame while an earlier read is latched and nothing is queued:
the response is decoded into the latched register, the register just requested is latched and
its collect frame is sent. -/
theorem frameDone_collect_then_request (c : Trinamic2130Base) (r : Register)
    (resp : trinamic_buffer_t) (hr : r.readable = true)
    (hl : c._register_thats_reading = r.reg)
    (hb0 : 0 ≤ c.out_buffer.addr) (hb1 : c.out_buffer.addr < 128)
    (hro : c._reading_only = false) (hq : c._registers_to_access = []) :
    frameDone c resp
      = { c with
          in_buffer := resp,
          status := resp.addr,
          value := fun r2 => if r2 = r then fromBigEndian resp.value else c.value r2,
          _register_thats_reading := c.out_buffer.addr,
          _reading_only := true,
          transmitting := true,
          queued := c.queued ++ [c.out_buffer] } := by
  have hne : r.reg ≠ -1 := by have := r.reg_range; omega
  have hne2 : c.out_buffer.addr ≠ -1 := by omega
  have hc := r.readCase_reg hr
  have hb : bit7 c.out_buffer.addr = false := bit7_low hb0 hb1
  have hu : toU8 c.out_buffer.addr = c.out_buffer.addr := toU8_eq_self hb0 (by omega)
  unfold frameDone _doneReadingCallback _startNextRead postReadSwitch _postRead
    Trinamic2130Base.assign sendFrame
  simp [hro, hl, hq, hne, hne2, hc, hb, hu]

/-- The frames sent on the completion of the frames that follow `init()`: `c0` is a state
such as `init()` leaves (the first frame in flight, eight tokens queued, the caches set) and
`c1`, ..., `c10` are the states after the completion of one to ten frames, with responses
`p0`, ..., `p9`. -/
theorem completions_after_init
    (c0 c1 c2 c3 c4 c5 c6 c7 c8 c9 c10 : Trinamic2130Base)
    (p0 p1 p2 p3 p4 p5 p6 p7 p8 p9 : trinamic_buffer_t)
    (h1 : c1 = frameDone c0 p0) (h2 : c2 = frameDone c1 p1) (h3 : c3 = frameDone c2 p2)
    (h4 : c4 = frameDone c3 p3) (h5 : c5 = frameDone c4 p4) (h6 : c6 = frameDone c5 p5)
    (h7 : c7 = frameDone c6 p6) (h8 : c8 = frameDone c7 p7) (h9 : c9 = frameDone c8 p8)
    (h10 : c10 = frameDone c9 p9)
    (q0 : c0._registers_to_access = [0x91, 0xAD, 0xB3, 0x80, 0xEC, 0xF0, 0x04, 0x6A])
    (o0 : c0.out_buffer = { addr := 0x90, value := toBigEndian 0x00071E07 })
    (l0 : c0._register_thats_reading = -1)
    (t0 : c0.transmitting = true)
    (s0 : c0.queued = [{ addr := 0x90, value := toBigEndian 0x00071E07 }])
    (wTPOWERDOWN : c0.value Register.TPOWERDOWN = 0x00000100)
    (wXDIRECT : c0.value Register.XDIRECT = 0)
    (wVDCMIN : c0.value Register.VDCMIN = 0)
    (wGCONF : c0.value Register.GCONF = 0x00000004)
    (wCHOPCONF : c0.value Register.CHOPCONF = 0x030300C5)
    (wPWMCONF : c0.value Register.PWMCONF = 0x000401C8) :
    c1.queued = [{ addr := 0x90, value := toBigEndian 0x00071E07 },
         { addr := 0x91, value := toBigEndian 0x00000100 }]
    ∧ c2.queued = [{ addr := 0x90, value := toBigEndian 0x00071E07 },
         { addr := 0x91, value := toBigEndian 0x00000100 },
         { addr := 0xAD, value := toBigEndian 0 }]
    ∧ c3.queued = [{ addr := 0x90, value := toBigEndian 0x00071E07 },
         { addr := 0x91, value := toBigEndian 0x00000100 },
         { addr := 0xAD, value := toBigEndian 0 },
         { addr := 0xB3, value := toBigEndian 0 }]
    ∧ c4.queued = [{ addr := 0x90, value := toBigEndian 0x00071E07 },
         { addr := 0x91, value := toBigEndian 0x00000100 },
         { addr := 0xAD, value := toBigEndian 0 },
         { addr := 0xB3, value := toBigEndian 0 },
         { addr := 0x80, value := toBigEndian 0x00000004 }]
    ∧ c5.queued = [{ addr := 0x90, value := toBigEndian 0x00071E07 },
         { addr := 0x91, value := toBigEndian 0x00000100 },
         { addr := 0xAD, value := toBigEndian 0 },
         { addr := 0xB3, value := toBigEndian 0 },
         { addr := 0x80, value := toBigEndian 0x00000004 },
         { addr := 0xEC, value := toBigEndian 0x030300C5 }]
    ∧ c6.queued = [{ addr := 0x90, value := toBigEndian 0x00071E07 },
         { addr := 0x91, value := toBigEndian 0x00000100 },
         { addr := 0xAD, value := toBigEndian 0 },
         { addr := 0xB3, value := toBigEndian 0 },
         { addr := 0x80, value := toBigEndian 0x00000004 },
         { addr := 0xEC, value := toBigEndian 0x030300C5 },
         { addr := 0xF0, value := toBigEndian 0x000401C8 }]
    ∧ c7.queued = [{ addr := 0x90, value := toBigEndian 0x00071E07 },
         { addr := 0x91, value := toBigEndian 0x00000100 },
         { addr := 0xAD, value := toBigEndian 0 },
         { addr := 0xB3, value := toBigEndian 0 },
         { addr := 0x80, value := toBigEndian 0x00000004 },
         { addr := 0xEC, value := toBigEndian 0x030300C5 },
         { addr := 0xF0, value := toBigEndian 0x000401C8 },
         { addr := 0x04, value := toBigEndian 0x000401C8 }]
    ∧ c8.queued = [{ addr := 0x90, value := toBigEndian 0x00071E07 },
         { addr := 0x91, value := toBigEndian 0x00000100 },
         { addr := 0xAD, value := toBigEndian 0 },
         { addr := 0xB3, value := toBigEndian 0 },
         { addr := 0x80, value := toBigEndian 0x00000004 },
         { addr := 0xEC, value := toBigEndian 0x030300C5 },
         { addr := 0xF0, value := toBigEndian 0x000401C8 },
         { addr := 0x04, value := toBigEndian 0x000401C8 },
         { addr := 0x6A, value := toBigEndian 0x000401C8 }]
    ∧ c9.queued = [{ addr := 0x90, value := toBigEndian 0x00071E07 },
         { addr := 0x91, value := toBigEndian 0x00000100 },
         { addr := 0xAD, value := toBigEndian 0 },
         { addr := 0xB3, value := toBigEndian 0 },
         { addr := 0x80, value := toBigEndian 0x00000004 },
         { addr := 0xEC, value := toBigEndian 0x030300C5 },
         { addr := 0xF0, value := toBigEndian 0x000401C8 },
         { addr := 0x04, value := toBigEndian 0x000401C8 },
         { addr := 0x6A, value := toBigEndian 0x000401C8 },
         { addr := 0x6A, value := toBigEndian 0x000401C8 }]
    ∧ c10.queued = [{ addr := 0x90, value := toBigEndian 0x00071E07 },
         { addr := 0x91, value := toBigEndian 0x00000100 },
         { addr := 0xAD, value := toBigEndian 0 },
         { addr := 0xB3, value := toBigEndian 0 },
         { addr := 0x80, value := toBigEndian 0x00000004 },
         { addr := 0xEC, value := toBigEndian 0x030300C5 },
         { addr := 0xF0, value := toBigEndian 0x000401C8 },
         { addr := 0x04, value := toBigEndian 0x000401C8 },
         { addr := 0x6A, value := toBigEndian 0x000401C8 },
         { addr := 0x6A, value := toBigEndian 0x000401C8 }]
    ∧ (c0.transmitting = true ∧ c1.transmitting = true ∧ c2.transmitting = true
        ∧ c3.transmitting = true ∧ c4.transmitting = true ∧ c5.transmitting = true
        ∧ c6.transmitting = true ∧ c7.transmitting = true ∧ c8.transmitting = true
        ∧ c9.transmitting = true)
    ∧ Idle c10
    ∧ c10.check_timer = c0.check_timer := by
  have v0 : c0.value = c0.value := rfl
  have k0 : c0.check_timer = c0.check_timer := rfl
  have e1 := h1.trans (frameDone_write_then_write c0 p0 Register.TPOWERDOWN
    [0xAD, 0xB3, 0x80, 0xEC, 0xF0, 0x04, 0x6A] (by rw [o0]; decide) l0 rfl q0)
  have q1 : c1._registers_to_access = [0xAD, 0xB3, 0x80, 0xEC, 0xF0, 0x04, 0x6A] := by
    rw [e1]
  have v1 : c1.value = c0.value := by rw [e1]
  have o1 : c1.out_buffer = { addr := 0x91, value := toBigEndian 0x00000100 } := by
    rw [e1]
    show ({ addr := Register.TPOWERDOWN.reg + 128,
            value := toBigEndian (c0.value Register.TPOWERDOWN) } : trinamic_buffer_t) = _
    rw [v0, wTPOWERDOWN]
    rfl
  have l1 : c1._register_thats_reading = -1 := by rw [e1]; exact l0
  have r1 : c1._reading_only = false := by rw [e1]
  have t1 : c1.transmitting = true := by rw [e1]
  have k1 : c1.check_timer = c0.check_timer := by rw [e1]
  have s1 : c1.queued = [{ addr := 0x90, value := toBigEndian 0x00071E07 },
         { addr := 0x91, value := toBigEndian 0x00000100 }] := by
    rw [e1]
    show c0.queued ++
      [({ addr := Register.TPOWERDOWN.reg + 128,
          value := toBigEndian (c0.value Register.TPOWERDOWN) } : trinamic_buffer_t)] = _
    rw [s0, v0, wTPOWERDOWN]
    rfl
  have e2 := h2.trans (frameDone_write_then_write c1 p1 Register.XDIRECT
    [0xB3, 0x80, 0xEC, 0xF0, 0x04, 0x6A] (by rw [o1]; decide) l1 rfl q1)
  have q2 : c2._registers_to_access = [0xB3, 0x80, 0xEC, 0xF0, 0x04, 0x6A] := by
    rw [e2]
  have v2 : c2.value = c0.value := by rw [e2]; exact v1
  have o2 : c2.out_buffer = { addr := 0xAD, value := toBigEndian 0 } := by
    rw [e2]
    show ({ addr := Register.XDIRECT.reg + 128,
            value := toBigEndian (c1.value Register.XDIRECT) } : trinamic_buffer_t) = _
    rw [v1, wXDIRECT]
    rfl
  have l2 : c2._register_thats_reading = -1 := by rw [e2]; exact l1
  have r2 : c2._reading_only = false := by rw [e2]
  have t2 : c2.transmitting = true := by rw [e2]
  have k2 : c2.check_timer = c0.check_timer := by rw [e2]; exact k1
  have s2 : c2.queued = [{ addr := 0x90, value := toBigEndian 0x00071E07 },
         { addr := 0x91, value := toBigEndian 0x00000100 },
         { addr := 0xAD, value := toBigEndian 0 }] := by
    rw [e2]
    show c1.queued ++
      [({ addr := Register.XDIRECT.reg + 128,
          value := toBigEndian (c1.value Register.XDIRECT) } : trinamic_buffer_t)] = _
    rw [s1, v1, wXDIRECT]
    rfl
  have e3 := h3.trans (frameDone_write_then_write c2 p2 Register.VDCMIN
    [0x80, 0xEC, 0xF0, 0x04, 0x6A] (by rw [o2]; decide) l2 rfl q2)
  have q3 : c3._registers_to_access = [0x80, 0xEC, 0xF0, 0x04, 0x6A] := by
    rw [e3]
  have v3 : c3.value = c0.value := by rw [e3]; exact v2
  have o3 : c3.out_buffer = { addr := 0xB3, value := toBigEndian 0 } := by
    rw [e3]
    show ({ addr := Register.VDCMIN.reg + 128,
            value := toBigEndian (c2.value Register.VDCMIN) } : trinamic_buffer_t) = _
    rw [v2, wVDCMIN]
    rfl
  have l3 : c3._register_thats_reading = -1 := by rw [e3]; exact l2
  have r3 : c3._reading_only = false := by rw [e3]
  have t3 : c3.transmitting = true := by rw [e3]
  have k3 : c3.check_timer = c0.check_timer := by rw [e3]; exact k2
  have s3 : c3.queued = [{ addr := 0x90, value := toBigEndian 0x00071E07 },
         { addr := 0x91, value := toBigEndian 0x00000100 },
         { addr := 0xAD, value := toBigEndian 0 },
         { addr := 0xB3, value := toBigEndian 0 }] := by
    rw [e3]
    show c2.queued ++
      [({ addr := Register.VDCMIN.reg + 128,
          value := toBigEndian (c2.value Register.VDCMIN) } : trinamic_buffer_t)] = _
    rw [s2, v2, wVDCMIN]
    rfl
  have e4 := h4.trans (frameDone_write_then_write c3 p3 Register.GCONF
    [0xEC, 0xF0, 0x04, 0x6A] (by rw [o3]; decide) l3 rfl q3)
  have q4 : c4._registers_to_access = [0xEC, 0xF0, 0x04, 0x6A] := by
    rw [e4]
  have v4 : c4.value = c0.value := by rw [e4]; exact v3
  have o4 : c4.out_buffer = { addr := 0x80, value := toBigEndian 0x00000004 } := by
    rw [e4]
    show ({ addr := Register.GCONF.reg + 128,
            value := toBigEndian (c3.value Register.GCONF) } : trinamic_buffer_t) = _
    rw [v3, wGCONF]
    rfl
  have l4 : c4._register_thats_reading = -1 := by rw [e4]; exact l3
  have r4 : c4._reading_only = false := by rw [e4]
  have t4 : c4.transmitting = true := by rw [e4]
  have k4 : c4.check_timer = c0.check_timer := by rw [e4]; exact k3
  have s4 : c4.queued = [{ addr := 0x90, value := toBigEndian 0x00071E07 },
         { addr := 0x91, value := toBigEndian 0x00000100 },
         { addr := 0xAD, value := toBigEndian 0 },
         { addr := 0xB3, value := toBigEndian 0 },
         { addr := 0x80, value := toBigEndian 0x00000004 }] := by
    rw [e4]
    show c3.queued ++
      [({ addr := Register.GCONF.reg + 128,
          value := toBigEndian (c3.value Register.GCONF) } : trinamic_buffer_t)] = _
    rw [s3, v3, wGCONF]
    rfl
  have e5 := h5.trans (frameDone_write_then_write c4 p4 Register.CHOPCONF
    [0xF0, 0x04, 0x6A] (by rw [o4]; decide) l4 rfl q4)
  have q5 : c5._registers_to_access = [0xF0, 0x04, 0x6A] := by
    rw [e5]
  have v5 : c5.value = c0.value := by rw [e5]; exact v4
  have o5 : c5.out_buffer = { addr := 0xEC, value := toBigEndian 0x030300C5 } := by
    rw [e5]
    show ({ addr := Register.CHOPCONF.reg + 128,
            value := toBigEndian (c4.value Register.CHOPCONF) } : trinamic_buffer_t) = _
    rw [v4, wCHOPCONF]
    rfl
  have l5 : c5._register_thats_reading = -1 := by rw [e5]; exact l4
  have r5 : c5._reading_only = false := by rw [e5]
  have t5 : c5.transmitting = true := by rw [e5]
  have k5 : c5.check_timer = c0.check_timer := by rw [e5]; exact k4
  have s5 : c5.queued = [{ addr := 0x90, value := toBigEndian 0x00071E07 },
         { addr := 0x91, value := toBigEndian 0x00000100 },
         { addr := 0xAD, value := toBigEndian 0 },
         { addr := 0xB3, value := toBigEndian 0 },
         { addr := 0x80, value := toBigEndian 0x00000004 },
         { addr := 0xEC, value := toBigEndian 0x030300C5 }] := by
    rw [e5]
    show c4.queued ++
      [({ addr := Register.CHOPCONF.reg + 128,
          value := toBigEndian (c4.value Register.CHOPCONF) } : trinamic_buffer_t)] = _
    rw [s4, v4, wCHOPCONF]
    rfl
  have e6 := h6.trans (frameDone_write_then_write c5 p5 Register.PWMCONF
    [0x04, 0x6A] (by rw [o5]; decide) l5 rfl q5)
  have q6 : c6._registers_to_access = [0x04, 0x6A] := by
    rw [e6]
  have v6 : c6.value = c0.value := by rw [e6]; exact v5
  have o6 : c6.out_buffer = { addr := 0xF0, value := toBigEndian 0x000401C8 } := by
    rw [e6]
    show ({ addr := Register.PWMCONF.reg + 128,
            value := toBigEndian (c5.value Register.PWMCONF) } : trinamic_buffer_t) = _
    rw [v5, wPWMCONF]
    rfl
  have l6 : c6._register_thats_reading = -1 := by rw [e6]; exact l5
  have r6 : c6._reading_only = false := by rw [e6]
  have t6 : c6.transmitting = true := by rw [e6]
  have k6 : c6.check_timer = c0.check_timer := by rw [e6]; exact k5
  have s6 : c6.queued = [{ addr := 0x90, value := toBigEndian 0x00071E07 },
         { addr := 0x91, value := toBigEndian 0x00000100 },
         { addr := 0xAD, value := toBigEndian 0 },
         { addr := 0xB3, value := toBigEndian 0 },
         { addr := 0x80, value := toBigEndian 0x00000004 },
         { addr := 0xEC, value := toBigEndian 0x030300C5 },
         { addr := 0xF0, value := toBigEndian 0x000401C8 }] := by
    rw [e6]
    show c5.queued ++
      [({ addr := Register.PWMCONF.reg + 128,
          value := toBigEndian (c5.value Register.PWMCONF) } : trinamic_buffer_t)] = _
    rw [s5, v5, wPWMCONF]
    rfl
  have e7 := h7.trans (frameDone_write_then_read c6 p6 0x04 [0x6A]
    (by rw [o6]; decide) l6 (by decide) (by decide) q6)
  have q7 : c7._registers_to_access = [0x6A] := by rw [e7]
  have o7 : c7.out_buffer = { addr := 0x04, value := toBigEndian 0x000401C8 } := by
    rw [e7]
    show ({ c6.out_buffer with addr := 0x04 } : trinamic_buffer_t) = _
    rw [o6]
  have l7 : c7._register_thats_reading = -1 := by rw [e7]; exact l6
  have r7 : c7._reading_only = false := by rw [e7]
  have t7 : c7.transmitting = true := by rw [e7]
  have k7 : c7.check_timer = c0.check_timer := by rw [e7]; exact k6
  have s7 : c7.queued = [{ addr := 0x90, value := toBigEndian 0x00071E07 },
      { addr := 0x91, value := toBigEndian 0x00000100 },
      { addr := 0xAD, value := toBigEndian 0 },
      { addr := 0xB3, value := toBigEndian 0 },
      { addr := 0x80, value := toBigEndian 0x00000004 },
      { addr := 0xEC, value := toBigEndian 0x030300C5 },
      { addr := 0xF0, value := toBigEndian 0x000401C8 },
      { addr := 0x04, value := toBigEndian 0x000401C8 }] := by
    rw [e7]
    show c6.queued ++ [({ addr := 0x04, value := c6.out_buffer.value } : trinamic_buffer_t)] = _
    rw [s6, o6]
    rfl
  have e8 := h8.trans (frameDone_request_then_read c7 p7 0x6A []
    (by rw [o7]; decide) (by rw [o7]; decide) r7 l7 (by decide) (by decide) q7)
  have q8 : c8._registers_to_access = [] := by rw [e8]
  have o8 : c8.out_buffer = { addr := 0x6A, value := toBigEndian 0x000401C8 } := by
    rw [e8]
    show ({ c7.out_buffer with addr := 0x6A } : trinamic_buffer_t) = _
    rw [o7]
  have l8 : c8._register_thats_reading = 0x04 := by
    rw [e8]
    show c7.out_buffer.addr = 0x04
    rw [o7]
  have r8 : c8._reading_only = false := by rw [e8]
  have t8 : c8.transmitting = true := by rw [e8]
  have k8 : c8.check_timer = c0.check_timer := by rw [e8]; exact k7
  have s8 : c8.queued = [{ addr := 0x90, value := toBigEndian 0x00071E07 },
      { addr := 0x91, value := toBigEndian 0x00000100 },
      { addr := 0xAD, value := toBigEndian 0 },
      { addr := 0xB3, value := toBigEndian 0 },
      { addr := 0x80, value := toBigEndian 0x00000004 },
      { addr := 0xEC, value := toBigEndian 0x030300C5 },
      { addr := 0xF0, value := toBigEndian 0x000401C8 },
      { addr := 0x04, value := toBigEndian 0x000401C8 },
      { addr := 0x6A, value := toBigEndian 0x000401C8 }] := by
    rw [e8]
    show c7.queued ++ [({ addr := 0x6A, value := c7.out_buffer.value } : trinamic_buffer_t)] = _
    rw [s7, o7]
    rfl
  have e9 := h9.trans (frameDone_collect_then_request c8 Register.IOIN p8 rfl l8
    (by rw [o8]; decide) (by rw [o8]; decide) r8 q8)
  have q9 : c9._registers_to_access = [] := by rw [e9]; exact q8
  have l9 : c9._register_thats_reading = 0x6A := by
    rw [e9]
    show c8.out_buffer.addr = 0x6A
    rw [o8]
  have r9 : c9._reading_only = true := by rw [e9]
  have t9 : c9.transmitting = true := by rw [e9]
  have k9 : c9.check_timer = c0.check_timer := by rw [e9]; exact k8
  have s9 : c9.queued = [{ addr := 0x90, value := toBigEndian 0x00071E07 },
      { addr := 0x91, value := toBigEndian 0x00000100 },
      { addr := 0xAD, value := toBigEndian 0 },
      { addr := 0xB3, value := toBigEndian 0 },
      { addr := 0x80, value := toBigEndian 0x00000004 },
      { addr := 0xEC, value := toBigEndian 0x030300C5 },
      { addr := 0xF0, value := toBigEndian 0x000401C8 },
      { addr := 0x04, value := toBigEndian 0x000401C8 },
      { addr := 0x6A, value := toBigEndian 0x000401C8 },
      { addr := 0x6A, value := toBigEndian 0x000401C8 }] := by
    rw [e9]
    show c8.queued ++ [c8.out_buffer] = _
    rw [s8, o8]
    rfl
  have e10 := h10.trans (frameDone_collect c9 Register.MSCNT p9 rfl l9 r9 q9)
  have s10 : c10.queued = [{ addr := 0x90, value := toBigEndian 0x00071E07 },
      { addr := 0x91, value := toBigEndian 0x00000100 },
      { addr := 0xAD, value := toBigEndian 0 },
      { addr := 0xB3, value := toBigEndian 0 },
      { addr := 0x80, value := toBigEndian 0x00000004 },
      { addr := 0xEC, value := toBigEndian 0x030300C5 },
      { addr := 0xF0, value := toBigEndian 0x000401C8 },
      { addr := 0x04, value := toBigEndian 0x000401C8 },
      { addr := 0x6A, value := toBigEndian 0x000401C8 },
      { addr := 0x6A, value := toBigEndian 0x000401C8 }] := by
    rw [e10]; exact s9
  have i10 : Idle c10 := by
    rw [e10]
    exact ⟨q9, rfl, rfl⟩
  have k10 : c10.check_timer = c0.check_timer := by rw [e10]; exact k9
  exact ⟨s1, s2, s3, s4, s5, s6, s7, s8, s9, s10, ⟨t0, t1, t2, t3, t4, t5, t6, t7, t8, t9⟩,
    i10, k10⟩


/-- C27: `init()` on a freshly constructed chip, followed by the completion of every frame
(with any responses), hands these frames to the SPI device, in this order and no others:
write IHOLD_IRUN (`0x90`, `0x00071E07`), write TPOWERDOWN (`0x91`, `0x00000100`), write XDIRECT
(`0xAD`, 0), write VDCMIN (`0xB3`, 0), write GCONF (`0x80`, `0x00000004`), write CHOPCONF
(`0xEC`, `0x030300C5`, the baseline `0x030100C5` with `vsense` set), write PWMCONF (`0xF0`,
`0x000401C8`), read IOIN (`0x04`), read MSCNT (`0x6A`) and one collect frame for MSCNT
(`0x6A`); the three read frames carry the payload left in `out_buffer`. One frame is in flight
at a time (after `k < 10` completions the first `k + 1` frames have been sent and the chip is
transmitting), after the tenth completion the chip is idle, and the payload bytes of a frame
are those of its value, most significant first. -/
theorem C27_init_frame_sequence (resp : Nat → trinamic_buffer_t) :
    (afterInit resp 10).queued
      = [{ addr := 0x90, value := toBigEndian 0x00071E07 },
         { addr := 0x91, value := toBigEndian 0x00000100 },
         { addr := 0xAD, value := toBigEndian 0 },
         { addr := 0xB3, value := toBigEndian 0 },
         { addr := 0x80, value := toBigEndian 0x00000004 },
         { addr := 0xEC, value := toBigEndian 0x030300C5 },
         { addr := 0xF0, value := toBigEndian 0x000401C8 },
         { addr := 0x04, value := toBigEndian 0x000401C8 },
         { addr := 0x6A, value := toBigEndian 0x000401C8 },
         { addr := 0x6A, value := toBigEndian 0x000401C8 }]
    ∧ (∀ k, k < 10 →
        (afterInit resp k).transmitting = true
        ∧ (afterInit resp k).queued
          = List.take (k + 1)
              [{ addr := 0x90, value := toBigEndian 0x00071E07 },
               { addr := 0x91, value := toBigEndian 0x00000100 },
               { addr := 0xAD, value := toBigEndian 0 },
               { addr := 0xB3, value := toBigEndian 0 },
               { addr := 0x80, value := toBigEndian 0x00000004 },
               { addr := 0xEC, value := toBigEndian 0x030300C5 },
               { addr := 0xF0, value := toBigEndian 0x000401C8 },
               { addr := 0x04, value := toBigEndian 0x000401C8 },
               { addr := 0x6A, value := toBigEndian 0x000401C8 },
               { addr := 0x6A, value := toBigEndian 0x000401C8 }])
    ∧ Idle (afterInit resp 10)
    ∧ (∀ v, memoryBytes (toBigEndian v) = bytesMsbFirst v)
    ∧ setField 0x030100C5 17 1 1 = 0x030300C5
    ∧ (afterInit resp 10).check_timer = [100] := by
  have hs0 : (init freshChip).queued = [{ addr := 0x90, value := toBigEndian 0x00071E07 }] := by decide
  have hc0 : (init freshChip).check_timer = [100] := by decide
  obtain ⟨s1, s2, s3, s4, s5, s6, s7, s8, s9, s10, ⟨t0, t1, t2, t3, t4, t5, t6, t7, t8, t9⟩,
      i10, k10⟩ :=
    completions_after_init (init freshChip) (afterInit resp 1) (afterInit resp 2)
      (afterInit resp 3) (afterInit resp 4) (afterInit resp 5) (afterInit resp 6)
      (afterInit resp 7) (afterInit resp 8) (afterInit resp 9) (afterInit resp 10)
      (resp 0) (resp 1) (resp 2) (resp 3) (resp 4) (resp 5) (resp 6) (resp 7) (resp 8) (resp 9)
      rfl rfl rfl rfl rfl rfl rfl rfl rfl rfl
      (by decide) (by decide) (by decide) (by decide) hs0
      (by decide) (by decide) (by decide) (by decide) (by decide) (by decide)
  refine ⟨s10, ?_, i10, memoryBytes_toBigEndian, by decide, by rw [k10, hc0]⟩
  intro k hk
  interval_cases k
  · exact ⟨t0, hs0⟩
  · exact ⟨t1, s1⟩
  · exact ⟨t2, s2⟩
  · exact ⟨t3, s3⟩
  · exact ⟨t4, s4⟩
  · exact ⟨t5, s5⟩
  · exact ⟨t6, s6⟩
  · exact ⟨t7, s7⟩
  · exact ⟨t8, s8⟩
  · exact ⟨t9, s9⟩

/-- C30 (as amended): the payload of the frame of a write request for a writable register
(GCONF, IHOLD_IRUN, TPOWERDOWN, TPWMTHRS, TCOOLTHRS, THIGH, XDIRECT, VDCMIN, CHOPCONF, PWMCONF)
is the big-endian encoding of the value the register's cache holds when `_startNextRead` takes
the token from the queue. That is the value at the `writeRegister` call when the call finds
the chip not transmitting with an empty queue. When the call finds the chip transmitting it
only queues the token, and a value assigned to the cache before the token is taken (here: just
before the completion of a write frame, with the token next in the queue) is the one that is
sent. -/
theorem C30_write_payload_is_cache_at_dequeue (c : Trinamic2130Base) (r : Register)
    (rest : List Int) (v : Int) (resp : trinamic_buffer_t) (hw : r.writable = true) :
    (c.transmitting = false → c._registers_to_access = (r.reg + 128) :: rest →
      (_startNextRead c).queued
        = c.queued ++ [{ addr := r.reg + 128, value := toBigEndian (c.value r) }])
    ∧ (c.transmitting = false → c._registers_to_access = [] →
        (writeRegister c r.reg).queued
          = c.queued ++ [{ addr := r.reg + 128, value := toBigEndian (c.value r) }])
    ∧ (c.transmitting = true →
        (writeRegister c r.reg).queued = c.queued
        ∧ (writeRegister c r.reg).out_buffer = c.out_buffer
        ∧ (c._registers_to_access.length < 32 →
            (writeRegister c r.reg)._registers_to_access
              = c._registers_to_access ++ [r.reg + 128]))
    ∧ (bit7 c.out_buffer.addr = true → c._register_thats_reading = -1 →
        c._registers_to_access = (r.reg + 128) :: rest →
        (frameDone (c.assign r v) resp).queued
          = c.queued ++ [{ addr := r.reg + 128, value := toBigEndian v }]) := by
  obtain ⟨h0, h1⟩ := r.reg_range
  refine ⟨?_, ?_, ?_, ?_⟩
  · intro ht hq
    rw [startNextRead_write_head c r rest hw ht hq]
  · intro ht hq
    rw [writeRegister_idle c r hw hq ht]
  · intro ht
    rw [writeRegister_transmitting c r.reg ht]
    refine ⟨rfl, rfl, ?_⟩
    intro hl
    show ringWrite c._registers_to_access (setBit7 (toU8 r.reg)) = _
    rw [toU8_eq_self h0 (by omega), setBit7_low h0 h1]
    unfold ringWrite
    rw [if_pos hl]
  · intro hb hl hq
    rw [frameDone_write_then_write (c.assign r v) resp r rest hb hl hw hq]
    show c.queued ++
      [({ addr := r.reg + 128,
          value := toBigEndian ((c.assign r v).value r) } : trinamic_buffer_t)] = _
    unfold Trinamic2130Base.assign
    simp

/-- C30, witness: on a fresh chip whose CHOPCONF cache holds 5, `writeRegister(CHOPCONF)` sends
the frame `0xEC` with the big-endian image of 5 at once. -/
theorem C30_write_payload_is_cache_at_dequeue_witness :
    (writeRegister (freshChip.assign Register.CHOPCONF 5) Register.CHOPCONF.reg).queued
      = [{ addr := 0xEC, value := toBigEndian 5 }] :=
  (C30_write_payload_is_cache_at_dequeue (freshChip.assign Register.CHOPCONF 5)
    Register.CHOPCONF [] 0 { addr := 0, value := 0 } rfl).2.1 rfl rfl

/-- C30 (counterexample): `writeRegister(CHOPCONF)` is called while a frame is in flight and
the CHOPCONF cache holds 1; the cache is set to 2 before the frame in flight completes. The
frame then sent for the request carries the big-endian image of 2, not of the value 1 held at
the call. -/
theorem C30_counterexample :
    writeQueued.value Register.CHOPCONF = 1
    ∧ writeQueued.transmitting = true
    ∧ writeQueued._registers_to_access = [0xEC]
    ∧ writeQueuedThenAssigned.queued
        = [{ addr := 0x80, value := toBigEndian 0 }, { addr := 0xEC, value := toBigEndian 2 }]
    ∧ toBigEndian 2 ≠ toBigEndian 1 := by
  decide

/-! ## The exec interrupt -/

/-- C31 (amended claim): the exec interrupt leaves the state untouched, without calling the
planner, when the prep buffer is not owned by exec; when it is, the planner's `mp_exec_move` is
called in the entry state, and the buffer is flipped to the loader (on top of the state the
planner left) together with a call of `st_request_load_move` exactly when the returned status
is not `STAT_NOOP`: the load interrupt is then raised when the runtime is not busy. When the
status is `STAT_NOOP` the interrupt adds nothing to what the planner did. -/
theorem C31_exec_interrupt_flips_unless_noop (mp_exec_move : Machine F → Stat × Machine F)
    (s : Machine F) :
    (s.st_pre.buffer_state ≠ BufferState.PREP_BUFFER_OWNED_BY_EXEC →
      exec_timer_interrupt mp_exec_move s = s)
    ∧ (s.st_pre.buffer_state = BufferState.PREP_BUFFER_OWNED_BY_EXEC →
        ((mp_exec_move s).1 ≠ Stat.STAT_NOOP →
          (exec_timer_interrupt mp_exec_move s).st_pre.buffer_state
              = BufferState.PREP_BUFFER_OWNED_BY_LOADER
          ∧ (exec_timer_interrupt mp_exec_move s).st_run = (mp_exec_move s).2.st_run
          ∧ (exec_timer_interrupt mp_exec_move s).st_pre.mot = (mp_exec_move s).2.st_pre.mot
          ∧ (exec_timer_interrupt mp_exec_move s).st_pre.block_type
              = (mp_exec_move s).2.st_pre.block_type
          ∧ (exec_timer_interrupt mp_exec_move s).trace
              = (mp_exec_move s).2.trace
                ++ (if st_runtime_isbusy (mp_exec_move s).2 = true then []
                    else [Event.load_setInterruptPending]))
        ∧ ((mp_exec_move s).1 = Stat.STAT_NOOP →
            exec_timer_interrupt mp_exec_move s = (mp_exec_move s).2)) := by
  refine ⟨?_, ?_⟩
  · intro h
    unfold exec_timer_interrupt
    rw [if_neg h]
  · intro h
    refine ⟨?_, ?_⟩
    · intro hst
      unfold exec_timer_interrupt
      rw [if_pos h]
      simp only [hst, ne_eq, not_false_eq_true, if_true]
      unfold st_request_load_move
      by_cases hb : st_runtime_isbusy (mp_exec_move s).2 = true
      · have hb2 : st_runtime_isbusy
            { (mp_exec_move s).2 with st_pre :=
              { (mp_exec_move s).2.st_pre with
                buffer_state := BufferState.PREP_BUFFER_OWNED_BY_LOADER } } = true := hb
        rw [if_pos hb2, if_pos hb]
        exact ⟨rfl, rfl, rfl, rfl, (List.append_nil _).symm⟩
      · have hb2 : ¬ st_runtime_isbusy
            { (mp_exec_move s).2 with st_pre :=
              { (mp_exec_move s).2.st_pre with
                buffer_state := BufferState.PREP_BUFFER_OWNED_BY_LOADER } } = true := hb
        rw [if_neg hb2, if_neg hb, if_pos rfl]
        exact ⟨rfl, rfl, rfl, rfl, rfl⟩
    · intro hst
      unfold exec_timer_interrupt
      rw [if_pos h]
      simp only [hst, ne_eq, not_true_eq_false, if_false]

/-- C31, counterexample to the claim as stated: a planner call that fails with
`STAT_INTERNAL_ERROR` (not a success, and not `STAT_NOOP`) on the freshly initialised machine:
the exec interrupt hands the prep buffer to the loader and raises the load interrupt all the
same. -/
theorem C31_counterexample :
    (initState 4).st_pre.buffer_state = BufferState.PREP_BUFFER_OWNED_BY_EXEC
    ∧ (plannerReturning Stat.STAT_INTERNAL_ERROR (initState 4)).1 ≠ Stat.STAT_OK
    ∧ (exec_timer_interrupt (plannerReturning Stat.STAT_INTERNAL_ERROR)
        (initState 4)).st_pre.buffer_state = BufferState.PREP_BUFFER_OWNED_BY_LOADER
    ∧ (exec_timer_interrupt (plannerReturning Stat.STAT_INTERNAL_ERROR) (initState 4)).trace
        = (initState 4).trace ++ [Event.load_setInterruptPending] := by
  refine ⟨by decide, by decide, by decide, by decide⟩

/-! ## A dwell shorter than one dwell tick -/

/-- C39 (divergence): `st_prep_dwell(500)` with the 1 kHz dwell clock stages `dda_ticks = 0`;
the loader copies 0 into the downcount and starts the dwell timer, so the runtime does not even
report busy. The first dwell interrupt pre-decrements the downcount, which wraps to
`2^32 - 1`, finds it non-zero and leaves the dwell timer running; after `k` dwell interrupts
(`1 <= k < 2^32`) the downcount is `2^32 - k` and the dwell timer still runs. -/
theorem C39_zero_tick_dwell_wraps :
    (st_prep_dwell fracOps (exampleConst 4) (initState 4) { num := 500, den := 1 }).st_pre.dda_ticks
      = 0
    ∧ shortDwell.st_run.dda_ticks_downcount = 0
    ∧ shortDwell.dwell_timer_running = true
    ∧ st_runtime_isbusy shortDwell = false
    ∧ (dwell_timer_interrupt fracOps (exampleConst 4) shortDwell).st_run.dda_ticks_downcount
        = 4294967295
    ∧ (dwell_timer_interrupt fracOps (exampleConst 4) shortDwell).dwell_timer_running = true
    ∧ (∀ k : Nat, 1 ≤ k → k < 4294967296 →
        ((dwell_timer_interrupt fracOps (exampleConst 4))^[k]
            shortDwell).st_run.dda_ticks_downcount = 4294967296 - (k : Int)
        ∧ ((dwell_timer_interrupt fracOps (exampleConst 4))^[k]
            shortDwell).dwell_timer_running = true) := by
  refine ⟨by decide, by decide, by decide, by decide, by decide, by decide, ?_⟩
  intro k hk1 hk2
  obtain ⟨j, rfl⟩ : ∃ j, k = j + 1 := ⟨k - 1, by omega⟩
  rw [Function.iterate_succ_apply,
    iterate_dwell fracOps (exampleConst 4) j 4294967295 _ (by omega) (by decide) (by decide)]
  refine ⟨?_, ?_⟩
  swap
  · show (dwell_timer_interrupt fracOps (exampleConst 4) shortDwell).dwell_timer_running = true
    decide
  show ((4294967295 : Nat) : Int) - (j : Int) = 4294967296 - ((j + 1 : Nat) : Int)
  push_cast
  omega

/-- From accumulator 0, the pulse count of a slot after `k` DDA clauses brackets `k * inc`. -/
theorem ddaCount_bracket (X : Int) (hX : X < 2147483648) (k : Nat) (r : stRunMotor)
    (hinc0 : 0 ≤ r.substep_increment) (hinc : r.substep_increment ≤ X) (hX0 : 0 < X)
    (ha : r.substep_accumulator = 0) :
    (ddaCount X k r : Int) * X - X < (k : Int) * r.substep_increment
    ∧ (k : Int) * r.substep_increment ≤ (ddaCount X k r : Int) * X := by
  have h := ddaCount_balance X hX k r hinc0 hinc (by omega) (by omega)
  obtain ⟨h1, h2, h3⟩ := h
  rw [h1, ha] at h2 h3
  constructor <;> linarith

/-! ## Pulse count within a segment -/

/-- C34 (amended claim): in a segment whose range `X = dda_ticks_X_substeps` satisfies
`0 < X < 2^31`, for a motor clause with increment `0 <= inc <= X` and accumulator 0 at the start
of the segment, the number of `stepStart` calls made by the first `k` DDA interrupts
(`k <= dda_ticks`, the downcount at the start) is exactly the ceiling of `k * inc / X`, so the
count is never a full step away from the line `k * inc / X`. For every substep count `S` with
`400 * S < 2^31`, increments `300 * S` and `100 * S` over 400 ticks of range `400 * S` give 300
and 100 pulses. -/
theorem C34_pulse_count_is_ceiling (O : FloatOps F) (K : Const F) (s : Machine F) (m : Nat)
    (n k : Nat) (hm : m ∈ ddaMotors K)
    (hX0 : 0 < s.st_run.dda_ticks_X_substeps)
    (hX : s.st_run.dda_ticks_X_substeps < 2147483648)
    (hinc0 : 0 ≤ (s.st_run.mot m).substep_increment)
    (hinc : (s.st_run.mot m).substep_increment ≤ s.st_run.dda_ticks_X_substeps)
    (ha : (s.st_run.mot m).substep_accumulator = 0)
    (hn : n < 4294967296) (hdown : s.st_run.dda_ticks_downcount = (n : Int)) (hk : k ≤ n) :
    ((stepsRaised m ((dda_timer_interrupt O K)^[k] s).trace : Int)
        = stepsRaised m s.trace
          + ⌈((k : ℚ) * ((s.st_run.mot m).substep_increment : ℚ))
              / (s.st_run.dda_ticks_X_substeps : ℚ)⌉)
    ∧ (∀ S : Nat, 1 ≤ S → (400 : Int) * S < 2147483648 →
        ddaCount ((400 : Nat) * (S : Int)) 400
            { substep_increment := (300 : Nat) * (S : Int), substep_accumulator := 0 } = 300
        ∧ ddaCount ((400 : Nat) * (S : Int)) 400
            { substep_increment := (100 : Nat) * (S : Int), substep_accumulator := 0 } = 100) := by
  refine ⟨?_, ?_⟩
  · rw [iterate_dda_steps O K m hm k n s hk hn hdown]
    obtain ⟨h1, h2⟩ := ddaCount_bracket _ hX k (s.st_run.mot m) hinc0 hinc hX0 ha
    generalize ddaCount s.st_run.dda_ticks_X_substeps k (s.st_run.mot m) = c at h1 h2
    generalize s.st_run.dda_ticks_X_substeps = X at hX0 h1 h2
    generalize (s.st_run.mot m).substep_increment = inc at h1 h2
    have hXq : (0 : ℚ) < (X : ℚ) := by exact_mod_cast hX0
    have hc : ⌈((k : ℚ) * (inc : ℚ)) / (X : ℚ)⌉ = (c : Int) := by
      rw [Int.ceil_eq_iff]
      constructor
      · rw [lt_div_iff₀ hXq]
        have : (((c : Int) * X - X : Int) : ℚ) < (((k : Int) * inc : Int) : ℚ) := by
          exact_mod_cast h1
        push_cast at this ⊢
        linarith
      · rw [div_le_iff₀ hXq]
        have : ((((k : Int) * inc : Int)) : ℚ) ≤ (((c : Int) * X : Int) : ℚ) := by
          exact_mod_cast h2
        push_cast at this ⊢
        linarith
    rw [hc]
    push_cast
    rfl
  · intro S hS hSX
    constructor
    · exact ddaCount_exact 400 S 300 hS (by omega) (by push_cast; omega) _ rfl
        (by show -((400 : Nat) * (S : Int)) < 0; push_cast; omega) (le_refl _)
    · exact ddaCount_exact 400 S 100 hS (by omega) (by push_cast; omega) _ rfl
        (by show -((400 : Nat) * (S : Int)) < 0; push_cast; omega) (le_refl _)


/-- C34, witness: range 40000000 (400 ticks of 100000 substeps), increment 30000000, three
ticks. -/
theorem C34_pulse_count_is_ceiling_witness :
    ((stepsRaised 0 ((dda_timer_interrupt fracOps (exampleConst 4))^[3]
        (ddaState 4 400 40000000 30000000 0)).trace : Int)
        = stepsRaised 0 (ddaState 4 400 40000000 30000000 0).trace
          + ⌈(((3 : Nat) : ℚ)
              * ((((ddaState 4 400 40000000 30000000 0).st_run.mot 0).substep_increment : Int) : ℚ))
              / (((ddaState 4 400 40000000 30000000 0).st_run.dda_ticks_X_substeps : Int) : ℚ)⌉) :=
  (C34_pulse_count_is_ceiling fracOps (exampleConst 4) (ddaState 4 400 40000000 30000000 0) 0
    400 3 (by decide) (by decide) (by decide) (by decide) (by decide) (by decide) (by decide)
    (by decide) (by decide)).1

/-- C34, counterexample to the claim as stated: a segment of 21475 ticks of 100000 substeps has
the range `X = 2147500000 >= 2^31`; with `inc = X` (one step per tick) and accumulator 0 the
first DDA interrupt raises no step line, because `0 + inc` stored in the `int32_t` accumulator
is negative, while the ceiling of `1 * inc / X` is 1. -/
theorem C34_counterexample :
    0 < (ddaState 4 21475 2147500000 2147500000 0).st_run.dda_ticks_X_substeps
    ∧ 0 ≤ ((ddaState 4 21475 2147500000 2147500000 0).st_run.mot 0).substep_increment
    ∧ ((ddaState 4 21475 2147500000 2147500000 0).st_run.mot 0).substep_increment
        ≤ (ddaState 4 21475 2147500000 2147500000 0).st_run.dda_ticks_X_substeps
    ∧ ((ddaState 4 21475 2147500000 2147500000 0).st_run.mot 0).substep_accumulator = 0
    ∧ stepsRaised 0 (ddaState 4 21475 2147500000 2147500000 0).trace = 0
    ∧ stepsRaised 0 (dda_timer_interrupt fracOps (exampleConst 4)
        (ddaState 4 21475 2147500000 2147500000 0)).trace = 0
    ∧ ⌈((1 : ℚ) * (2147500000 : ℚ)) / (2147500000 : ℚ)⌉ = 1 := by
  refine ⟨by decide, by decide, by decide, by decide, by decide, by decide, ?_⟩
  norm_num

/-- The travel entry and the increment that the loop body of `st_prep_line` leaves for a motor
with non-zero travel. -/
theorem prepSlot_travel (O : FloatOps F) (K : Const F) (e time : F) (pol : Nat)
    (p0 : stPrepMotor F) (x : F) (hnz : O.fp_ZERO x = false) :
    (prepSlot O K e time pol p0 x).2
        = (if toI32 (p0.correction_holdoff - 1) < 0
              ∧ O.lt K.STEP_CORRECTION_THRESHOLD (O.fabs e) = true
            then O.sub x (nudgeCorrection O K e x) else x)
    ∧ (prepSlot O K e time pol p0 x).1.substep_increment
        = O.castU32 (O.round (O.fabs (O.mul (prepSlot O K e time pol p0 x).2 K.DDA_SUBSTEPS)))
    ∧ (prepSlot O K e time pol p0 x).1.correction_holdoff
        = (if toI32 (p0.correction_holdoff - 1) < 0
              ∧ O.lt K.STEP_CORRECTION_THRESHOLD (O.fabs e) = true
            then K.STEP_CORRECTION_HOLDOFF else toI32 (p0.correction_holdoff - 1)) := by
  unfold prepSlot nudgeCorrection
  rw [if_neg (by rw [hnz]; exact Bool.false_ne_true)]
  simp only []
  split_ifs <;> first | exact ⟨rfl, rfl, rfl⟩ | (simp_all)

/-- On finite fractions the test `0 <= x` of the code is the order of the values. -/
theorem Frac.le_zero_iff_val (x : Frac) (hx : x.den ≠ 0) :
    fracOps.le (fracOps.ofInt 0) x = true ↔ 0 ≤ x.val := by
  have hd : (0 : ℚ) < x.den := by exact_mod_cast Nat.pos_of_ne_zero hx
  simp only [fracOps, Frac.le, Frac.lt, Frac.isnan, Frac.isinf, Frac.val, hx]
  simp
  rw [div_nonneg_iff]
  constructor
  · intro h
    left
    exact ⟨by exact_mod_cast h, hd.le⟩
  · rintro (⟨h, _⟩ | ⟨_, h⟩)
    · exact_mod_cast h
    · exact absurd h (not_le.mpr hd)


/-! ## Sign of the corrected travel -/

/-- C37, in exact arithmetic with a positive `STEP_CORRECTION_FACTOR` and a positive
`STEP_CORRECTION_MAX`: in every successful `st_prep_line` call, for every motor `m < MOTORS`
with non-zero finite travel and a finite following error, the travel left in `travel_steps[m]`
after the nudge correction (applied or not) is finite and is zero or of the sign of the travel
passed in; so whenever it is positive the slot has `step_sign = 1` and direction
`CW xor polarity`, whenever it is negative `step_sign = -1` and direction `CCW xor polarity`;
and it is this corrected travel that is converted to `substep_increment`. -/
theorem C37_correction_keeps_travel_sign (K : Const Frac) (s : Machine Frac)
    (travel_steps fe : Nat → Frac) (time : Frac) (m : Nat)
    (hok : (st_prep_line fracOps K s travel_steps fe time).1 = Stat.STAT_OK)
    (hm : m < K.MOTORS) (hnz : fracOps.fp_ZERO (travel_steps m) = false)
    (hfe : (fe m).den ≠ 0) (htr : (travel_steps m).den ≠ 0)
    (hF : 0 < K.STEP_CORRECTION_FACTOR.num ∧ K.STEP_CORRECTION_FACTOR.den ≠ 0)
    (hM : 0 < K.STEP_CORRECTION_MAX.num ∧ K.STEP_CORRECTION_MAX.den ≠ 0) :
    ((st_prep_line fracOps K s travel_steps fe time).2.2 m).den ≠ 0
    ∧ (0 < (travel_steps m).val →
        0 ≤ ((st_prep_line fracOps K s travel_steps fe time).2.2 m).val)
    ∧ ((travel_steps m).val < 0 →
        ((st_prep_line fracOps K s travel_steps fe time).2.2 m).val ≤ 0)
    ∧ (0 < ((st_prep_line fracOps K s travel_steps fe time).2.2 m).val →
        ((st_prep_line fracOps K s travel_steps fe time).2.1.st_pre.mot m).step_sign = 1
        ∧ ((st_prep_line fracOps K s travel_steps fe time).2.1.st_pre.mot m).direction
            = K.DIRECTION_CW ^^^ s.polarity m)
    ∧ (((st_prep_line fracOps K s travel_steps fe time).2.2 m).val < 0 →
        ((st_prep_line fracOps K s travel_steps fe time).2.1.st_pre.mot m).step_sign = -1
        ∧ ((st_prep_line fracOps K s travel_steps fe time).2.1.st_pre.mot m).direction
            = K.DIRECTION_CCW ^^^ s.polarity m)
    ∧ ((st_prep_line fracOps K s travel_steps fe time).2.1.st_pre.mot m).substep_increment
        = fracOps.castU32 (fracOps.round (fracOps.fabs (fracOps.mul
            ((st_prep_line fracOps K s travel_steps fe time).2.2 m) K.DDA_SUBSTEPS))) := by
  obtain ⟨hb, hi, hn, he⟩ := st_prep_line_ok_conditions fracOps K s travel_steps fe time hok
  have hacc := st_prep_line_accepted fracOps K s travel_steps fe time hb hi hn he
  have h1 := hacc.2.2.2.2.2.1 m
  have h2 := hacc.2.2.2.2.2.2.1 m
  rw [if_pos hm] at h1 h2
  obtain ⟨t1, t2, _⟩ := prepSlot_travel fracOps K (fe m) time (s.polarity m)
    (s.st_pre.mot m) (travel_steps m) hnz
  obtain ⟨d1, d2, _⟩ := prepSlot_direction fracOps K (fe m) time (s.polarity m)
    (s.st_pre.mot m) (travel_steps m) hnz
  have hxn : (travel_steps m).num ≠ 0 := by
    intro hc
    have : fracOps.fp_ZERO (travel_steps m) = true := by
      simp only [fracOps, hc, true_and]
      exact decide_eq_true htr
    rw [this] at hnz
    exact Bool.noConfusion hnz
  have hx0 : (travel_steps m).val ≠ 0 := Frac.val_ne_zero_of_num_ne_zero _ hxn htr
  obtain ⟨vd, _, _, _, v4⟩ :=
    nudgeCorrection_val K (fe m) (travel_steps m) hfe htr hxn hF hM
  have hc : |(nudgeCorrection fracOps K (fe m) (travel_steps m)).val| ≤ |(travel_steps m).val| := by
    rw [v4]
    exact le_trans (min_le_right _ _) (min_le_left _ _)
  -- the corrected travel: finite, and on the side of zero of the requested travel
  have key : ((st_prep_line fracOps K s travel_steps fe time).2.2 m).den ≠ 0
      ∧ (0 < (travel_steps m).val →
          0 ≤ ((st_prep_line fracOps K s travel_steps fe time).2.2 m).val)
      ∧ ((travel_steps m).val < 0 →
          ((st_prep_line fracOps K s travel_steps fe time).2.2 m).val ≤ 0) := by
    rw [h2, t1]
    by_cases hcond : toI32 ((s.st_pre.mot m).correction_holdoff - 1) < 0
        ∧ fracOps.lt K.STEP_CORRECTION_THRESHOLD (fracOps.fabs (fe m)) = true
    · rw [if_pos hcond, Frac.val_sub _ _ htr vd]
      refine ⟨?_, ?_, ?_⟩
      · simp only [fracOps]
        exact Nat.mul_ne_zero htr vd
      · intro hp
        rw [abs_of_pos hp] at hc
        have := (abs_le.mp hc).2
        linarith
      · intro hp
        rw [abs_of_neg hp] at hc
        have := (abs_le.mp hc).1
        linarith
    · rw [if_neg hcond]
      exact ⟨htr, fun h => h.le, fun h => h.le⟩
  obtain ⟨k1, k2, k3⟩ := key
  refine ⟨k1, k2, k3, ?_, ?_, ?_⟩
  · intro hp
    have hx : 0 ≤ (travel_steps m).val := by
      by_contra hneg
      exact absurd (k3 (not_le.mp hneg)) (not_le.mpr hp)
    have hle := (Frac.le_zero_iff_val _ htr).mpr hx
    rw [h1, d1, d2, if_pos hle, if_pos hle]
    exact ⟨rfl, rfl⟩
  · intro hp
    have hx : ¬ 0 ≤ (travel_steps m).val := by
      intro h0
      rcases lt_or_eq_of_le h0 with h | h
      · exact absurd (k2 h) (not_le.mpr hp)
      · exact hx0 h.symm
    have hle : ¬ fracOps.le (fracOps.ofInt 0) (travel_steps m) = true :=
      fun h => hx ((Frac.le_zero_iff_val _ htr).mp h)
    rw [h1, d1, d2, if_neg hle, if_neg hle]
    exact ⟨rfl, rfl⟩
  · rw [h1, h2]
    exact t2


/-- C37, witness: following error `-5` and travel `-20` on the freshly initialised machine; the
corrected travel `-18.75` is still negative. -/
theorem C37_correction_keeps_travel_sign_witness :
    ((st_prep_line fracOps (exampleConst 4) (initState 4)
        (travelMotor0 { num := -20, den := 1 }) (fun _ => { num := -5, den := 1 })
        { num := 1, den := 100000 }).2.2 0).val ≤ 0 :=
  (C37_correction_keeps_travel_sign (exampleConst 4) (initState 4)
    (travelMotor0 { num := -20, den := 1 }) (fun _ => { num := -5, den := 1 })
    { num := 1, den := 100000 } 0 (by decide) (by decide) (by decide) (by decide) (by decide)
    (by decide) (by decide)).2.2.1
    (by
      show (({ num := -20, den := 1 } : Frac)).val < 0
      unfold Frac.val
      norm_num)

/-! ## Increment against range -/

/-- The increment computed in exact arithmetic from a travel of at most `n` steps and an
integer number `S` of substeps does not exceed `n * S`. -/
theorem fracOps_increment_le (x : Frac) (n S : Int) (hx : x.den ≠ 0) (hS : 0 ≤ S)
    (hnS : n * S < 4294967296) (hle : |x.val| ≤ (n : ℚ)) :
    fracOps.castU32 (fracOps.round (fracOps.fabs (fracOps.mul x (fracOps.ofInt S)))) ≤ n * S := by
  have hd : (0 : ℚ) < x.den := by exact_mod_cast Nat.pos_of_ne_zero hx
  have hdi : (0 : Int) < x.den := by exact_mod_cast Nat.pos_of_ne_zero hx
  have hnum : |x.num| ≤ n * x.den := by
    unfold Frac.val at hle
    rw [abs_div, abs_of_pos hd, div_le_iff₀ hd] at hle
    have : ((|x.num| : Int) : ℚ) ≤ ((n * x.den : Int) : ℚ) := by
      push_cast
      exact hle
    exact_mod_cast this
  have habs : (((x.num * S).natAbs : Nat) : Int) = |x.num| * S := by
    rw [Int.natCast_natAbs, abs_mul, abs_of_nonneg hS]
  have h0 : (0 : Int) ≤ |x.num| * S := mul_nonneg (abs_nonneg _) hS
  simp only [fracOps, Frac.trunc, Nat.mul_one, habs, h0, if_true, one_ne_zero, if_false,
    Nat.cast_one, Int.ediv_one]
  have hd2 : (2 * x.den : Nat) ≠ 0 := by omega
  have hnn : (0 : Int) ≤ 2 * (|x.num| * S) + (x.den : Int) := by positivity
  rw [if_neg hd2, if_pos hnn]
  have hq : (2 * (|x.num| * S) + (x.den : Int)) / ((2 * x.den : Nat) : Int) ≤ n * S := by
    apply Int.le_of_lt_add_one
    apply Int.ediv_lt_of_lt_mul (by push_cast; omega)
    push_cast
    have : |x.num| * S ≤ n * x.den * S := mul_le_mul_of_nonneg_right hnum hS
    nlinarith
  have hq0 : 0 ≤ (2 * (|x.num| * S) + (x.den : Int)) / ((2 * x.den : Nat) : Int) :=
    Int.ediv_nonneg hnn (by positivity)
  unfold toU32
  omega


/-- C40 (amended claim), in exact arithmetic with an integer `DDA_SUBSTEPS = S >= 0`: in every
successful `st_prep_line` call whose range `dda_ticks * S` fits 32 bits, for every motor
`m < MOTORS` whose travel after the nudge correction is finite and at most `dda_ticks` in
magnitude (at most one step per DDA tick is requested), the resulting `substep_increment` is
at most the resulting `dda_ticks_X_substeps`. -/
theorem C40_increment_bounded_when_travel_bounded (K : Const Frac) (s : Machine Frac)
    (travel_steps fe : Nat → Frac) (time : Frac) (m : Nat) (S : Int)
    (hok : (st_prep_line fracOps K s travel_steps fe time).1 = Stat.STAT_OK)
    (hm : m < K.MOTORS) (hS : K.DDA_SUBSTEPS = fracOps.ofInt S) (hS0 : 0 ≤ S)
    (hX : (st_prep_line fracOps K s travel_steps fe time).2.1.st_pre.dda_ticks * S
            < 4294967296)
    (hfin : ((st_prep_line fracOps K s travel_steps fe time).2.2 m).den ≠ 0)
    (hle : |((st_prep_line fracOps K s travel_steps fe time).2.2 m).val|
            ≤ (((st_prep_line fracOps K s travel_steps fe time).2.1.st_pre.dda_ticks : Int) : ℚ)) :
    ((st_prep_line fracOps K s travel_steps fe time).2.1.st_pre.mot m).substep_increment
      ≤ (st_prep_line fracOps K s travel_steps fe time).2.1.st_pre.dda_ticks_X_substeps := by
  obtain ⟨hb, hi, hn, he⟩ := st_prep_line_ok_conditions fracOps K s travel_steps fe time hok
  have hacc := st_prep_line_accepted fracOps K s travel_steps fe time hb hi hn he
  have h1 := hacc.2.2.2.2.2.1 m
  have h2 := hacc.2.2.2.2.2.2.1 m
  have hT := hacc.2.2.2.1
  have hXv := hacc.2.2.2.2.1
  rw [if_pos hm] at h1 h2
  rw [← hT] at hXv
  have hT0 : 0 ≤ (st_prep_line fracOps K s travel_steps fe time).2.1.st_pre.dda_ticks := by
    rw [hT]
    exact (toU32_range _).1
  have hXe : fracOps.castU32 (fracOps.mul
      (fracOps.ofInt (st_prep_line fracOps K s travel_steps fe time).2.1.st_pre.dda_ticks)
      (fracOps.ofInt S))
      = (st_prep_line fracOps K s travel_steps fe time).2.1.st_pre.dda_ticks * S :=
    fracOps_ticks_X _ S (mul_nonneg hT0 hS0) hX
  rw [hXv, hS, hXe]
  by_cases hz : fracOps.fp_ZERO (travel_steps m) = true
  · have : ((st_prep_line fracOps K s travel_steps fe time).2.1.st_pre.mot m).substep_increment
        = 0 := by
      rw [h1]
      unfold prepSlot
      rw [if_pos hz]
    rw [this]
    exact mul_nonneg hT0 hS0
  · have hnz : fracOps.fp_ZERO (travel_steps m) = false := by
      cases h : fracOps.fp_ZERO (travel_steps m)
      · rfl
      · exact absurd h hz
    obtain ⟨_, t2, _⟩ := prepSlot_travel fracOps K (fe m) time (s.polarity m)
      (s.st_pre.mot m) (travel_steps m) hnz
    rw [h1, t2, ← h2, hS]
    exact fracOps_increment_le _ _ S hfin hS0 hX hle

/-- C40, counterexample to the claim as stated: `st_prep_line` accepts 200 steps for motor 0
over 120 DDA ticks and stages `substep_increment = 20000000` against
`dda_ticks_X_substeps = 12000000`. -/
theorem C40_counterexample :
    (st_prep_line fracOps (exampleConst 4) (initState 4)
        (travelMotor0 { num := 200, den := 1 }) noError (ticksTime 120)).1 = Stat.STAT_OK
    ∧ (st_prep_line fracOps (exampleConst 4) (initState 4)
        (travelMotor0 { num := 200, den := 1 }) noError (ticksTime 120)).2.1.st_pre.dda_ticks
        = 120
    ∧ ((st_prep_line fracOps (exampleConst 4) (initState 4)
        (travelMotor0 { num := 200, den := 1 }) noError
        (ticksTime 120)).2.1.st_pre.mot 0).substep_increment = 20000000
    ∧ (st_prep_line fracOps (exampleConst 4) (initState 4)
        (travelMotor0 { num := 200, den := 1 }) noError
        (ticksTime 120)).2.1.st_pre.dda_ticks_X_substeps = 12000000 := by
  refine ⟨by decide, by decide, by decide, by decide⟩

/-- C40, witness: 60 steps over 120 ticks on the freshly initialised machine. -/
theorem C40_increment_bounded_when_travel_bounded_witness :
    ((st_prep_line fracOps (exampleConst 4) (initState 4)
        (travelMotor0 { num := 60, den := 1 }) noError
        (ticksTime 120)).2.1.st_pre.mot 0).substep_increment
      ≤ (st_prep_line fracOps (exampleConst 4) (initState 4)
        (travelMotor0 { num := 60, den := 1 }) noError
        (ticksTime 120)).2.1.st_pre.dda_ticks_X_substeps :=
  C40_increment_bounded_when_travel_bounded (exampleConst 4) (initState 4)
    (travelMotor0 { num := 60, den := 1 }) noError (ticksTime 120) 0 100000
    (by decide) (by decide) rfl (by decide) (by decide) (by decide)
    (by
      have h : (st_prep_line fracOps (exampleConst 4) (initState 4)
          (travelMotor0 { num := 60, den := 1 }) noError (ticksTime 120)).2.2 0
          = { num := 60, den := 1 } := by decide
      have h2 : (st_prep_line fracOps (exampleConst 4) (initState 4)
          (travelMotor0 { num := 60, den := 1 }) noError (ticksTime 120)).2.1.st_pre.dda_ticks
          = 120 := by decide
      rw [h, h2]
      unfold Frac.val
      norm_num)

/-! ## The correction holdoff -/

/-- With the downcount at 0 the DDA interrupt ends the step pulses and stops its timer. -/
theorem dda_timer_interrupt_idle (O : FloatOps F) (K : Const F) (s : Machine F)
    (h : s.st_run.dda_ticks_downcount = 0) :
    dda_timer_interrupt O K s = { stepEndAll K s with dda_timer_running := false } := by
  unfold dda_timer_interrupt
  simp only [stepEndAll_st_run, h, if_true]

theorem loadPre_holdoff (p : stPrepMotor F) :
    (loadPre p).correction_holdoff = p.correction_holdoff := by
  unfold loadPre
  split_ifs <;> rfl

/-- The loader never writes `correction_holdoff`. -/
theorem load_move_holdoff (O : FloatOps F) (K : Const F) (s : Machine F) (j : Nat) :
    ((_load_move O K s).st_pre.mot j).correction_holdoff
      = (s.st_pre.mot j).correction_holdoff := by
  by_cases h0 : s.st_run.dda_ticks_downcount = 0
  · by_cases hb : s.st_pre.buffer_state = BufferState.PREP_BUFFER_OWNED_BY_LOADER
    · by_cases ht : s.st_pre.block_type = BlockType.BLOCK_TYPE_ALINE
      · rw [load_move_aline O K s h0 hb ht]
        simp only [Machine.emit]
        rw [(loadAline_slots O K s j).2.1]
        split_ifs
        · exact loadPre_holdoff _
        · rfl
      · rw [(load_move_other O K s h0 hb ht).2.2.1]
    · rw [load_move_not_owned O K s h0 hb]
  · rw [load_move_busy O K s h0]

theorem dda_timer_interrupt_holdoff (O : FloatOps F) (K : Const F) (s : Machine F) (j : Nat) :
    ((dda_timer_interrupt O K s).st_pre.mot j).correction_holdoff
      = (s.st_pre.mot j).correction_holdoff := by
  by_cases h0 : s.st_run.dda_ticks_downcount = 0
  · rw [dda_timer_interrupt_idle O K s h0]
    show ((stepEndAll K s).st_pre.mot j).correction_holdoff = _
    rw [stepEndAll_st_pre]
  · rw [dda_timer_interrupt_busy O K s h0]
    split
    · rw [load_move_holdoff, ddaTick_st_pre, stepEndAll_st_pre]
    · rw [ddaTick_st_pre, stepEndAll_st_pre]

theorem dwell_timer_interrupt_holdoff (O : FloatOps F) (K : Const F) (s : Machine F)
    (j : Nat) :
    ((dwell_timer_interrupt O K s).st_pre.mot j).correction_holdoff
      = (s.st_pre.mot j).correction_holdoff := by
  unfold dwell_timer_interrupt
  simp only []
  split
  · rw [load_move_holdoff]
  · rfl

theorem foldl_resetMotor_holdoff (O : FloatOps F) (K : Const F) (l : List Nat) (s : Machine F)
    (j : Nat) :
    ((l.foldl (resetMotor O K) s).st_pre.mot j).correction_holdoff
      = (s.st_pre.mot j).correction_holdoff := by
  induction l generalizing s with
  | nil => rfl
  | cons a l ih =>
    rw [List.foldl_cons, ih]
    simp only [resetMotor, Machine.setPreMot, Machine.setRunMot, setAt]
    split_ifs <;> simp_all

theorem stepper_reset_holdoff (O : FloatOps F) (K : Const F) (s : Machine F) (j : Nat) :
    ((stepper_reset O K s).st_pre.mot j).correction_holdoff
      = (s.st_pre.mot j).correction_holdoff := by
  unfold stepper_reset
  simp only [Machine.emit]
  rw [foldl_resetMotor_holdoff]

theorem execFlip_holdoff (s : Machine F) (j : Nat) :
    ((execFlip s).st_pre.mot j).correction_holdoff = (s.st_pre.mot j).correction_holdoff := by
  unfold execFlip st_request_load_move
  split_ifs <;> rfl

/-- The holdoff of a motor after a successful `st_prep_line` call. -/
theorem st_prep_line_holdoff (O : FloatOps F) (K : Const F) (s : Machine F)
    (travel_steps fe : Nat → F) (time : F) (m : Nat)
    (hok : (st_prep_line O K s travel_steps fe time).1 = Stat.STAT_OK) (hm : m < K.MOTORS) :
    (O.fp_ZERO (travel_steps m) = true →
      ((st_prep_line O K s travel_steps fe time).2.1.st_pre.mot m).correction_holdoff
        = (s.st_pre.mot m).correction_holdoff)
    ∧ (O.fp_ZERO (travel_steps m) = false →
      ((st_prep_line O K s travel_steps fe time).2.1.st_pre.mot m).correction_holdoff
        = (if toI32 ((s.st_pre.mot m).correction_holdoff - 1) < 0
              ∧ O.lt K.STEP_CORRECTION_THRESHOLD (O.fabs (fe m)) = true
            then K.STEP_CORRECTION_HOLDOFF
            else toI32 ((s.st_pre.mot m).correction_holdoff - 1))) := by
  obtain ⟨hb, hi, hn, he⟩ := st_prep_line_ok_conditions O K s travel_steps fe time hok
  have hacc := st_prep_line_accepted O K s travel_steps fe time hb hi hn he
  have h1 := hacc.2.2.2.2.2.1 m
  rw [if_pos hm] at h1
  refine ⟨?_, ?_⟩
  · intro hz
    rw [h1]
    unfold prepSlot
    rw [if_pos hz]
  · intro hnz
    rw [h1]
    exact (prepSlot_travel O K (fe m) time (s.polarity m) (s.st_pre.mot m) (travel_steps m)
      hnz).2.2

/-- The holdoff counts down, in `int32_t`, from `STEP_CORRECTION_HOLDOFF` by one for every
moving call since the last correction. -/
theorem sinceCorrection_holdoff (O : FloatOps F) (K : Const F) (m : Nat) (hm : m < K.MOTORS)
    (hH0 : -2147483648 ≤ K.STEP_CORRECTION_HOLDOFF)
    (hH1 : K.STEP_CORRECTION_HOLDOFF < 2147483648) (s : Machine F) (n : Nat)
    (h : SinceCorrection O K m s n) :
    (s.st_pre.mot m).correction_holdoff = toI32 (K.STEP_CORRECTION_HOLDOFF - n) := by
  induction h with
  | corrected s tr fe time hok hc =>
    rw [(st_prep_line_holdoff O K s tr fe time m hok hm).2 hc.1, if_pos hc.2]
    simp only [Nat.cast_zero, sub_zero]
    exact (toI32_eq_self hH0 hH1).symm
  | moved s n tr fe time _ hok hnz hc ih =>
    have hc2 : ¬ (toI32 ((s.st_pre.mot m).correction_holdoff - 1) < 0
        ∧ O.lt K.STEP_CORRECTION_THRESHOLD (O.fabs (fe m)) = true) :=
      fun h => hc ⟨hnz, h⟩
    rw [(st_prep_line_holdoff O K s tr fe time m hok hm).2 hnz, if_neg hc2, ih]
    unfold toI32
    push_cast
    omega
  | rested s n tr fe time _ hok hz ih =>
    rw [(st_prep_line_holdoff O K s tr fe time m hok hm).1 hz, ih]
  | prep_dwell s n us _ ih => exact ih
  | prep_null s n _ ih => exact ih
  | prep_command s n bf _ ih => exact ih
  | exec_flip s n _ ih => rw [execFlip_holdoff]; exact ih
  | load s n _ ih => rw [load_move_holdoff]; exact ih
  | dda s n _ ih => rw [dda_timer_interrupt_holdoff]; exact ih
  | dwell s n _ ih => rw [dwell_timer_interrupt_holdoff]; exact ih
  | reset s n _ ih => rw [stepper_reset_holdoff]; exact ih

/-- C36, for a constant `STEP_CORRECTION_HOLDOFF` that fits the `int32_t` field it is stored
in, and a motor `m < MOTORS`. In every state reached after a correcting call of `st_prep_line`
through `n` successful calls with non-zero travel for `m` and no correction of `m` (and any
number of calls with zero travel for `m`, other prep calls, exec flips, loader calls, timer
interrupts and `stepper_reset` calls), `correction_holdoff` of `m` is
`STEP_CORRECTION_HOLDOFF - n` (as an `int32_t`), and a successful call that applies a
correction to `m` in that state has `n >= STEP_CORRECTION_HOLDOFF`: at least that many moving,
uncorrected calls lie between two consecutive corrections. And in every successful call the
holdoff of `m` is left alone when the travel of `m` is zero, and otherwise decremented (in
`int32_t`), whatever the following error, then rearmed to `STEP_CORRECTION_HOLDOFF` if the
call applies a correction. -/
theorem C36_holdoff_between_corrections (O : FloatOps F) (K : Const F) (m : Nat)
    (hm : m < K.MOTORS) (hH0 : -2147483648 ≤ K.STEP_CORRECTION_HOLDOFF)
    (hH1 : K.STEP_CORRECTION_HOLDOFF < 2147483648) :
    (∀ (s : Machine F) (n : Nat), SinceCorrection O K m s n →
      (s.st_pre.mot m).correction_holdoff = toI32 (K.STEP_CORRECTION_HOLDOFF - n)
      ∧ ∀ (travel_steps fe : Nat → F) (time : F),
          (st_prep_line O K s travel_steps fe time).1 = Stat.STAT_OK →
          appliesCorrection O K s travel_steps fe m →
          K.STEP_CORRECTION_HOLDOFF ≤ n)
    ∧ (∀ (s : Machine F) (travel_steps fe : Nat → F) (time : F),
        (st_prep_line O K s travel_steps fe time).1 = Stat.STAT_OK →
        (O.fp_ZERO (travel_steps m) = true →
          ((st_prep_line O K s travel_steps fe time).2.1.st_pre.mot m).correction_holdoff
            = (s.st_pre.mot m).correction_holdoff)
        ∧ (O.fp_ZERO (travel_steps m) = false →
            ((st_prep_line O K s travel_steps fe time).2.1.st_pre.mot m).correction_holdoff
              = (if appliesCorrection O K s travel_steps fe m then K.STEP_CORRECTION_HOLDOFF
                  else toI32 ((s.st_pre.mot m).correction_holdoff - 1)))) := by
  refine ⟨?_, ?_⟩
  · intro s n h
    have hinv := sinceCorrection_holdoff O K m hm hH0 hH1 s n h
    refine ⟨hinv, ?_⟩
    intro tr fe time _ hc
    have h2 := hc.2.1
    rw [hinv] at h2
    by_contra hlt
    have h3 : toI32 (toI32 (K.STEP_CORRECTION_HOLDOFF - (n : Int)) - 1)
        = K.STEP_CORRECTION_HOLDOFF - (n : Int) - 1 := by
      unfold toI32
      omega
    rw [h3] at h2
    omega
  · intro s tr fe time hok
    obtain ⟨a, b⟩ := st_prep_line_holdoff O K s tr fe time m hok hm
    refine ⟨a, ?_⟩
    intro hnz
    rw [b hnz]
    by_cases hc : toI32 ((s.st_pre.mot m).correction_holdoff - 1) < 0
        ∧ O.lt K.STEP_CORRECTION_THRESHOLD (O.fabs (fe m)) = true
    · rw [if_pos hc, if_pos ⟨hnz, hc⟩]
    · rw [if_neg hc, if_neg (fun h => hc h.2)]


/-- C36, witness: the freshly initialised machine (holdoff 0), a call with following error
`-5` and travel `-20` for motor 0 applies a correction; right after it the holdoff is
`STEP_CORRECTION_HOLDOFF`. -/
theorem C36_holdoff_between_corrections_witness :
    ((st_prep_line fracOps (exampleConst 4) (initState 4)
        (travelMotor0 { num := -20, den := 1 }) (fun _ => { num := -5, den := 1 })
        { num := 1, den := 100000 }).2.1.st_pre.mot 0).correction_holdoff
      = toI32 ((exampleConst 4).STEP_CORRECTION_HOLDOFF - ((0 : Nat) : Int)) :=
  ((C36_holdoff_between_corrections fracOps (exampleConst 4) 0 (by decide) (by decide)
    (by decide)).1 _ 0
    (SinceCorrection.corrected (initState 4) (travelMotor0 { num := -20, den := 1 })
      (fun _ => { num := -5, den := 1 }) { num := 1, den := 100000 } (by decide)
      (by decide))).1

/-! ## Termination of the pump -/

theorem postReadSwitch_fields (c : Trinamic2130Base) (code : Int) :
    (postReadSwitch c code).out_buffer = c.out_buffer
    ∧ (postReadSwitch c code).transmitting = c.transmitting
    ∧ (postReadSwitch c code)._reading_only = c._reading_only
    ∧ (postReadSwitch c code)._registers_to_access = c._registers_to_access
    ∧ (postReadSwitch c code).queued = c.queued := by
  unfold postReadSwitch _postRead Trinamic2130Base.assign
  cases readCase code <;> exact ⟨rfl, rfl, rfl, rfl, rfl⟩

/-- The pump on a chip that is not transmitting and has a token queued: the token is dequeued
and its frame sent. -/
theorem startNextRead_cons (c : Trinamic2130Base) (t : Int) (rest : List Int)
    (htr : c.transmitting = false) (hq : c._registers_to_access = t :: rest) :
    (_startNextRead c).transmitting = true
    ∧ (_startNextRead c)._registers_to_access = rest
    ∧ (_startNextRead c)._reading_only = c._reading_only
    ∧ (_startNextRead c)._register_thats_reading = c._register_thats_reading
    ∧ (_startNextRead c).out_buffer.addr = toU8 t
    ∧ (_startNextRead c).queued.map (fun f => f.addr)
        = c.queued.map (fun f => f.addr) ++ [toU8 t] := by
  unfold _startNextRead
  rw [if_neg (by rw [htr, hq]; simp)]
  simp only [hq, sendFrame]
  split_ifs
  · obtain ⟨_, _, h3, h4, h5, h6, _, _, _, _, h11⟩ :=
      prepWriteSwitch_fields
        { c with transmitting := true, _registers_to_access := rest } (clearBit7 t)
    simp [h3, h4, h5, h6, h11]
  · simp

/-- The pump on a chip that is not transmitting, has nothing queued and has a read latched:
the collect frame is sent. -/
theorem startNextRead_collect (c : Trinamic2130Base)
    (htr : c.transmitting = false) (hq : c._registers_to_access = [])
    (hl : c._register_thats_reading ≠ -1) :
    (_startNextRead c).transmitting = true
    ∧ (_startNextRead c)._registers_to_access = []
    ∧ (_startNextRead c)._reading_only = true
    ∧ (_startNextRead c).out_buffer.addr = toU8 c._register_thats_reading
    ∧ (_startNextRead c).queued.map (fun f => f.addr)
        = c.queued.map (fun f => f.addr) ++ [toU8 c._register_thats_reading] := by
  unfold _startNextRead
  rw [if_neg (by rw [htr]; simp [hl])]
  simp [hq, sendFrame]

/-- The pump on an idle chip does nothing. -/
theorem startNextRead_idle (c : Trinamic2130Base) (hq : c._registers_to_access = [])
    (hl : c._register_thats_reading = -1) : _startNextRead c = c := by
  unfold _startNextRead
  rw [if_pos (Or.inr ⟨hq, hl⟩)]

/-- The completion callback, up to its final call of the pump. -/
theorem frameDone_pump (d : Trinamic2130Base) (resp : trinamic_buffer_t) :
    ∃ c5 : Trinamic2130Base, frameDone d resp = _startNextRead c5
      ∧ c5.transmitting = false
      ∧ c5._reading_only = false
      ∧ c5._registers_to_access = d._registers_to_access
      ∧ c5._register_thats_reading
          = (if d._reading_only = false ∧ bit7 d.out_buffer.addr = false
              then d.out_buffer.addr else -1)
      ∧ c5.queued = d.queued := by
  unfold frameDone _doneReadingCallback
  refine ⟨_, rfl, rfl, rfl, ?_, ?_, ?_⟩
  · simp only []
    split_ifs <;> first | rfl | exact (postReadSwitch_fields _ _).2.2.2.1
  · simp only []
    by_cases hl : d._register_thats_reading = -1
    · simp only [hl, ne_eq, not_true_eq_false, if_false]
      split_ifs <;> rfl
    · have h := postReadSwitch_fields
        { d with in_buffer := resp, status := resp.addr } d._register_thats_reading
      simp only [ne_eq, hl, not_false_eq_true, if_true, h.1, h.2.2.1]
      split_ifs <;> rfl
  · simp only []
    split_ifs <;> first | rfl | exact (postReadSwitch_fields _ _).2.2.2.2

theorem completions_succ_left (c : Trinamic2130Base) (resp : Nat → trinamic_buffer_t)
    (k : Nat) :
    completions c resp (k + 1)
      = completions (frameDone c (resp 0)) (fun i => resp (i + 1)) k := by
  induction k with
  | zero => rfl
  | succ k ih =>
    show frameDone (completions c resp (k + 1)) (resp (k + 1)) = _
    rw [ih]
    rfl


/-- The pump from a request frame in flight: it stops after `framesLeft` completions, not
before, having sent the frames `framesSent`. -/
theorem pump_run (rest : List Int) :
    ∀ (d : Trinamic2130Base) (a : Int) (resp : Nat → trinamic_buffer_t),
      d.transmitting = true → d._reading_only = false → d.out_buffer.addr = a →
      0 ≤ a → a < 256 → d._registers_to_access = rest → (∀ x ∈ rest, 0 ≤ x ∧ x < 256) →
      (∀ k, k < framesLeft a rest → (completions d resp k).transmitting = true)
      ∧ Idle (completions d resp (framesLeft a rest))
      ∧ (completions d resp (framesLeft a rest)).queued.map (fun f => f.addr)
          = d.queued.map (fun f => f.addr) ++ framesSent a rest := by
  induction rest with
  | nil =>
    intro d a resp htr hro ha h0 h1 hq _
    obtain ⟨c5, e, g1, g2, g3, g4, g5⟩ := frameDone_pump d (resp 0)
    rw [hq] at g3
    by_cases hb : bit7 a = true
    · have hl : c5._register_thats_reading = -1 := by
        rw [g4, ha, if_neg (by rw [hb]; simp)]
      have e1 : completions d resp 1 = c5 := by
        show frameDone d (resp 0) = c5
        rw [e, startNextRead_idle c5 g3 hl]
      have hF : framesLeft a [] = 1 := by simp [framesLeft, hb]
      have hS : framesSent a [] = [] := by simp [framesSent, hb]
      rw [hF, hS, e1]
      refine ⟨?_, ⟨g3, g1, hl⟩, ?_⟩
      · intro k hk
        have : k = 0 := by omega
        subst this
        exact htr
      · rw [g5, List.append_nil]
    · have hl : c5._register_thats_reading = a := by
        rw [g4, ha, if_pos ⟨hro, by simpa using hb⟩]
      have hne : c5._register_thats_reading ≠ -1 := by rw [hl]; omega
      obtain ⟨s1, s2, s3, s4, s5⟩ := startNextRead_collect c5 g1 g3 hne
      rw [← e] at s1 s2 s3 s4 s5
      obtain ⟨c6, e', k1, k2, k3, k4, k5⟩ := frameDone_pump (frameDone d (resp 0)) (resp 1)
      rw [s2] at k3
      have hl6 : c6._register_thats_reading = -1 := by
        rw [k4, if_neg (by rw [s3]; simp)]
      have e2 : completions d resp 2 = c6 := by
        show frameDone (frameDone d (resp 0)) (resp 1) = c6
        rw [e', startNextRead_idle c6 k3 hl6]
      have hF : framesLeft a [] = 2 := by simp [framesLeft, hb]
      have hS : framesSent a [] = [a] := by simp [framesSent, hb]
      rw [hF, hS, e2]
      refine ⟨?_, ⟨k3, k1, hl6⟩, ?_⟩
      · intro k hk
        have : k = 0 ∨ k = 1 := by omega
        rcases this with rfl | rfl
        · exact htr
        · exact s1
      · rw [k5, s5, g5, hl, toU8_eq_self h0 h1]
  | cons t rest ih =>
    intro d a resp htr hro ha h0 h1 hq hr
    obtain ⟨c5, e, g1, g2, g3, g4, g5⟩ := frameDone_pump d (resp 0)
    rw [hq] at g3
    obtain ⟨s1, s2, s3, _, s5, s6⟩ := startNextRead_cons c5 t rest g1 g3
    rw [← e] at s1 s2 s3 s5 s6
    have ht := hr t (List.mem_cons_self _ _)
    rw [toU8_eq_self ht.1 ht.2] at s5 s6
    obtain ⟨i1, i2, i3⟩ := ih (frameDone d (resp 0)) t (fun i => resp (i + 1)) s1
      (by rw [s3, g2]) s5 ht.1 ht.2 s2 (fun x hx => hr x (List.mem_cons_of_mem _ hx))
    have hF : framesLeft a (t :: rest) = framesLeft t rest + 1 := by
      simp [framesLeft, Nat.add_comm]
    have hS : framesSent a (t :: rest) = t :: framesSent t rest := rfl
    rw [hF, hS, completions_succ_left]
    refine ⟨?_, i2, ?_⟩
    · intro k hk
      cases k with
      | zero => exact htr
      | succ j =>
        rw [completions_succ_left]
        exact i1 j (by omega)
    · rw [i3, s6, g5, List.append_assoc]
      rfl

theorem framesLeft_eq (rest : List Int) : ∀ t : Int,
    framesLeft t rest
      = (t :: rest).length
        + (if bit7 ((t :: rest).getLast (List.cons_ne_nil t rest)) = true then 0 else 1) := by
  induction rest with
  | nil =>
    intro t
    simp only [framesLeft, List.getLast_singleton, List.length_singleton]
    split_ifs <;> rfl
  | cons u rest ih =>
    intro t
    rw [List.getLast_cons_cons]
    show 1 + framesLeft u rest = _
    rw [ih u]
    simp only [List.length_cons]
    omega

theorem framesSent_eq (rest : List Int) : ∀ t : Int,
    framesSent t rest
      = rest ++ (if bit7 ((t :: rest).getLast (List.cons_ne_nil t rest)) = true then []
                 else [(t :: rest).getLast (List.cons_ne_nil t rest)]) := by
  induction rest with
  | nil =>
    intro t
    simp only [framesSent, List.getLast_singleton, List.nil_append]
  | cons u rest ih =>
    intro t
    rw [List.getLast_cons_cons]
    show u :: framesSent u rest = _
    rw [ih u]
    rfl

/-- C38: a chip that is not transmitting (with `_reading_only` cleared, as in every such
state the driver reaches) holds the `n >= 1` tokens `t :: rest` (bytes) in its queue; the pump
`_startNextRead` is started, as at the end of every request, and no further request arrives.
Then the chip is transmitting before each of the first `N` frame completions and idle (queue
empty, not transmitting, no read latched) after the `N`-th, where `N = n` when the last token
is a write (bit 7 set) and `N = n + 1` when it is a read; the frames sent are, in order, one
per token with the token as address byte, followed by one collect frame for the last token
when it is a read; no frame follows the collect frame. -/
theorem C38_pump_reaches_idle (c : Trinamic2130Base) (t : Int) (rest : List Int)
    (resp : Nat → trinamic_buffer_t)
    (htr : c.transmitting = false) (hro : c._reading_only = false)
    (hq : c._registers_to_access = t :: rest) (hr : ∀ x ∈ t :: rest, 0 ≤ x ∧ x < 256) :
    (∀ k, k < (t :: rest).length
          + (if bit7 ((t :: rest).getLast (List.cons_ne_nil t rest)) = true then 0 else 1) →
        (completions (_startNextRead c) resp k).transmitting = true)
    ∧ Idle (completions (_startNextRead c) resp ((t :: rest).length
          + (if bit7 ((t :: rest).getLast (List.cons_ne_nil t rest)) = true then 0 else 1)))
    ∧ (completions (_startNextRead c) resp ((t :: rest).length
          + (if bit7 ((t :: rest).getLast (List.cons_ne_nil t rest)) = true then 0 else 1))
        ).queued.map (fun f => f.addr)
        = c.queued.map (fun f => f.addr) ++ (t :: rest)
          ++ (if bit7 ((t :: rest).getLast (List.cons_ne_nil t rest)) = true then []
              else [(t :: rest).getLast (List.cons_ne_nil t rest)]) := by
  obtain ⟨s1, s2, s3, _, s5, s6⟩ := startNextRead_cons c t rest htr hq
  have ht := hr t (List.mem_cons_self _ _)
  rw [toU8_eq_self ht.1 ht.2] at s5 s6
  obtain ⟨i1, i2, i3⟩ := pump_run rest (_startNextRead c) t resp s1 (by rw [s3, hro]) s5
    ht.1 ht.2 s2 (fun x hx => hr x (List.mem_cons_of_mem _ hx))
  rw [framesLeft_eq] at i1 i2 i3
  refine ⟨i1, i2, ?_⟩
  rw [i3, s6, framesSent_eq, List.append_assoc, List.append_assoc]
  rfl

/-- C38, witness: a write of GCONF, a read of IOIN and a read of MSCNT queued; the pump sends
four frames (the fourth collects MSCNT) and is idle after four completions. -/
theorem C38_pump_reaches_idle_witness :
    Idle (completions (_startNextRead threeQueued) (fun _ => { addr := 0, value := 0 }) 4)
    ∧ (completions (_startNextRead threeQueued) (fun _ => { addr := 0, value := 0 })
        4).queued.map (fun f => f.addr) = [0x80, 0x04, 0x6A, 0x6A] :=
  ⟨(C38_pump_reaches_idle threeQueued 0x80 [0x04, 0x6A] (fun _ => { addr := 0, value := 0 })
      (by decide) (by decide) (by decide) (by decide)).2.1,
   (C38_pump_reaches_idle threeQueued 0x80 [0x04, 0x6A] (fun _ => { addr := 0, value := 0 })
      (by decide) (by decide) (by decide) (by decide)).2.2⟩

/-! ## Direction calls of a segment -/

theorem directionCalls_append (m : Nat) (a b : List Event) :
    directionCalls m (a ++ b) = directionCalls m a + directionCalls m b := by
  unfold directionCalls
  exact List.countP_append _ _ _

theorem directionCalls_eq_zero (m : Nat) (l : List Event)
    (h : ∀ e ∈ l, Event.isSetDirection m e = false) : directionCalls m l = 0 := by
  unfold directionCalls
  rw [List.countP_eq_zero]
  intro e he
  rw [h e he]
  exact Bool.false_ne_true

theorem foldl_ddaMotor_dir (m : Nat) (l : List Nat) (s : Machine F) :
    directionCalls m (l.foldl ddaMotor s).trace = directionCalls m s.trace := by
  induction l generalizing s with
  | nil => rfl
  | cons a l ih =>
    rw [List.foldl_cons, ih, ddaMotor_trace, directionCalls_append]
    have : directionCalls m (if ddaFires (s.st_run.mot a) then
        [Event.stepStart a, Event.INCREMENT_ENCODER a] else []) = 0 := by
      split_ifs <;> rfl
    rw [this]
    rfl

theorem ddaTick_dir (K : Const F) (m : Nat) (s : Machine F) :
    directionCalls m (ddaTick K s).trace = directionCalls m s.trace := by
  unfold ddaTick
  exact foldl_ddaMotor_dir m _ s

theorem stepEndAll_dir (K : Const F) (m : Nat) (s : Machine F) :
    directionCalls m (stepEndAll K s).trace = directionCalls m s.trace := by
  rw [stepEndAll_trace, directionCalls_append, directionCalls_eq_zero m (List.map _ _)]
  · rfl
  · intro e he
    obtain ⟨_, _, h2⟩ := List.mem_map.mp he
    subst h2
    rfl

/-- While no prepared buffer waits for the loader, a DDA interrupt leaves the prep structure
alone and calls no `setDirection`. -/
theorem dda_timer_interrupt_not_owned (O : FloatOps F) (K : Const F) (m : Nat) (s : Machine F)
    (hb : s.st_pre.buffer_state ≠ BufferState.PREP_BUFFER_OWNED_BY_LOADER) :
    (dda_timer_interrupt O K s).st_pre = s.st_pre
    ∧ directionCalls m (dda_timer_interrupt O K s).trace = directionCalls m s.trace := by
  by_cases h0 : s.st_run.dda_ticks_downcount = 0
  · rw [dda_timer_interrupt_idle O K s h0]
    exact ⟨stepEndAll_st_pre K s, stepEndAll_dir K m s⟩
  · rw [dda_timer_interrupt_busy O K s h0]
    have hpre : (ddaTick K (stepEndAll K s)).st_pre = s.st_pre := by
      rw [ddaTick_st_pre, stepEndAll_st_pre]
    have hdir : directionCalls m (ddaTick K (stepEndAll K s)).trace
        = directionCalls m s.trace := by
      rw [ddaTick_dir, stepEndAll_dir]
    split
    · rename_i hd
      rw [load_move_not_owned O K _ hd (by rw [hpre]; exact hb)]
      refine ⟨hpre, ?_⟩
      show directionCalls m (_ ++ _) = _
      rw [directionCalls_append, hdir, directionCalls_eq_zero m (List.map _ _)]
      · rfl
      · intro e he
        obtain ⟨_, _, h2⟩ := List.mem_map.mp he
        subst h2
        rfl
    · exact ⟨hpre, hdir⟩

theorem iterate_dda_dir (O : FloatOps F) (K : Const F) (m : Nat) (n : Nat) :
    ∀ s : Machine F, s.st_pre.buffer_state ≠ BufferState.PREP_BUFFER_OWNED_BY_LOADER →
      directionCalls m ((dda_timer_interrupt O K)^[n] s).trace = directionCalls m s.trace := by
  induction n with
  | zero => intro s _; rfl
  | succ n ih =>
    intro s hb
    obtain ⟨h1, h2⟩ := dda_timer_interrupt_not_owned O K m s hb
    rw [Function.iterate_succ_apply, ih _ (by rw [h1]; exact hb), h2]

theorem directionCalls_loadEvents (m j : Nat) (p : stPrepMotor F) :
    directionCalls m (loadEvents j p)
      = if j = m ∧ p.substep_increment ≠ 0 ∧ p.direction ≠ p.prev_direction then 1 else 0 := by
  unfold loadEvents directionCalls
  by_cases hi : p.substep_increment ≠ 0
  · by_cases hd : p.direction ≠ p.prev_direction
    · by_cases hj : j = m
      · simp [hi, hd, hj, Event.isSetDirection]
      · simp [hi, hd, hj, Event.isSetDirection]
    · simp [hi, hd, Event.isSetDirection]
  · simp [hi, Event.isSetDirection]

/-- From the bottom of the range, a segment of `D >= 1` steps produces `D - 1` pulses and
ends with the accumulator at 0. -/
theorem ddaCount_from_bottom (T S D : Nat) (hS : 1 ≤ S) (hD1 : 1 ≤ D) (hDT : D ≤ T)
    (hX : (T : Int) * S < 2147483648) (r : stRunMotor)
    (hinc : r.substep_increment = (D : Int) * S)
    (ha : r.substep_accumulator = -((T : Int) * S)) :
    ddaCount ((T : Int) * S) T r = D - 1
    ∧ ((ddaStep ((T : Int) * S))^[T] r).substep_accumulator = 0 := by
  obtain ⟨T', rfl⟩ : ∃ T', T = T' + 1 := ⟨T - 1, by omega⟩
  have hSi : (1 : Int) ≤ S := by exact_mod_cast hS
  have hD1i : (1 : Int) ≤ D := by exact_mod_cast hD1
  have hDTi : (D : Int) ≤ ((T' + 1 : Nat) : Int) := by exact_mod_cast hDT
  have hle : (D : Int) * S ≤ ((T' + 1 : Nat) : Int) * S :=
    Int.mul_le_mul_of_nonneg_right hDTi (by omega)
  have hDS : (1 : Int) ≤ (D : Int) * S := by nlinarith
  set X : Int := ((T' + 1 : Nat) : Int) * S with hXdef
  have hsum : toI32 (r.substep_accumulator + r.substep_increment) = -X + (D : Int) * S := by
    rw [ha, hinc]
    exact toI32_eq_self (by omega) (by omega)
  have hfire : ddaFires r = false := by
    unfold ddaFires
    rw [hsum]
    exact decide_eq_false (by omega)
  have hstep : ddaStep X r = { r with substep_accumulator := -X + (D : Int) * S } := by
    unfold ddaStep
    rw [hsum, if_neg (by omega)]
  obtain ⟨e1, e2, e3⟩ := ddaCount_balance X hX T' (ddaStep X r)
    (by rw [hstep]; show 0 ≤ r.substep_increment; rw [hinc]; omega)
    (by rw [hstep]; show r.substep_increment ≤ X; rw [hinc]; exact hle)
    (by rw [hstep]; show -X < -X + (D : Int) * S; omega)
    (by rw [hstep]; show -X + (D : Int) * S ≤ 0; omega)
  have hi2 : (ddaStep X r).substep_increment = (D : Int) * S := by rw [hstep]; exact hinc
  have ha2 : (ddaStep X r).substep_accumulator = -X + (D : Int) * S := by rw [hstep]
  rw [hi2, ha2] at e1
  rw [Function.iterate_succ_apply]
  have hcnt : ddaCount X (T' + 1) r = ddaCount X T' (ddaStep X r) := by
    show (if ddaFires r then 1 else 0) + ddaCount X T' (ddaStep X r) = _
    rw [hfire]
    simp
  rw [hcnt]
  set n : Int := (ddaCount X T' (ddaStep X r) : Int) with hn
  set b := ((ddaStep X)^[T'] (ddaStep X r)).substep_accumulator
  have hXpos : (0 : Int) < X := by omega
  have key : b = X * ((D : Int) - 1 - n) := by
    rw [e1, hXdef]
    push_cast
    ring
  have h1 : X * ((D : Int) - 1 - n) < X * 1 := by omega
  have h2 : X * (-1) < X * ((D : Int) - 1 - n) := by omega
  have h3 := lt_of_mul_lt_mul_left h1 hXpos.le
  have h4 := lt_of_mul_lt_mul_left h2 hXpos.le
  have hfin : n = (D : Int) - 1 := by omega
  refine ⟨?_, ?_⟩
  · omega
  · rw [key, hfin]
    ring


theorem foldl_resetMotor_polarity (O : FloatOps F) (K : Const F) (l : List Nat)
    (s : Machine F) : (l.foldl (resetMotor O K) s).polarity = s.polarity := by
  induction l generalizing s with
  | nil => rfl
  | cons a l ih => rw [List.foldl_cons, ih]; rfl

theorem stepper_reset_polarity (O : FloatOps F) (K : Const F) (s : Machine F) :
    (stepper_reset O K s).polarity = s.polarity := by
  unfold stepper_reset
  simp only [Machine.emit]
  rw [foldl_resetMotor_polarity]

/-! ## A segment of one DDA tick -/

theorem foldl_ddaMotor_step_pin (l : List Nat) (hl : l.Nodup) (s : Machine F) (j : Nat) :
    (l.foldl ddaMotor s).step_pin j
      = if j ∈ l ∧ ddaFires (s.st_run.mot j) = true then true else s.step_pin j := by
  induction l generalizing s with
  | nil => simp
  | cons a l ih =>
    rw [List.nodup_cons] at hl
    rw [List.foldl_cons, ih hl.2, ddaMotor_mot]
    have hpin : (ddaMotor s a).step_pin j
        = if j = a ∧ ddaFires (s.st_run.mot a) = true then true else s.step_pin j := by
      unfold ddaMotor ddaFires
      simp only [Machine.setRunMot, Machine.emit, setAt_same]
      by_cases hf : toI32 ((s.st_run.mot a).substep_accumulator
          + (s.st_run.mot a).substep_increment) > 0
      · by_cases hja : j = a
        · simp [hf, hja, setAt]
        · simp [hf, hja, setAt]
      · simp [hf]
    rw [hpin]
    by_cases hja : j = a
    · subst hja
      simp [hl.1]
    · simp [hja]


/-- C32 (amended claim), in exact arithmetic, with the constants of `slowClockConst` (a DDA
period of `1/60000` minute, which `st_prep_line` accepts) and normal polarity on motor 0
(MOTOR_1): from the state left by `stepper_reset` (called in any state), `st_prep_line` with
`travel_steps = [1, 0, 0, 0]`, no following error and a segment time of one DDA period returns
`STAT_OK`; `_load_move` loads one tick and starts the DDA timer; the first DDA interrupt raises
the step line of motor 0 (one `stepStart`), brings the downcount to 0 and leaves the timer
running; the second lowers the step line and stops the timer. Over the two interrupts motor 0
gets exactly one `stepStart`, no other motor gets any, and `st_runtime_isbusy()` is false at
the end. -/
theorem C32_single_step_segment (s0 : Machine Frac) (hpol : s0.polarity 0 = 0) :
    (st_prep_line fracOps slowClockConst (stepper_reset fracOps slowClockConst s0)
        (travelMotor0 { num := 1, den := 1 }) noError { num := 1, den := 60000 }).1
      = Stat.STAT_OK
    ∧ (oneStepLoaded s0).st_run.dda_ticks_downcount = 1
    ∧ (oneStepLoaded s0).dda_timer_running = true
    ∧ stepsRaised 0 (dda_timer_interrupt fracOps slowClockConst (oneStepLoaded s0)).trace
        = stepsRaised 0 (stepper_reset fracOps slowClockConst s0).trace + 1
    ∧ (dda_timer_interrupt fracOps slowClockConst (oneStepLoaded s0)).step_pin 0 = true
    ∧ (dda_timer_interrupt fracOps slowClockConst (oneStepLoaded s0)).dda_timer_running = true
    ∧ (dda_timer_interrupt fracOps slowClockConst
        (dda_timer_interrupt fracOps slowClockConst (oneStepLoaded s0))).step_pin 0 = false
    ∧ (dda_timer_interrupt fracOps slowClockConst
        (dda_timer_interrupt fracOps slowClockConst (oneStepLoaded s0))).dda_timer_running
        = false
    ∧ stepsRaised 0 (dda_timer_interrupt fracOps slowClockConst
        (dda_timer_interrupt fracOps slowClockConst (oneStepLoaded s0))).trace
        = stepsRaised 0 (stepper_reset fracOps slowClockConst s0).trace + 1
    ∧ (∀ m, m ≠ 0 →
        stepsRaised m (dda_timer_interrupt fracOps slowClockConst
          (dda_timer_interrupt fracOps slowClockConst (oneStepLoaded s0))).trace
        = stepsRaised m (stepper_reset fracOps slowClockConst s0).trace)
    ∧ st_runtime_isbusy (dda_timer_interrupt fracOps slowClockConst
        (dda_timer_interrupt fracOps slowClockConst (oneStepLoaded s0))) = false := by
  obtain ⟨hdc, -, -, -, hb, hslots⟩ := stepper_reset_fields fracOps slowClockConst s0
  have hpol0 : (stepper_reset fracOps slowClockConst s0).polarity 0 = 0 := by
    rw [stepper_reset_polarity]; exact hpol
  unfold oneStepLoaded
  generalize stepper_reset fracOps slowClockConst s0 = s at hdc hb hslots hpol0
  -- the preparation
  obtain ⟨hA1, hA2, hA3, hA4, hA5, hA6, -, hA8, -, -, -⟩ :=
    st_prep_line_accepted fracOps slowClockConst s (travelMotor0 { num := 1, den := 1 })
      noError { num := 1, den := 60000 } hb (by decide) (by decide) (by decide)
  obtain ⟨hF1, -, -, -, -⟩ :=
    st_prep_line_frame fracOps slowClockConst s (travelMotor0 { num := 1, den := 1 }) noError
      { num := 1, den := 60000 }
  have hticks : toU32 (fracOps.castI32 (fracOps.mul
      (fracOps.mul { num := 1, den := 60000 } (fracOps.ofInt 60))
      (fracOps.ofInt slowClockConst.FREQUENCY_DDA))) = 1 := by decide
  rw [hticks] at hA4 hA5
  have hXv : fracOps.castU32 (fracOps.mul (fracOps.ofInt 1) slowClockConst.DDA_SUBSTEPS)
      = 100000 := by decide
  rw [hXv] at hA5
  refine ⟨hA1, ?_⟩
  generalize (st_prep_line fracOps slowClockConst s (travelMotor0 { num := 1, den := 1 })
    noError { num := 1, den := 60000 }).2.1 = p at hA2 hA3 hA4 hA5 hA6 hA8 hF1
  -- the load
  have hpd : p.st_run.dda_ticks_downcount = 0 := by rw [hF1]; exact hdc
  have hload := load_move_aline fracOps slowClockConst p hpd hA3 hA2
  obtain ⟨hL1, hL2, hL3, -, -, -, -⟩ := loadAline_fields fracOps slowClockConst p
  have hqsteps := fun m => load_move_steps fracOps slowClockConst p m
  have hslot := fun j => (loadAline_slots fracOps slowClockConst p j).1
  generalize _load_move fracOps slowClockConst p = q at hload hqsteps
  have hqrun : q.st_run = (loadAline fracOps slowClockConst p).st_run := by rw [hload]; rfl
  have hqbuf : q.st_pre.buffer_state = BufferState.PREP_BUFFER_OWNED_BY_EXEC := by
    rw [hload]; rfl
  have hqtimer : q.dda_timer_running = true := by rw [hload]; exact hL3
  have hqd : q.st_run.dda_ticks_downcount = 1 := by rw [hqrun, hL1, hA4]
  have hqX : q.st_run.dda_ticks_X_substeps = 100000 := by rw [hqrun, hL2, hA5]
  -- motor 0 is loaded with one step per tick on accumulator 0
  have hq0 : (q.st_run.mot 0).substep_increment = 100000
      ∧ (q.st_run.mot 0).substep_accumulator = 0 := by
    have h := segment_slot_forward (s.st_pre.mot 0) (s.st_run.mot 0) { num := 1, den := 60000 }
      100000 1 (hslots 0 (by decide)).1 (hslots 0 (by decide)).2.2 (by decide)
    rw [hqrun, hslot 0, if_pos (by decide), hA5, hA6 0, if_pos (by decide), hF1, hpol0]
    exact ⟨h.1, h.2.1⟩
  -- the other motors are loaded idle on accumulator 0
  have hqj : ∀ j, j < 4 → j ≠ 0 → (q.st_run.mot j).substep_increment = 0
      ∧ (q.st_run.mot j).substep_accumulator = 0 := by
    intro j hj hj0
    have hz : (prepSlot fracOps slowClockConst (noError j) { num := 1, den := 60000 }
        (s.polarity j) (s.st_pre.mot j) (travelMotor0 { num := 1, den := 1 } j)).1
        = { s.st_pre.mot j with substep_increment := 0 } := by
      unfold prepSlot
      rw [if_pos (by simp [travelMotor0, hj0, fracOps])]
    have hj' : j < slowClockConst.MOTORS := hj
    rw [hqrun, hslot j, if_pos hj', hA6 j, if_pos hj', hz, hF1]
    unfold loadRun
    rw [if_neg (by simp)]
    exact ⟨rfl, (hslots j hj').2.2⟩
  refine ⟨hqd, hqtimer, ?_⟩
  -- the first interrupt
  obtain ⟨hT1, hT2, hT3, hT4⟩ := dda_timer_interrupt_spec fracOps slowClockConst q
    (by decide) (by decide) (by rw [hqd]; decide)
  have htd : (ddaTick slowClockConst (stepEndAll slowClockConst q)).st_run.dda_ticks_downcount
      = 0 := by rw [hT3, hqd]; decide
  have htpre : (ddaTick slowClockConst (stepEndAll slowClockConst q)).st_pre = q.st_pre := by
    rw [ddaTick_st_pre, stepEndAll_st_pre]
  have htimer : (ddaTick slowClockConst (stepEndAll slowClockConst q)).dda_timer_running
      = true := by
    rw [(ddaTick_flags _ _).1]
    unfold stepEndAll
    rw [(foldl_stepEnd_flags _ q).1]
    exact hqtimer
  have hpin : (ddaTick slowClockConst (stepEndAll slowClockConst q)).step_pin 0 = true := by
    unfold ddaTick
    show ((ddaMotors slowClockConst).foldl ddaMotor (stepEndAll slowClockConst q)).step_pin 0
      = true
    rw [foldl_ddaMotor_step_pin _ (ddaMotors_nodup _), stepEndAll_st_run, if_pos]
    refine ⟨by decide, ?_⟩
    unfold ddaFires
    rw [hq0.1, hq0.2]
    decide
  have hst0 : stepsRaised 0 (ddaTick slowClockConst (stepEndAll slowClockConst q)).trace
      = stepsRaised 0 s.trace + 1 := by
    rw [(hT1 0 (by decide)).2, hqsteps 0, hA8, hq0.1, hq0.2, if_pos (by decide)]
  have hstj : ∀ m, m ≠ 0 →
      stepsRaised m (ddaTick slowClockConst (stepEndAll slowClockConst q)).trace
        = stepsRaised m s.trace := by
    intro m hm
    by_cases h4 : m < 4
    · rw [(hT1 m h4).2, hqsteps m, hA8, (hqj m h4 hm).1, (hqj m h4 hm).2,
        if_neg (by decide)]
      rfl
    · rw [(hT2 m (by show 4 ≤ m; omega)).2, hqsteps m, hA8]
  have hr1 : dda_timer_interrupt fracOps slowClockConst q
      = { ddaTick slowClockConst (stepEndAll slowClockConst q) with
          trace := (ddaTick slowClockConst (stepEndAll slowClockConst q)).trace
            ++ (List.range slowClockConst.MOTORS).map Event.motionStopped } := by
    rw [hT4, if_pos htd, load_move_not_owned fracOps slowClockConst _ htd
      (by rw [htpre, hqbuf]; decide)]
  have hr1steps : ∀ m, stepsRaised m (dda_timer_interrupt fracOps slowClockConst q).trace
      = stepsRaised m (ddaTick slowClockConst (stepEndAll slowClockConst q)).trace := by
    intro m
    rw [hT4, if_pos htd, load_move_steps]
  have hr1d : (dda_timer_interrupt fracOps slowClockConst q).st_run.dda_ticks_downcount
      = 0 := by rw [hr1]; exact htd
  have hr1pin : (dda_timer_interrupt fracOps slowClockConst q).step_pin 0 = true := by
    rw [hr1]; exact hpin
  have hr1timer : (dda_timer_interrupt fracOps slowClockConst q).dda_timer_running = true := by
    rw [hr1]; exact htimer
  refine ⟨by rw [hr1steps, hst0], hr1pin, hr1timer, ?_⟩
  clear hr1 hr1pin hr1timer
  -- the second interrupt
  generalize dda_timer_interrupt fracOps slowClockConst q = r1 at hr1steps hr1d
  rw [dda_timer_interrupt_idle fracOps slowClockConst r1 hr1d]
  refine ⟨?_, rfl, ?_, ?_, ?_⟩
  · show (stepEndAll slowClockConst r1).step_pin 0 = false
    rw [stepEndAll_step_pin, if_pos (by decide)]
  · show stepsRaised 0 (stepEndAll slowClockConst r1).trace = _
    rw [stepEndAll_steps, hr1steps, hst0]
  · intro m hm
    show stepsRaised m (stepEndAll slowClockConst r1).trace = _
    rw [stepEndAll_steps, hr1steps, hstj m hm]
  · unfold st_runtime_isbusy
    show decide ((stepEndAll slowClockConst r1).st_run.dda_ticks_downcount ≠ 0) = false
    rw [stepEndAll_st_run, hr1d]
    decide


/-- C32, witness: the scenario from the reset of the power-on state. -/
theorem C32_single_step_segment_witness :
    stepsRaised 0 (dda_timer_interrupt fracOps slowClockConst
        (oneStepLoaded (powerOn fracOps slowClockConst))).trace
      = stepsRaised 0
          (stepper_reset fracOps slowClockConst (powerOn fracOps slowClockConst)).trace + 1 :=
  (C32_single_step_segment (powerOn fracOps slowClockConst) (by decide)).2.2.2.1

/-- C32, counterexample to the claim as stated: the same scenario with the polarity of motor 0
reversed. The staged direction (CW xor 1) differs from `prev_direction`, which
`stepper_reset` has set to `STEP_INITIAL_DIRECTION`, so the loader reflects the accumulator to
`-dda_ticks_X_substeps`; the single tick brings it back to 0, which is not above 0: the
segment is accepted, the timer runs and stops, and the step line of motor 0 is never raised. -/
theorem C32_counterexample :
    (st_prep_line fracOps slowClockConst (stepper_reset fracOps slowClockConst powerOnReversed)
        (travelMotor0 { num := 1, den := 1 }) noError { num := 1, den := 60000 }).1
      = Stat.STAT_OK
    ∧ ((oneStepLoaded powerOnReversed).st_run.mot 0).substep_accumulator = -100000
    ∧ stepsRaised 0 (stepper_reset fracOps slowClockConst powerOnReversed).trace = 0
    ∧ stepsRaised 0 (dda_timer_interrupt fracOps slowClockConst
        (dda_timer_interrupt fracOps slowClockConst (oneStepLoaded powerOnReversed))).trace = 0
    ∧ (dda_timer_interrupt fracOps slowClockConst
        (dda_timer_interrupt fracOps slowClockConst
          (oneStepLoaded powerOnReversed))).dda_timer_running = false := by
  refine ⟨by decide, by decide, by decide, by decide, by decide⟩

/-! ## One line segment from preparation to its last tick, for any float arithmetic -/

theorem directionCalls_loadEventsAll_list (pre : Nat → stPrepMotor F) (m : Nat) (l : List Nat)
    (hl : l.Nodup) :
    directionCalls m (loadEventsAll pre l)
      = if m ∈ l ∧ (pre m).substep_increment ≠ 0 ∧ (pre m).direction ≠ (pre m).prev_direction
        then 1 else 0 := by
  induction l with
  | nil => simp [loadEventsAll, directionCalls]
  | cons a l ih =>
    rw [List.nodup_cons] at hl
    rw [loadEventsAll, directionCalls_append, directionCalls_loadEvents, ih hl.2]
    by_cases ha : a = m
    · subst ha
      have : a ∉ l := hl.1
      simp [this]
    · have hne : ¬ m = a := fun h => ha h.symm
      simp [ha, hne]

/-- What the loader does with a segment that `st_prep_line` accepted while the runtime was
idle, for a motor `m < MOTORS`. -/
theorem loadLine_spec (O : FloatOps F) (K : Const F) (s : Machine F)
    (travel_steps fe : Nat → F) (time : F) (m : Nat)
    (hok : (st_prep_line O K s travel_steps fe time).1 = Stat.STAT_OK)
    (hdc : s.st_run.dda_ticks_downcount = 0) (hm : m < K.MOTORS) :
    (loadLine O K s travel_steps fe time).st_pre.buffer_state
        = BufferState.PREP_BUFFER_OWNED_BY_EXEC
    ∧ (loadLine O K s travel_steps fe time).st_run.dda_ticks_downcount
        = (st_prep_line O K s travel_steps fe time).2.1.st_pre.dda_ticks
    ∧ (loadLine O K s travel_steps fe time).st_run.dda_ticks_X_substeps
        = (st_prep_line O K s travel_steps fe time).2.1.st_pre.dda_ticks_X_substeps
    ∧ (loadLine O K s travel_steps fe time).polarity = s.polarity
    ∧ (loadLine O K s travel_steps fe time).st_run.mot m
        = loadRun O (st_prep_line O K s travel_steps fe time).2.1.st_pre.dda_ticks_X_substeps
            ((st_prep_line O K s travel_steps fe time).2.1.st_pre.mot m) (s.st_run.mot m)
    ∧ (loadLine O K s travel_steps fe time).st_pre.mot m
        = loadPre ((st_prep_line O K s travel_steps fe time).2.1.st_pre.mot m)
    ∧ stepsRaised m (loadLine O K s travel_steps fe time).trace = stepsRaised m s.trace
    ∧ directionCalls m (loadLine O K s travel_steps fe time).trace
        = directionCalls m s.trace
          + (if ((st_prep_line O K s travel_steps fe time).2.1.st_pre.mot m).substep_increment ≠ 0
                ∧ ((st_prep_line O K s travel_steps fe time).2.1.st_pre.mot m).direction
                  ≠ ((st_prep_line O K s travel_steps fe time).2.1.st_pre.mot m).prev_direction
             then 1 else 0)
    ∧ 0 ≤ (st_prep_line O K s travel_steps fe time).2.1.st_pre.dda_ticks
    ∧ (st_prep_line O K s travel_steps fe time).2.1.st_pre.dda_ticks < 4294967296 := by
  obtain ⟨hb, hi, hn, he⟩ := st_prep_line_ok_conditions O K s travel_steps fe time hok
  obtain ⟨-, hA2, hA3, hA4, -, -, -, hA8, hA9, -, -⟩ :=
    st_prep_line_accepted O K s travel_steps fe time hb hi hn he
  obtain ⟨hF1, -, -, -, -⟩ := st_prep_line_frame O K s travel_steps fe time
  unfold loadLine
  have hT0 : 0 ≤ (st_prep_line O K s travel_steps fe time).2.1.st_pre.dda_ticks := by
    rw [hA4]; unfold toU32; omega
  have hT1 : (st_prep_line O K s travel_steps fe time).2.1.st_pre.dda_ticks < 4294967296 := by
    rw [hA4]; unfold toU32; omega
  generalize (st_prep_line O K s travel_steps fe time).2.1 = p at hA2 hA3 hA8 hA9 hF1 hT0 hT1
  have hpd : p.st_run.dda_ticks_downcount = 0 := by rw [hF1]; exact hdc
  have hload := load_move_aline O K p hpd hA3 hA2
  obtain ⟨hL1, hL2, -, -, -, hL6, hL7⟩ := loadAline_fields O K p
  obtain ⟨hS1, hS2, -⟩ := loadAline_slots O K p m
  have hqsteps := load_move_steps O K p m
  rw [if_pos hm] at hS1 hS2
  have hqtr : (_load_move O K p).trace
      = (s.trace ++ loadEventsAll p.st_pre.mot (List.range K.MOTORS))
        ++ [Event.exec_setInterruptPending] := by
    rw [hload]
    show (loadAline O K p).trace ++ [Event.exec_setInterruptPending] = _
    rw [hL7, hA8]
  refine ⟨by rw [hload]; rfl, ?_, ?_, ?_, ?_, ?_, by rw [hqsteps, hA8], ?_, hT0, hT1⟩
  · rw [hload]; exact hL1
  · rw [hload]; exact hL2
  · rw [hload, ← hA9, ← hL6]; rfl
  · rw [hload]
    show (loadAline O K p).st_run.mot m = _
    rw [hS1, hF1]
  · rw [hload]
    show (loadAline O K p).st_pre.mot m = _
    rw [hS2]
  · rw [hqtr, directionCalls_append, directionCalls_append,
      directionCalls_loadEventsAll_list _ _ _ (List.nodup_range _)]
    have : directionCalls m [Event.exec_setInterruptPending] = 0 := rfl
    rw [this]
    simp [hm]

/-- What `runLine` does to a motor `m` served by the DDA interrupt and to the handshake: the
segment is loaded, its ticks run the DDA on the loaded slot, the buffer ends with exec and the
runtime idle. -/
theorem runLine_spec (O : FloatOps F) (K : Const F) (s : Machine F)
    (travel_steps fe : Nat → F) (time : F) (m : Nat)
    (hok : (st_prep_line O K s travel_steps fe time).1 = Stat.STAT_OK)
    (hdc : s.st_run.dda_ticks_downcount = 0) (hm : m < K.MOTORS) (hmm : m ∈ ddaMotors K) :
    (runLine O K s travel_steps fe time).st_pre.buffer_state
        = BufferState.PREP_BUFFER_OWNED_BY_EXEC
    ∧ (runLine O K s travel_steps fe time).st_run.dda_ticks_downcount = 0
    ∧ (runLine O K s travel_steps fe time).polarity = s.polarity
    ∧ (runLine O K s travel_steps fe time).st_run.mot m
        = (ddaStep (st_prep_line O K s travel_steps fe time).2.1.st_pre.dda_ticks_X_substeps)^[
            ((st_prep_line O K s travel_steps fe time).2.1.st_pre.dda_ticks).toNat]
            ((loadLine O K s travel_steps fe time).st_run.mot m)
    ∧ (runLine O K s travel_steps fe time).st_pre.mot m
        = (loadLine O K s travel_steps fe time).st_pre.mot m
    ∧ stepsRaised m (runLine O K s travel_steps fe time).trace
        = stepsRaised m s.trace
          + ddaCount (st_prep_line O K s travel_steps fe time).2.1.st_pre.dda_ticks_X_substeps
              ((st_prep_line O K s travel_steps fe time).2.1.st_pre.dda_ticks).toNat
              ((loadLine O K s travel_steps fe time).st_run.mot m)
    ∧ directionCalls m (runLine O K s travel_steps fe time).trace
        = directionCalls m (loadLine O K s travel_steps fe time).trace := by
  obtain ⟨h1, h2, h3, h4, -, -, h7, -, h9, h10⟩ :=
    loadLine_spec O K s travel_steps fe time m hok hdc hm
  unfold runLine
  generalize (st_prep_line O K s travel_steps fe time).2.1.st_pre.dda_ticks = t at h2 h9 h10
  generalize (st_prep_line O K s travel_steps fe time).2.1.st_pre.dda_ticks_X_substeps = X at h3
  generalize loadLine O K s travel_steps fe time = q at h1 h2 h3 h4 h7
  have hqd : q.st_run.dda_ticks_downcount = ((t.toNat : Nat) : Int) := by
    rw [h2, Int.toNat_of_nonneg h9]
  have hlt : t.toNat < 4294967296 := by omega
  have hnb : q.st_pre.buffer_state ≠ BufferState.PREP_BUFFER_OWNED_BY_LOADER := by
    rw [h1]; decide
  obtain ⟨hR1, hR2, hR3, hR4⟩ := iterate_dda_state O K t.toNat q hlt hqd hnb
  have hR5 := iterate_dda_steps O K m hmm t.toNat t.toNat q (le_refl _) hlt hqd
  refine ⟨by rw [hR3]; exact h1, hR1, by rw [hR4]; exact h4, ?_, by rw [hR3], ?_, ?_⟩
  · rw [hR2 m hmm, h3]
  · rw [hR5, h7, h3]
  · exact iterate_dda_dir O K m _ q hnb

/-- A slot with increment `D * S` and accumulator in `(-T*S, 0]` produces `D` pulses over `T`
ticks of range `T * S` and ends as it began. -/
theorem ddaStep_period (T S D : Nat) (hS : 1 ≤ S) (hDT : D ≤ T)
    (hX : (T : Int) * S < 2147483648) (r : stRunMotor)
    (hinc : r.substep_increment = (D : Int) * S)
    (ha1 : -((T : Int) * S) < r.substep_accumulator) (ha2 : r.substep_accumulator ≤ 0) :
    ddaCount ((T : Int) * S) T r = D ∧ (ddaStep ((T : Int) * S))^[T] r = r := by
  have hc := ddaCount_exact T S D hS hDT hX r hinc ha1 ha2
  have hDTi : (D : Int) ≤ (T : Int) := by exact_mod_cast hDT
  have hS0 : (0 : Int) ≤ S := by positivity
  have hle : (D : Int) * S ≤ (T : Int) * S := Int.mul_le_mul_of_nonneg_right hDTi hS0
  obtain ⟨hbal, -, -⟩ := ddaCount_balance ((T : Int) * S) hX T r
    (by rw [hinc]; positivity) (by rw [hinc]; exact hle) ha1 ha2
  refine ⟨hc, ?_⟩
  have hi := iterate_ddaStep_increment ((T : Int) * S) T r
  have hacc : ((ddaStep ((T : Int) * S))^[T] r).substep_accumulator = r.substep_accumulator := by
    rw [hbal, hc, hinc]
    ring
  generalize (ddaStep ((T : Int) * S))^[T] r = r2 at hi hacc
  cases r2
  cases r
  simp only at hi hacc
  subst hi hacc
  rfl

theorem loadRun_increment (O : FloatOps F) (X : Int) (p : stPrepMotor F) (r : stRunMotor) :
    (loadRun O X p r).substep_increment = p.substep_increment := by
  unfold loadRun
  split_ifs <;> rfl

/-- A segment whose staged values are exact (`dda_ticks = T`, range `T * S`, increment
`D * S` with `D <= T`) and whose loaded accumulator lies in `(-T*S, 0]` emits `D` pulses and
leaves the run slot as it was loaded. -/
theorem runLine_exact (O : FloatOps F) (K : Const F) (s : Machine F)
    (travel_steps fe : Nat → F) (time : F) (m D S T : Nat)
    (hm : m < K.MOTORS) (hmm : m ∈ ddaMotors K) (hdc : s.st_run.dda_ticks_downcount = 0)
    (hS : 1 ≤ S) (hDT : D ≤ T) (hr : (T : Int) * S < 2147483648)
    (hok : (st_prep_line O K s travel_steps fe time).1 = Stat.STAT_OK)
    (ht : (st_prep_line O K s travel_steps fe time).2.1.st_pre.dda_ticks = (T : Int))
    (hx : (st_prep_line O K s travel_steps fe time).2.1.st_pre.dda_ticks_X_substeps
        = (T : Int) * S)
    (hi : ((st_prep_line O K s travel_steps fe time).2.1.st_pre.mot m).substep_increment
        = (D : Int) * S)
    (ha1 : -((T : Int) * S)
        < ((loadLine O K s travel_steps fe time).st_run.mot m).substep_accumulator)
    (ha2 : ((loadLine O K s travel_steps fe time).st_run.mot m).substep_accumulator ≤ 0) :
    stepsRaised m (runLine O K s travel_steps fe time).trace = stepsRaised m s.trace + D
    ∧ (runLine O K s travel_steps fe time).st_run.mot m
        = (loadLine O K s travel_steps fe time).st_run.mot m := by
  obtain ⟨-, -, -, k4, -, k6, -⟩ := runLine_spec O K s travel_steps fe time m hok hdc hm hmm
  obtain ⟨-, -, -, -, l5, -⟩ := loadLine_spec O K s travel_steps fe time m hok hdc hm
  have hinc : ((loadLine O K s travel_steps fe time).st_run.mot m).substep_increment
      = (D : Int) * S := by
    rw [l5, loadRun_increment, hi]
  rw [ht, hx, Int.toNat_natCast] at k4 k6
  obtain ⟨hc, hp⟩ := ddaStep_period T S D hS hDT hr _ hinc ha1 ha2
  exact ⟨by rw [k6, hc], by rw [k4, hp]⟩

/-- C18 (amended claim), for any float arithmetic and any constants: take two consecutive
line segments on a motor `m` served by the DDA interrupt, the first prepared while the runtime
is idle, each loaded by `_load_move` and run by as many DDA interrupts as its staged
`dda_ticks`. Suppose that `st_prep_line` accepts both and that the values it stages are exact:
`dda_ticks = T1` (then `T2`), `dda_ticks_X_substeps = T * S` below `2^31` for a substep factor
`S >= 1`, and `substep_increment = D * S` with `D <= T1, T2`; and that the accumulator that
each load leaves (the one the load found, multiplied by `accumulator_correction` when the
correction flag is set and reflected to `-(X + accumulator)` when the direction changes) lies
in `(-X, 0]`. Then each segment emits exactly `D` step pulses, the pair `2 * D`, each segment
ends with the run slot as it was loaded, and the second load starts from the slot loaded for
the first. -/
theorem C18_two_segments_keep_phase (O : FloatOps F) (K : Const F) (s : Machine F)
    (travel1 fe1 travel2 fe2 : Nat → F) (time1 time2 : F) (m D S T1 T2 : Nat)
    (hm : m < K.MOTORS) (hmm : m ∈ ddaMotors K) (hdc : s.st_run.dda_ticks_downcount = 0)
    (hS : 1 ≤ S) (hD1 : D ≤ T1) (hD2 : D ≤ T2)
    (hr1 : (T1 : Int) * S < 2147483648) (hr2 : (T2 : Int) * S < 2147483648)
    (hok1 : (st_prep_line O K s travel1 fe1 time1).1 = Stat.STAT_OK)
    (ht1 : (st_prep_line O K s travel1 fe1 time1).2.1.st_pre.dda_ticks = (T1 : Int))
    (hx1 : (st_prep_line O K s travel1 fe1 time1).2.1.st_pre.dda_ticks_X_substeps
        = (T1 : Int) * S)
    (hi1 : ((st_prep_line O K s travel1 fe1 time1).2.1.st_pre.mot m).substep_increment
        = (D : Int) * S)
    (ha1 : -((T1 : Int) * S)
          < ((loadLine O K s travel1 fe1 time1).st_run.mot m).substep_accumulator
        ∧ ((loadLine O K s travel1 fe1 time1).st_run.mot m).substep_accumulator ≤ 0)
    (hok2 : (st_prep_line O K (runLine O K s travel1 fe1 time1) travel2 fe2 time2).1
        = Stat.STAT_OK)
    (ht2 : (st_prep_line O K (runLine O K s travel1 fe1 time1) travel2 fe2
        time2).2.1.st_pre.dda_ticks = (T2 : Int))
    (hx2 : (st_prep_line O K (runLine O K s travel1 fe1 time1) travel2 fe2
        time2).2.1.st_pre.dda_ticks_X_substeps = (T2 : Int) * S)
    (hi2 : ((st_prep_line O K (runLine O K s travel1 fe1 time1) travel2 fe2
        time2).2.1.st_pre.mot m).substep_increment = (D : Int) * S)
    (ha2 : -((T2 : Int) * S)
          < ((loadLine O K (runLine O K s travel1 fe1 time1) travel2 fe2
              time2).st_run.mot m).substep_accumulator
        ∧ ((loadLine O K (runLine O K s travel1 fe1 time1) travel2 fe2
              time2).st_run.mot m).substep_accumulator ≤ 0) :
    stepsRaised m (runLine O K s travel1 fe1 time1).trace = stepsRaised m s.trace + D
    ∧ stepsRaised m (runLine O K (runLine O K s travel1 fe1 time1) travel2 fe2 time2).trace
        = stepsRaised m s.trace + 2 * D
    ∧ (runLine O K s travel1 fe1 time1).st_run.mot m
        = (loadLine O K s travel1 fe1 time1).st_run.mot m
    ∧ (loadLine O K (runLine O K s travel1 fe1 time1) travel2 fe2 time2).st_run.mot m
        = loadRun O ((T2 : Int) * S)
            ((st_prep_line O K (runLine O K s travel1 fe1 time1) travel2 fe2
              time2).2.1.st_pre.mot m)
            ((loadLine O K s travel1 fe1 time1).st_run.mot m)
    ∧ (runLine O K (runLine O K s travel1 fe1 time1) travel2 fe2 time2).st_run.mot m
        = (loadLine O K (runLine O K s travel1 fe1 time1) travel2 fe2 time2).st_run.mot m := by
  obtain ⟨e1, e2⟩ := runLine_exact O K s travel1 fe1 time1 m D S T1 hm hmm hdc hS hD1 hr1
    hok1 ht1 hx1 hi1 ha1.1 ha1.2
  obtain ⟨-, hdc1, -⟩ := runLine_spec O K s travel1 fe1 time1 m hok1 hdc hm hmm
  obtain ⟨f1, f2⟩ := runLine_exact O K (runLine O K s travel1 fe1 time1) travel2 fe2 time2 m D S
    T2 hm hmm hdc1 hS hD2 hr2 hok2 ht2 hx2 hi2 ha2.1 ha2.2
  obtain ⟨-, -, -, -, l5, -⟩ := loadLine_spec O K (runLine O K s travel1 fe1 time1) travel2 fe2
    time2 m hok2 hdc1 hm
  refine ⟨e1, ?_, e2, ?_, f2⟩
  · rw [f1, e1]; omega
  · rw [l5, hx2, e2]

/-- The staged and loaded slots of motor `m` for a segment that passes the acceptance tests
of `st_prep_line` in an idle state, from the polarity and the prep and run slots of the motor
in that state. -/
theorem line_eval (O : FloatOps F) (K : Const F) (s : Machine F)
    (travel_steps fe : Nat → F) (time : F) (m pol : Nat) (p : stPrepMotor F) (r : stRunMotor)
    (hb : s.st_pre.buffer_state = BufferState.PREP_BUFFER_OWNED_BY_EXEC)
    (hdc : s.st_run.dda_ticks_downcount = 0) (hm : m < K.MOTORS)
    (hpol : s.polarity m = pol) (hp : s.st_pre.mot m = p) (hr : s.st_run.mot m = r)
    (hinf : O.isinf time = false) (hnan : O.isnan time = false)
    (heps : O.lt time K.EPSILON = false) :
    (st_prep_line O K s travel_steps fe time).1 = Stat.STAT_OK
    ∧ (st_prep_line O K s travel_steps fe time).2.1.st_pre.dda_ticks
        = toU32 (O.castI32 (O.mul (O.mul time (O.ofInt 60)) (O.ofInt K.FREQUENCY_DDA)))
    ∧ (st_prep_line O K s travel_steps fe time).2.1.st_pre.dda_ticks_X_substeps
        = O.castU32 (O.mul (O.ofInt (toU32 (O.castI32
            (O.mul (O.mul time (O.ofInt 60)) (O.ofInt K.FREQUENCY_DDA))))) K.DDA_SUBSTEPS)
    ∧ (st_prep_line O K s travel_steps fe time).2.1.st_pre.mot m
        = (prepSlot O K (fe m) time pol p (travel_steps m)).1
    ∧ (loadLine O K s travel_steps fe time).st_run.mot m
        = loadRun O (O.castU32 (O.mul (O.ofInt (toU32 (O.castI32
            (O.mul (O.mul time (O.ofInt 60)) (O.ofInt K.FREQUENCY_DDA))))) K.DDA_SUBSTEPS))
            (prepSlot O K (fe m) time pol p (travel_steps m)).1 r
    ∧ (loadLine O K s travel_steps fe time).st_pre.mot m
        = loadPre (prepSlot O K (fe m) time pol p (travel_steps m)).1 := by
  obtain ⟨hA1, -, -, hA4, hA5, hA6, -⟩ :=
    st_prep_line_accepted O K s travel_steps fe time hb hinf hnan heps
  obtain ⟨-, -, -, -, l5, l6, -⟩ := loadLine_spec O K s travel_steps fe time m hA1 hdc hm
  have hslot : (st_prep_line O K s travel_steps fe time).2.1.st_pre.mot m
      = (prepSlot O K (fe m) time pol p (travel_steps m)).1 := by
    rw [hA6 m, if_pos hm, hpol, hp]
  refine ⟨hA1, hA4, hA5, hslot, ?_, ?_⟩
  · rw [l5, hA5, hslot, hr]
  · rw [l6, hslot]

theorem initState_slots :
    (initState 4).st_pre.buffer_state = BufferState.PREP_BUFFER_OWNED_BY_EXEC
    ∧ (initState 4).st_run.dda_ticks_downcount = 0
    ∧ (initState 4).polarity 0 = 0
    ∧ (initState 4).st_pre.mot 0 = zeroPrepMotor fracOps
    ∧ (initState 4).st_run.mot 0 = { substep_increment := 0, substep_accumulator := 0 } := by
  refine ⟨by decide, by decide, by decide, ?_, ?_⟩
  · rfl
  · rfl

theorem halfStepDone_slots :
    halfStepDone.st_pre.buffer_state = BufferState.PREP_BUFFER_OWNED_BY_EXEC
    ∧ halfStepDone.st_run.dda_ticks_downcount = 0
    ∧ halfStepDone.polarity 0 = 0
    ∧ halfStepDone.st_pre.mot 0
        = { substep_increment := 50000, direction := 0, prev_direction := 0, step_sign := 1,
            correction_holdoff := -1, corrected_steps := { num := 0, den := 1 },
            prev_segment_time := { num := 1, den := 65536 },
            accumulator_correction := { num := 0, den := 1 },
            accumulator_correction_flag := false }
    ∧ halfStepDone.st_run.mot 0
        = { substep_increment := 50000, substep_accumulator := -9150000 }
    ∧ stepsRaised 0 halfStepDone.trace = 1 := by
  obtain ⟨i1, i2, i3, i4, i5⟩ := initState_slots
  obtain ⟨e1, e2, e3, e4, e5, e6⟩ := line_eval fracOps (exampleConst 4) (initState 4)
    (travelMotor0 { num := 1, den := 2 }) noError { num := 1, den := 65536 } 0 0 _ _
    i1 i2 (by decide) i3 i4 i5 (by decide) (by decide) (by decide)
  obtain ⟨k1, k2, k3, k4, k5, k6, -⟩ := runLine_spec fracOps (exampleConst 4) (initState 4)
    (travelMotor0 { num := 1, den := 2 }) noError { num := 1, den := 65536 } 0 e1 i2
    (by decide) (by decide)
  have ht : (st_prep_line fracOps (exampleConst 4) (initState 4)
      (travelMotor0 { num := 1, den := 2 }) noError
      { num := 1, den := 65536 }).2.1.st_pre.dda_ticks = ((183 : Nat) : Int) := by
    rw [e2]; decide
  have hx : (st_prep_line fracOps (exampleConst 4) (initState 4)
      (travelMotor0 { num := 1, den := 2 }) noError
      { num := 1, den := 65536 }).2.1.st_pre.dda_ticks_X_substeps = 18300000 := by
    rw [e3]; decide
  have hl : (loadLine fracOps (exampleConst 4) (initState 4)
      (travelMotor0 { num := 1, den := 2 }) noError { num := 1, den := 65536 }).st_run.mot 0
      = { substep_increment := 50000, substep_accumulator := 0 } := by
    rw [e5]; rfl
  rw [ht, hx, hl, Int.toNat_natCast] at k4 k6
  obtain ⟨hbal, hlo, hhi⟩ := ddaCount_balance 18300000 (by norm_num) 183
    { substep_increment := 50000, substep_accumulator := 0 }
    (by norm_num) (by norm_num) (by norm_num) (by norm_num)
  have hinc := iterate_ddaStep_increment 18300000 183
    { substep_increment := 50000, substep_accumulator := 0 }
  simp only at hbal hinc
  unfold halfStepDone
  refine ⟨k1, k2, by rw [k3]; exact i3, ?_, ?_, ?_⟩
  · rw [k5, e6]; rfl
  · rw [k4]
    generalize (ddaStep 18300000)^[183] { substep_increment := 50000, substep_accumulator := 0 }
      = r2 at hbal hlo hhi hinc
    generalize ddaCount 18300000 183 { substep_increment := 50000, substep_accumulator := 0 }
      = c at hbal
    cases r2 with
    | mk inc acc =>
      simp only at hbal hlo hhi hinc
      subst hinc
      have : acc = -9150000 := by omega
      rw [this]
  · rw [k6]
    generalize (ddaStep 18300000)^[183] { substep_increment := 50000, substep_accumulator := 0 }
      = r2 at hbal hlo hhi
    generalize ddaCount 18300000 183 { substep_increment := 50000, substep_accumulator := 0 }
      = c at hbal ⊢
    have h0 : stepsRaised 0 (initState 4).trace = 0 := by decide
    rw [h0]
    omega

/-- The first of two segments of 3 steps after `halfStepDone`, over `2^-16` minute (183
ticks): staged values, loaded slot and the state it leaves. -/
theorem afterHalfStep_first :
    (st_prep_line fracOps (exampleConst 4) halfStepDone
        (travelMotor0 { num := 3, den := 1 }) noError { num := 1, den := 65536 }).1
      = Stat.STAT_OK
    ∧ (st_prep_line fracOps (exampleConst 4) halfStepDone
        (travelMotor0 { num := 3, den := 1 }) noError
        { num := 1, den := 65536 }).2.1.st_pre.dda_ticks = ((183 : Nat) : Int)
    ∧ (st_prep_line fracOps (exampleConst 4) halfStepDone
        (travelMotor0 { num := 3, den := 1 }) noError
        { num := 1, den := 65536 }).2.1.st_pre.dda_ticks_X_substeps
      = ((183 : Nat) : Int) * (100000 : Nat)
    ∧ ((st_prep_line fracOps (exampleConst 4) halfStepDone
        (travelMotor0 { num := 3, den := 1 }) noError
        { num := 1, den := 65536 }).2.1.st_pre.mot 0).substep_increment
      = ((3 : Nat) : Int) * (100000 : Nat)
    ∧ (loadLine fracOps (exampleConst 4) halfStepDone (travelMotor0 { num := 3, den := 1 })
        noError { num := 1, den := 65536 }).st_run.mot 0
      = { substep_increment := 300000, substep_accumulator := -9150000 }
    ∧ (loadLine fracOps (exampleConst 4) halfStepDone (travelMotor0 { num := 3, den := 1 })
        noError { num := 1, den := 65536 }).st_pre.mot 0
      = { substep_increment := 300000, direction := 0, prev_direction := 0, step_sign := 1,
          correction_holdoff := -2, corrected_steps := { num := 0, den := 1 },
          prev_segment_time := { num := 1, den := 65536 },
          accumulator_correction := { num := 0, den := 1 },
          accumulator_correction_flag := false } := by
  obtain ⟨i1, i2, i3, i4, i5, -⟩ := halfStepDone_slots
  obtain ⟨e1, e2, e3, e4, e5, e6⟩ := line_eval fracOps (exampleConst 4) halfStepDone
    (travelMotor0 { num := 3, den := 1 }) noError { num := 1, den := 65536 } 0 0 _ _
    i1 i2 (by decide) i3 i4 i5 (by decide) (by decide) (by decide)
  refine ⟨e1, ?_, ?_, ?_, ?_, ?_⟩
  · rw [e2]; decide
  · rw [e3]; decide
  · rw [e4]; decide
  · rw [e5]; rfl
  · rw [e6]; rfl

/-- The state after the first of the two segments of 3 steps that follow `halfStepDone`. -/
theorem afterHalfStep_first_done :
    (runLine fracOps (exampleConst 4) halfStepDone (travelMotor0 { num := 3, den := 1 })
        noError { num := 1, den := 65536 }).st_pre.buffer_state
      = BufferState.PREP_BUFFER_OWNED_BY_EXEC
    ∧ (runLine fracOps (exampleConst 4) halfStepDone (travelMotor0 { num := 3, den := 1 })
        noError { num := 1, den := 65536 }).st_run.dda_ticks_downcount = 0
    ∧ (runLine fracOps (exampleConst 4) halfStepDone (travelMotor0 { num := 3, den := 1 })
        noError { num := 1, den := 65536 }).polarity 0 = 0
    ∧ (runLine fracOps (exampleConst 4) halfStepDone (travelMotor0 { num := 3, den := 1 })
        noError { num := 1, den := 65536 }).st_pre.mot 0
      = { substep_increment := 300000, direction := 0, prev_direction := 0, step_sign := 1,
          correction_holdoff := -2, corrected_steps := { num := 0, den := 1 },
          prev_segment_time := { num := 1, den := 65536 },
          accumulator_correction := { num := 0, den := 1 },
          accumulator_correction_flag := false }
    ∧ (runLine fracOps (exampleConst 4) halfStepDone (travelMotor0 { num := 3, den := 1 })
        noError { num := 1, den := 65536 }).st_run.mot 0
      = { substep_increment := 300000, substep_accumulator := -9150000 } := by
  obtain ⟨-, i2, i3, -⟩ := halfStepDone_slots
  obtain ⟨a1, a2, a3, a4, a5, a6⟩ := afterHalfStep_first
  obtain ⟨k1, k2, k3, -, k5, -⟩ := runLine_spec fracOps (exampleConst 4) halfStepDone
    (travelMotor0 { num := 3, den := 1 }) noError { num := 1, den := 65536 } 0 a1 i2
    (by decide) (by decide)
  obtain ⟨-, x2⟩ := runLine_exact fracOps (exampleConst 4) halfStepDone
    (travelMotor0 { num := 3, den := 1 }) noError { num := 1, den := 65536 } 0 3 100000 183
    (by decide) (by decide) i2 (by decide) (by decide) (by decide) a1 a2 a3 a4
    (by rw [a5]; decide) (by rw [a5]; decide)
  exact ⟨k1, k2, by rw [k3]; exact i3, by rw [k5, a6], by rw [x2, a5]⟩

/-- The second of the two segments of 3 steps after `halfStepDone`, over `2^-15` minute (366
ticks): the loader multiplies the accumulator `-9150000` by the correction `2` staged by
`st_prep_line`. -/
theorem afterHalfStep_second :
    (st_prep_line fracOps (exampleConst 4)
        (runLine fracOps (exampleConst 4) halfStepDone (travelMotor0 { num := 3, den := 1 })
          noError { num := 1, den := 65536 })
        (travelMotor0 { num := 3, den := 1 }) noError { num := 1, den := 32768 }).1
      = Stat.STAT_OK
    ∧ (st_prep_line fracOps (exampleConst 4)
        (runLine fracOps (exampleConst 4) halfStepDone (travelMotor0 { num := 3, den := 1 })
          noError { num := 1, den := 65536 })
        (travelMotor0 { num := 3, den := 1 }) noError
        { num := 1, den := 32768 }).2.1.st_pre.dda_ticks = ((366 : Nat) : Int)
    ∧ (st_prep_line fracOps (exampleConst 4)
        (runLine fracOps (exampleConst 4) halfStepDone (travelMotor0 { num := 3, den := 1 })
          noError { num := 1, den := 65536 })
        (travelMotor0 { num := 3, den := 1 }) noError
        { num := 1, den := 32768 }).2.1.st_pre.dda_ticks_X_substeps
      = ((366 : Nat) : Int) * (100000 : Nat)
    ∧ ((st_prep_line fracOps (exampleConst 4)
        (runLine fracOps (exampleConst 4) halfStepDone (travelMotor0 { num := 3, den := 1 })
          noError { num := 1, den := 65536 })
        (travelMotor0 { num := 3, den := 1 }) noError
        { num := 1, den := 32768 }).2.1.st_pre.mot 0).substep_increment
      = ((3 : Nat) : Int) * (100000 : Nat)
    ∧ ((st_prep_line fracOps (exampleConst 4)
        (runLine fracOps (exampleConst 4) halfStepDone (travelMotor0 { num := 3, den := 1 })
          noError { num := 1, den := 65536 })
        (travelMotor0 { num := 3, den := 1 }) noError
        { num := 1, den := 32768 }).2.1.st_pre.mot 0).accumulator_correction_flag = true
    ∧ (loadLine fracOps (exampleConst 4)
        (runLine fracOps (exampleConst 4) halfStepDone (travelMotor0 { num := 3, den := 1 })
          noError { num := 1, den := 65536 })
        (travelMotor0 { num := 3, den := 1 }) noError { num := 1, den := 32768 }).st_run.mot 0
      = { substep_increment := 300000, substep_accumulator := -18300000 } := by
  obtain ⟨i1, i2, i3, i4, i5⟩ := afterHalfStep_first_done
  obtain ⟨e1, e2, e3, e4, e5, -⟩ := line_eval fracOps (exampleConst 4)
    (runLine fracOps (exampleConst 4) halfStepDone (travelMotor0 { num := 3, den := 1 })
      noError { num := 1, den := 65536 })
    (travelMotor0 { num := 3, den := 1 }) noError { num := 1, den := 32768 } 0 0 _ _
    i1 i2 (by decide) i3 i4 i5 (by decide) (by decide) (by decide)
  refine ⟨e1, ?_, ?_, ?_, ?_, ?_⟩
  · rw [e2]; decide
  · rw [e3]; decide
  · rw [e4]; decide
  · rw [e4]; decide
  · rw [e5]; rfl

/-- A segment whose staged values are exact and whose loaded accumulator is at the bottom
`-T*S` of the range emits `D - 1` pulses and ends with the accumulator at 0. -/
theorem runLine_bottom (O : FloatOps F) (K : Const F) (s : Machine F)
    (travel_steps fe : Nat → F) (time : F) (m D S T : Nat)
    (hm : m < K.MOTORS) (hmm : m ∈ ddaMotors K) (hdc : s.st_run.dda_ticks_downcount = 0)
    (hS : 1 ≤ S) (hD : 1 ≤ D) (hDT : D ≤ T) (hr : (T : Int) * S < 2147483648)
    (hok : (st_prep_line O K s travel_steps fe time).1 = Stat.STAT_OK)
    (ht : (st_prep_line O K s travel_steps fe time).2.1.st_pre.dda_ticks = (T : Int))
    (hx : (st_prep_line O K s travel_steps fe time).2.1.st_pre.dda_ticks_X_substeps
        = (T : Int) * S)
    (hi : ((st_prep_line O K s travel_steps fe time).2.1.st_pre.mot m).substep_increment
        = (D : Int) * S)
    (ha : ((loadLine O K s travel_steps fe time).st_run.mot m).substep_accumulator
        = -((T : Int) * S)) :
    stepsRaised m (runLine O K s travel_steps fe time).trace = stepsRaised m s.trace + (D - 1)
    ∧ (runLine O K s travel_steps fe time).st_run.mot m
        = { substep_increment := (D : Int) * S, substep_accumulator := 0 } := by
  obtain ⟨-, -, -, k4, -, k6, -⟩ := runLine_spec O K s travel_steps fe time m hok hdc hm hmm
  obtain ⟨-, -, -, -, l5, -⟩ := loadLine_spec O K s travel_steps fe time m hok hdc hm
  have hinc : ((loadLine O K s travel_steps fe time).st_run.mot m).substep_increment
      = (D : Int) * S := by
    rw [l5, loadRun_increment, hi]
  rw [ht, hx, Int.toNat_natCast] at k4 k6
  obtain ⟨hc, hp⟩ := ddaCount_from_bottom T S D hS hD hDT hr _ hinc ha
  have hi2 := iterate_ddaStep_increment ((T : Int) * S) T
    ((loadLine O K s travel_steps fe time).st_run.mot m)
  rw [hinc] at hi2
  refine ⟨by rw [k6, hc], ?_⟩
  rw [k4]
  generalize (ddaStep ((T : Int) * S))^[T] ((loadLine O K s travel_steps fe time).st_run.mot m)
    = r2 at hp hi2
  cases r2
  simp only at hp hi2
  subst hp hi2
  rfl

/-- The first segment after `stepper_init` against the initial direction: one step over
`2^-16` minute (183 ticks). The load reflects the accumulator from 0 to `-18300000`. -/
theorem afterInit_back :
    (st_prep_line fracOps (exampleConst 4) (initState 4)
        (travelMotor0 { num := -1, den := 1 }) noError { num := 1, den := 65536 }).1
      = Stat.STAT_OK
    ∧ (st_prep_line fracOps (exampleConst 4) (initState 4)
        (travelMotor0 { num := -1, den := 1 }) noError
        { num := 1, den := 65536 }).2.1.st_pre.dda_ticks = ((183 : Nat) : Int)
    ∧ (st_prep_line fracOps (exampleConst 4) (initState 4)
        (travelMotor0 { num := -1, den := 1 }) noError
        { num := 1, den := 65536 }).2.1.st_pre.dda_ticks_X_substeps
      = ((183 : Nat) : Int) * (100000 : Nat)
    ∧ ((st_prep_line fracOps (exampleConst 4) (initState 4)
        (travelMotor0 { num := -1, den := 1 }) noError
        { num := 1, den := 65536 }).2.1.st_pre.mot 0).substep_increment
      = ((1 : Nat) : Int) * (100000 : Nat)
    ∧ (loadLine fracOps (exampleConst 4) (initState 4) (travelMotor0 { num := -1, den := 1 })
        noError { num := 1, den := 65536 }).st_run.mot 0
      = { substep_increment := 100000, substep_accumulator := -18300000 }
    ∧ (loadLine fracOps (exampleConst 4) (initState 4) (travelMotor0 { num := -1, den := 1 })
        noError { num := 1, den := 65536 }).st_pre.mot 0
      = { substep_increment := 100000, direction := 1, prev_direction := 1, step_sign := -1,
          correction_holdoff := -1, corrected_steps := { num := 0, den := 1 },
          prev_segment_time := { num := 1, den := 65536 },
          accumulator_correction := { num := 0, den := 1 },
          accumulator_correction_flag := false } := by
  obtain ⟨i1, i2, i3, i4, i5⟩ := initState_slots
  obtain ⟨e1, e2, e3, e4, e5, e6⟩ := line_eval fracOps (exampleConst 4) (initState 4)
    (travelMotor0 { num := -1, den := 1 }) noError { num := 1, den := 65536 } 0 0 _ _
    i1 i2 (by decide) i3 i4 i5 (by decide) (by decide) (by decide)
  refine ⟨e1, ?_, ?_, ?_, ?_, ?_⟩
  · rw [e2]; decide
  · rw [e3]; decide
  · rw [e4]; decide
  · rw [e5]; rfl
  · rw [e6]; rfl

theorem afterInit_back_done :
    (runLine fracOps (exampleConst 4) (initState 4) (travelMotor0 { num := -1, den := 1 })
        noError { num := 1, den := 65536 }).st_pre.buffer_state
      = BufferState.PREP_BUFFER_OWNED_BY_EXEC
    ∧ (runLine fracOps (exampleConst 4) (initState 4) (travelMotor0 { num := -1, den := 1 })
        noError { num := 1, den := 65536 }).st_run.dda_ticks_downcount = 0
    ∧ (runLine fracOps (exampleConst 4) (initState 4) (travelMotor0 { num := -1, den := 1 })
        noError { num := 1, den := 65536 }).polarity 0 = 0
    ∧ (runLine fracOps (exampleConst 4) (initState 4) (travelMotor0 { num := -1, den := 1 })
        noError { num := 1, den := 65536 }).st_pre.mot 0
      = { substep_increment := 100000, direction := 1, prev_direction := 1, step_sign := -1,
          correction_holdoff := -1, corrected_steps := { num := 0, den := 1 },
          prev_segment_time := { num := 1, den := 65536 },
          accumulator_correction := { num := 0, den := 1 },
          accumulator_correction_flag := false }
    ∧ (runLine fracOps (exampleConst 4) (initState 4) (travelMotor0 { num := -1, den := 1 })
        noError { num := 1, den := 65536 }).st_run.mot 0
      = { substep_increment := 100000, substep_accumulator := 0 }
    ∧ stepsRaised 0 (runLine fracOps (exampleConst 4) (initState 4)
        (travelMotor0 { num := -1, den := 1 }) noError { num := 1, den := 65536 }).trace
      = 0 := by
  obtain ⟨-, i2, i3, -⟩ := initState_slots
  obtain ⟨a1, a2, a3, a4, a5, a6⟩ := afterInit_back
  obtain ⟨k1, k2, k3, -, k5, -⟩ := runLine_spec fracOps (exampleConst 4) (initState 4)
    (travelMotor0 { num := -1, den := 1 }) noError { num := 1, den := 65536 } 0 a1 i2
    (by decide) (by decide)
  obtain ⟨x1, x2⟩ := runLine_bottom fracOps (exampleConst 4) (initState 4)
    (travelMotor0 { num := -1, den := 1 }) noError { num := 1, den := 65536 } 0 1 100000 183
    (by decide) (by decide) i2 (by decide) (by decide) (by decide) (by decide) a1 a2 a3 a4
    (by rw [a5]; decide)
  have h0 : stepsRaised 0 (initState 4).trace = 0 := by decide
  exact ⟨k1, k2, by rw [k3]; exact i3, by rw [k5, a6], by rw [x2]; rfl, by rw [x1, h0]⟩

/-- C18 (counterexample): from the state after `stepper_init`, two segments of one step each
in the direction opposite to the initial one, over `2^-16` minute (183 ticks) and then
`2^-15` minute (366 ticks); every value is representable in `float`. The first load finds
`direction != prev_direction` and reflects the accumulator from 0 to `-dda_ticks_X_substeps`,
so the first segment emits no pulse and the pair emits 1 pulse, not 2. -/
theorem C18_counterexample :
    stepsRaised 0 (initState 4).trace = 0
    ∧ stepsRaised 0 (runLine fracOps (exampleConst 4) (initState 4)
        (travelMotor0 { num := -1, den := 1 }) noError { num := 1, den := 65536 }).trace = 0
    ∧ stepsRaised 0 (runLine fracOps (exampleConst 4)
        (runLine fracOps (exampleConst 4) (initState 4) (travelMotor0 { num := -1, den := 1 })
          noError { num := 1, den := 65536 })
        (travelMotor0 { num := -1, den := 1 }) noError { num := 1, den := 32768 }).trace = 1
    ∧ stepsRaised 0 (runLine fracOps (exampleConst 4)
        (runLine fracOps (exampleConst 4) (initState 4) (travelMotor0 { num := -1, den := 1 })
          noError { num := 1, den := 65536 })
        (travelMotor0 { num := -1, den := 1 }) noError { num := 1, den := 32768 }).trace
      ≠ 2 * 1 := by
  obtain ⟨i1, i2, i3, i4, i5, i6⟩ := afterInit_back_done
  obtain ⟨e1, e2, e3, e4, e5, -⟩ := line_eval fracOps (exampleConst 4)
    (runLine fracOps (exampleConst 4) (initState 4) (travelMotor0 { num := -1, den := 1 })
      noError { num := 1, den := 65536 })
    (travelMotor0 { num := -1, den := 1 }) noError { num := 1, den := 32768 } 0 0 _ _
    i1 i2 (by decide) i3 i4 i5 (by decide) (by decide) (by decide)
  obtain ⟨x1, -⟩ := runLine_exact fracOps (exampleConst 4)
    (runLine fracOps (exampleConst 4) (initState 4) (travelMotor0 { num := -1, den := 1 })
      noError { num := 1, den := 65536 })
    (travelMotor0 { num := -1, den := 1 }) noError { num := 1, den := 32768 } 0 1 100000 366
    (by decide) (by decide) i2 (by decide) (by decide) (by decide) e1
    (by rw [e2]; decide) (by rw [e3]; decide) (by rw [e4]; decide)
    (by rw [e5]; decide) (by rw [e5]; decide)
  rw [i6] at x1
  refine ⟨by decide, i6, x1, ?_⟩
  rw [x1]
  decide

/-- C33 (amended claim), for any float arithmetic and any constants: take two consecutive
line segments on a motor `m` served by the DDA interrupt, the first prepared while the runtime
is idle, each loaded by `_load_move` and run by as many DDA interrupts as its staged
`dda_ticks`. Suppose that `st_prep_line` accepts both and stages exact values: `dda_ticks = T`
and `dda_ticks_X_substeps = T * S < 2^31` for both (`S >= 1`), `substep_increment = D1 * S`
and then `D2 * S` with `D1 <= T` and `1 <= D2 <= T`; that the first segment is staged in the
direction of `prev_direction` (after `stepper_reset`: positive travel with normal polarity)
and loaded with an accumulator `a` in `(-X, 0]` (after `stepper_reset`: 0); and that the second
is staged in the other direction with no time-base correction pending. Then the first segment
emits `D1` pulses, the load of the second reflects the accumulator to `-(X + a)`, and the two
segments emit `D1 + D2 - 1` pulses when `a = 0` and `D1 + D2` otherwise; `setDirection` is not
called on the motor up to the end of the first segment, is called once by the load of the
second, and not during its ticks. -/
theorem C33_forward_then_reverse (O : FloatOps F) (K : Const F) (s : Machine F)
    (travel1 fe1 travel2 fe2 : Nat → F) (time1 time2 : F) (m D1 D2 S T : Nat)
    (hm : m < K.MOTORS) (hmm : m ∈ ddaMotors K) (hdc : s.st_run.dda_ticks_downcount = 0)
    (hS : 1 ≤ S) (hD1 : D1 ≤ T) (hD2 : 1 ≤ D2) (hD2T : D2 ≤ T)
    (hr : (T : Int) * S < 2147483648)
    (hok1 : (st_prep_line O K s travel1 fe1 time1).1 = Stat.STAT_OK)
    (ht1 : (st_prep_line O K s travel1 fe1 time1).2.1.st_pre.dda_ticks = (T : Int))
    (hx1 : (st_prep_line O K s travel1 fe1 time1).2.1.st_pre.dda_ticks_X_substeps
        = (T : Int) * S)
    (hi1 : ((st_prep_line O K s travel1 fe1 time1).2.1.st_pre.mot m).substep_increment
        = (D1 : Int) * S)
    (hd1 : ((st_prep_line O K s travel1 fe1 time1).2.1.st_pre.mot m).direction
        = ((st_prep_line O K s travel1 fe1 time1).2.1.st_pre.mot m).prev_direction)
    (ha1 : -((T : Int) * S)
          < ((loadLine O K s travel1 fe1 time1).st_run.mot m).substep_accumulator
        ∧ ((loadLine O K s travel1 fe1 time1).st_run.mot m).substep_accumulator ≤ 0)
    (hok2 : (st_prep_line O K (runLine O K s travel1 fe1 time1) travel2 fe2 time2).1
        = Stat.STAT_OK)
    (ht2 : (st_prep_line O K (runLine O K s travel1 fe1 time1) travel2 fe2
        time2).2.1.st_pre.dda_ticks = (T : Int))
    (hx2 : (st_prep_line O K (runLine O K s travel1 fe1 time1) travel2 fe2
        time2).2.1.st_pre.dda_ticks_X_substeps = (T : Int) * S)
    (hi2 : ((st_prep_line O K (runLine O K s travel1 fe1 time1) travel2 fe2
        time2).2.1.st_pre.mot m).substep_increment = (D2 : Int) * S)
    (hd2 : ((st_prep_line O K (runLine O K s travel1 fe1 time1) travel2 fe2
          time2).2.1.st_pre.mot m).direction
        ≠ ((st_prep_line O K (runLine O K s travel1 fe1 time1) travel2 fe2
          time2).2.1.st_pre.mot m).prev_direction)
    (hf2 : ((st_prep_line O K (runLine O K s travel1 fe1 time1) travel2 fe2
        time2).2.1.st_pre.mot m).accumulator_correction_flag = false) :
    stepsRaised m (runLine O K s travel1 fe1 time1).trace = stepsRaised m s.trace + D1
    ∧ ((loadLine O K (runLine O K s travel1 fe1 time1) travel2 fe2
          time2).st_run.mot m).substep_accumulator
        = -((T : Int) * S
            + ((loadLine O K s travel1 fe1 time1).st_run.mot m).substep_accumulator)
    ∧ stepsRaised m (runLine O K (runLine O K s travel1 fe1 time1) travel2 fe2 time2).trace
        = stepsRaised m s.trace + D1 + D2
          - (if ((loadLine O K s travel1 fe1 time1).st_run.mot m).substep_accumulator = 0
              then 1 else 0)
    ∧ stepsRaised m s.trace + D1 + D2 - 1
        ≤ stepsRaised m (runLine O K (runLine O K s travel1 fe1 time1) travel2 fe2
            time2).trace
    ∧ stepsRaised m (runLine O K (runLine O K s travel1 fe1 time1) travel2 fe2 time2).trace
        ≤ stepsRaised m s.trace + D1 + D2
    ∧ directionCalls m (runLine O K s travel1 fe1 time1).trace = directionCalls m s.trace
    ∧ directionCalls m (loadLine O K (runLine O K s travel1 fe1 time1) travel2 fe2
        time2).trace = directionCalls m s.trace + 1
    ∧ directionCalls m (runLine O K (runLine O K s travel1 fe1 time1) travel2 fe2
        time2).trace = directionCalls m s.trace + 1 := by
  obtain ⟨e1, e2⟩ := runLine_exact O K s travel1 fe1 time1 m D1 S T hm hmm hdc hS hD1 hr
    hok1 ht1 hx1 hi1 ha1.1 ha1.2
  obtain ⟨-, hdc1, -, -, -, -, k7⟩ := runLine_spec O K s travel1 fe1 time1 m hok1 hdc hm hmm
  obtain ⟨-, -, -, -, -, -, -, l8, -⟩ := loadLine_spec O K s travel1 fe1 time1 m hok1 hdc hm
  rw [if_neg (fun h => h.2 hd1), add_zero] at l8
  have hdir1 : directionCalls m (runLine O K s travel1 fe1 time1).trace
      = directionCalls m s.trace := by rw [k7, l8]
  obtain ⟨-, -, -, -, -, n6, n7⟩ := runLine_spec O K (runLine O K s travel1 fe1 time1)
    travel2 fe2 time2 m hok2 hdc1 hm hmm
  obtain ⟨-, -, -, -, m5, -, -, m8, -⟩ := loadLine_spec O K (runLine O K s travel1 fe1 time1)
    travel2 fe2 time2 m hok2 hdc1 hm
  have hSi : (1 : Int) ≤ S := by exact_mod_cast hS
  have hD2i : (1 : Int) ≤ D2 := by exact_mod_cast hD2
  have hne : ((st_prep_line O K (runLine O K s travel1 fe1 time1) travel2 fe2
      time2).2.1.st_pre.mot m).substep_increment ≠ 0 := by
    rw [hi2]
    have : (0 : Int) < (D2 : Int) * S := by positivity
    omega
  rw [if_pos ⟨hne, hd2⟩] at m8
  have hinc2 : ((loadLine O K (runLine O K s travel1 fe1 time1) travel2 fe2
      time2).st_run.mot m).substep_increment = (D2 : Int) * S := by
    rw [m5, loadRun_increment, hi2]
  have hacc2 : ((loadLine O K (runLine O K s travel1 fe1 time1) travel2 fe2
      time2).st_run.mot m).substep_accumulator
      = -((T : Int) * S
          + ((loadLine O K s travel1 fe1 time1).st_run.mot m).substep_accumulator) := by
    rw [m5, hx2, e2]
    unfold loadRun correctedAcc
    rw [if_pos hne]
    simp only [hf2, Bool.false_eq_true, if_false]
    rw [if_pos hd2]
    exact toI32_eq_self (by omega) (by omega)
  rw [ht2, hx2, Int.toNat_natCast] at n6
  have hcount : ddaCount ((T : Int) * S) T
      ((loadLine O K (runLine O K s travel1 fe1 time1) travel2 fe2 time2).st_run.mot m)
      = D2 - (if ((loadLine O K s travel1 fe1 time1).st_run.mot m).substep_accumulator = 0
              then 1 else 0) := by
    by_cases h0 : ((loadLine O K s travel1 fe1 time1).st_run.mot m).substep_accumulator = 0
    · rw [if_pos h0]
      rw [h0, add_zero] at hacc2
      exact (ddaCount_from_bottom T S D2 hS hD2 hD2T hr _ hinc2 hacc2).1
    · rw [if_neg h0]
      exact ddaCount_exact T S D2 hS hD2T hr _ hinc2 (by rw [hacc2]; omega)
        (by rw [hacc2]; omega)
  have htot : stepsRaised m (runLine O K (runLine O K s travel1 fe1 time1) travel2 fe2
      time2).trace
      = stepsRaised m s.trace + D1 + D2
        - (if ((loadLine O K s travel1 fe1 time1).st_run.mot m).substep_accumulator = 0
            then 1 else 0) := by
    rw [n6, hcount, e1]
    split_ifs <;> omega
  refine ⟨e1, hacc2, htot, ?_, ?_, hdir1, by rw [m8, hdir1], by rw [n7, m8, hdir1]⟩
  · rw [htot]; split_ifs <;> omega
  · rw [htot]; split_ifs <;> omega

/-- The first segment after `stepper_init` in the initial direction: 3 steps over `2^-16`
minute (183 ticks), staged and loaded. -/
theorem afterInit_forward :
    (st_prep_line fracOps (exampleConst 4) (initState 4)
        (travelMotor0 { num := 3, den := 1 }) noError { num := 1, den := 65536 }).1
      = Stat.STAT_OK
    ∧ (st_prep_line fracOps (exampleConst 4) (initState 4)
        (travelMotor0 { num := 3, den := 1 }) noError
        { num := 1, den := 65536 }).2.1.st_pre.dda_ticks = ((183 : Nat) : Int)
    ∧ (st_prep_line fracOps (exampleConst 4) (initState 4)
        (travelMotor0 { num := 3, den := 1 }) noError
        { num := 1, den := 65536 }).2.1.st_pre.dda_ticks_X_substeps
      = ((183 : Nat) : Int) * (100000 : Nat)
    ∧ ((st_prep_line fracOps (exampleConst 4) (initState 4)
        (travelMotor0 { num := 3, den := 1 }) noError
        { num := 1, den := 65536 }).2.1.st_pre.mot 0).substep_increment
      = ((3 : Nat) : Int) * (100000 : Nat)
    ∧ ((st_prep_line fracOps (exampleConst 4) (initState 4)
        (travelMotor0 { num := 3, den := 1 }) noError
        { num := 1, den := 65536 }).2.1.st_pre.mot 0).direction
      = ((st_prep_line fracOps (exampleConst 4) (initState 4)
        (travelMotor0 { num := 3, den := 1 }) noError
        { num := 1, den := 65536 }).2.1.st_pre.mot 0).prev_direction
    ∧ (loadLine fracOps (exampleConst 4) (initState 4) (travelMotor0 { num := 3, den := 1 })
        noError { num := 1, den := 65536 }).st_run.mot 0
      = { substep_increment := 300000, substep_accumulator := 0 }
    ∧ (loadLine fracOps (exampleConst 4) (initState 4) (travelMotor0 { num := 3, den := 1 })
        noError { num := 1, den := 65536 }).st_pre.mot 0
      = { substep_increment := 300000, direction := 0, prev_direction := 0, step_sign := 1,
          correction_holdoff := -1, corrected_steps := { num := 0, den := 1 },
          prev_segment_time := { num := 1, den := 65536 },
          accumulator_correction := { num := 0, den := 1 },
          accumulator_correction_flag := false } := by
  obtain ⟨i1, i2, i3, i4, i5⟩ := initState_slots
  obtain ⟨e1, e2, e3, e4, e5, e6⟩ := line_eval fracOps (exampleConst 4) (initState 4)
    (travelMotor0 { num := 3, den := 1 }) noError { num := 1, den := 65536 } 0 0 _ _
    i1 i2 (by decide) i3 i4 i5 (by decide) (by decide) (by decide)
  refine ⟨e1, ?_, ?_, ?_, ?_, ?_, ?_⟩
  · rw [e2]; decide
  · rw [e3]; decide
  · rw [e4]; decide
  · rw [e4]; decide
  · rw [e5]; rfl
  · rw [e6]; rfl

theorem afterInit_forward_done :
    (runLine fracOps (exampleConst 4) (initState 4) (travelMotor0 { num := 3, den := 1 })
        noError { num := 1, den := 65536 }).st_pre.buffer_state
      = BufferState.PREP_BUFFER_OWNED_BY_EXEC
    ∧ (runLine fracOps (exampleConst 4) (initState 4) (travelMotor0 { num := 3, den := 1 })
        noError { num := 1, den := 65536 }).st_run.dda_ticks_downcount = 0
    ∧ (runLine fracOps (exampleConst 4) (initState 4) (travelMotor0 { num := 3, den := 1 })
        noError { num := 1, den := 65536 }).polarity 0 = 0
    ∧ (runLine fracOps (exampleConst 4) (initState 4) (travelMotor0 { num := 3, den := 1 })
        noError { num := 1, den := 65536 }).st_pre.mot 0
      = { substep_increment := 300000, direction := 0, prev_direction := 0, step_sign := 1,
          correction_holdoff := -1, corrected_steps := { num := 0, den := 1 },
          prev_segment_time := { num := 1, den := 65536 },
          accumulator_correction := { num := 0, den := 1 },
          accumulator_correction_flag := false }
    ∧ (runLine fracOps (exampleConst 4) (initState 4) (travelMotor0 { num := 3, den := 1 })
        noError { num := 1, den := 65536 }).st_run.mot 0
      = { substep_increment := 300000, substep_accumulator := 0 } := by
  obtain ⟨-, i2, i3, -⟩ := initState_slots
  obtain ⟨a1, a2, a3, a4, -, a5, a6⟩ := afterInit_forward
  obtain ⟨k1, k2, k3, -, k5, -⟩ := runLine_spec fracOps (exampleConst 4) (initState 4)
    (travelMotor0 { num := 3, den := 1 }) noError { num := 1, den := 65536 } 0 a1 i2
    (by decide) (by decide)
  obtain ⟨-, x2⟩ := runLine_exact fracOps (exampleConst 4) (initState 4)
    (travelMotor0 { num := 3, den := 1 }) noError { num := 1, den := 65536 } 0 3 100000 183
    (by decide) (by decide) i2 (by decide) (by decide) (by decide) a1 a2 a3 a4
    (by rw [a5]; decide) (le_of_eq (by rw [a5]))
  exact ⟨k1, k2, (congrFun k3 0).trans i3, by rw [k5, a6], by rw [x2, a5]⟩

/-- The segment of 2 steps against the initial direction, over `2^-16` minute, that follows
the 3 steps forward: staged values. -/
theorem afterInit_reverse :
    (st_prep_line fracOps (exampleConst 4)
        (runLine fracOps (exampleConst 4) (initState 4) (travelMotor0 { num := 3, den := 1 })
          noError { num := 1, den := 65536 })
        (travelMotor0 { num := -2, den := 1 }) noError { num := 1, den := 65536 }).1
      = Stat.STAT_OK
    ∧ (st_prep_line fracOps (exampleConst 4)
        (runLine fracOps (exampleConst 4) (initState 4) (travelMotor0 { num := 3, den := 1 })
          noError { num := 1, den := 65536 })
        (travelMotor0 { num := -2, den := 1 }) noError
        { num := 1, den := 65536 }).2.1.st_pre.dda_ticks = ((183 : Nat) : Int)
    ∧ (st_prep_line fracOps (exampleConst 4)
        (runLine fracOps (exampleConst 4) (initState 4) (travelMotor0 { num := 3, den := 1 })
          noError { num := 1, den := 65536 })
        (travelMotor0 { num := -2, den := 1 }) noError
        { num := 1, den := 65536 }).2.1.st_pre.dda_ticks_X_substeps
      = ((183 : Nat) : Int) * (100000 : Nat)
    ∧ ((st_prep_line fracOps (exampleConst 4)
        (runLine fracOps (exampleConst 4) (initState 4) (travelMotor0 { num := 3, den := 1 })
          noError { num := 1, den := 65536 })
        (travelMotor0 { num := -2, den := 1 }) noError
        { num := 1, den := 65536 }).2.1.st_pre.mot 0).substep_increment
      = ((2 : Nat) : Int) * (100000 : Nat)
    ∧ ((st_prep_line fracOps (exampleConst 4)
        (runLine fracOps (exampleConst 4) (initState 4) (travelMotor0 { num := 3, den := 1 })
          noError { num := 1, den := 65536 })
        (travelMotor0 { num := -2, den := 1 }) noError
        { num := 1, den := 65536 }).2.1.st_pre.mot 0).direction
      ≠ ((st_prep_line fracOps (exampleConst 4)
        (runLine fracOps (exampleConst 4) (initState 4) (travelMotor0 { num := 3, den := 1 })
          noError { num := 1, den := 65536 })
        (travelMotor0 { num := -2, den := 1 }) noError
        { num := 1, den := 65536 }).2.1.st_pre.mot 0).prev_direction
    ∧ ((st_prep_line fracOps (exampleConst 4)
        (runLine fracOps (exampleConst 4) (initState 4) (travelMotor0 { num := 3, den := 1 })
          noError { num := 1, den := 65536 })
        (travelMotor0 { num := -2, den := 1 }) noError
        { num := 1, den := 65536 }).2.1.st_pre.mot 0).accumulator_correction_flag
      = false := by
  obtain ⟨i1, i2, i3, i4, i5⟩ := afterInit_forward_done
  obtain ⟨e1, e2, e3, e4, -, -⟩ := line_eval fracOps (exampleConst 4)
    (runLine fracOps (exampleConst 4) (initState 4) (travelMotor0 { num := 3, den := 1 })
      noError { num := 1, den := 65536 })
    (travelMotor0 { num := -2, den := 1 }) noError { num := 1, den := 65536 } 0 0 _ _
    i1 i2 (by decide) i3 i4 i5 (by decide) (by decide) (by decide)
  refine ⟨e1, ?_, ?_, ?_, ?_, ?_⟩
  · rw [e2]; decide
  · rw [e3]; decide
  · rw [e4]; decide
  · rw [e4]; decide
  · rw [e4]; decide

/-- C33, witness: from the state after `stepper_init` (which ends with `stepper_reset`), 3
steps forward and then 2 steps back, over `2^-16` minute (183 ticks) each, emit
`3 + 2 - 1 = 4` pulses on motor 0 with one `setDirection` call. All values are representable
in `float`. -/
theorem C33_forward_then_reverse_witness :
    stepsRaised 0 (runLine fracOps (exampleConst 4)
        (runLine fracOps (exampleConst 4) (initState 4) (travelMotor0 { num := 3, den := 1 })
          noError { num := 1, den := 65536 })
        (travelMotor0 { num := -2, den := 1 }) noError { num := 1, den := 65536 }).trace
      = stepsRaised 0 (initState 4).trace + 3 + 2
        - (if ((loadLine fracOps (exampleConst 4) (initState 4)
              (travelMotor0 { num := 3, den := 1 }) noError
              { num := 1, den := 65536 }).st_run.mot 0).substep_accumulator = 0
            then 1 else 0)
    ∧ ((loadLine fracOps (exampleConst 4) (initState 4)
          (travelMotor0 { num := 3, den := 1 }) noError
          { num := 1, den := 65536 }).st_run.mot 0).substep_accumulator = 0
    ∧ directionCalls 0 (runLine fracOps (exampleConst 4)
        (runLine fracOps (exampleConst 4) (initState 4) (travelMotor0 { num := 3, den := 1 })
          noError { num := 1, den := 65536 })
        (travelMotor0 { num := -2, den := 1 }) noError { num := 1, den := 65536 }).trace
      = directionCalls 0 (initState 4).trace + 1 :=
  ⟨(C33_forward_then_reverse fracOps (exampleConst 4) (initState 4)
      (travelMotor0 { num := 3, den := 1 }) noError (travelMotor0 { num := -2, den := 1 })
      noError { num := 1, den := 65536 } { num := 1, den := 65536 } 0 3 2 100000 183
      (by decide) (by decide) initState_slots.2.1 (by decide) (by decide) (by decide)
      (by decide) (by decide)
      afterInit_forward.1 afterInit_forward.2.1 afterInit_forward.2.2.1
      afterInit_forward.2.2.2.1 afterInit_forward.2.2.2.2.1
      ⟨by rw [afterInit_forward.2.2.2.2.2.1]; decide,
        le_of_eq (by rw [afterInit_forward.2.2.2.2.2.1])⟩
      afterInit_reverse.1 afterInit_reverse.2.1 afterInit_reverse.2.2.1
      afterInit_reverse.2.2.2.1 afterInit_reverse.2.2.2.2.1
      afterInit_reverse.2.2.2.2.2).2.2.1,
   by rw [afterInit_forward.2.2.2.2.2.1],
   (C33_forward_then_reverse fracOps (exampleConst 4) (initState 4)
      (travelMotor0 { num := 3, den := 1 }) noError (travelMotor0 { num := -2, den := 1 })
      noError { num := 1, den := 65536 } { num := 1, den := 65536 } 0 3 2 100000 183
      (by decide) (by decide) initState_slots.2.1 (by decide) (by decide) (by decide)
      (by decide) (by decide)
      afterInit_forward.1 afterInit_forward.2.1 afterInit_forward.2.2.1
      afterInit_forward.2.2.2.1 afterInit_forward.2.2.2.2.1
      ⟨by rw [afterInit_forward.2.2.2.2.2.1]; decide,
        le_of_eq (by rw [afterInit_forward.2.2.2.2.2.1])⟩
      afterInit_reverse.1 afterInit_reverse.2.1 afterInit_reverse.2.2.1
      afterInit_reverse.2.2.2.1 afterInit_reverse.2.2.2.2.1
      afterInit_reverse.2.2.2.2.2).2.2.2.2.2.2.2⟩

theorem initStateReversed_slots :
    initStateReversed.st_pre.buffer_state = BufferState.PREP_BUFFER_OWNED_BY_EXEC
    ∧ initStateReversed.st_run.dda_ticks_downcount = 0
    ∧ initStateReversed.polarity 0 = 1
    ∧ initStateReversed.st_pre.mot 0 = zeroPrepMotor fracOps
    ∧ initStateReversed.st_run.mot 0 = { substep_increment := 0, substep_accumulator := 0 } := by
  refine ⟨by decide, by decide, by decide, ?_, ?_⟩
  · rfl
  · rfl

/-- With the polarity of motor 0 reversed, the first segment after `stepper_init`, one step
of positive travel over `2^-16` minute: the staged direction differs from `prev_direction`,
the load reflects the accumulator to `-18300000`, and no pulse is emitted. -/
theorem reversed_forward_done :
    (runLine fracOps (exampleConst 4) initStateReversed (travelMotor0 { num := 1, den := 1 })
        noError { num := 1, den := 65536 }).st_pre.buffer_state
      = BufferState.PREP_BUFFER_OWNED_BY_EXEC
    ∧ (runLine fracOps (exampleConst 4) initStateReversed (travelMotor0 { num := 1, den := 1 })
        noError { num := 1, den := 65536 }).st_run.dda_ticks_downcount = 0
    ∧ (runLine fracOps (exampleConst 4) initStateReversed (travelMotor0 { num := 1, den := 1 })
        noError { num := 1, den := 65536 }).polarity 0 = 1
    ∧ (runLine fracOps (exampleConst 4) initStateReversed (travelMotor0 { num := 1, den := 1 })
        noError { num := 1, den := 65536 }).st_pre.mot 0
      = { substep_increment := 100000, direction := 1, prev_direction := 1, step_sign := 1,
          correction_holdoff := -1, corrected_steps := { num := 0, den := 1 },
          prev_segment_time := { num := 1, den := 65536 },
          accumulator_correction := { num := 0, den := 1 },
          accumulator_correction_flag := false }
    ∧ (runLine fracOps (exampleConst 4) initStateReversed (travelMotor0 { num := 1, den := 1 })
        noError { num := 1, den := 65536 }).st_run.mot 0
      = { substep_increment := 100000, substep_accumulator := 0 }
    ∧ stepsRaised 0 (runLine fracOps (exampleConst 4) initStateReversed
        (travelMotor0 { num := 1, den := 1 }) noError { num := 1, den := 65536 }).trace = 0
    ∧ directionCalls 0 (runLine fracOps (exampleConst 4) initStateReversed
        (travelMotor0 { num := 1, den := 1 }) noError { num := 1, den := 65536 }).trace
      = 1 := by
  obtain ⟨i1, i2, i3, i4, i5⟩ := initStateReversed_slots
  obtain ⟨e1, e2, e3, e4, e5, e6⟩ := line_eval fracOps (exampleConst 4) initStateReversed
    (travelMotor0 { num := 1, den := 1 }) noError { num := 1, den := 65536 } 0 1 _ _
    i1 i2 (by decide) i3 i4 i5 (by decide) (by decide) (by decide)
  obtain ⟨k1, k2, k3, -, k5, -, k7⟩ := runLine_spec fracOps (exampleConst 4) initStateReversed
    (travelMotor0 { num := 1, den := 1 }) noError { num := 1, den := 65536 } 0 e1 i2
    (by decide) (by decide)
  obtain ⟨-, -, -, -, -, -, -, l8, -⟩ := loadLine_spec fracOps (exampleConst 4)
    initStateReversed (travelMotor0 { num := 1, den := 1 }) noError { num := 1, den := 65536 }
    0 e1 i2 (by decide)
  obtain ⟨x1, x2⟩ := runLine_bottom fracOps (exampleConst 4) initStateReversed
    (travelMotor0 { num := 1, den := 1 }) noError { num := 1, den := 65536 } 0 1 100000 183
    (by decide) (by decide) i2 (by decide) (by decide) (by decide) (by decide) e1
    (by rw [e2]; decide) (by rw [e3]; decide) (by rw [e4]; decide) (by rw [e5]; decide)
  have h0 : stepsRaised 0 initStateReversed.trace = 0 := by decide
  have hd0 : directionCalls 0 initStateReversed.trace = 0 := by decide
  refine ⟨k1, k2, (congrFun k3 0).trans i3, ?_, ?_, by rw [x1, h0], ?_⟩
  · rw [k5, e6]; rfl
  · rw [x2]; rfl
  · rw [k7, l8, e4, hd0]; decide

/-- C33, counterexample to the claim as stated: with the polarity of motor 0 reversed, one
step forward and one step back over `2^-16` minute (183 ticks) each, from the state left by
`stepper_init` (which ends with `stepper_reset`); every value is representable in `float`.
Both loads find `direction != prev_direction`, so `setDirection` is called twice and both
segments start from the reflected accumulator `-X`; no pulse at all is emitted, where the
claim promises at least `D1 + D2 - 1 = 1`. -/
theorem C33_counterexample :
    stepsRaised 0 initStateReversed.trace = 0
    ∧ directionCalls 0 initStateReversed.trace = 0
    ∧ stepsRaised 0 (runLine fracOps (exampleConst 4)
        (runLine fracOps (exampleConst 4) initStateReversed
          (travelMotor0 { num := 1, den := 1 }) noError { num := 1, den := 65536 })
        (travelMotor0 { num := -1, den := 1 }) noError { num := 1, den := 65536 }).trace = 0
    ∧ directionCalls 0 (runLine fracOps (exampleConst 4)
        (runLine fracOps (exampleConst 4) initStateReversed
          (travelMotor0 { num := 1, den := 1 }) noError { num := 1, den := 65536 })
        (travelMotor0 { num := -1, den := 1 }) noError { num := 1, den := 65536 }).trace
      = 2 := by
  obtain ⟨i1, i2, i3, i4, i5, i6, i7⟩ := reversed_forward_done
  obtain ⟨e1, e2, e3, e4, e5, -⟩ := line_eval fracOps (exampleConst 4)
    (runLine fracOps (exampleConst 4) initStateReversed
      (travelMotor0 { num := 1, den := 1 }) noError { num := 1, den := 65536 })
    (travelMotor0 { num := -1, den := 1 }) noError { num := 1, den := 65536 } 0 1 _ _
    i1 i2 (by decide) i3 i4 i5 (by decide) (by decide) (by decide)
  obtain ⟨-, -, -, -, -, -, k7⟩ := runLine_spec fracOps (exampleConst 4)
    (runLine fracOps (exampleConst 4) initStateReversed
      (travelMotor0 { num := 1, den := 1 }) noError { num := 1, den := 65536 })
    (travelMotor0 { num := -1, den := 1 }) noError { num := 1, den := 65536 } 0 e1 i2
    (by decide) (by decide)
  obtain ⟨-, -, -, -, -, -, -, l8, -⟩ := loadLine_spec fracOps (exampleConst 4)
    (runLine fracOps (exampleConst 4) initStateReversed
      (travelMotor0 { num := 1, den := 1 }) noError { num := 1, den := 65536 })
    (travelMotor0 { num := -1, den := 1 }) noError { num := 1, den := 65536 } 0 e1 i2
    (by decide)
  obtain ⟨x1, -⟩ := runLine_bottom fracOps (exampleConst 4)
    (runLine fracOps (exampleConst 4) initStateReversed
      (travelMotor0 { num := 1, den := 1 }) noError { num := 1, den := 65536 })
    (travelMotor0 { num := -1, den := 1 }) noError { num := 1, den := 65536 } 0 1 100000 183
    (by decide) (by decide) i2 (by decide) (by decide) (by decide) (by decide) e1
    (by rw [e2]; decide) (by rw [e3]; decide) (by rw [e4]; decide) (by rw [e5]; decide)
  refine ⟨by decide, by decide, by rw [x1, i6], ?_⟩
  rw [k7, l8, e4, i7]
  decide

/-- The slot and the pulse count after `T` ticks, from the balance of the accumulator: the
end value is the only one in `(-X, 0]` that differs from `acc + T * inc` by a multiple of
`X`. -/
theorem ddaStep_end (X : Int) (hX : X < 2147483648) (T : Nat) (r : stRunMotor) (a : Int)
    (c : Nat) (h0 : 0 ≤ r.substep_increment) (h1 : r.substep_increment ≤ X)
    (h2 : -X < r.substep_accumulator) (h3 : r.substep_accumulator ≤ 0)
    (hc : a = r.substep_accumulator + (T : Int) * r.substep_increment - (c : Int) * X)
    (ha1 : -X < a) (ha2 : a ≤ 0) :
    (ddaStep X)^[T] r = { substep_increment := r.substep_increment, substep_accumulator := a }
    ∧ ddaCount X T r = c := by
  obtain ⟨hbal, hlo, hhi⟩ := ddaCount_balance X hX T r h0 h1 h2 h3
  have hinc := iterate_ddaStep_increment X T r
  have hXpos : (0 : Int) < X := by omega
  have hcnt : (ddaCount X T r : Int) = c := by
    have e : ((ddaStep X)^[T] r).substep_accumulator - a
        = X * ((c : Int) - (ddaCount X T r : Int)) := by
      rw [hbal, hc]; ring
    have b1 : X * ((c : Int) - (ddaCount X T r : Int)) < X * 1 := by omega
    have b2 : X * (-1) < X * ((c : Int) - (ddaCount X T r : Int)) := by omega
    have b3 := lt_of_mul_lt_mul_left b1 hXpos.le
    have b4 := lt_of_mul_lt_mul_left b2 hXpos.le
    omega
  have hacc : ((ddaStep X)^[T] r).substep_accumulator = a := by
    rw [hbal, hc, hcnt]
  refine ⟨?_, by exact_mod_cast hcnt⟩
  generalize (ddaStep X)^[T] r = r2 at hinc hacc
  cases r2
  simp only at hinc hacc
  subst hinc hacc
  rfl

/-- C35 (amended claim), for any float arithmetic whose conversion to `int32_t` yields 32-bit
values: when `_load_move` loads a line segment that `st_prep_line` accepted while the runtime
was idle, for a motor `m < MOTORS` that the segment moves (`substep_increment != 0`) and a new
range `X = dda_ticks_X_substeps` with `0 <= X < 2^31`, the accumulator after the load is `r`,
or `-(X + r)` when the direction changed, where `r` is the accumulator the load found,
multiplied by `accumulator_correction` and converted to `int32_t` when the correction flag is
set. It lies in `[-X, 0]` exactly when `r` does: the reflection maps the range onto itself and
the time-base correction alone decides. In particular it does when no correction is pending
and the accumulator found lies in `[-X, 0]`. -/
theorem C35_loaded_accumulator_range (O : FloatOps F) (K : Const F) (s : Machine F)
    (travel_steps fe : Nat → F) (time : F) (m : Nat)
    (hm : m < K.MOTORS) (hdc : s.st_run.dda_ticks_downcount = 0)
    (hok : (st_prep_line O K s travel_steps fe time).1 = Stat.STAT_OK)
    (hact : ((st_prep_line O K s travel_steps fe time).2.1.st_pre.mot m).substep_increment ≠ 0)
    (hX0 : 0 ≤ (st_prep_line O K s travel_steps fe time).2.1.st_pre.dda_ticks_X_substeps)
    (hX : (st_prep_line O K s travel_steps fe time).2.1.st_pre.dda_ticks_X_substeps
        < 2147483648)
    (hacc : -2147483648 ≤ (s.st_run.mot m).substep_accumulator
        ∧ (s.st_run.mot m).substep_accumulator < 2147483648)
    (hcast : ∀ x : F, -2147483648 ≤ O.castI32 x ∧ O.castI32 x < 2147483648) :
    correctedAcc O ((st_prep_line O K s travel_steps fe time).2.1.st_pre.mot m)
        (s.st_run.mot m)
      = (if ((st_prep_line O K s travel_steps fe time).2.1.st_pre.mot
              m).accumulator_correction_flag = true then
          O.castI32 (O.mul (O.ofInt (s.st_run.mot m).substep_accumulator)
            ((st_prep_line O K s travel_steps fe time).2.1.st_pre.mot m).accumulator_correction)
        else (s.st_run.mot m).substep_accumulator)
    ∧ ((loadLine O K s travel_steps fe time).st_run.mot m).substep_accumulator
      = (if ((st_prep_line O K s travel_steps fe time).2.1.st_pre.mot m).direction
            ≠ ((st_prep_line O K s travel_steps fe time).2.1.st_pre.mot m).prev_direction then
          toI32 (-((st_prep_line O K s travel_steps fe time).2.1.st_pre.dda_ticks_X_substeps
            + correctedAcc O ((st_prep_line O K s travel_steps fe time).2.1.st_pre.mot m)
                (s.st_run.mot m)))
        else correctedAcc O ((st_prep_line O K s travel_steps fe time).2.1.st_pre.mot m)
          (s.st_run.mot m))
    ∧ ((-(st_prep_line O K s travel_steps fe time).2.1.st_pre.dda_ticks_X_substeps
          ≤ ((loadLine O K s travel_steps fe time).st_run.mot m).substep_accumulator
        ∧ ((loadLine O K s travel_steps fe time).st_run.mot m).substep_accumulator ≤ 0)
      ↔ (-(st_prep_line O K s travel_steps fe time).2.1.st_pre.dda_ticks_X_substeps
          ≤ correctedAcc O ((st_prep_line O K s travel_steps fe time).2.1.st_pre.mot m)
              (s.st_run.mot m)
        ∧ correctedAcc O ((st_prep_line O K s travel_steps fe time).2.1.st_pre.mot m)
              (s.st_run.mot m) ≤ 0))
    ∧ (((st_prep_line O K s travel_steps fe time).2.1.st_pre.mot
          m).accumulator_correction_flag = false →
        -(st_prep_line O K s travel_steps fe time).2.1.st_pre.dda_ticks_X_substeps
          ≤ (s.st_run.mot m).substep_accumulator →
        (s.st_run.mot m).substep_accumulator ≤ 0 →
        -(st_prep_line O K s travel_steps fe time).2.1.st_pre.dda_ticks_X_substeps
          ≤ ((loadLine O K s travel_steps fe time).st_run.mot m).substep_accumulator
        ∧ ((loadLine O K s travel_steps fe time).st_run.mot m).substep_accumulator ≤ 0) := by
  obtain ⟨-, -, -, -, l5, -⟩ := loadLine_spec O K s travel_steps fe time m hok hdc hm
  have hr : -2147483648 ≤ correctedAcc O
        ((st_prep_line O K s travel_steps fe time).2.1.st_pre.mot m) (s.st_run.mot m)
      ∧ correctedAcc O ((st_prep_line O K s travel_steps fe time).2.1.st_pre.mot m)
        (s.st_run.mot m) < 2147483648 := by
    unfold correctedAcc
    split_ifs
    · exact hcast _
    · exact hacc
  have hload : ((loadLine O K s travel_steps fe time).st_run.mot m).substep_accumulator
      = (if ((st_prep_line O K s travel_steps fe time).2.1.st_pre.mot m).direction
            ≠ ((st_prep_line O K s travel_steps fe time).2.1.st_pre.mot m).prev_direction then
          toI32 (-((st_prep_line O K s travel_steps fe time).2.1.st_pre.dda_ticks_X_substeps
            + correctedAcc O ((st_prep_line O K s travel_steps fe time).2.1.st_pre.mot m)
                (s.st_run.mot m)))
        else correctedAcc O ((st_prep_line O K s travel_steps fe time).2.1.st_pre.mot m)
          (s.st_run.mot m)) := by
    rw [l5]
    unfold loadRun
    rw [if_pos hact]
  have hiff : ((-(st_prep_line O K s travel_steps fe time).2.1.st_pre.dda_ticks_X_substeps
          ≤ ((loadLine O K s travel_steps fe time).st_run.mot m).substep_accumulator
        ∧ ((loadLine O K s travel_steps fe time).st_run.mot m).substep_accumulator ≤ 0)
      ↔ (-(st_prep_line O K s travel_steps fe time).2.1.st_pre.dda_ticks_X_substeps
          ≤ correctedAcc O ((st_prep_line O K s travel_steps fe time).2.1.st_pre.mot m)
              (s.st_run.mot m)
        ∧ correctedAcc O ((st_prep_line O K s travel_steps fe time).2.1.st_pre.mot m)
              (s.st_run.mot m) ≤ 0)) := by
    rw [hload]
    generalize correctedAcc O ((st_prep_line O K s travel_steps fe time).2.1.st_pre.mot m)
      (s.st_run.mot m) = r at hr
    generalize (st_prep_line O K s travel_steps fe time).2.1.st_pre.dda_ticks_X_substeps = X
      at hX0 hX
    split_ifs
    · unfold toI32
      constructor
      · intro h; omega
      · intro h; omega
    · exact Iff.rfl
  refine ⟨rfl, hload, hiff, ?_⟩
  intro hf h1 h2
  rw [hiff]
  unfold correctedAcc
  rw [hf]
  simp only [Bool.false_eq_true, if_false]
  exact ⟨h1, h2⟩

/-- After `halfStepDone`, a segment of 3 steps over `2^-15` minute (366 ticks): the time
differs from the stored `2^-16`, so the correction `2` is staged, and the load multiplies the
accumulator `-9150000` by it. -/
theorem afterHalfStep_rescaled :
    (st_prep_line fracOps (exampleConst 4) halfStepDone
        (travelMotor0 { num := 3, den := 1 }) noError { num := 1, den := 32768 }).1
      = Stat.STAT_OK
    ∧ (st_prep_line fracOps (exampleConst 4) halfStepDone
        (travelMotor0 { num := 3, den := 1 }) noError
        { num := 1, den := 32768 }).2.1.st_pre.dda_ticks_X_substeps = 36600000
    ∧ ((st_prep_line fracOps (exampleConst 4) halfStepDone
        (travelMotor0 { num := 3, den := 1 }) noError
        { num := 1, den := 32768 }).2.1.st_pre.mot 0).substep_increment = 300000
    ∧ ((st_prep_line fracOps (exampleConst 4) halfStepDone
        (travelMotor0 { num := 3, den := 1 }) noError
        { num := 1, den := 32768 }).2.1.st_pre.mot 0).accumulator_correction_flag = true
    ∧ correctedAcc fracOps ((st_prep_line fracOps (exampleConst 4) halfStepDone
        (travelMotor0 { num := 3, den := 1 }) noError
        { num := 1, den := 32768 }).2.1.st_pre.mot 0) (halfStepDone.st_run.mot 0)
      = -18300000 := by
  obtain ⟨i1, i2, i3, i4, i5, -⟩ := halfStepDone_slots
  obtain ⟨e1, -, e3, e4, -, -⟩ := line_eval fracOps (exampleConst 4) halfStepDone
    (travelMotor0 { num := 3, den := 1 }) noError { num := 1, den := 32768 } 0 0 _ _
    i1 i2 (by decide) i3 i4 i5 (by decide) (by decide) (by decide)
  refine ⟨e1, ?_, ?_, ?_, ?_⟩
  · rw [e3]; decide
  · rw [e4]; decide
  · rw [e4]; decide
  · rw [e4, i5]; decide

/-- C35, witness: after `halfStepDone` (accumulator `-9150000` in the range `18300000`), a
segment of 3 steps over `2^-15` minute has the range `36600000`; the load multiplies the
accumulator by the staged correction `2`, and the result `-18300000` lies in
`[-36600000, 0]`. All values are representable in `float`. -/
theorem C35_loaded_accumulator_range_witness :
    -(st_prep_line fracOps (exampleConst 4) halfStepDone
        (travelMotor0 { num := 3, den := 1 }) noError
        { num := 1, den := 32768 }).2.1.st_pre.dda_ticks_X_substeps
      ≤ ((loadLine fracOps (exampleConst 4) halfStepDone (travelMotor0 { num := 3, den := 1 })
          noError { num := 1, den := 32768 }).st_run.mot 0).substep_accumulator
    ∧ ((loadLine fracOps (exampleConst 4) halfStepDone (travelMotor0 { num := 3, den := 1 })
          noError { num := 1, den := 32768 }).st_run.mot 0).substep_accumulator ≤ 0 :=
  (C35_loaded_accumulator_range fracOps (exampleConst 4) halfStepDone
    (travelMotor0 { num := 3, den := 1 }) noError { num := 1, den := 32768 } 0
    (by decide) halfStepDone_slots.2.1 afterHalfStep_rescaled.1
    (by rw [afterHalfStep_rescaled.2.2.1]; decide)
    (by rw [afterHalfStep_rescaled.2.1]; decide)
    (by rw [afterHalfStep_rescaled.2.1]; decide)
    (by rw [halfStepDone_slots.2.2.2.2.1]; decide)
    (fun x => toI32_range _)).2.2.1.mpr
    (by rw [afterHalfStep_rescaled.2.2.2.2, afterHalfStep_rescaled.2.1]; decide)

/-- After `stepper_init`, a segment of `2^-12` step over `129 * 2^-23` minute (184 ticks, range
18400000, increment 24) has been run to its last tick: the accumulator of motor 0 ends at
`24 * 184 - 18400000`. -/
theorem afterInit_small_184 :
    (runLine fracOps (exampleConst 4) (initState 4) (travelMotor0 { num := 1, den := 4096 })
        noError { num := 129, den := 8388608 }).st_pre.buffer_state
      = BufferState.PREP_BUFFER_OWNED_BY_EXEC
    ∧ (runLine fracOps (exampleConst 4) (initState 4) (travelMotor0 { num := 1, den := 4096 })
        noError { num := 129, den := 8388608 }).st_run.dda_ticks_downcount = 0
    ∧ (runLine fracOps (exampleConst 4) (initState 4) (travelMotor0 { num := 1, den := 4096 })
        noError { num := 129, den := 8388608 }).polarity 0 = 0
    ∧ (runLine fracOps (exampleConst 4) (initState 4) (travelMotor0 { num := 1, den := 4096 })
        noError { num := 129, den := 8388608 }).st_pre.mot 0
      = { substep_increment := 24, direction := 0, prev_direction := 0, step_sign := 1,
          correction_holdoff := -1, corrected_steps := { num := 0, den := 1 },
          prev_segment_time := { num := 129, den := 8388608 },
          accumulator_correction := { num := 0, den := 1 },
          accumulator_correction_flag := false }
    ∧ (runLine fracOps (exampleConst 4) (initState 4) (travelMotor0 { num := 1, den := 4096 })
        noError { num := 129, den := 8388608 }).st_run.mot 0
      = { substep_increment := 24, substep_accumulator := -18395584 } := by
  obtain ⟨i1, i2, i3, i4, i5⟩ := initState_slots
  obtain ⟨e1, e2, e3, -, e5, e6⟩ := line_eval fracOps (exampleConst 4) (initState 4)
    (travelMotor0 { num := 1, den := 4096 }) noError { num := 129, den := 8388608 } 0 0 _ _
    i1 i2 (by decide) i3 i4 i5 (by decide) (by decide) (by decide)
  obtain ⟨k1, k2, k3, k4, k5, -⟩ := runLine_spec fracOps (exampleConst 4) (initState 4)
    (travelMotor0 { num := 1, den := 4096 }) noError { num := 129, den := 8388608 } 0 e1 i2
    (by decide) (by decide)
  have ht : (st_prep_line fracOps (exampleConst 4) (initState 4)
      (travelMotor0 { num := 1, den := 4096 }) noError
      { num := 129, den := 8388608 }).2.1.st_pre.dda_ticks = ((184 : Nat) : Int) := by
    rw [e2]; decide
  have hx : (st_prep_line fracOps (exampleConst 4) (initState 4)
      (travelMotor0 { num := 1, den := 4096 }) noError
      { num := 129, den := 8388608 }).2.1.st_pre.dda_ticks_X_substeps = 18400000 := by
    rw [e3]; decide
  have hl : (loadLine fracOps (exampleConst 4) (initState 4)
      (travelMotor0 { num := 1, den := 4096 }) noError { num := 129, den := 8388608 }).st_run.mot 0
      = { substep_increment := 24, substep_accumulator := 0 } := by
    rw [e5]; rfl
  rw [ht, hx, hl, Int.toNat_natCast] at k4
  obtain ⟨hend, -⟩ := ddaStep_end 18400000 (by norm_num) 184
    { substep_increment := 24, substep_accumulator := 0 } (-18395584) 1
    (by norm_num) (by norm_num) (by norm_num) (by norm_num) (by norm_num) (by norm_num)
    (by norm_num)
  refine ⟨k1, k2, (congrFun k3 0).trans i3, ?_, ?_⟩
  · rw [k5, e6]; rfl
  · rw [k4, hend]

/-- After `stepper_init`, a segment of `2^-12` step over `2^-16` minute (183 ticks, range
18300000, increment 24) has been run to its last tick: the accumulator of motor 0 ends at
`24 * 183 - 18300000`. -/
theorem afterInit_small_183 :
    (runLine fracOps (exampleConst 4) (initState 4) (travelMotor0 { num := 1, den := 4096 })
        noError { num := 1, den := 65536 }).st_pre.buffer_state
      = BufferState.PREP_BUFFER_OWNED_BY_EXEC
    ∧ (runLine fracOps (exampleConst 4) (initState 4) (travelMotor0 { num := 1, den := 4096 })
        noError { num := 1, den := 65536 }).st_run.dda_ticks_downcount = 0
    ∧ (runLine fracOps (exampleConst 4) (initState 4) (travelMotor0 { num := 1, den := 4096 })
        noError { num := 1, den := 65536 }).polarity 0 = 0
    ∧ (runLine fracOps (exampleConst 4) (initState 4) (travelMotor0 { num := 1, den := 4096 })
        noError { num := 1, den := 65536 }).st_pre.mot 0
      = { substep_increment := 24, direction := 0, prev_direction := 0, step_sign := 1,
          correction_holdoff := -1, corrected_steps := { num := 0, den := 1 },
          prev_segment_time := { num := 1, den := 65536 },
          accumulator_correction := { num := 0, den := 1 },
          accumulator_correction_flag := false }
    ∧ (runLine fracOps (exampleConst 4) (initState 4) (travelMotor0 { num := 1, den := 4096 })
        noError { num := 1, den := 65536 }).st_run.mot 0
      = { substep_increment := 24, substep_accumulator := -18295608 } := by
  obtain ⟨i1, i2, i3, i4, i5⟩ := initState_slots
  obtain ⟨e1, e2, e3, -, e5, e6⟩ := line_eval fracOps (exampleConst 4) (initState 4)
    (travelMotor0 { num := 1, den := 4096 }) noError { num := 1, den := 65536 } 0 0 _ _
    i1 i2 (by decide) i3 i4 i5 (by decide) (by decide) (by decide)
  obtain ⟨k1, k2, k3, k4, k5, -⟩ := runLine_spec fracOps (exampleConst 4) (initState 4)
    (travelMotor0 { num := 1, den := 4096 }) noError { num := 1, den := 65536 } 0 e1 i2
    (by decide) (by decide)
  have ht : (st_prep_line fracOps (exampleConst 4) (initState 4)
      (travelMotor0 { num := 1, den := 4096 }) noError
      { num := 1, den := 65536 }).2.1.st_pre.dda_ticks = ((183 : Nat) : Int) := by
    rw [e2]; decide
  have hx : (st_prep_line fracOps (exampleConst 4) (initState 4)
      (travelMotor0 { num := 1, den := 4096 }) noError
      { num := 1, den := 65536 }).2.1.st_pre.dda_ticks_X_substeps = 18300000 := by
    rw [e3]; decide
  have hl : (loadLine fracOps (exampleConst 4) (initState 4)
      (travelMotor0 { num := 1, den := 4096 }) noError { num := 1, den := 65536 }).st_run.mot 0
      = { substep_increment := 24, substep_accumulator := 0 } := by
    rw [e5]; rfl
  rw [ht, hx, hl, Int.toNat_natCast] at k4
  obtain ⟨hend, -⟩ := ddaStep_end 18300000 (by norm_num) 183
    { substep_increment := 24, substep_accumulator := 0 } (-18295608) 1
    (by norm_num) (by norm_num) (by norm_num) (by norm_num) (by norm_num) (by norm_num)
    (by norm_num)
  refine ⟨k1, k2, (congrFun k3 0).trans i3, ?_, ?_⟩
  · rw [k5, e6]; rfl
  · rw [k4, hend]

/-- C35, counterexamples to the claim as stated, from the state after `stepper_init`, on
motor 0, with travels of `2^-12` step (increment 24); every value is representable in `float`.
First: a segment over `129 * 2^-23` minute (184 ticks) leaves the accumulator at `-18395584`;
the next segment, over `257 * 2^-24` minute (183 ticks, range 18300000), differs in time by
`2^-24 < 0.0000001`, so no correction is staged and the load leaves the accumulator below
`-18300000`. Second: a segment over `2^-16` minute (183 ticks) leaves the accumulator at
`-18295608`; the next, over `3 * 2^-17` minute (274 ticks, range 27400000), stages the
correction `3/2`, and the load rescales the accumulator to `-27443412`, below `-27400000`:
`dda_ticks` is truncated, so the range grows by less than the factor `time2 / time1`. -/
theorem C35_counterexample :
    ((st_prep_line fracOps (exampleConst 4)
        (runLine fracOps (exampleConst 4) (initState 4)
          (travelMotor0 { num := 1, den := 4096 }) noError { num := 129, den := 8388608 })
        (travelMotor0 { num := 1, den := 4096 }) noError
        { num := 257, den := 16777216 }).1 = Stat.STAT_OK
      ∧ (st_prep_line fracOps (exampleConst 4)
        (runLine fracOps (exampleConst 4) (initState 4)
          (travelMotor0 { num := 1, den := 4096 }) noError { num := 129, den := 8388608 })
        (travelMotor0 { num := 1, den := 4096 }) noError
        { num := 257, den := 16777216 }).2.1.st_pre.dda_ticks_X_substeps = 18300000
      ∧ ((st_prep_line fracOps (exampleConst 4)
        (runLine fracOps (exampleConst 4) (initState 4)
          (travelMotor0 { num := 1, den := 4096 }) noError { num := 129, den := 8388608 })
        (travelMotor0 { num := 1, den := 4096 }) noError
        { num := 257, den := 16777216 }).2.1.st_pre.mot 0).substep_increment = 24
      ∧ ((st_prep_line fracOps (exampleConst 4)
        (runLine fracOps (exampleConst 4) (initState 4)
          (travelMotor0 { num := 1, den := 4096 }) noError { num := 129, den := 8388608 })
        (travelMotor0 { num := 1, den := 4096 }) noError
        { num := 257, den := 16777216 }).2.1.st_pre.mot 0).accumulator_correction_flag = false
      ∧ ((loadLine fracOps (exampleConst 4)
        (runLine fracOps (exampleConst 4) (initState 4)
          (travelMotor0 { num := 1, den := 4096 }) noError { num := 129, den := 8388608 })
        (travelMotor0 { num := 1, den := 4096 }) noError
        { num := 257, den := 16777216 }).st_run.mot 0).substep_accumulator = -18395584
      ∧ (-18395584 : Int) < -18300000)
    ∧ ((st_prep_line fracOps (exampleConst 4)
        (runLine fracOps (exampleConst 4) (initState 4)
          (travelMotor0 { num := 1, den := 4096 }) noError { num := 1, den := 65536 })
        (travelMotor0 { num := 1, den := 4096 }) noError
        { num := 3, den := 131072 }).1 = Stat.STAT_OK
      ∧ (st_prep_line fracOps (exampleConst 4)
        (runLine fracOps (exampleConst 4) (initState 4)
          (travelMotor0 { num := 1, den := 4096 }) noError { num := 1, den := 65536 })
        (travelMotor0 { num := 1, den := 4096 }) noError
        { num := 3, den := 131072 }).2.1.st_pre.dda_ticks_X_substeps = 27400000
      ∧ ((st_prep_line fracOps (exampleConst 4)
        (runLine fracOps (exampleConst 4) (initState 4)
          (travelMotor0 { num := 1, den := 4096 }) noError { num := 1, den := 65536 })
        (travelMotor0 { num := 1, den := 4096 }) noError
        { num := 3, den := 131072 }).2.1.st_pre.mot 0).substep_increment = 24
      ∧ ((st_prep_line fracOps (exampleConst 4)
        (runLine fracOps (exampleConst 4) (initState 4)
          (travelMotor0 { num := 1, den := 4096 }) noError { num := 1, den := 65536 })
        (travelMotor0 { num := 1, den := 4096 }) noError
        { num := 3, den := 131072 }).2.1.st_pre.mot 0).accumulator_correction_flag = true
      ∧ ((loadLine fracOps (exampleConst 4)
        (runLine fracOps (exampleConst 4) (initState 4)
          (travelMotor0 { num := 1, den := 4096 }) noError { num := 1, den := 65536 })
        (travelMotor0 { num := 1, den := 4096 }) noError
        { num := 3, den := 131072 }).st_run.mot 0).substep_accumulator = -27443412
      ∧ (-27443412 : Int) < -27400000) := by
  constructor
  · obtain ⟨i1, i2, i3, i4, i5⟩ := afterInit_small_184
    obtain ⟨e1, -, e3, e4, e5, -⟩ := line_eval fracOps (exampleConst 4)
      (runLine fracOps (exampleConst 4) (initState 4)
        (travelMotor0 { num := 1, den := 4096 }) noError { num := 129, den := 8388608 })
      (travelMotor0 { num := 1, den := 4096 }) noError { num := 257, den := 16777216 } 0 0 _ _
      i1 i2 (by decide) i3 i4 i5 (by decide) (by decide) (by decide)
    refine ⟨e1, ?_, ?_, ?_, ?_, by decide⟩
    · rw [e3]; decide
    · rw [e4]; decide
    · rw [e4]; decide
    · rw [e5]; decide
  · obtain ⟨i1, i2, i3, i4, i5⟩ := afterInit_small_183
    obtain ⟨e1, -, e3, e4, e5, -⟩ := line_eval fracOps (exampleConst 4)
      (runLine fracOps (exampleConst 4) (initState 4)
        (travelMotor0 { num := 1, den := 4096 }) noError { num := 1, den := 65536 })
      (travelMotor0 { num := 1, den := 4096 }) noError { num := 3, den := 131072 } 0 0 _ _
      i1 i2 (by decide) i3 i4 i5 (by decide) (by decide) (by decide)
    refine ⟨e1, ?_, ?_, ?_, ?_, by decide⟩
    · rw [e3]; decide
    · rw [e4]; decide
    · rw [e4]; decide
    · rw [e5]; decide

/-- On fractions of non-negative value the conversions of `fracOps` to the integer types
are the floor of the value. -/
theorem Frac.trunc_eq_floor (x : Frac) (h0 : 0 ≤ x.val) : x.trunc = ⌊x.val⌋ := by
  unfold Frac.trunc Frac.val
  by_cases hd : x.den = 0
  · simp [hd]
  · rw [if_neg hd]
    have hdpos : (0 : ℚ) < x.den := by exact_mod_cast Nat.pos_of_ne_zero hd
    have hn : 0 ≤ x.num := by
      unfold Frac.val at h0
      have := (div_nonneg_iff.mp h0)
      rcases this with h | h
      · exact_mod_cast h.1
      · exfalso; linarith [h.2]
    rw [if_pos hn, Rat.floor_intCast_div_natCast]

theorem Frac.castI32_floor (x : Frac) (h0 : 0 ≤ x.val) (h1 : x.val < 2147483648) :
    fracOps.castI32 x = ⌊x.val⌋ := by
  show toI32 x.trunc = _
  rw [Frac.trunc_eq_floor x h0]
  have hf0 : 0 ≤ ⌊x.val⌋ := Int.floor_nonneg.mpr h0
  have hf1 : ⌊x.val⌋ < 2147483648 := by
    rw [Int.floor_lt]; exact_mod_cast h1
  exact toI32_eq_self (by omega) hf1

theorem Frac.castU32_floor (x : Frac) (h0 : 0 ≤ x.val) (h1 : x.val < 4294967296) :
    fracOps.castU32 x = ⌊x.val⌋ := by
  show toU32 x.trunc = _
  rw [Frac.trunc_eq_floor x h0]
  have hf0 : 0 ≤ ⌊x.val⌋ := Int.floor_nonneg.mpr h0
  have hf1 : ⌊x.val⌋ < 4294967296 := by
    rw [Int.floor_lt]; exact_mod_cast h1
  unfold toU32
  omega

/-- C13 (amended claim), for any float arithmetic: let `val` give the real value of a float,
and let the conversions to `int32_t` and `uint32_t` truncate non-negative values in range to
their integer part, as in C. For every segment that `st_prep_line` accepts, write `P` for the
float product `segment_time * 60 * FREQUENCY_DDA` as the code computes it (each multiplication
rounded to `float`); when `0 <= P < 2^31`, `st_prep_line` sets `dda_ticks` to the integer part
of `P`, the greatest integer not above `P` (not the nearest one), and `dda_ticks_X_substeps` to
the float product `dda_ticks * DDA_SUBSTEPS` converted to `uint32_t`, its integer part when it
is below `2^32`. -/
theorem C13_dda_ticks_truncates_float_product (O : FloatOps F) (K : Const F) (val : F → ℚ)
    (s : Machine F) (travel_steps fe : Nat → F) (time : F)
    (hok : (st_prep_line O K s travel_steps fe time).1 = Stat.STAT_OK)
    (hcastI : ∀ x : F, 0 ≤ val x → val x < 2147483648 → O.castI32 x = ⌊val x⌋)
    (hcastU : ∀ x : F, 0 ≤ val x → val x < 4294967296 → O.castU32 x = ⌊val x⌋)
    (hP0 : 0 ≤ val (O.mul (O.mul time (O.ofInt 60)) (O.ofInt K.FREQUENCY_DDA)))
    (hP1 : val (O.mul (O.mul time (O.ofInt 60)) (O.ofInt K.FREQUENCY_DDA)) < 2147483648) :
    (st_prep_line O K s travel_steps fe time).2.1.st_pre.dda_ticks
        = ⌊val (O.mul (O.mul time (O.ofInt 60)) (O.ofInt K.FREQUENCY_DDA))⌋
    ∧ (((st_prep_line O K s travel_steps fe time).2.1.st_pre.dda_ticks : Int) : ℚ)
        ≤ val (O.mul (O.mul time (O.ofInt 60)) (O.ofInt K.FREQUENCY_DDA))
    ∧ val (O.mul (O.mul time (O.ofInt 60)) (O.ofInt K.FREQUENCY_DDA))
        < (((st_prep_line O K s travel_steps fe time).2.1.st_pre.dda_ticks : Int) : ℚ) + 1
    ∧ (st_prep_line O K s travel_steps fe time).2.1.st_pre.dda_ticks_X_substeps
        = O.castU32 (O.mul
            (O.ofInt (st_prep_line O K s travel_steps fe time).2.1.st_pre.dda_ticks)
            K.DDA_SUBSTEPS)
    ∧ (0 ≤ val (O.mul
            (O.ofInt (st_prep_line O K s travel_steps fe time).2.1.st_pre.dda_ticks)
            K.DDA_SUBSTEPS) →
        val (O.mul
            (O.ofInt (st_prep_line O K s travel_steps fe time).2.1.st_pre.dda_ticks)
            K.DDA_SUBSTEPS) < 4294967296 →
        (st_prep_line O K s travel_steps fe time).2.1.st_pre.dda_ticks_X_substeps
          = ⌊val (O.mul
              (O.ofInt (st_prep_line O K s travel_steps fe time).2.1.st_pre.dda_ticks)
              K.DDA_SUBSTEPS)⌋) := by
  obtain ⟨hb, hi, hn, he⟩ := st_prep_line_ok_conditions O K s travel_steps fe time hok
  obtain ⟨-, -, -, hA4, hA5, -⟩ := st_prep_line_accepted O K s travel_steps fe time hb hi hn he
  have hf0 : 0 ≤ ⌊val (O.mul (O.mul time (O.ofInt 60)) (O.ofInt K.FREQUENCY_DDA))⌋ :=
    Int.floor_nonneg.mpr hP0
  have hf1 : ⌊val (O.mul (O.mul time (O.ofInt 60)) (O.ofInt K.FREQUENCY_DDA))⌋ < 2147483648 := by
    rw [Int.floor_lt]; exact_mod_cast hP1
  have hticks : (st_prep_line O K s travel_steps fe time).2.1.st_pre.dda_ticks
      = ⌊val (O.mul (O.mul time (O.ofInt 60)) (O.ofInt K.FREQUENCY_DDA))⌋ := by
    rw [hA4, hcastI _ hP0 hP1]
    unfold toU32
    omega
  have hX : (st_prep_line O K s travel_steps fe time).2.1.st_pre.dda_ticks_X_substeps
      = O.castU32 (O.mul
          (O.ofInt (st_prep_line O K s travel_steps fe time).2.1.st_pre.dda_ticks)
          K.DDA_SUBSTEPS) := by
    rw [hA5, ← hA4]
  refine ⟨hticks, ?_, ?_, hX, ?_⟩
  · rw [hticks]; exact Int.floor_le _
  · rw [hticks]; exact Int.lt_floor_add_one _
  · intro h0 h1
    rw [hX]
    exact hcastU _ h0 h1

/-- C13, witness: a segment of `2^-14` minute. The product `2^-14 * 60 * 200000` is
`732.421875`, exactly representable in `float` like the intermediate `2^-14 * 60`, and
`dda_ticks` is 732. -/
theorem C13_dda_ticks_truncates_float_product_witness :
    (st_prep_line fracOps (exampleConst 4) (initState 4)
        (travelMotor0 { num := 1, den := 1 }) noError
        { num := 1, den := 16384 }).2.1.st_pre.dda_ticks
      = ⌊Frac.val (fracOps.mul (fracOps.mul { num := 1, den := 16384 } (fracOps.ofInt 60))
          (fracOps.ofInt (exampleConst 4).FREQUENCY_DDA))⌋
    ∧ (st_prep_line fracOps (exampleConst 4) (initState 4)
        (travelMotor0 { num := 1, den := 1 }) noError
        { num := 1, den := 16384 }).2.1.st_pre.dda_ticks = 732 :=
  ⟨(C13_dda_ticks_truncates_float_product fracOps (exampleConst 4) Frac.val (initState 4)
      (travelMotor0 { num := 1, den := 1 }) noError { num := 1, den := 16384 }
      (by decide) Frac.castI32_floor Frac.castU32_floor
      (by simp only [Frac.val, fracOps, exampleConst]; norm_num)
      (by simp only [Frac.val, fracOps, exampleConst]; norm_num)).1,
   by decide⟩

/-- C23 (divergence): in the reachable state `dwellLoadedByDda` a dwell of `N = 5` ticks has
been loaded by the loader call of the last DDA tick of a line segment: the downcount is 5, the
dwell timer runs, and the DDA timer has not been stopped. The DDA interrupts that follow
decrement the shared downcount: after five of them, and no dwell interrupt at all, the
downcount is 0 and the runtime is no longer busy, while the dwell timer still runs. The first
dwell interrupt after that decrements the downcount from 0 to `2^32 - 1`: it does not find 0,
does not stop the dwell timer and does not call the loader, and the runtime is busy again.
So the runtime does not stay busy up to the `N`-th dwell interrupt, and it is not at the
`N`-th dwell interrupt that the downcount reaches 0. -/
theorem C23_dda_interrupts_end_the_dwell :
    Reachable fracOps (exampleConst 4) dwellLoadedByDda
    ∧ dwellLoadedByDda.st_run.dda_ticks_downcount = 5
    ∧ dwellLoadedByDda.dwell_timer_running = true
    ∧ dwellLoadedByDda.dda_timer_running = true
    ∧ Reachable fracOps (exampleConst 4)
        ((dda_timer_interrupt fracOps (exampleConst 4))^[5] dwellLoadedByDda)
    ∧ ((dda_timer_interrupt fracOps (exampleConst 4))^[5]
        dwellLoadedByDda).st_run.dda_ticks_downcount = 0
    ∧ st_runtime_isbusy ((dda_timer_interrupt fracOps (exampleConst 4))^[5] dwellLoadedByDda)
        = false
    ∧ ((dda_timer_interrupt fracOps (exampleConst 4))^[5] dwellLoadedByDda).dwell_timer_running
        = true
    ∧ (dwell_timer_interrupt fracOps (exampleConst 4)
        ((dda_timer_interrupt fracOps (exampleConst 4))^[5]
          dwellLoadedByDda)).st_run.dda_ticks_downcount = 4294967295
    ∧ (dwell_timer_interrupt fracOps (exampleConst 4)
        ((dda_timer_interrupt fracOps (exampleConst 4))^[5]
          dwellLoadedByDda)).dwell_timer_running = true
    ∧ st_runtime_isbusy (dwell_timer_interrupt fracOps (exampleConst 4)
        ((dda_timer_interrupt fracOps (exampleConst 4))^[5] dwellLoadedByDda)) = true := by
  have hR : Reachable fracOps (exampleConst 4) dwellLoadedByDda := by
    unfold dwellLoadedByDda loadLine
    refine reachable_iterate_dda fracOps (exampleConst 4) 183 183 _ ?_ (by decide) (by decide)
      (by decide) (by decide)
    unfold initState stepper_init
    exact Reachable.prep_dwell _ _
      (Reachable.load _ (Reachable.prep_line _ _ _ _ (Reachable.reset _)))
  refine ⟨hR, by decide, by decide, by decide, ?_, by decide, by decide, by decide, by decide,
    by decide, by decide⟩
  exact reachable_iterate_dda fracOps (exampleConst 4) 5 5 _ hR (by decide) (by decide)
    (by decide) (by decide)

/-- The segment of 3 steps over `2^-15` minute (366 ticks) that follows the 3 steps over
`2^-16` minute after `stepper_init`: the correction `2` is staged with its flag, and the load
multiplies the accumulator 0 by it. -/
theorem afterInit_forward_second :
    (st_prep_line fracOps (exampleConst 4)
        (runLine fracOps (exampleConst 4) (initState 4) (travelMotor0 { num := 3, den := 1 })
          noError { num := 1, den := 65536 })
        (travelMotor0 { num := 3, den := 1 }) noError { num := 1, den := 32768 }).1
      = Stat.STAT_OK
    ∧ (st_prep_line fracOps (exampleConst 4)
        (runLine fracOps (exampleConst 4) (initState 4) (travelMotor0 { num := 3, den := 1 })
          noError { num := 1, den := 65536 })
        (travelMotor0 { num := 3, den := 1 }) noError
        { num := 1, den := 32768 }).2.1.st_pre.dda_ticks = ((366 : Nat) : Int)
    ∧ (st_prep_line fracOps (exampleConst 4)
        (runLine fracOps (exampleConst 4) (initState 4) (travelMotor0 { num := 3, den := 1 })
          noError { num := 1, den := 65536 })
        (travelMotor0 { num := 3, den := 1 }) noError
        { num := 1, den := 32768 }).2.1.st_pre.dda_ticks_X_substeps
      = ((366 : Nat) : Int) * (100000 : Nat)
    ∧ ((st_prep_line fracOps (exampleConst 4)
        (runLine fracOps (exampleConst 4) (initState 4) (travelMotor0 { num := 3, den := 1 })
          noError { num := 1, den := 65536 })
        (travelMotor0 { num := 3, den := 1 }) noError
        { num := 1, den := 32768 }).2.1.st_pre.mot 0).substep_increment
      = ((3 : Nat) : Int) * (100000 : Nat)
    ∧ ((st_prep_line fracOps (exampleConst 4)
        (runLine fracOps (exampleConst 4) (initState 4) (travelMotor0 { num := 3, den := 1 })
          noError { num := 1, den := 65536 })
        (travelMotor0 { num := 3, den := 1 }) noError
        { num := 1, den := 32768 }).2.1.st_pre.mot 0).accumulator_correction_flag = true
    ∧ (loadLine fracOps (exampleConst 4)
        (runLine fracOps (exampleConst 4) (initState 4) (travelMotor0 { num := 3, den := 1 })
          noError { num := 1, den := 65536 })
        (travelMotor0 { num := 3, den := 1 }) noError { num := 1, den := 32768 }).st_run.mot 0
      = { substep_increment := 300000, substep_accumulator := 0 } := by
  obtain ⟨i1, i2, i3, i4, i5⟩ := afterInit_forward_done
  obtain ⟨e1, e2, e3, e4, e5, -⟩ := line_eval fracOps (exampleConst 4)
    (runLine fracOps (exampleConst 4) (initState 4) (travelMotor0 { num := 3, den := 1 })
      noError { num := 1, den := 65536 })
    (travelMotor0 { num := 3, den := 1 }) noError { num := 1, den := 32768 } 0 0 _ _
    i1 i2 (by decide) i3 i4 i5 (by decide) (by decide) (by decide)
  refine ⟨e1, ?_, ?_, ?_, ?_, ?_⟩
  · rw [e2]; decide
  · rw [e3]; decide
  · rw [e4]; decide
  · rw [e4]; decide
  · rw [e5]; rfl

/-- C18, witness, in two runs whose values are all representable in `float`. From the state
after `stepper_init` (which ends with `stepper_reset`): 3 steps over `2^-16` minute (183
ticks) and 3 steps over `2^-15` minute (366 ticks) emit 6 pulses; the accumulator is 0 at both
loads. After a segment of half a step over `2^-16` minute has left the accumulator at
`-9150000`: the same two segments emit 6 pulses, and the second load applies the correction
`time2 / time1 = 2` and leaves the accumulator at `-18300000`, half-way down the new range
`36600000`. -/
theorem C18_two_segments_keep_phase_witness :
    stepsRaised 0 (runLine fracOps (exampleConst 4)
        (runLine fracOps (exampleConst 4) (initState 4) (travelMotor0 { num := 3, den := 1 })
          noError { num := 1, den := 65536 })
        (travelMotor0 { num := 3, den := 1 }) noError { num := 1, den := 32768 }).trace
      = stepsRaised 0 (initState 4).trace + 2 * 3
    ∧ stepsRaised 0 (runLine fracOps (exampleConst 4)
        (runLine fracOps (exampleConst 4) halfStepDone (travelMotor0 { num := 3, den := 1 })
          noError { num := 1, den := 65536 })
        (travelMotor0 { num := 3, den := 1 }) noError { num := 1, den := 32768 }).trace
      = stepsRaised 0 halfStepDone.trace + 2 * 3
    ∧ ((loadLine fracOps (exampleConst 4)
        (runLine fracOps (exampleConst 4) halfStepDone (travelMotor0 { num := 3, den := 1 })
          noError { num := 1, den := 65536 })
        (travelMotor0 { num := 3, den := 1 }) noError
        { num := 1, den := 32768 }).st_run.mot 0).substep_accumulator = -18300000 :=
  ⟨(C18_two_segments_keep_phase fracOps (exampleConst 4) (initState 4)
      (travelMotor0 { num := 3, den := 1 }) noError (travelMotor0 { num := 3, den := 1 }) noError
      { num := 1, den := 65536 } { num := 1, den := 32768 } 0 3 100000 183 366
      (by decide) (by decide) initState_slots.2.1 (by decide) (by decide) (by decide)
      (by decide) (by decide)
      afterInit_forward.1 afterInit_forward.2.1 afterInit_forward.2.2.1
      afterInit_forward.2.2.2.1
      ⟨by rw [afterInit_forward.2.2.2.2.2.1]; decide,
        le_of_eq (by rw [afterInit_forward.2.2.2.2.2.1])⟩
      afterInit_forward_second.1 afterInit_forward_second.2.1 afterInit_forward_second.2.2.1
      afterInit_forward_second.2.2.2.1
      ⟨by rw [afterInit_forward_second.2.2.2.2.2]; decide,
        le_of_eq (by rw [afterInit_forward_second.2.2.2.2.2])⟩).2.1,
   (C18_two_segments_keep_phase fracOps (exampleConst 4) halfStepDone
      (travelMotor0 { num := 3, den := 1 }) noError (travelMotor0 { num := 3, den := 1 }) noError
      { num := 1, den := 65536 } { num := 1, den := 32768 } 0 3 100000 183 366
      (by decide) (by decide) halfStepDone_slots.2.1 (by decide) (by decide) (by decide)
      (by decide) (by decide)
      afterHalfStep_first.1 afterHalfStep_first.2.1 afterHalfStep_first.2.2.1
      afterHalfStep_first.2.2.2.1
      (by rw [afterHalfStep_first.2.2.2.2.1]; decide)
      afterHalfStep_second.1 afterHalfStep_second.2.1 afterHalfStep_second.2.2.1
      afterHalfStep_second.2.2.2.1
      (by rw [afterHalfStep_second.2.2.2.2.2]; decide)).2.1,
   by rw [afterHalfStep_second.2.2.2.2.2]⟩

end TinyG2
